import Mathlib

/-!
# HDF5 file-container core (`H5F.c`): a shallow embedding

The development embeds the positioned block I/O layer, the boot-block codec,
the open engine and the flush/close engine of `src/src/H5F.c` as executable
Lean functions over an explicit host-file model, and proves properties of them.

Conventions.
* C integers are `Nat`; where the C code stores into a narrower type the
  truncation is written out with `%`.
* Stateful code passes the state explicitly.  A function that can fail returns
  its error next to the state it leaves behind, because the C code keeps the
  side effects it made before the failure.
* `f->shared` is a pointer; the low-level functions take the struct it points
  to as a separate argument `sh`, the `World`-level functions dereference and
  store back through the heap.
-/

namespace H5F

/-! ## Error stack entries -/

/-- The `(major, minor)` pairs pushed by `HRETURN_ERROR` / `HGOTO_ERROR` in `H5F.c`
and `H5Snone.c`. -/
inductive H5E where
  | ARGS_BADVALUE
  | ARGS_BADRANGE
  | ARGS_BADTYPE
  | ATOM_BADATOM
  | ATOM_CANTREGISTER
  | FILE_BADFILE
  | FILE_FILEEXISTS
  | FILE_FILEOPEN
  | FILE_CANTCREATE
  | FILE_CANTOPENFILE
  | FILE_CANTINIT
  | FILE_NOTHDF5
  | FILE_BADVALUE
  | FILE_READERROR
  | FILE_WRITEERROR
  | IO_SEEKERROR
  | IO_READERROR
  | IO_WRITEERROR
  | CACHE_CANTFLUSH
  | SYM_CANTFLUSH
  | DATASPACE_CANTDELETE
  deriving DecidableEq, Repr

deriving instance DecidableEq for Except

/-- The value of `SUCCEED`. -/
def SUCCEED : Int := 0

/-- The value of `FAIL`. -/
def FAIL : Int := -1

/-! ## Host file system

The macros `H5F_OPEN`, `H5F_CREATE`, `H5F_CLOSE`, `H5F_SEEK`, `H5F_SEEKEND`,
`H5F_TELL`, `H5F_READ`, `H5F_WRITE` and the libc calls `stat` and `access` are
not part of the source shown; they are modelled as the usual POSIX primitives
of section 6 of the specification. -/

/-- A host file (an i-node): its length, its bytes and its access permissions.
Bytes at and beyond `len` are not part of the file. -/
structure HostFile where
  len : Nat
  data : Nat → Nat
  r_ok : Bool
  w_ok : Bool

/-- An entry of the descriptor table. -/
structure HostFd where
  ino : Nat × Nat
  pos : Nat
  writable : Bool
  is_open : Bool
  deriving DecidableEq, Repr

/-- The host: directory, i-nodes keyed by `(st_dev, st_ino)`, descriptor table. -/
structure Host where
  paths : String → Option (Nat × Nat)
  inodes : Nat × Nat → HostFile
  fds : Nat → Option HostFd
  nfds : Nat
  next_ino : Nat

/-- The open descriptor `fd`, if `fd` names one. -/
def Host.openFd (h : Host) (fd : Nat) : Option HostFd :=
  match h.fds fd with
  | some d => if d.is_open then some d else none
  | none => none

/-- Replace the table entry of descriptor `fd`. -/
def Host.setFd (h : Host) (fd : Nat) (d : HostFd) : Host :=
  { h with fds := fun k => if k = fd then some d else h.fds k }

/-- Replace an i-node. -/
def Host.setInode (h : Host) (key : Nat × Nat) (file : HostFile) : Host :=
  { h with inodes := fun k => if k = key then file else h.inodes k }

/-- The `n` bytes of a host file starting at offset `off`. -/
def HostFile.bytes (file : HostFile) (off n : Nat) : List Nat :=
  (List.range n).map (fun k => file.data (off + k))

/-- Modelled from the spec: `stat(name, &sb) >= 0` with the `(st_dev, st_ino)` pair of `sb`. -/
def stat (h : Host) (name : String) : Option (Nat × Nat) :=
  h.paths name

/-- Modelled from the spec: `access(name, R_OK) >= 0`. -/
def access_R_OK (h : Host) (name : String) : Bool :=
  match h.paths name with
  | some key => (h.inodes key).r_ok
  | none => false

/-- Modelled from the spec: `access(name, W_OK) >= 0`. -/
def access_W_OK (h : Host) (name : String) : Bool :=
  match h.paths name with
  | some key => (h.inodes key).w_ok
  | none => false

/-- Modelled from the spec: the host seek `H5F_SEEK(fd, off)`; `none` is `FAIL`. -/
def H5F_SEEK (h : Host) (fd off : Nat) : Option Host :=
  match h.openFd fd with
  | some d => some (h.setFd fd { d with pos := off })
  | none => none

/-- Modelled from the spec: the host seek-to-end `H5F_SEEKEND(fd)`; `none` is `FAIL`. -/
def H5F_SEEKEND (h : Host) (fd : Nat) : Option Host :=
  match h.openFd fd with
  | some d => some (h.setFd fd { d with pos := (h.inodes d.ino).len })
  | none => none

/-- Modelled from the spec: the host cursor `H5F_TELL(fd)`. -/
def H5F_TELL (h : Host) (fd : Nat) : Nat :=
  match h.openFd fd with
  | some d => d.pos
  | none => 0

/-- Modelled from the spec: the host read `H5F_READ(fd, buf, n)`.  It succeeds
when all `n` bytes lie inside the file (a read past the end fails); the cursor
advances by the number of bytes the host delivered in either case. -/
def H5F_READ (h : Host) (fd n : Nat) : Option (List Nat) × Host :=
  match h.openFd fd with
  | some d =>
    let file := h.inodes d.ino
    let got := min n (file.len - d.pos)
    let h1 := h.setFd fd { d with pos := d.pos + got }
    if got = n then (some (file.bytes d.pos n), h1) else (none, h1)
  | none => (none, h)

/-- The file after `n` bytes of `buf` were stored at offset `pos`; a gap between
the old end of the file and `pos` reads as zeros. -/
def HostFile.store (file : HostFile) (pos n : Nat) (buf : List Nat) : HostFile :=
  { file with
    len := max file.len (pos + n)
    data := fun j =>
      if pos ≤ j ∧ j < pos + n then buf.getD (j - pos) 0
      else if file.len ≤ j then 0
      else file.data j }

/-- Modelled from the spec: the host write `H5F_WRITE(fd, buf, n)`; `false` is `FAIL`. -/
def H5F_WRITE (h : Host) (fd : Nat) (buf : List Nat) (n : Nat) : Bool × Host :=
  match h.openFd fd with
  | some d =>
    if d.writable then
      let h1 := h.setInode d.ino ((h.inodes d.ino).store d.pos n buf)
      (true, h1.setFd fd { d with pos := d.pos + n })
    else (false, h)
  | none => (false, h)

/-- Modelled from the spec: the host close `H5F_CLOSE(fd)`. -/
def H5F_CLOSE (h : Host) (fd : Nat) : Host :=
  match h.openFd fd with
  | some d => h.setFd fd { d with is_open := false }
  | none => h

/-! ## Access flags -/

/-- Modelled from the spec: `H5F_ACC_WRITE`, one of four independent bits. -/
def H5F_ACC_WRITE : Nat := 1

/-- Modelled from the spec: `H5F_ACC_CREAT`, one of four independent bits. -/
def H5F_ACC_CREAT : Nat := 2

/-- Modelled from the spec: `H5F_ACC_EXCL`, one of four independent bits. -/
def H5F_ACC_EXCL : Nat := 4

/-- Modelled from the spec: `H5F_ACC_TRUNC`, one of four independent bits. -/
def H5F_ACC_TRUNC : Nat := 8

/-! ## File structures -/

/-- The seek-elision tag `H5F_fileop_t`; a `calloc`ed shared struct holds `OP_UNKNOWN`. -/
inductive H5F_fileop_t where
  | OP_UNKNOWN
  | OP_READ
  | OP_WRITE
  deriving DecidableEq, Repr

open H5F_fileop_t

/-- The file-creation parameters `file_create_temp_t` (the fields `H5F.c` uses;
`btree_k` is the `H5B_SNODE_ID` slot of the array). -/
structure file_create_temp_t where
  userblock_size : Nat
  sym_leaf_k : Nat
  btree_k : Nat
  offset_size : Nat
  length_size : Nat
  bootblock_ver : Nat
  smallobject_ver : Nat
  freespace_ver : Nat
  objectdir_ver : Nat
  sharedheader_ver : Nat
  deriving DecidableEq, Repr

/-- The shared, reference-counted part of an open file, `H5F_file_t`. -/
structure H5F_file_t where
  key : Nat × Nat
  flags : Nat
  file_handle : Nat
  nrefs : Nat
  file_create_parms : file_create_temp_t
  consist_flags : Nat
  smallobj_off : Nat
  freespace_off : Nat
  logical_len : Nat
  root_sym : List Nat
  last_op : H5F_fileop_t
  f_cur_off : Nat
  deriving DecidableEq, Repr

/-- The per-open handle `H5F_t`; `shared` is the address of its `H5F_file_t`. -/
structure H5F_t where
  name : String
  intent : Nat
  shared : Nat
  deriving DecidableEq, Repr

/-! ## Positioned block I/O (`H5F_block_read`, `H5F_block_write`) -/

/-- `H5F_block_read (f, addr, size, buf)` of `H5F.c`.  `opt_seek` says whether
`H5F_OPT_SEEK` is defined (it is in the source).  The result carries the bytes
placed in `buf`; `sh` is `*f->shared`.  `addr` and `f_cur_off` are `haddr_t`
in the source; the sums `addr + userblock_size` (line 1315) and `addr + size`
(line 1334) are taken in the natural numbers, which are the values of the
source for every call with
`addr + userblock_size + size < 2 ^ (8 * sizeof(haddr_t))` (see `IOCall.fits`). -/
def H5F_block_read (opt_seek : Bool) (sh : H5F_file_t) (h : Host) (addr size : Nat) :
    Except H5E (List Nat) × H5F_file_t × Host :=
  if size = 0 then (.ok [], sh, h)
  else
    let addr := addr + sh.file_create_parms.userblock_size
    if !opt_seek || sh.last_op != OP_READ || sh.f_cur_off != addr then
      let sh1 := { sh with last_op := OP_READ }
      match H5F_SEEK h sh1.file_handle addr with
      | none => (.error .IO_SEEKERROR, sh1, h)
      | some h1 =>
        match H5F_READ h1 sh1.file_handle size with
        | (none, h2) => (.error .IO_READERROR, sh1, h2)
        | (some bytes, h2) => (.ok bytes, { sh1 with f_cur_off := addr + size }, h2)
    else
      match H5F_READ h sh.file_handle size with
      | (none, h2) => (.error .IO_READERROR, sh, h2)
      | (some bytes, h2) => (.ok bytes, { sh with f_cur_off := addr + size }, h2)

/-- `H5F_block_write (f, addr, size, buf)` of `H5F.c`; `intent` is `f->intent`
and `sh` is `*f->shared`.  As in `H5F_block_read`, the sums
`addr + userblock_size` (line 1369) and `addr + size` (line 1394) are taken in
the natural numbers, which are the values of the source for every call with
`addr + userblock_size + size < 2 ^ (8 * sizeof(haddr_t))`. -/
def H5F_block_write (opt_seek : Bool) (intent : Nat) (sh : H5F_file_t) (h : Host)
    (addr size : Nat) (buf : List Nat) : Except H5E Unit × H5F_file_t × Host :=
  if size = 0 then (.ok (), sh, h)
  else
    let addr := addr + sh.file_create_parms.userblock_size
    if intent &&& H5F_ACC_WRITE = 0 then (.error .IO_WRITEERROR, sh, h)
    else if !opt_seek || sh.last_op != OP_WRITE || sh.f_cur_off != addr then
      let sh1 := { sh with last_op := OP_WRITE }
      match H5F_SEEK h sh1.file_handle addr with
      | none => (.error .IO_SEEKERROR, sh1, h)
      | some h1 =>
        match H5F_WRITE h1 sh1.file_handle buf size with
        | (false, h2) => (.error .IO_WRITEERROR, sh1, h2)
        | (true, h2) => (.ok (), { sh1 with f_cur_off := addr + size }, h2)
    else
      match H5F_WRITE h sh.file_handle buf size with
      | (false, h2) => (.error .IO_WRITEERROR, sh, h2)
      | (true, h2) => (.ok (), { sh with f_cur_off := addr + size }, h2)

/-! ## Build configuration and collaborators -/

/-- What the headers that are not part of the source fix at compile time:
whether `H5F_OPT_SEEK` is defined, `sizeof(haddr_t)`, the width of `uintn`,
the public flags `H5ACC_WRITE` and `H5ACC_OVERWRITE`, the default creation
template, and the symbol-table entry codec `H5G_SIZEOF_ENTRY`,
`H5G_ent_encode`, `H5G_ent_decode`, `H5G_ent_calloc` (the entry is an opaque
list of bytes). -/
structure Build where
  H5F_OPT_SEEK : Bool
  sizeof_haddr_t : Nat
  uintn_bits : Nat
  H5ACC_WRITE : Nat
  H5ACC_OVERWRITE : Nat
  default_parms : file_create_temp_t
  H5G_SIZEOF_ENTRY : file_create_temp_t → Nat
  H5G_ent_encode : file_create_temp_t → List Nat → List Nat
  H5G_ent_decode : file_create_temp_t → List Nat → Option (List Nat)
  H5G_ent_calloc : List Nat

/-- Outcomes of one call that the model does not compute: host calls that may
fail for reasons outside the model, and the shadow, cache and atom
collaborators. -/
structure Env where
  open_fails : Bool
  create_fails : Bool
  stat_fails : Bool
  shadow_flush_fails : Bool
  cache_flush_fails : Bool
  register_fails : Bool
  deriving DecidableEq, Repr

/-- The environment in which no collaborator fails. -/
def Env.ok : Env :=
  { open_fails := false, create_fails := false, stat_fails := false,
    shadow_flush_fails := false, cache_flush_fails := false, register_fails := false }

/-- Modelled from the spec: `H5F_OPEN(name, mode)`, the host open of an existing
file for reading (and writing when `write`); `none` is `H5F_INVALID_FILE`. -/
def H5F_OPEN (env : Env) (h : Host) (name : String) (write : Bool) : Option (Nat × Host) :=
  if env.open_fails then none
  else
    match h.paths name with
    | none => none
    | some key =>
      if (h.inodes key).r_ok && (!write || (h.inodes key).w_ok) then
        some (h.nfds,
          { (h.setFd h.nfds { ino := key, pos := 0, writable := write, is_open := true }) with
            nfds := h.nfds + 1 })
      else none

/-- Modelled from the spec: `H5F_CREATE(name)`, the host create-truncate
variant; the descriptor it returns is open for reading and writing. -/
def H5F_CREATE (env : Env) (h : Host) (name : String) : Option (Nat × Host) :=
  if env.create_fails then none
  else
    match h.paths name with
    | some key =>
      if (h.inodes key).w_ok then
        let h1 := h.setInode key { (h.inodes key) with len := 0, data := fun _ => 0 }
        some (h.nfds,
          { (h1.setFd h.nfds { ino := key, pos := 0, writable := true, is_open := true }) with
            nfds := h.nfds + 1 })
      else none
    | none =>
      let key := (0, h.next_ino)
      let h1 := h.setInode key { len := 0, data := fun _ => 0, r_ok := true, w_ok := true }
      let h2 := { h1 with
        paths := fun s => if s = name then some key else h.paths s
        next_ino := h.next_ino + 1 }
      some (h.nfds,
        { (h2.setFd h.nfds { ino := key, pos := 0, writable := true, is_open := true }) with
          nfds := h.nfds + 1 })

/-! ## Boot-block codec -/

/-- Modelled from the spec: the 8-byte magic `H5F_SIGNATURE`. -/
def H5F_SIGNATURE : List Nat := [137, 72, 68, 70, 13, 10, 26, 10]

/-- Modelled from the spec: the accepted `HDF5_BOOTBLOCK_VERSION`. -/
def HDF5_BOOTBLOCK_VERSION : Nat := 0

/-- Modelled from the spec: the accepted `HDF5_SMALLOBJECT_VERSION`. -/
def HDF5_SMALLOBJECT_VERSION : Nat := 0

/-- Modelled from the spec: the accepted `HDF5_FREESPACE_VERSION`. -/
def HDF5_FREESPACE_VERSION : Nat := 0

/-- Modelled from the spec: the accepted `HDF5_OBJECTDIR_VERSION`. -/
def HDF5_OBJECTDIR_VERSION : Nat := 0

/-- Modelled from the spec: the accepted `HDF5_SHAREDHEADER_VERSION`. -/
def HDF5_SHAREDHEADER_VERSION : Nat := 0

/-- Little-endian encoding of the low `n` bytes of `v`. -/
def leEncode : Nat → Nat → List Nat
  | 0, _ => []
  | n + 1, v => v % 256 :: leEncode n (v / 256)

/-- Little-endian decoding of a list of bytes. -/
def leDecode : List Nat → Nat
  | [] => 0
  | b :: bs => b + 256 * leDecode bs

/-- Modelled from the spec: `UINT16ENCODE`, two bytes little-endian. -/
def UINT16ENCODE (v : Nat) : List Nat := leEncode 2 v

/-- Modelled from the spec: `UINT32ENCODE`, four bytes little-endian. -/
def UINT32ENCODE (v : Nat) : List Nat := leEncode 4 v

/-- Modelled from the spec: `UINT16DECODE` at the front of `p`. -/
def UINT16DECODE (p : List Nat) : Nat := leDecode (p.take 2)

/-- Modelled from the spec: `UINT32DECODE` at the front of `p`. -/
def UINT32DECODE (p : List Nat) : Nat := leDecode (p.take 4)

/-- Modelled from the spec: `H5F_encode_offset`, `offset_size` bytes little-endian. -/
def H5F_encode_offset (cp : file_create_temp_t) (o : Nat) : List Nat :=
  leEncode cp.offset_size o

/-- Modelled from the spec: `H5F_encode_length`, `length_size` bytes little-endian. -/
def H5F_encode_length (cp : file_create_temp_t) (l : Nat) : List Nat :=
  leEncode cp.length_size l

/-- Modelled from the spec: `H5F_decode_offset` at the front of `p`. -/
def H5F_decode_offset (cp : file_create_temp_t) (p : List Nat) : Nat :=
  leDecode (p.take cp.offset_size)

/-- Modelled from the spec: `H5F_decode_length` at the front of `p`. -/
def H5F_decode_length (cp : file_create_temp_t) (p : List Nat) : Nat :=
  leDecode (p.take cp.length_size)

/-- The buffer `H5F_flush` builds (lines 1097-1115): `buf[0 .. p-buf)`.
`H5F_SIZEOF_OFFSET (f)` and `H5F_SIZEOF_SIZE (f)` are the `offset_size` and
`length_size` of the creation parameters; a store through `*p++` keeps the low
byte. -/
def H5F_flush_encode (B : Build) (sh : H5F_file_t) : List Nat :=
  let cp := sh.file_create_parms
  H5F_SIGNATURE ++
  [cp.bootblock_ver % 256, cp.smallobject_ver % 256, cp.freespace_ver % 256,
   cp.objectdir_ver % 256, cp.sharedheader_ver % 256,
   cp.offset_size % 256, cp.length_size % 256, 0] ++
  UINT16ENCODE cp.sym_leaf_k ++
  UINT16ENCODE cp.btree_k ++
  UINT32ENCODE sh.consist_flags ++
  H5F_encode_offset cp sh.smallobj_off ++
  H5F_encode_offset cp sh.freespace_off ++
  H5F_encode_length cp sh.logical_len ++
  B.H5G_ent_encode cp sh.root_sym

/-- The decoding of the fixed part in `H5F_open` (lines 725-791), entered once
the signature has matched; `buf` holds the 24 bytes read.  Each field is read
and then checked, in source order.  On an error the shared struct is about to
be destroyed, so the fields the source assigned before the error are dropped;
on success all of them are stored. -/
def H5F_open_decode_fixed (sh : H5F_file_t) (buf : List Nat) : Except H5E H5F_file_t :=
  let bootblock_ver := buf.getD 8 0
  if bootblock_ver ≠ HDF5_BOOTBLOCK_VERSION then .error .FILE_CANTOPENFILE else
  let smallobject_ver := buf.getD 9 0
  if smallobject_ver ≠ HDF5_SMALLOBJECT_VERSION then .error .FILE_CANTOPENFILE else
  let freespace_ver := buf.getD 10 0
  if freespace_ver ≠ HDF5_FREESPACE_VERSION then .error .FILE_CANTOPENFILE else
  let objectdir_ver := buf.getD 11 0
  if objectdir_ver ≠ HDF5_OBJECTDIR_VERSION then .error .FILE_CANTOPENFILE else
  let sharedheader_ver := buf.getD 12 0
  if sharedheader_ver ≠ HDF5_SHAREDHEADER_VERSION then .error .FILE_CANTOPENFILE else
  let offset_size := buf.getD 13 0
  if offset_size ≠ 2 ∧ offset_size ≠ 4 ∧ offset_size ≠ 8 then .error .FILE_CANTOPENFILE else
  let length_size := buf.getD 14 0
  if length_size ≠ 2 ∧ length_size ≠ 4 ∧ length_size ≠ 8 then .error .FILE_CANTOPENFILE else
  let sym_leaf_k := UINT16DECODE (buf.drop 16)
  if sym_leaf_k < 1 then .error .FILE_CANTOPENFILE else
  let btree_k := UINT16DECODE (buf.drop 18)
  if btree_k < 1 then .error .FILE_CANTOPENFILE else
  .ok { sh with
    file_create_parms :=
      { userblock_size := sh.file_create_parms.userblock_size
        sym_leaf_k := sym_leaf_k
        btree_k := btree_k
        offset_size := offset_size
        length_size := length_size
        bootblock_ver := bootblock_ver
        smallobject_ver := smallobject_ver
        freespace_ver := freespace_ver
        objectdir_ver := objectdir_ver
        sharedheader_ver := sharedheader_ver }
    consist_flags := UINT32DECODE (buf.drop 20) }

/-- The size of the variable part of the boot block (lines 794-797). -/
def H5F_open_variable_size (B : Build) (cp : file_create_temp_t) : Nat :=
  cp.offset_size + cp.offset_size + cp.length_size + B.H5G_SIZEOF_ENTRY cp

/-- The decoding of the variable part in `H5F_open` (lines 804-811). -/
def H5F_open_decode_variable (B : Build) (sh : H5F_file_t) (buf : List Nat) :
    Except H5E H5F_file_t :=
  let cp := sh.file_create_parms
  let sh1 := { sh with smallobj_off := H5F_decode_offset cp buf }
  let p := buf.drop cp.offset_size
  let sh2 := { sh1 with freespace_off := H5F_decode_offset cp p }
  let p := p.drop cp.offset_size
  let sh3 := { sh2 with logical_len := H5F_decode_length cp p }
  let p := p.drop cp.length_size
  match B.H5G_ent_decode cp p with
  | none => .error .FILE_CANTOPENFILE
  | some ent => .ok { sh3 with root_sym := ent }

/-- The user-block size tried in iteration `i` of the scan (line 710),
`(8==i ? 0 : 1<<i)`: `1<<i` stored into the `uintn` field is `2 ^ i` truncated
to the width of `uintn`.  (For `i` at or beyond the width of `int` the C shift
is undefined; the truncation is one possible outcome, and every outcome is
below `2 ^ uintn_bits`.) -/
def H5F_open_candidate (B : Build) (i : Nat) : Nat :=
  if i = 8 then 0 else 2 ^ i % 2 ^ B.uintn_bits

/-- The boot-block scan of `H5F_open` (lines 709-813): `n` iterations are left
and the loop variable is `i`.  Falling out of the loop is not an error in the
source. -/
def H5F_open_scan (B : Build) : Nat → Nat → H5F_file_t → Host →
    Except H5E Unit × H5F_file_t × Host
  | 0, _, sh, h => (.ok (), sh, h)
  | n + 1, i, sh, h =>
    let sh0 := { sh with file_create_parms :=
      { sh.file_create_parms with userblock_size := H5F_open_candidate B i } }
    match H5F_block_read B.H5F_OPT_SEEK sh0 h 0 24 with
    | (.error _, sh1, h1) => (.error .FILE_NOTHDF5, sh1, h1)
    | (.ok buf, sh1, h1) =>
      if buf.take 8 ≠ H5F_SIGNATURE then H5F_open_scan B n (i + 1) sh1 h1
      else
        match H5F_open_decode_fixed sh1 buf with
        | .error e => (.error e, sh1, h1)
        | .ok sh2 =>
          match H5F_block_read B.H5F_OPT_SEEK sh2 h1 24
              (H5F_open_variable_size B sh2.file_create_parms) with
          | (.error _, sh3, h2) => (.error .FILE_NOTHDF5, sh3, h2)
          | (.ok buf2, sh3, h2) =>
            match H5F_open_decode_variable B sh3 buf2 with
            | .error e => (.error e, sh3, h2)
            | .ok sh4 => (.ok (), sh4, h2)

/-! ## Flush -/

/-- `H5F_flush (f, invalidate)` of `H5F.c`; `intent` is `f->intent`, `sh` is
`*f->shared`.  The result is the returned `herr_t` with the error pushed, if
any.  The shadow and cache flushes are collaborators whose outcome comes from
`env`. -/
def H5F_flush (B : Build) (env : Env) (intent : Nat) (sh : H5F_file_t) (h : Host)
    (_invalidate : Bool) : (Int × Option H5E) × H5F_file_t × Host :=
  if H5F_ACC_WRITE &&& sh.flags = 0 then ((SUCCEED, none), sh, h)
  else
    let shadow_flush : Int := if env.shadow_flush_fails then FAIL else SUCCEED
    if env.cache_flush_fails then ((FAIL, some .CACHE_CANTFLUSH), sh, h)
    else
      let buf := H5F_flush_encode B sh
      match H5F_block_write B.H5F_OPT_SEEK intent sh h 0 buf.length buf with
      | (.error _, sh1, h1) => ((FAIL, some .IO_WRITEERROR), sh1, h1)
      | (.ok _, sh1, h1) =>
        let sh2 := if sh1.logical_len ≤ 0 then { sh1 with logical_len := buf.length } else sh1
        if shadow_flush < 0 then ((-2, some .CACHE_CANTFLUSH), sh2, h1)
        else ((SUCCEED, none), sh2, h1)

/-! ## The process state: host, heap of shared structs, file atoms -/

/-- The state of the process: the host, the heap of `H5F_file_t` structs and
the `H5_FILE` atom group that maps file ids to `H5F_t` handles. -/
structure World where
  host : Host
  heap : Nat → Option H5F_file_t
  next_ptr : Nat
  atoms : List (Nat × H5F_t)
  next_atom : Nat

/-- A `calloc`ed `H5F_file_t`. -/
def H5F_file_t.calloc : H5F_file_t :=
  { key := (0, 0), flags := 0, file_handle := 0, nrefs := 0,
    file_create_parms :=
      { userblock_size := 0, sym_leaf_k := 0, btree_k := 0, offset_size := 0,
        length_size := 0, bootblock_ver := 0, smallobject_ver := 0, freespace_ver := 0,
        objectdir_ver := 0, sharedheader_ver := 0 },
    consist_flags := 0, smallobj_off := 0, freespace_off := 0, logical_len := 0,
    root_sym := [], last_op := OP_UNKNOWN, f_cur_off := 0 }

/-- The struct at address `p` (`*p`); reading freed memory is outside the C
semantics and yields the zeroed struct here. -/
def World.deref (w : World) (p : Nat) : H5F_file_t :=
  (w.heap p).getD H5F_file_t.calloc

/-- Store a struct at address `p`. -/
def World.store (w : World) (p : Nat) (sh : H5F_file_t) : World :=
  { w with heap := fun k => if k = p then some sh else w.heap k }

/-- `H5F_compare_files (obj, key)` of `H5F.c`. -/
def H5F_compare_files (w : World) (obj : H5F_t) (key : Nat × Nat) : Bool :=
  match w.heap obj.shared with
  | some sh => sh.key.1 == key.1 && sh.key.2 == key.2
  | none => false

/-- Modelled from the spec: `H5Asearch_atom (H5_FILE, H5F_compare_files, &key)`,
the first registered file for which the predicate holds. -/
def H5Asearch_atom (w : World) (key : Nat × Nat) : Option H5F_t :=
  (w.atoms.find? (fun a => H5F_compare_files w a.2 key)).map (fun a => a.2)

/-- Modelled from the spec: `H5Aregister_atom (H5_FILE, f)`; `none` is failure. -/
def H5Aregister_atom (env : Env) (w : World) (f : H5F_t) : Option (Nat × World) :=
  if env.register_fails then none
  else some (w.next_atom,
    { w with atoms := w.atoms ++ [(w.next_atom, f)], next_atom := w.next_atom + 1 })

/-- Modelled from the spec: `H5Aatom_object (fid)` for an id of group `H5_FILE`. -/
def H5Aatom_object (w : World) (fid : Nat) : Option H5F_t :=
  (w.atoms.find? (fun a => a.1 == fid)).map (fun a => a.2)

/-- Modelled from the spec: `H5Aremove_atom (fid)`. -/
def H5Aremove_atom (w : World) (fid : Nat) : World :=
  { w with atoms := w.atoms.filter (fun a => a.1 != fid) }

/-- `H5F_new (shared)` of `H5F.c`: the address of the shared struct of the new
handle.  With `none` (a null pointer) a zeroed struct is allocated, given a
root symbol slot and one reference; otherwise the reference count of the
struct at the given address is incremented.  The cache and the shadow table
are collaborators and carry no state here. -/
def H5F_new (B : Build) (w : World) (shared : Option Nat) : Nat × World :=
  match shared with
  | some p =>
    let sh := w.deref p
    (p, w.store p { sh with nrefs := sh.nrefs + 1 })
  | none =>
    let sh := { H5F_file_t.calloc with root_sym := B.H5G_ent_calloc }
    (w.next_ptr,
      { (w.store w.next_ptr { sh with nrefs := sh.nrefs + 1 }) with
        next_ptr := w.next_ptr + 1 })

/-- `H5F_dest (f)` of `H5F.c`: drop one reference and free the shared struct
when none is left. -/
def H5F_dest (w : World) (f : H5F_t) : World :=
  let sh := w.deref f.shared
  if sh.nrefs - 1 = 0 then
    { w with heap := fun k => if k = f.shared then none else w.heap k }
  else w.store f.shared { sh with nrefs := sh.nrefs - 1 }

/-- The `done:` block of `H5F_open` on failure (lines 840-846): the handle is
destroyed and the descriptor this call still owns is closed. -/
def H5F_open_fail (w : World) (f : H5F_t) (fd : Option Nat) (e : H5E) :
    Except H5E H5F_t × World :=
  let w1 := H5F_dest w f
  match fd with
  | some d => (.error e, { w1 with host := H5F_CLOSE w1.host d })
  | none => (.error e, w1)

/-- The second half of `H5F_open` (lines 674-846), entered with the handle `f`
allocated on the shared struct at `p`; `fd` is the local descriptor variable
and `empty_file` the local flag. -/
def H5F_open_tail (B : Build) (env : Env) (name : String) (flags : Nat)
    (create_parms : file_create_temp_t) (w : World) (p : Nat) (fd : Option Nat)
    (empty_file : Bool) : Except H5E H5F_t × World :=
  let f : H5F_t := { name := name, intent := flags, shared := p }
  let sh := w.deref p
  let sh := if 1 = sh.nrefs then { sh with file_create_parms := create_parms } else sh
  let r : Except H5E Unit × H5F_file_t × Host :=
    if empty_file then
      match H5F_flush B env f.intent { sh with consist_flags := 3 } w.host false with
      | ((rv, _), sh1, h1) =>
        if rv < 0 then (.error .FILE_CANTINIT, sh1, h1) else (.ok (), sh1, h1)
    else if 1 = sh.nrefs then
      H5F_open_scan B (32 * B.sizeof_haddr_t - 8) 8 sh w.host
    else (.ok (), sh, w.host)
  match r with
  | (.error e, sh1, h1) => H5F_open_fail ({ w with host := h1 }.store p sh1) f fd e
  | (.ok _, sh1, h1) =>
    let curpos := H5F_TELL h1 sh1.file_handle
    match H5F_SEEKEND h1 sh1.file_handle with
    | none => H5F_open_fail ({ w with host := h1 }.store p sh1) f fd .FILE_CANTINIT
    | some h2 =>
      let sh2 := { sh1 with logical_len := H5F_TELL h2 sh1.file_handle }
      let h3 := (H5F_SEEK h2 sh1.file_handle curpos).getD h2
      (.ok f, { w with host := h3 }.store p sh2)

/-- `H5F_open (name, flags, create_parms)` of `H5F.c`.  A failure through
`HRETURN_ERROR` returns at once; a failure through `HGOTO_ERROR` runs the
`done:` block. -/
def H5F_open (B : Build) (env : Env) (name : String) (flags : Nat)
    (create_parms : file_create_temp_t) (w : World) : Except H5E H5F_t × World :=
  match stat w.host name with
  | some sb =>
    if flags &&& H5F_ACC_EXCL ≠ 0 then (.error .FILE_FILEEXISTS, w)
    else if !access_R_OK w.host name then (.error .FILE_READERROR, w)
    else if flags &&& H5F_ACC_WRITE ≠ 0 ∧ !access_W_OK w.host name then
      (.error .FILE_WRITEERROR, w)
    else
      match H5Asearch_atom w sb with
      | some old =>
        if flags &&& H5F_ACC_TRUNC ≠ 0 then (.error .FILE_FILEOPEN, w)
        else if flags &&& H5F_ACC_WRITE ≠ 0 ∧ (w.deref old.shared).flags &&& H5F_ACC_WRITE = 0 then
          match H5F_OPEN env w.host name true with
          | none => (.error .FILE_CANTOPENFILE, w)
          | some (fd, h1) =>
            let osh := w.deref old.shared
            let h2 := H5F_CLOSE h1 osh.file_handle
            let w1 := { w with host := h2 }.store old.shared
              { osh with file_handle := fd, flags := osh.flags ||| H5F_ACC_WRITE }
            let (p, w2) := H5F_new B w1 (some old.shared)
            H5F_open_tail B env name flags create_parms w2 p none false
        else
          let (p, w2) := H5F_new B w (some old.shared)
          H5F_open_tail B env name flags create_parms w2 p none false
      | none =>
        if flags &&& H5F_ACC_TRUNC ≠ 0 then
          if flags &&& H5F_ACC_WRITE = 0 then (.error .FILE_BADVALUE, w)
          else
            match H5F_CREATE env w.host name with
            | none => (.error .FILE_CANTCREATE, w)
            | some (fd, h1) =>
              let (p, w1) := H5F_new B { w with host := h1 } none
              let w2 := w1.store p
                { (w1.deref p) with key := sb, flags := flags, file_handle := fd }
              H5F_open_tail B env name flags create_parms w2 p (some fd) true
        else
          match H5F_OPEN env w.host name (flags &&& H5F_ACC_WRITE != 0) with
          | none => (.error .FILE_CANTOPENFILE, w)
          | some (fd, h1) =>
            let (p, w1) := H5F_new B { w with host := h1 } none
            let w2 := w1.store p
              { (w1.deref p) with key := sb, flags := flags, file_handle := fd }
            H5F_open_tail B env name flags create_parms w2 p (some fd) false
  | none =>
    if flags &&& H5F_ACC_CREAT ≠ 0 then
      if flags &&& H5F_ACC_WRITE = 0 then (.error .FILE_BADVALUE, w)
      else
        match H5F_CREATE env w.host name with
        | none => (.error .FILE_CANTCREATE, w)
        | some (fd, h1) =>
          match (if env.stat_fails then none else stat h1 name) with
          | none => (.error .FILE_CANTCREATE, { w with host := h1 })
          | some sb =>
            let (p, w1) := H5F_new B { w with host := h1 } none
            let w2 := w1.store p
              { (w1.deref p) with key := sb, flags := flags, file_handle := fd }
            H5F_open_tail B env name flags create_parms w2 p (some fd) true
    else (.error .FILE_CANTOPENFILE, w)

/-- `H5F_close (f)` of `H5F.c`: the returned `herr_t` with the error pushed, if any. -/
def H5F_close (B : Build) (env : Env) (w : World) (f : H5F_t) : (Int × Option H5E) × World :=
  match H5F_flush B env f.intent (w.deref f.shared) w.host true with
  | ((ret_value, _), sh1, h1) =>
    let w1 := { w with host := h1 }.store f.shared sh1
    if ret_value ≠ -2 ∧ ret_value < 0 then ((FAIL, some .CACHE_CANTFLUSH), w1)
    else
      let w2 := { w1 with host := H5F_CLOSE w1.host (w1.deref f.shared).file_handle }
      let w3 := H5F_dest w2 f
      if ret_value < 0 then ((ret_value, some .SYM_CANTFLUSH), w3)
      else ((ret_value, none), w3)

/-- `H5Fopen (filename, flags, access_temp)` of `H5F.c`: the file id.  The
default creation template is `B.default_parms`; looking it up does not fail. -/
def H5Fopen (B : Build) (env : Env) (filename : String) (flags : Nat) (w : World) :
    Except H5E Nat × World :=
  if filename = "" then (.error .ARGS_BADRANGE, w)
  else
    let flags := if flags &&& B.H5ACC_WRITE ≠ 0 then H5F_ACC_WRITE else 0
    match H5F_open B env filename flags B.default_parms w with
    | (.error _, w1) => (.error .FILE_CANTOPENFILE, w1)
    | (.ok new_file, w1) =>
      match H5Aregister_atom env w1 new_file with
      | some (id, w2) => (.ok id, w2)
      | none => (.error .ATOM_CANTREGISTER, (H5F_close B env w1 new_file).2)

/-- `H5Fclose (fid)` of `H5F.c`: the returned `herr_t` with the error pushed, if any. -/
def H5Fclose (B : Build) (env : Env) (fid : Nat) (w : World) : (Int × Option H5E) × World :=
  match H5Aatom_object w fid with
  | none => ((FAIL, some .ARGS_BADTYPE), w)
  | some file =>
    match H5F_close B env w file with
    | ((ret_value, e), w1) =>
      ((if ret_value < 0 then FAIL else SUCCEED, e), H5Aremove_atom w1 fid)

/-- `H5F_block_read` on a handle of the process state. -/
def World.block_read (B : Build) (w : World) (f : H5F_t) (addr size : Nat) :
    Except H5E (List Nat) × World :=
  match H5F_block_read B.H5F_OPT_SEEK (w.deref f.shared) w.host addr size with
  | (r, sh1, h1) => (r, { w with host := h1 }.store f.shared sh1)

/-- `H5F_block_write` on a handle of the process state. -/
def World.block_write (B : Build) (w : World) (f : H5F_t) (addr size : Nat) (buf : List Nat) :
    Except H5E Unit × World :=
  match H5F_block_write B.H5F_OPT_SEEK f.intent (w.deref f.shared) w.host addr size buf with
  | (r, sh1, h1) => (r, { w with host := h1 }.store f.shared sh1)

/-! ## Specification-side definitions and sample inputs -/

/-- The seek-elision state describes the host cursor: the descriptor of the
shared struct is open and, unless no operation was recorded yet, `f_cur_off`
is the position of the host cursor. -/
def coherent (sh : H5F_file_t) (h : Host) : Bool :=
  match h.openFd sh.file_handle with
  | some d => sh.last_op == OP_UNKNOWN || sh.f_cur_off == d.pos
  | none => false

/-- The host file behind the descriptor of a shared struct. -/
def sharedFile (sh : H5F_file_t) (h : Host) : HostFile :=
  match h.fds sh.file_handle with
  | some d => h.inodes d.ino
  | none => { len := 0, data := fun _ => 0, r_ok := false, w_ok := false }

/-- A host with no files and no descriptors besides the three standard ones. -/
def Host.empty : Host :=
  { paths := fun _ => none
    inodes := fun _ => { len := 0, data := fun _ => 0, r_ok := false, w_ok := false }
    fds := fun _ => none
    nfds := 3
    next_ino := 1 }

/-- A sample build: seek elision on, 8-byte addresses, 32-bit `uintn`, and a
symbol-table entry of `2 * offset_size + 8` bytes stored verbatim. -/
def sampleBuild : Build where
  H5F_OPT_SEEK := true
  sizeof_haddr_t := 8
  uintn_bits := 32
  H5ACC_WRITE := 1
  H5ACC_OVERWRITE := 2
  default_parms :=
    { userblock_size := 0
      sym_leaf_k := 4
      btree_k := 16
      offset_size := 4
      length_size := 4
      bootblock_ver := 0
      smallobject_ver := 0
      freespace_ver := 0
      objectdir_ver := 0
      sharedheader_ver := 0 }
  H5G_SIZEOF_ENTRY := fun cp => 2 * cp.offset_size + 8
  H5G_ent_encode := fun cp e =>
    (e ++ List.replicate (2 * cp.offset_size + 8) 0).take (2 * cp.offset_size + 8)
  H5G_ent_decode := fun cp p =>
    if 2 * cp.offset_size + 8 ≤ p.length then some (p.take (2 * cp.offset_size + 8)) else none
  H5G_ent_calloc := List.replicate 16 0

/-- A shared struct with write access on descriptor 3. -/
def sampleShared : H5F_file_t :=
  { H5F_file_t.calloc with
    flags := H5F_ACC_WRITE
    file_handle := 3
    nrefs := 1
    file_create_parms := sampleBuild.default_parms
    consist_flags := 3
    root_sym := List.replicate 16 0 }

/-- A shared struct with non-trivial offsets, as a flush may find it. -/
def sampleFlushed : H5F_file_t :=
  { sampleShared with smallobj_off := 1000, freespace_off := 70000, logical_len := 4096 }

/-- The 52 bytes of a valid boot block (4-byte offsets and lengths). -/
def sampleBoot : List Nat := H5F_flush_encode sampleBuild sampleShared

/-- A file of 60 bytes: the boot block at offset 0, then the bytes 52, ..., 59. -/
def sampleFile : HostFile :=
  { len := 60
    data := fun j => if j < 52 then sampleBoot.getD j 0 else j
    r_ok := true
    w_ok := true }

/-- A host on which `a.bin` names `sampleFile`. -/
def sampleHost : Host :=
  { paths := fun s => if s = "a.bin" then some (0, 1) else none
    inodes := fun _ => sampleFile
    fds := fun _ => none
    nfds := 3
    next_ino := 2 }

/-- A process that has no file open yet. -/
def sampleWorld : World :=
  { host := sampleHost, heap := fun _ => none, next_ptr := 0, atoms := [], next_atom := 0 }

/-- The process after `a.bin` was opened read-only, with file id 0. -/
def openedWorld : World :=
  (H5Fopen sampleBuild Env.ok "a.bin" 0 sampleWorld).2

/-- Scenario 3 of the specification: `a.bin` is opened twice read-only (ids 0
and 1), then id 0 is closed. -/
def doubleOpenThenClose : (Int × Option H5E) × World :=
  H5Fclose sampleBuild Env.ok 0
    (H5Fopen sampleBuild Env.ok "a.bin" 0
      (H5Fopen sampleBuild Env.ok "a.bin" 0 sampleWorld).2).2

/-- Open `a.bin` read-only (handle `h5`), open it again for writing (which
replaces the shared host handle), then read 8 bytes at address 52 through `h5`. -/
def readAfterUpgrade (B : Build) : Except H5E (List Nat) :=
  match H5F_open B Env.ok "a.bin" 0 B.default_parms sampleWorld with
  | (.error e, _) => .error e
  | (.ok h5, w1) =>
    match H5Aregister_atom Env.ok w1 h5 with
    | none => .error .ATOM_CANTREGISTER
    | some (_, w2) =>
      match H5F_open B Env.ok "a.bin" H5F_ACC_WRITE B.default_parms w2 with
      | (.error e, _) => .error e
      | (.ok _, w3) => (w3.block_read B h5 52 8).1

/-- One call of the block I/O layer on a shared struct: a read, or a write
through a handle with the given intent. -/
inductive IOCall where
  | read (addr size : Nat)
  | write (intent addr size : Nat) (buf : List Nat)

/-- Run one call; a read yields the bytes read, a write yields no bytes. -/
def IOCall.run (opt : Bool) (c : IOCall) (sh : H5F_file_t) (h : Host) :
    Except H5E (List Nat) × H5F_file_t × Host :=
  match c with
  | .read addr size => H5F_block_read opt sh h addr size
  | .write intent addr size buf =>
    match H5F_block_write opt intent sh h addr size buf with
    | (.ok _, sh1, h1) => (.ok [], sh1, h1)
    | (.error e, sh1, h1) => (.error e, sh1, h1)

/-- A write of a positive size through a handle without write intent: it is
refused before any host call. -/
def IOCall.refused : IOCall → Bool
  | .read _ _ => false
  | .write intent _ size _ => size != 0 && intent &&& H5F_ACC_WRITE == 0

/-- No host seek, read or write fails along the sequence: every call succeeds
or is refused before any host call. -/
def hostOpsSucceed (opt : Bool) : List IOCall → H5F_file_t → Host → Bool
  | [], _, _ => true
  | c :: cs, sh, h =>
    ((c.run opt sh h).1.toBool || c.refused) &&
      hostOpsSucceed opt cs (c.run opt sh h).2.1 (c.run opt sh h).2.2

/-- What a successful call must have done, from the state `sh`, `h` before it
to the result `r` and the state `sh1`, `h1` after it. -/
def IOCall.post (c : IOCall) (sh : H5F_file_t) (h : Host)
    (r : Except H5E (List Nat)) (sh1 : H5F_file_t) (h1 : Host) : Prop :=
  match c with
  | .read addr size =>
    ∀ out, r = .ok out →
      (size = 0 → sh1 = sh ∧ h1 = h) ∧
      (0 < size →
        out = (sharedFile sh h).bytes (addr + sh.file_create_parms.userblock_size) size ∧
        (∀ j, (sharedFile sh1 h1).data j = (sharedFile sh h).data j) ∧
        sh1.f_cur_off = addr + sh.file_create_parms.userblock_size + size ∧
        H5F_TELL h1 sh1.file_handle = addr + sh.file_create_parms.userblock_size + size)
  | .write _ addr size buf =>
    ∀ out, r = .ok out →
      (size = 0 → sh1 = sh ∧ h1 = h) ∧
      (0 < size →
        (∀ k, k < size →
          (sharedFile sh1 h1).data (addr + sh.file_create_parms.userblock_size + k) =
            buf.getD k 0) ∧
        sh1.f_cur_off = addr + sh.file_create_parms.userblock_size + size ∧
        H5F_TELL h1 sh1.file_handle = addr + sh.file_create_parms.userblock_size + size)

/-- Every call of the sequence meets `IOCall.post`. -/
def tracePost (opt : Bool) : List IOCall → H5F_file_t → Host → Prop
  | [], _, _ => True
  | c :: cs, sh, h =>
    c.post sh h (c.run opt sh h).1 (c.run opt sh h).2.1 (c.run opt sh h).2.2 ∧
      tracePost opt cs (c.run opt sh h).2.1 (c.run opt sh h).2.2

/-- The sums of a call stay inside `haddr_t`: `addr + userblock_size + size` is
below `2 ^ (8 * sizeof(haddr_t))`.  For such a call the sums that the source
forms in `haddr_t` (lines 1315 and 1334, 1369 and 1394) do not overflow and
are the natural-number sums of `H5F_block_read` and `H5F_block_write`. -/
def IOCall.fits (B : Build) (sh : H5F_file_t) : IOCall → Bool
  | .read addr size =>
    decide (addr + sh.file_create_parms.userblock_size + size < 2 ^ (8 * B.sizeof_haddr_t))
  | .write _ addr size _ =>
    decide (addr + sh.file_create_parms.userblock_size + size < 2 ^ (8 * B.sizeof_haddr_t))

/-- Every call of the sequence stays inside `haddr_t`. -/
def addrsFit (B : Build) (sh : H5F_file_t) (cs : List IOCall) : Bool :=
  cs.all (IOCall.fits B sh)

/-- A host on which descriptor 3 is open for writing on an empty file. -/
def scratchHost : Host :=
  { paths := fun s => if s = "s.bin" then some (0, 1) else none
    inodes := fun _ => { len := 0, data := fun _ => 0, r_ok := true, w_ok := true }
    fds := fun k => if k = 3 then
      some { ino := (0, 1), pos := 0, writable := true, is_open := true } else none
    nfds := 4
    next_ino := 2 }

/-- Some check of the fixed part `buf` in `H5F_open` fails: a version byte is
not the accepted constant, `offset_size` or `length_size` is not 2, 4 or 8, or
one of the two `k` values is below 1. -/
def fixedBad (buf : List Nat) : Bool :=
  buf.getD 8 0 != HDF5_BOOTBLOCK_VERSION ||
  buf.getD 9 0 != HDF5_SMALLOBJECT_VERSION ||
  buf.getD 10 0 != HDF5_FREESPACE_VERSION ||
  buf.getD 11 0 != HDF5_OBJECTDIR_VERSION ||
  buf.getD 12 0 != HDF5_SHAREDHEADER_VERSION ||
  !(buf.getD 13 0 == 2 || buf.getD 13 0 == 4 || buf.getD 13 0 == 8) ||
  !(buf.getD 14 0 == 2 || buf.getD 14 0 == 4 || buf.getD 14 0 == 8) ||
  decide (UINT16DECODE (buf.drop 16) < 1) ||
  decide (UINT16DECODE (buf.drop 18) < 1)

/-- The creation parameters that the fixed part `buf` describes, for a boot
block found with user-block size `ub`. -/
def fixedParms (ub : Nat) (buf : List Nat) : file_create_temp_t :=
  { userblock_size := ub
    sym_leaf_k := UINT16DECODE (buf.drop 16)
    btree_k := UINT16DECODE (buf.drop 18)
    offset_size := buf.getD 13 0
    length_size := buf.getD 14 0
    bootblock_ver := buf.getD 8 0
    smallobject_ver := buf.getD 9 0
    freespace_ver := buf.getD 10 0
    objectdir_ver := buf.getD 11 0
    sharedheader_ver := buf.getD 12 0 }

/-- The part of the variable bytes `buf` that is handed to `H5G_ent_decode`. -/
def rootBytes (cp : file_create_temp_t) (buf : List Nat) : List Nat :=
  ((buf.drop cp.offset_size).drop cp.offset_size).drop cp.length_size

/-- A shared struct during the scan: the struct at scan entry with another
user-block size and seek-elision state. -/
def scanShared (sh0 : H5F_file_t) (u : Nat) (o : H5F_fileop_t) (c : Nat) : H5F_file_t :=
  { sh0 with
    file_create_parms := { sh0.file_create_parms with userblock_size := u }
    last_op := o
    f_cur_off := c }

/-- The shared struct after the scan decoded the fixed bytes `F` and the
variable bytes `V` of a boot block at host offset `c`, the root entry decoding
to `ent`. -/
def decodedShared (B : Build) (sh0 : H5F_file_t) (c : Nat) (F V ent : List Nat) : H5F_file_t :=
  { sh0 with
    file_create_parms := fixedParms c F
    consist_flags := UINT32DECODE (F.drop 20)
    smallobj_off := H5F_decode_offset (fixedParms c F) V
    freespace_off := H5F_decode_offset (fixedParms c F) (V.drop (fixedParms c F).offset_size)
    logical_len := H5F_decode_length (fixedParms c F)
      ((V.drop (fixedParms c F).offset_size).drop (fixedParms c F).offset_size)
    root_sym := ent
    last_op := OP_READ
    f_cur_off := c + 24 + H5F_open_variable_size B (fixedParms c F) }

/-- The shared struct `H5F_open` has built for a file that was not open, when
it enters the second half of the function. -/
def freshShared (B : Build) (key : Nat × Nat) (flags fd : Nat) : H5F_file_t :=
  { H5F_file_t.calloc with
    root_sym := B.H5G_ent_calloc
    nrefs := 1
    key := key
    flags := flags
    file_handle := fd }

/-- The host after `H5F_OPEN` opened the file `key` on a new descriptor. -/
def hostAfterOpen (h : Host) (key : Nat × Nat) (write : Bool) : Host :=
  { (h.setFd h.nfds { ino := key, pos := 0, writable := write, is_open := true }) with
    nfds := h.nfds + 1 }

/-- The process state in which `H5F_open` enters its second half for an
existing file that was not open: the file is open on a new descriptor and a
new shared struct holds the key, the flags and the descriptor. -/
def freshWorld (B : Build) (w : World) (key : Nat × Nat) (flags : Nat) : World :=
  { w with
    host := hostAfterOpen w.host key (flags &&& H5F_ACC_WRITE != 0)
    heap := fun k =>
      if k = w.next_ptr then some (freshShared B key flags w.host.nfds) else w.heap k
    next_ptr := w.next_ptr + 1 }

/-- A readable and writable host file that holds the bytes `boot` from offset
`off` on, after `off` filler bytes. -/
def fileWithBootAt (off : Nat) (boot : List Nat) : HostFile :=
  { len := off + boot.length
    data := fun j => if off ≤ j then boot.getD (j - off) 0 else 7
    r_ok := true
    w_ok := true }

/-- A process with no file open, on a host where `a.bin` names `file`. -/
def worldWithFile (file : HostFile) : World :=
  { host :=
      { paths := fun s => if s = "a.bin" then some (0, 1) else none
        inodes := fun _ => file
        fds := fun _ => none
        nfds := 3
        next_ino := 2 }
    heap := fun _ => none
    next_ptr := 0
    atoms := []
    next_atom := 0 }

/-- The boot block of the sample shared struct with another `sym_leaf_k`. -/
def bootWithLeafK (k : Nat) : List Nat :=
  H5F_flush_encode sampleBuild
    { sampleShared with
      file_create_parms := { sampleBuild.default_parms with sym_leaf_k := k } }

/-- A sparse file of 4 GiB that holds only zero bytes. -/
def zeroFile : HostFile :=
  { len := 2 ^ 32, data := fun _ => 0, r_ok := true, w_ok := true }

/-- The shared struct after lines 685-693 of `H5F_open`: a first handle gets
the caller's creation parameters. -/
def H5F_open_parms (create_parms : file_create_temp_t) (sh : H5F_file_t) : H5F_file_t :=
  if 1 = sh.nrefs then { sh with file_create_parms := create_parms } else sh

/-- The boot-block step of `H5F_open` (lines 696-814) on the shared struct
`sh`: the boot block is written (new file), read (first handle on an existing
file) or left alone. -/
def H5F_open_boot (B : Build) (env : Env) (flags : Nat) (sh : H5F_file_t) (h : Host)
    (empty_file : Bool) : Except H5E Unit × H5F_file_t × Host :=
  if empty_file then
    match H5F_flush B env flags { sh with consist_flags := 3 } h false with
    | ((rv, _), sh1, h1) =>
      if rv < 0 then (.error .FILE_CANTINIT, sh1, h1) else (.ok (), sh1, h1)
  else if 1 = sh.nrefs then
    H5F_open_scan B (32 * B.sizeof_haddr_t - 8) 8 sh h
  else (.ok (), sh, h)

/-- The end of `H5F_open` (lines 816-846) after the boot-block step left the
result `r`: the size query, or the `done:` block on failure. -/
def H5F_open_finish (name : String) (flags : Nat) (w : World) (p : Nat) (fd : Option Nat)
    (r : Except H5E Unit × H5F_file_t × Host) : Except H5E H5F_t × World :=
  match r with
  | (.error e, sh1, h1) =>
    H5F_open_fail ({ w with host := h1 }.store p sh1)
      { name := name, intent := flags, shared := p } fd e
  | (.ok _, sh1, h1) =>
    match H5F_SEEKEND h1 sh1.file_handle with
    | none =>
      H5F_open_fail ({ w with host := h1 }.store p sh1)
        { name := name, intent := flags, shared := p } fd .FILE_CANTINIT
    | some h2 =>
      (.ok { name := name, intent := flags, shared := p },
       { w with host := (H5F_SEEK h2 sh1.file_handle (H5F_TELL h1 sh1.file_handle)).getD h2 }.store
         p { sh1 with logical_len := H5F_TELL h2 sh1.file_handle })

/-- The process state in which `H5F_open` enters its second half after it
allocated a new shared struct: the host is `h1`, the new struct holds the key,
the flags and the descriptor. -/
def allocWorld (B : Build) (w : World) (h1 : Host) (key : Nat × Nat) (flags fd : Nat) : World :=
  { w with
    host := h1
    heap := fun k => if k = w.next_ptr then some (freshShared B key flags fd) else w.heap k
    next_ptr := w.next_ptr + 1 }

/-- The branch of `H5F_open` for a file that a registered handle `old` has
open (lines 604-619). -/
def H5F_open_found (B : Build) (env : Env) (name : String) (flags : Nat)
    (create_parms : file_create_temp_t) (w : World) (old : H5F_t) : Except H5E H5F_t × World :=
  if flags &&& H5F_ACC_TRUNC ≠ 0 then (.error .FILE_FILEOPEN, w)
  else if flags &&& H5F_ACC_WRITE ≠ 0 ∧ (w.deref old.shared).flags &&& H5F_ACC_WRITE = 0 then
    match H5F_OPEN env w.host name true with
    | none => (.error .FILE_CANTOPENFILE, w)
    | some (fd, h1) =>
      let osh := w.deref old.shared
      let h2 := H5F_CLOSE h1 osh.file_handle
      let w1 := { w with host := h2 }.store old.shared
        { osh with file_handle := fd, flags := osh.flags ||| H5F_ACC_WRITE }
      let (p, w2) := H5F_new B w1 (some old.shared)
      H5F_open_tail B env name flags create_parms w2 p none false
  else
    let (p, w2) := H5F_new B w (some old.shared)
    H5F_open_tail B env name flags create_parms w2 p none false

/-- The branch of `H5F_open` for an existing file that no registered handle
has open (lines 621-648). -/
def H5F_open_unopened (B : Build) (env : Env) (name : String) (flags : Nat)
    (create_parms : file_create_temp_t) (w : World) (sb : Nat × Nat) :
    Except H5E H5F_t × World :=
  if flags &&& H5F_ACC_TRUNC ≠ 0 then
    if flags &&& H5F_ACC_WRITE = 0 then (.error .FILE_BADVALUE, w)
    else
      match H5F_CREATE env w.host name with
      | none => (.error .FILE_CANTCREATE, w)
      | some (fd, h1) =>
        let (p, w1) := H5F_new B { w with host := h1 } none
        let w2 := w1.store p
          { (w1.deref p) with key := sb, flags := flags, file_handle := fd }
        H5F_open_tail B env name flags create_parms w2 p (some fd) true
  else
    match H5F_OPEN env w.host name (flags &&& H5F_ACC_WRITE != 0) with
    | none => (.error .FILE_CANTOPENFILE, w)
    | some (fd, h1) =>
      let (p, w1) := H5F_new B { w with host := h1 } none
      let w2 := w1.store p
        { (w1.deref p) with key := sb, flags := flags, file_handle := fd }
      H5F_open_tail B env name flags create_parms w2 p (some fd) false

/-- The branch of `H5F_open` for a path that does not exist (lines 650-673). -/
def H5F_open_absent (B : Build) (env : Env) (name : String) (flags : Nat)
    (create_parms : file_create_temp_t) (w : World) : Except H5E H5F_t × World :=
  if flags &&& H5F_ACC_CREAT ≠ 0 then
    if flags &&& H5F_ACC_WRITE = 0 then (.error .FILE_BADVALUE, w)
    else
      match H5F_CREATE env w.host name with
      | none => (.error .FILE_CANTCREATE, w)
      | some (fd, h1) =>
        match (if env.stat_fails then none else stat h1 name) with
        | none => (.error .FILE_CANTCREATE, { w with host := h1 })
        | some sb =>
          let (p, w1) := H5F_new B { w with host := h1 } none
          let w2 := w1.store p
            { (w1.deref p) with key := sb, flags := flags, file_handle := fd }
          H5F_open_tail B env name flags create_parms w2 p (some fd) true
  else (.error .FILE_CANTOPENFILE, w)

/-- The shared struct after `H5F_dest` dropped one reference (lines 462-472):
`none` when the struct was freed. -/
def dropRef (sh : H5F_file_t) : Option H5F_file_t :=
  if sh.nrefs - 1 = 0 then none else some { sh with nrefs := sh.nrefs - 1 }

/-- Two values of a shared struct agree on the fields that only `H5F_open`,
`H5F_new` and `H5F_dest` assign: key, flags, host handle, reference count. -/
def sameCore (a b : H5F_file_t) : Prop :=
  b.key = a.key ∧ b.flags = a.flags ∧ b.file_handle = a.file_handle ∧ b.nrefs = a.nrefs

/-- The heap of `w` with the entry at address `q` replaced by `x`. -/
def heapWith (w : World) (q : Nat) (x : Option H5F_file_t) : Nat → Option H5F_file_t :=
  fun k => if k = q then x else w.heap k

/-- The allocator and the atom table of `w1` are those of `w`. -/
def sameTables (w w1 : World) : Prop :=
  w1.next_ptr = w.next_ptr ∧ w1.atoms = w.atoms ∧ w1.next_atom = w.next_atom

/-- Creation parameters that differ from the defaults of `sampleBuild`. -/
def otherParms : file_create_temp_t :=
  { sampleBuild.default_parms with userblock_size := 512, sym_leaf_k := 9, btree_k := 7 }

/-- The host after the upgrading `H5F_open` reopened the file `key` for writing
and closed the descriptor `fd` the shared struct held (lines 610-616). -/
def hostAfterUpgrade (h : Host) (key : Nat × Nat) (fd : Nat) : Host :=
  H5F_CLOSE (hostAfterOpen h key true) fd

/-- The process after `a.bin`, open read-only with file id 0, was opened again
through `H5Fopen` with `H5ACC_WRITE` (file id 1). -/
def upgradedWorld : World :=
  (H5Fopen sampleBuild Env.ok "a.bin" sampleBuild.H5ACC_WRITE openedWorld).2

/-- Then `H5Fclose` of file id 0, the read-only handle. -/
def closeReadOnlyFirst : (Int × Option H5E) × World :=
  H5Fclose sampleBuild Env.ok 0 upgradedWorld

/-- Then `H5Fclose` of file id 1, the read-write handle. -/
def closeReadWriteNext : (Int × Option H5E) × World :=
  H5Fclose sampleBuild Env.ok 1 closeReadOnlyFirst.2

/-- Then `H5Fopen` of `a.bin` once more, read-only. -/
def reopenAfterCloses : Except H5E Nat × World :=
  H5Fopen sampleBuild Env.ok "a.bin" 0 closeReadWriteNext.2

/-! ### Sequences of calls -/

/-- `H5F_flush` on a handle of the process state. -/
def World.flush (B : Build) (env : Env) (w : World) (f : H5F_t) (invalidate : Bool) :
    (Int × Option H5E) × World :=
  match H5F_flush B env f.intent (w.deref f.shared) w.host invalidate with
  | (r, sh1, h1) => (r, { w with host := h1 }.store f.shared sh1)

/-- One call into the file interface: `H5F_open`, `H5F_close`, `H5F_flush`,
`H5F_block_read`, `H5F_block_write`, and the two registry calls that
`H5Fopen` and `H5Fclose` make around them.  `env` holds the outcomes of the
collaborators during that call. -/
inductive Op where
  | openFile (env : Env) (name : String) (flags : Nat) (create_parms : file_create_temp_t)
  | closeFile (env : Env) (f : H5F_t)
  | flushFile (env : Env) (f : H5F_t) (invalidate : Bool)
  | readBlock (f : H5F_t) (addr size : Nat)
  | writeBlock (f : H5F_t) (addr size : Nat) (buf : List Nat)
  | registerAtom (env : Env) (f : H5F_t)
  | removeAtom (fid : Nat)

/-- The process state after one call. -/
def Op.run (B : Build) : Op → World → World
  | .openFile env name flags create_parms, w => (H5F_open B env name flags create_parms w).2
  | .closeFile env f, w => (H5F_close B env w f).2
  | .flushFile env f invalidate, w => (World.flush B env w f invalidate).2
  | .readBlock f addr size, w => (World.block_read B w f addr size).2
  | .writeBlock f addr size buf, w => (World.block_write B w f addr size buf).2
  | .registerAtom env f, w =>
    match H5Aregister_atom env w f with
    | some (_, w1) => w1
    | none => w
  | .removeAtom fid, w => H5Aremove_atom w fid

/-- The process state after a sequence of calls. -/
def runOps (B : Build) : List Op → World → World
  | [], w => w
  | op :: ops, w => runOps B ops (op.run B w)

/-- The handle a call dereferences, if it takes one. -/
def Op.handle : Op → Option H5F_t
  | .closeFile _ f => some f
  | .flushFile _ f _ => some f
  | .readBlock f _ _ => some f
  | .writeBlock f _ _ _ => some f
  | _ => none

/-- The call does not dereference a handle whose shared struct was freed. -/
def Op.defined (op : Op) (w : World) : Bool :=
  match op.handle with
  | some f => (w.heap f.shared).isSome
  | none => true

/-- No call of the sequence dereferences a handle whose shared struct was freed. -/
def definedRun (B : Build) : List Op → World → Bool
  | [], _ => true
  | op :: ops, w => op.defined w && definedRun B ops (op.run B w)

/-- The allocator has handed out the addresses below `next_ptr` only. -/
def World.wf (w : World) : Prop :=
  ∀ p, w.next_ptr ≤ p → w.heap p = none

/-- A shared struct lives at address `p`. -/
def World.live (w : World) (p : Nat) : Bool :=
  (w.heap p).isSome

/-- A shared struct lives at address `p` and its flags include `WRITE`. -/
def World.writable (w : World) (p : Nat) : Bool :=
  match w.heap p with
  | some sh => sh.flags &&& H5F_ACC_WRITE != 0
  | none => false

/-- The call is an `H5F_open` whose flags include `WRITE`. -/
def Op.opensForWrite : Op → Bool
  | .openFile _ _ flags _ => flags &&& H5F_ACC_WRITE != 0
  | _ => false

/-- What one call does to a shared struct that it does not free: flags and
host handle stay, or (`up`, an open with `WRITE` on a struct without `WRITE`)
`WRITE` is added to the flags. -/
def stepRel (up : Bool) (sh sh1 : H5F_file_t) : Prop :=
  (sh1.flags = sh.flags ∧ sh1.file_handle = sh.file_handle) ∨
  (up = true ∧ sh.flags &&& H5F_ACC_WRITE = 0 ∧ sh1.flags = sh.flags ||| H5F_ACC_WRITE)

/-- The heap after one call, seen from the heap before it: the allocator only
moves forward, its invariant is kept, a freed struct stays freed, and a struct
that lives before and after is related by `stepRel`. -/
def Keeps (up : Bool) (w w1 : World) : Prop :=
  w1.wf ∧ w.next_ptr ≤ w1.next_ptr ∧
  ∀ p, (p < w.next_ptr → w.heap p = none → w1.heap p = none) ∧
    (∀ sh sh1, w.heap p = some sh → w1.heap p = some sh1 → stepRel up sh sh1)

/-- The struct at `p` lives before and after the step from `w` to `w1` and its
host handle differs. -/
def handleSwapped (p : Nat) (w w1 : World) : Bool :=
  match w.heap p, w1.heap p with
  | some sh, some sh1 => sh.file_handle != sh1.file_handle
  | _, _ => false

/-- The number of calls of the sequence that replace the host handle of the
struct at `p`. -/
def handleSwaps (B : Build) (p : Nat) : List Op → World → Nat
  | [], _ => 0
  | op :: ops, w =>
    (if handleSwapped p w (op.run B w) then 1 else 0) + handleSwaps B p ops (op.run B w)

/-- Every call of the sequence that replaces the host handle of the struct at
`p` is an `H5F_open` with `WRITE` that finds the flags of the struct without
`WRITE`. -/
def swapsAreUpgrades (B : Build) (p : Nat) : List Op → World → Bool
  | [], _ => true
  | op :: ops, w =>
    (!handleSwapped p w (op.run B w) || (op.opensForWrite && !w.writable p)) &&
      swapsAreUpgrades B p ops (op.run B w)

/-- The handles that exist after one call, `live` being those that exist
before it: a successful `H5F_open` returns a new one, and `H5F_close` destroys
its argument unless it returns `FAIL` (the early return of line 1214). -/
def Op.handles (B : Build) (op : Op) (w : World) (live : List H5F_t) : List H5F_t :=
  match op with
  | .openFile env name flags create_parms =>
    match (H5F_open B env name flags create_parms w).1 with
    | .ok f => f :: live
    | .error _ => live
  | .closeFile env f => if (H5F_close B env w f).1.1 = FAIL then live else live.erase f
  | _ => live

/-- The handles that exist after a sequence of calls. -/
def runHandles (B : Build) : List Op → World → List H5F_t → List H5F_t
  | [], _, live => live
  | op :: ops, w, live => runHandles B ops (op.run B w) (op.handles B w live)

/-- The handles a call is given exist: `f` is one of `live` when the call takes
the handle `f`. -/
def Op.handleIn (op : Op) (live : List H5F_t) : Bool :=
  match op.handle with
  | some f => decide (f ∈ live)
  | none => true

/-- Every call of the sequence that takes a handle is given one that exists. -/
def handlesExist (B : Build) : List Op → World → List H5F_t → Bool
  | [], _, _ => true
  | op :: ops, w, live =>
    op.handleIn live && handlesExist B ops (op.run B w) (op.handles B w live)

/-- The number of handles of `live` attached to the shared struct at `p`. -/
def attached (live : List H5F_t) (p : Nat) : Nat :=
  live.countP (fun f => f.shared == p)

/-- The reference count of the struct at `p`, 0 when no struct lives there. -/
def World.refs (w : World) (p : Nat) : Nat :=
  match w.heap p with
  | some sh => sh.nrefs
  | none => 0

/-- The reference counts describe the handles `live`: every live shared struct
has `nrefs >= 1`, and at every address `nrefs` (0 where no struct lives) is
the number of handles attached there. -/
def refsCounted (w : World) (live : List H5F_t) : Prop :=
  w.wf ∧ (∀ p sh, w.heap p = some sh → 1 ≤ sh.nrefs) ∧ ∀ p, w.refs p = attached live p

/-- The handle that `H5F_open` of `a.bin` with the given flags returns when
the shared struct is the one at address 0. -/
def handleOn (flags : Nat) : H5F_t :=
  { name := "a.bin", intent := flags, shared := 0 }

/-- Open `a.bin` read-only and register the handle; open it again with `WRITE`
(the upgrade). -/
def sampleOpsBefore : List Op :=
  [ .openFile Env.ok "a.bin" 0 sampleBuild.default_parms,
    .registerAtom Env.ok (handleOn 0),
    .openFile Env.ok "a.bin" H5F_ACC_WRITE sampleBuild.default_parms ]

/-- Register the second handle, write and flush through it, attach a third,
read-only handle, close the first handle (its flush fails, so it stays), read
through it, and close the second handle. -/
def sampleOpsAfter : List Op :=
  [ .registerAtom Env.ok (handleOn H5F_ACC_WRITE),
    .writeBlock (handleOn H5F_ACC_WRITE) 52 8 [1, 2, 3, 4, 5, 6, 7, 8],
    .flushFile Env.ok (handleOn H5F_ACC_WRITE) false,
    .openFile Env.ok "a.bin" 0 otherParms,
    .closeFile Env.ok (handleOn 0),
    .readBlock (handleOn 0) 0 8,
    .closeFile Env.ok (handleOn H5F_ACC_WRITE) ]

/-! ### Outcomes of `H5F_flush` and `H5F_close` -/

/-- The shared struct after `H5F_flush` wrote the boot block (lines 1117-1123):
the write is recorded in the seek-elision fields, and a logical length of 0
becomes the size of the boot block. -/
def flushedShared (B : Build) (sh : H5F_file_t) : H5F_file_t :=
  { sh with
    last_op := OP_WRITE
    f_cur_off := 0 + sh.file_create_parms.userblock_size + (H5F_flush_encode B sh).length
    logical_len :=
      if sh.logical_len ≤ 0 then (H5F_flush_encode B sh).length else sh.logical_len }

/-- The host after `H5F_flush` wrote the boot block through the descriptor `d`
of the shared struct: the file holds the encoded boot block from offset
`userblock_size` on, and the cursor is behind it. -/
def flushedHost (B : Build) (sh : H5F_file_t) (h : Host) (d : HostFd) : Host :=
  (h.setInode d.ino ((h.inodes d.ino).store (0 + sh.file_create_parms.userblock_size)
    (H5F_flush_encode B sh).length (H5F_flush_encode B sh))).setFd sh.file_handle
    { d with
      pos := 0 + sh.file_create_parms.userblock_size + (H5F_flush_encode B sh).length }

/-- The environment in which only the shadow flush fails (objects are still open). -/
def shadowFails : Env :=
  { Env.ok with shadow_flush_fails := true }

/-- The process after `a.bin` was opened with `H5ACC_WRITE`, with file id 0. -/
def writableWorld : World :=
  (H5Fopen sampleBuild Env.ok "a.bin" sampleBuild.H5ACC_WRITE sampleWorld).2

/-! ### `H5Fcreate` -/

/-- Modelled from the spec: the creation template of `H5Fcreate`, that is
`H5Aatom_object (create_temp)` after a `create_temp` of 0 was replaced by the
default template atom; `tmpl` is the template registry and `none` is `NULL`. -/
def H5Fcreate_template (B : Build) (tmpl : Nat → Option file_create_temp_t)
    (create_temp : Nat) : Option file_create_temp_t :=
  if create_temp = 0 then some B.default_parms else tmpl create_temp

/-- The end of `H5Fcreate` (lines 929-945), `r` being what `H5F_open` returned:
the new handle is registered, and closed again when that fails. -/
def H5Fcreate_finish (B : Build) (env : Env) (r : Except H5E H5F_t × World) :
    Except H5E Nat × World :=
  match r with
  | (.error _, w1) => (.error .FILE_CANTOPENFILE, w1)
  | (.ok new_file, w1) =>
    match H5Aregister_atom env w1 new_file with
    | some (id, w2) => (.ok id, w2)
    | none => (.error .ATOM_CANTREGISTER, (H5F_close B env w1 new_file).2)

/-- `H5Fcreate (filename, flags, create_temp, access_temp)` of `H5F.c`: the
file id.  `filename` is `none` for a null pointer; `flags` is a `uintn`, so
`~H5ACC_OVERWRITE` is the complement in `uintn_bits` bits. -/
def H5Fcreate (B : Build) (env : Env) (tmpl : Nat → Option file_create_temp_t)
    (filename : Option String) (flags create_temp : Nat) (w : World) :
    Except H5E Nat × World :=
  match filename with
  | none => (.error .ARGS_BADVALUE, w)
  | some name =>
    if name = "" then (.error .ARGS_BADVALUE, w)
    else if flags &&& (2 ^ B.uintn_bits - 1 - B.H5ACC_OVERWRITE) ≠ 0 then
      (.error .ARGS_BADVALUE, w)
    else
      let flags1 := (H5F_ACC_WRITE ||| H5F_ACC_CREAT) |||
        (if B.H5ACC_OVERWRITE = flags then H5F_ACC_TRUNC else H5F_ACC_EXCL)
      match H5Fcreate_template B tmpl create_temp with
      | none => (.error .ATOM_BADATOM, w)
      | some create_parms =>
        H5Fcreate_finish B env (H5F_open B env name flags1 create_parms w)

/-- The environment in which only the `stat` that follows a successful
`H5F_CREATE` fails. -/
def statFails : Env :=
  { Env.ok with stat_fails := true }

/-- `H5F_open` of the absent path `new.bin` with `WRITE | CREAT`, the `stat`
after the create failing. -/
def createThenStatFails : Except H5E H5F_t × World :=
  H5F_open sampleBuild statFails "new.bin" (H5F_ACC_WRITE ||| H5F_ACC_CREAT)
    sampleBuild.default_parms sampleWorld

/-- The boot block of a file that is being created with the creation
parameters `cp`: no offsets and no logical length yet, `consist_flags = 3`,
and the zeroed root entry of `H5F_new`. -/
def newBootBlock (B : Build) (cp : file_create_temp_t) : List Nat :=
  H5F_flush_encode B
    { H5F_file_t.calloc with
      file_create_parms := cp
      consist_flags := 3
      root_sym := B.H5G_ent_calloc }

/-- The shared struct of a new file when `H5F_open` flushes its boot block
(lines 685-701): the struct `H5F_new` allocated, with the caller's creation
parameters and `consist_flags = 3`. -/
def newShared (B : Build) (cp : file_create_temp_t) (key : Nat × Nat) (flags fd : Nat) :
    H5F_file_t :=
  { (H5F_open_parms cp (freshShared B key flags fd)) with consist_flags := 3 }

/-! ### The "none" selection (`H5Snone.c`) -/

/-- The part of a dataspace `H5S_t` that `H5Snone.c` reads: the selection type
`space->select.type`, a value of an enumeration. -/
structure H5S_t where
  select_type : Int
  deriving DecidableEq, Repr

/-- `H5S_none_select_serialize (space, buf)` of `H5Snone.c`: the returned
`herr_t` and the buffer after the call.  Each `UINT32ENCODE` stores four bytes
and advances `buf`; the cast `(uint32_t)` reduces the selection type modulo
`2 ^ 32`.  The bytes of the caller's buffer behind the stored ones stay. -/
def H5S_none_select_serialize (space : H5S_t) (buf : List Nat) : Int × List Nat :=
  let p := UINT32ENCODE (space.select_type % 2 ^ 32).toNat
  let p := p ++ UINT32ENCODE 1
  let p := p ++ UINT32ENCODE 0
  let p := p ++ UINT32ENCODE 0
  (SUCCEED, p ++ buf.drop p.length)

/-- `H5S_none_select_deserialize (space, buf)` of `H5Snone.c`: the returned
`herr_t` with the error pushed, if any, and the dataspace after the call.
`H5S_select_none` is a collaborator that is not part of the source shown, so
what it returns and what it does to the dataspace is a parameter. -/
def H5S_none_select_deserialize (H5S_select_none : H5S_t → Int × H5S_t) (space : H5S_t)
    (_buf : List Nat) : (Int × Option H5E) × H5S_t :=
  match H5S_select_none space with
  | (ret_value, space1) =>
    if ret_value < 0 then ((FAIL, some .DATASPACE_CANTDELETE), space1)
    else ((ret_value, none), space1)

/-- The environment in which only the host open fails. -/
def openFails : Env :=
  { Env.ok with open_fails := true }

/-! ### What a call does to the files and descriptors of the host -/

/-- From `h` to `h1` no path was added, removed or redirected and no file
became shorter: no file was created and none was truncated. -/
def filesGrow (h h1 : Host) : Prop :=
  h1.paths = h.paths ∧ ∀ k, (h.inodes k).len ≤ (h1.inodes k).len

/-- From `h` to `h1` the same descriptors are open. -/
def sameOpen (h h1 : Host) : Prop :=
  ∀ fd, (h1.openFd fd).isSome = (h.openFd fd).isSome

/-- What positioned I/O does to the host: no file is created or truncated and
no descriptor is opened or closed. -/
def hostIO (h h1 : Host) : Prop :=
  filesGrow h h1 ∧ sameOpen h h1

/-- The environment in which only the cache flush fails. -/
def cacheFails : Env :=
  { Env.ok with cache_flush_fails := true }

/-- Open `a.bin` (60 bytes) read-only, then read 8 bytes at address 0, 24 bytes
at address 40 (only 20 are left, so the call seeks and then fails) and 8 bytes
at address 8.  The result holds what the three reads returned, and
`f_cur_off` and the host cursor after the failed read. -/
def readsAroundFailure (B : Build) : List (Except H5E (List Nat)) × Nat × Nat :=
  match H5F_open B Env.ok "a.bin" 0 B.default_parms sampleWorld with
  | (.error e, _) => ([.error e], 0, 0)
  | (.ok f, w1) =>
    let r1 := w1.block_read B f 0 8
    let r2 := r1.2.block_read B f 40 24
    let r3 := r2.2.block_read B f 8 8
    ([r1.1, r2.1, r3.1], (r2.2.deref f.shared).f_cur_off,
      H5F_TELL r2.2.host (r2.2.deref f.shared).file_handle)

/-- A file of 564 bytes with two boot blocks: at offset 0 one whose fixed part
has `sym_leaf_k = 0`, at offset 512 the valid sample boot block. -/
def fileWithTwoBoots : HostFile :=
  { len := 512 + sampleBoot.length
    data := fun j =>
      if 512 ≤ j then sampleBoot.getD (j - 512) 0 else (bootWithLeafK 0).getD j 7
    r_ok := true
    w_ok := true }

/-! ### The write mark of the seek elision -/

/-- From `sh` to `sh1` the tag `last_op` became `OP_WRITE` only under the
condition `c`: if `sh1` records a write, so did `sh`, or `c` holds. -/
def marked (c : Prop) (sh sh1 : H5F_file_t) : Prop :=
  sh1.last_op = OP_WRITE → sh.last_op = OP_WRITE ∨ c

/-- The state invariant of write access, `live` being the handles that exist:
a handle whose intent includes `WRITE` is attached to a live shared struct
whose flags include `WRITE`, and a shared struct whose last operation is a
write has `WRITE` in its flags. -/
def writeMarked (w : World) (live : List H5F_t) : Prop :=
  (∀ f ∈ live, f.intent &&& H5F_ACC_WRITE ≠ 0 → w.writable f.shared = true) ∧
  (∀ p sh, w.heap p = some sh → sh.last_op = OP_WRITE → sh.flags &&& H5F_ACC_WRITE ≠ 0)

/-! ### `H5Fis_hdf5` -/

/-- `H5F_flush (f, TRUE)`, then `H5F_close (f)`, then `H5F_open` of the same
name with the given flags and creation parameters. -/
def flushCloseReopen (B : Build) (env : Env) (w : World) (f : H5F_t) (flags : Nat)
    (create_parms : file_create_temp_t) : Except H5E H5F_t × World :=
  H5F_open B env f.name flags create_parms
    (H5F_close B env (World.flush B env w f true).2 f).2

/-- The host file after `H5F_flush` and then the flush inside `H5F_close` wrote
the boot block of the shared struct `sh` into `file`. -/
def closedFile (B : Build) (sh : H5F_file_t) (file : HostFile) : HostFile :=
  (file.store (0 + sh.file_create_parms.userblock_size) (H5F_flush_encode B sh).length
    (H5F_flush_encode B sh)).store (0 + sh.file_create_parms.userblock_size)
    (H5F_flush_encode B (flushedShared B sh)).length (H5F_flush_encode B (flushedShared B sh))

/-- The process after `a.bin` was opened with `H5ACC_WRITE` and 8 bytes were
written at address 100, behind the end of the 60-byte file. -/
def grownWorld : World :=
  (writableWorld.block_write sampleBuild (handleOn H5F_ACC_WRITE) 100 8
    [1, 2, 3, 4, 5, 6, 7, 8]).2

/-- `H5F_open` of the absent path `c.bin` with `WRITE | CREAT` and the default
creation parameters except for the given user-block size and `sym_leaf_k`:
the new file gets its boot block behind a user block of zero bytes. -/
def createdWith (userblock sym_leaf_k : Nat) : Except H5E H5F_t × World :=
  H5F_open sampleBuild Env.ok "c.bin" 3
    { sampleBuild.default_parms with userblock_size := userblock, sym_leaf_k := sym_leaf_k }
    sampleWorld

/-- The handle that `createdWith` returns. -/
def handleOfCreated : H5F_t :=
  { name := "c.bin", intent := 3, shared := 0 }

/-- The process of `createdWith 512 5` after another program stored the sample
boot block (with `sym_leaf_k = 4`) at the start of the user block. -/
def userDataWorld : World :=
  { (createdWith 512 5).2 with
    host := (createdWith 512 5).2.host.setInode (0, 2)
      (((createdWith 512 5).2.host.inodes (0, 2)).store 0 52 sampleBoot) }

/-- The process after `a.bin` was opened with `H5ACC_WRITE`, with the
seek-elision fields of the shared struct set to a write that ended at offset
0, while the host cursor is at 52. -/
def staleWorld : World :=
  writableWorld.store 0 { writableWorld.deref 0 with last_op := OP_WRITE, f_cur_off := 0 }

/-! ## Theorems -/

/-! ### Host lemmas -/

theorem Host.setFd_setFd (h : Host) (fd : Nat) (d1 d2 : HostFd) :
    (h.setFd fd d1).setFd fd d2 = h.setFd fd d2 := by
  simp only [Host.setFd]
  congr 1
  funext k
  by_cases hk : k = fd <;> simp [hk]

theorem Host.inodes_setFd (h : Host) (fd : Nat) (d : HostFd) :
    (h.setFd fd d).inodes = h.inodes := rfl

theorem Host.setFd_setInode_setFd (h : Host) (fd : Nat) (d1 d2 : HostFd) (key : Nat × Nat)
    (file : HostFile) :
    ((h.setFd fd d1).setInode key file).setFd fd d2 = (h.setInode key file).setFd fd d2 := by
  simp only [Host.setFd, Host.setInode]
  congr 1
  funext k
  by_cases hk : k = fd <;> simp [hk]

theorem Host.openFd_some (h : Host) (fd : Nat) (d : HostFd) (hd : h.openFd fd = some d) :
    h.fds fd = some d ∧ d.is_open = true := by
  unfold Host.openFd at hd
  cases hf : h.fds fd with
  | none => simp [hf] at hd
  | some d0 =>
    simp only [hf] at hd
    by_cases ho : d0.is_open = true
    · simp only [ho, if_true, Option.some.injEq] at hd
      subst hd
      exact ⟨rfl, ho⟩
    · simp [ho] at hd

theorem Host.openFd_setFd (h : Host) (fd : Nat) (d : HostFd) (hd : d.is_open = true) :
    (h.setFd fd d).openFd fd = some d := by
  simp [Host.openFd, Host.setFd, hd]

theorem Host.setFd_self (h : Host) (fd : Nat) (d : HostFd) (hd : h.fds fd = some d) :
    h.setFd fd d = h := by
  cases h with
  | mk paths inodes fds nfds next_ino =>
    simp only [Host.setFd, Host.mk.injEq, true_and, and_true]
    funext k
    by_cases hk : k = fd
    · subst hk; simpa using hd.symm
    · simp [hk]

theorem H5F_SEEK_ok (h : Host) (fd off : Nat) (d : HostFd) (hd : h.openFd fd = some d) :
    H5F_SEEK h fd off = some (h.setFd fd { d with pos := off }) := by
  simp [H5F_SEEK, hd]

theorem H5F_READ_ok (h : Host) (fd n : Nat) (d : HostFd) (hd : h.openFd fd = some d)
    (hlen : d.pos + n ≤ (h.inodes d.ino).len) :
    H5F_READ h fd n =
      (some ((h.inodes d.ino).bytes d.pos n), h.setFd fd { d with pos := d.pos + n }) := by
  have hmin : min n ((h.inodes d.ino).len - d.pos) = n := by
    apply Nat.min_eq_left; omega
  simp [H5F_READ, hd, hmin]

theorem H5F_READ_short (h : Host) (fd n : Nat) (d : HostFd) (hd : h.openFd fd = some d)
    (hn : 0 < n) (hlen : (h.inodes d.ino).len < d.pos + n) :
    (H5F_READ h fd n).1 = none := by
  have hmin : min n ((h.inodes d.ino).len - d.pos) ≠ n := by
    rw [Nat.min_def]; split <;> omega
  simp [H5F_READ, hd, hmin]

theorem H5F_WRITE_ok (h : Host) (fd n : Nat) (buf : List Nat) (d : HostFd)
    (hd : h.openFd fd = some d) (hw : d.writable = true) :
    H5F_WRITE h fd buf n =
      (true, (h.setInode d.ino ((h.inodes d.ino).store d.pos n buf)).setFd fd
        { d with pos := d.pos + n }) := by
  simp [H5F_WRITE, hd, hw]

/-! ### Positioned I/O on a coherent state -/

theorem H5F_block_read_ok (opt : Bool) (sh : H5F_file_t) (h : Host) (addr size : Nat)
    (d : HostFd) (hd : h.openFd sh.file_handle = some d)
    (hc : sh.last_op = OP_READ → sh.f_cur_off = d.pos) (hsize : 0 < size)
    (hlen : addr + sh.file_create_parms.userblock_size + size ≤ (h.inodes d.ino).len) :
    H5F_block_read opt sh h addr size =
      (.ok ((h.inodes d.ino).bytes (addr + sh.file_create_parms.userblock_size) size),
       { sh with
         last_op := OP_READ
         f_cur_off := addr + sh.file_create_parms.userblock_size + size },
       h.setFd sh.file_handle
         { d with pos := addr + sh.file_create_parms.userblock_size + size }) := by
  obtain ⟨hfd, hopen⟩ := Host.openFd_some h _ d hd
  unfold H5F_block_read
  rw [if_neg (Nat.ne_of_gt hsize)]
  by_cases hel : (!opt || sh.last_op != OP_READ ||
      sh.f_cur_off != addr + sh.file_create_parms.userblock_size) = true
  · simp only [hel, if_true]
    have hd1 : (h.setFd sh.file_handle
        { d with pos := addr + sh.file_create_parms.userblock_size }).openFd sh.file_handle =
        some { d with pos := addr + sh.file_create_parms.userblock_size } :=
      Host.openFd_setFd _ _ _ hopen
    rw [H5F_SEEK_ok h _ _ d hd]
    simp only []
    rw [H5F_READ_ok _ _ size _ hd1 (by simpa [Host.setFd] using hlen)]
    simp only [Host.setFd_setFd]
    rfl
  · have hel1 : (!opt || sh.last_op != OP_READ ||
        sh.f_cur_off != addr + sh.file_create_parms.userblock_size) = false := by
      simpa using hel
    simp only [Bool.or_eq_false_iff, bne_eq_false_iff_eq] at hel1
    obtain ⟨⟨_, hop⟩, hoff⟩ := hel1
    have hpos : d.pos = addr + sh.file_create_parms.userblock_size := by
      rw [← hc hop, hoff]
    rw [if_neg hel]
    rw [H5F_READ_ok h _ size d hd (by omega)]
    have hsh : ({ sh with f_cur_off := addr + sh.file_create_parms.userblock_size + size }
        : H5F_file_t) = { sh with
          last_op := OP_READ
          f_cur_off := addr + sh.file_create_parms.userblock_size + size } := by
      cases sh; simp_all
    simp only [hsh, hpos]

theorem H5F_block_read_short (opt : Bool) (sh : H5F_file_t) (h : Host) (addr size : Nat)
    (d : HostFd) (hd : h.openFd sh.file_handle = some d)
    (hc : sh.last_op = OP_READ → sh.f_cur_off = d.pos) (hsize : 0 < size)
    (hlen : (h.inodes d.ino).len < addr + sh.file_create_parms.userblock_size + size) :
    (H5F_block_read opt sh h addr size).1 = .error .IO_READERROR := by
  obtain ⟨hfd, hopen⟩ := Host.openFd_some h _ d hd
  unfold H5F_block_read
  rw [if_neg (Nat.ne_of_gt hsize)]
  by_cases hel : (!opt || sh.last_op != OP_READ ||
      sh.f_cur_off != addr + sh.file_create_parms.userblock_size) = true
  · simp only [hel, if_true]
    have hd1 : (h.setFd sh.file_handle
        { d with pos := addr + sh.file_create_parms.userblock_size }).openFd sh.file_handle =
        some { d with pos := addr + sh.file_create_parms.userblock_size } :=
      Host.openFd_setFd _ _ _ hopen
    rw [H5F_SEEK_ok h _ _ d hd]
    simp only []
    have hs := H5F_READ_short _ _ size _ hd1 hsize (by simpa [Host.setFd] using hlen)
    revert hs
    cases H5F_READ (h.setFd sh.file_handle
        { d with pos := addr + sh.file_create_parms.userblock_size }) sh.file_handle size with
    | mk r h2 => intro hs; simp only at hs; subst hs; rfl
  · have hel1 : (!opt || sh.last_op != OP_READ ||
        sh.f_cur_off != addr + sh.file_create_parms.userblock_size) = false := by
      simpa using hel
    simp only [Bool.or_eq_false_iff, bne_eq_false_iff_eq] at hel1
    obtain ⟨⟨_, hop⟩, hoff⟩ := hel1
    have hpos : d.pos = addr + sh.file_create_parms.userblock_size := by
      rw [← hc hop, hoff]
    rw [if_neg hel]
    have hs := H5F_READ_short h _ size d hd hsize (by omega)
    revert hs
    cases H5F_READ h sh.file_handle size with
    | mk r h2 => intro hs; simp only at hs; subst hs; rfl

theorem H5F_block_write_ok (opt : Bool) (intent : Nat) (sh : H5F_file_t) (h : Host)
    (addr size : Nat) (buf : List Nat) (d : HostFd)
    (hd : h.openFd sh.file_handle = some d) (hw : d.writable = true)
    (hintent : intent &&& H5F_ACC_WRITE ≠ 0)
    (hc : sh.last_op = OP_WRITE → sh.f_cur_off = d.pos) (hsize : 0 < size) :
    H5F_block_write opt intent sh h addr size buf =
      (.ok (),
       { sh with
         last_op := OP_WRITE
         f_cur_off := addr + sh.file_create_parms.userblock_size + size },
       (h.setInode d.ino ((h.inodes d.ino).store
          (addr + sh.file_create_parms.userblock_size) size buf)).setFd sh.file_handle
         { d with pos := addr + sh.file_create_parms.userblock_size + size }) := by
  obtain ⟨hfd, hopen⟩ := Host.openFd_some h _ d hd
  unfold H5F_block_write
  rw [if_neg (Nat.ne_of_gt hsize)]
  simp only []
  rw [if_neg hintent]
  by_cases hel : (!opt || sh.last_op != OP_WRITE ||
      sh.f_cur_off != addr + sh.file_create_parms.userblock_size) = true
  · simp only [hel, if_true]
    have hd1 : (h.setFd sh.file_handle
        { d with pos := addr + sh.file_create_parms.userblock_size }).openFd sh.file_handle =
        some { d with pos := addr + sh.file_create_parms.userblock_size } :=
      Host.openFd_setFd _ _ _ hopen
    rw [H5F_SEEK_ok h _ _ d hd]
    simp only []
    rw [H5F_WRITE_ok _ _ size buf _ hd1 hw]
    simp only [Host.inodes_setFd, Host.setFd_setInode_setFd]
  · have hel1 : (!opt || sh.last_op != OP_WRITE ||
        sh.f_cur_off != addr + sh.file_create_parms.userblock_size) = false := by
      simpa using hel
    simp only [Bool.or_eq_false_iff, bne_eq_false_iff_eq] at hel1
    obtain ⟨⟨_, hop⟩, hoff⟩ := hel1
    have hpos : d.pos = addr + sh.file_create_parms.userblock_size := by
      rw [← hc hop, hoff]
    rw [if_neg hel]
    rw [H5F_WRITE_ok h _ size buf d hd hw]
    have hsh : ({ sh with f_cur_off := addr + sh.file_create_parms.userblock_size + size }
        : H5F_file_t) = { sh with
          last_op := OP_WRITE
          f_cur_off := addr + sh.file_create_parms.userblock_size + size } := by
      cases sh; simp_all
    simp only [hsh, hpos]

theorem H5F_block_write_no_intent (opt : Bool) (intent : Nat) (sh : H5F_file_t)
    (h : Host) (addr size : Nat) (buf : List Nat)
    (hintent : intent &&& H5F_ACC_WRITE = 0) (hsize : 0 < size) :
    H5F_block_write opt intent sh h addr size buf = (.error .IO_WRITEERROR, sh, h) := by
  unfold H5F_block_write
  simp [Nat.ne_of_gt hsize, hintent]

/-! ### Claims -/

/-- C1 (as stated), refuted: a write of size 0 through a handle whose intent
lacks `H5F_ACC_WRITE` returns success, so it is not true that no write through
such a handle succeeds for every size `>= 0`. -/
theorem C1_counterexample :
    ¬ ∀ (intent : Nat) (sh : H5F_file_t) (h : Host) (addr size : Nat) (buf : List Nat),
        intent &&& H5F_ACC_WRITE = 0 →
        (H5F_block_write true intent sh h addr size buf).1 ≠ .ok () := by
  intro hall
  exact hall 0 sampleShared Host.empty 0 0 [] (by decide) rfl

/-- C1 (amended): for every handle whose intent lacks `H5F_ACC_WRITE`, every
address, every size greater than 0 and every buffer, `H5F_block_write` fails
with `IO/WriteError` and leaves the shared struct and the host untouched,
whatever the flags of the shared struct are. -/
theorem C1_write_without_intent_fails (opt_seek : Bool) (intent : Nat) (sh : H5F_file_t)
    (h : Host) (addr size : Nat) (buf : List Nat)
    (hintent : intent &&& H5F_ACC_WRITE = 0) (hsize : 0 < size) :
    H5F_block_write opt_seek intent sh h addr size buf = (.error .IO_WRITEERROR, sh, h) :=
  H5F_block_write_no_intent opt_seek intent sh h addr size buf hintent hsize

/-- C1 (amended), at a concrete input: intent 0, shared flags with the write
bit, 8 bytes at address 0. -/
theorem C1_write_without_intent_fails_witness :
    ((0 : Nat) &&& H5F_ACC_WRITE = 0 ∧ 0 < 8 ∧ sampleShared.flags &&& H5F_ACC_WRITE ≠ 0) ∧
    H5F_block_write true 0 sampleShared Host.empty 0 8 [1, 2, 3, 4, 5, 6, 7, 8] =
      (.error .IO_WRITEERROR, sampleShared, Host.empty) :=
  ⟨by decide, C1_write_without_intent_fails true 0 sampleShared Host.empty 0 8
    [1, 2, 3, 4, 5, 6, 7, 8] (by decide) (by decide)⟩

/-- C2, evaluated on the code: after `a.bin` was opened twice read-only,
closing the first id returns `SUCCEED`, leaves the shared struct alive with
one reference and the second id registered, but the host descriptor of the
shared struct is closed already, and a read through the second handle fails
with `IO/SeekError`. -/
theorem C2_first_close_closes_host_handle :
    doubleOpenThenClose.1 = (SUCCEED, none) ∧
    (doubleOpenThenClose.2.heap 0).map (fun sh => (sh.nrefs, sh.file_handle)) = some (1, 3) ∧
    H5Aatom_object doubleOpenThenClose.2 1 = some { name := "a.bin", intent := 0, shared := 0 } ∧
    doubleOpenThenClose.2.host.openFd 3 = none ∧
    (doubleOpenThenClose.2.block_read sampleBuild
      { name := "a.bin", intent := 0, shared := 0 } 0 8).1 = .error .IO_SEEKERROR := by
  decide

/-- C3, evaluated on the code: after a read-only open and an upgrading open
of the same file, a read of 8 bytes at address 52 through the first handle
returns the bytes at host offset 0 (the signature) when `H5F_OPT_SEEK` is
defined, and the bytes at host offset 52 when every call seeks. -/
theorem C3_seek_elision_not_transparent :
    readAfterUpgrade sampleBuild = .ok H5F_SIGNATURE ∧
    readAfterUpgrade { sampleBuild with H5F_OPT_SEEK := false } =
      .ok [52, 53, 54, 55, 56, 57, 58, 59] ∧
    sampleFile.bytes 52 8 = [52, 53, 54, 55, 56, 57, 58, 59] := by
  decide

theorem H5F_WRITE_unwritable (h : Host) (fd n : Nat) (buf : List Nat) (d : HostFd)
    (hd : h.openFd fd = some d) (hw : d.writable = false) :
    H5F_WRITE h fd buf n = (false, h) := by
  simp [H5F_WRITE, hd, hw]

theorem H5F_block_write_unwritable (opt : Bool) (intent : Nat) (sh : H5F_file_t) (h : Host)
    (addr size : Nat) (buf : List Nat) (d : HostFd)
    (hd : h.openFd sh.file_handle = some d) (hw : d.writable = false)
    (hsize : 0 < size) :
    (H5F_block_write opt intent sh h addr size buf).1 = .error .IO_WRITEERROR := by
  obtain ⟨hfd, hopen⟩ := Host.openFd_some h _ d hd
  unfold H5F_block_write
  rw [if_neg (Nat.ne_of_gt hsize)]
  simp only []
  split
  · rfl
  · split
    · have hd1 : (h.setFd sh.file_handle
          { d with pos := addr + sh.file_create_parms.userblock_size }).openFd sh.file_handle =
          some { d with pos := addr + sh.file_create_parms.userblock_size } :=
        Host.openFd_setFd _ _ _ hopen
      rw [H5F_SEEK_ok h _ _ d hd]
      simp only []
      rw [H5F_WRITE_unwritable _ _ size buf _ hd1 hw]
    · rw [H5F_WRITE_unwritable _ _ size buf _ hd hw]

theorem coherent_iff (sh : H5F_file_t) (h : Host) :
    coherent sh h = true ↔
      ∃ d, h.openFd sh.file_handle = some d ∧
        (sh.last_op = OP_UNKNOWN ∨ sh.f_cur_off = d.pos) := by
  unfold coherent
  cases h.openFd sh.file_handle with
  | none => simp
  | some d => simp

theorem sharedFile_eq (sh : H5F_file_t) (h : Host) (d : HostFd)
    (hd : h.openFd sh.file_handle = some d) : sharedFile sh h = h.inodes d.ino := by
  obtain ⟨hfd, _⟩ := Host.openFd_some h _ d hd
  simp [sharedFile, hfd]

theorem sharedFile_setFd (sh : H5F_file_t) (h : Host) (fd : Nat) (d : HostFd)
    (hfd : sh.file_handle = fd) : sharedFile sh (h.setFd fd d) = h.inodes d.ino := by
  simp [sharedFile, Host.setFd, hfd]

/-- One call from a coherent state, with no failing host call: the call meets
its postcondition and leaves a coherent state. -/
theorem IOCall.step (opt : Bool) (c : IOCall) (sh : H5F_file_t) (h : Host)
    (hc : coherent sh h = true)
    (hok : ((c.run opt sh h).1.toBool || c.refused) = true) :
    c.post sh h (c.run opt sh h).1 (c.run opt sh h).2.1 (c.run opt sh h).2.2 ∧
      coherent (c.run opt sh h).2.1 (c.run opt sh h).2.2 = true := by
  obtain ⟨d, hd, hcur⟩ := (coherent_iff sh h).1 hc
  obtain ⟨hfd, hopen⟩ := Host.openFd_some h _ d hd
  cases c with
  | read addr size =>
    by_cases hsz : size = 0
    · subst hsz
      simp [IOCall.run, IOCall.post, H5F_block_read, hc]
    · have hpos : 0 < size := Nat.pos_of_ne_zero hsz
      have hcr : sh.last_op = OP_READ → sh.f_cur_off = d.pos := by
        intro hop
        rcases hcur with hu | hu
        · rw [hop] at hu; cases hu
        · exact hu
      by_cases hlen : addr + sh.file_create_parms.userblock_size + size ≤ (h.inodes d.ino).len
      · have hrun := H5F_block_read_ok opt sh h addr size d hd hcr hpos hlen
        dsimp only [IOCall.run]
        rw [hrun]
        dsimp only [IOCall.post]
        have hopen1 : ({ d with pos := addr + sh.file_create_parms.userblock_size + size }
            : HostFd).is_open = true := hopen
        have hd1 := Host.openFd_setFd h sh.file_handle _ hopen1
        refine ⟨?_, ?_⟩
        · intro out hout
          refine ⟨fun h0 => absurd h0 hsz, fun _ => ?_⟩
          simp only [Except.ok.injEq] at hout
          refine ⟨?_, ?_, rfl, ?_⟩
          · rw [← hout, sharedFile_eq sh h d hd]
          · intro j
            have e1 : sharedFile { sh with
                last_op := OP_READ
                f_cur_off := addr + sh.file_create_parms.userblock_size + size }
                (h.setFd sh.file_handle
                  { d with pos := addr + sh.file_create_parms.userblock_size + size }) =
                h.inodes d.ino := sharedFile_setFd _ _ _ _ rfl
            rw [sharedFile_eq sh h d hd, e1]
          · simp [H5F_TELL, hd1]
        · rw [coherent_iff]
          exact ⟨_, hd1, Or.inr rfl⟩
      · have hrun := H5F_block_read_short opt sh h addr size d hd hcr hpos (by omega)
        simp [IOCall.run, hrun, IOCall.refused, Except.toBool] at hok
  | write intent addr size buf =>
    by_cases hsz : size = 0
    · subst hsz
      simp [IOCall.run, IOCall.post, H5F_block_write, hc]
    · have hpos : 0 < size := Nat.pos_of_ne_zero hsz
      by_cases hint : intent &&& H5F_ACC_WRITE = 0
      · have hrun := H5F_block_write_no_intent opt intent sh h addr size buf hint hpos
        simp [IOCall.run, hrun, IOCall.post, hc]
      · have hcw : sh.last_op = OP_WRITE → sh.f_cur_off = d.pos := by
          intro hop
          rcases hcur with hu | hu
          · rw [hop] at hu; cases hu
          · exact hu
        by_cases hw : d.writable = true
        · have hrun := H5F_block_write_ok opt intent sh h addr size buf d hd hw hint hcw hpos
          dsimp only [IOCall.run]
          rw [hrun]
          dsimp only [IOCall.post]
          have hopen1 : ({ d with pos := addr + sh.file_create_parms.userblock_size + size }
              : HostFd).is_open = true := hopen
          have hd1 := Host.openFd_setFd (h.setInode d.ino ((h.inodes d.ino).store
            (addr + sh.file_create_parms.userblock_size) size buf)) sh.file_handle _ hopen1
          refine ⟨?_, ?_⟩
          · intro out _
            refine ⟨fun h0 => absurd h0 hsz, fun _ => ?_⟩
            refine ⟨?_, rfl, ?_⟩
            · intro k hk
              have e1 : sharedFile { sh with
                  last_op := OP_WRITE
                  f_cur_off := addr + sh.file_create_parms.userblock_size + size }
                  ((h.setInode d.ino ((h.inodes d.ino).store
                    (addr + sh.file_create_parms.userblock_size) size buf)).setFd sh.file_handle
                    { d with pos := addr + sh.file_create_parms.userblock_size + size }) =
                  (h.inodes d.ino).store (addr + sh.file_create_parms.userblock_size) size buf := by
                rw [sharedFile_setFd _ _ _ _ rfl]
                simp [Host.setInode]
              rw [e1]
              simp [HostFile.store, hk]
            · simp [H5F_TELL, hd1]
          · rw [coherent_iff]
            exact ⟨_, hd1, Or.inr rfl⟩
        · have hw0 : d.writable = false := by simpa using hw
          have hrun := H5F_block_write_unwritable opt intent sh h addr size buf d hd hw0 hpos
          have hrf : (IOCall.write intent addr size buf).refused = false := by
            simp [IOCall.refused, hint]
          rw [hrf, Bool.or_false] at hok
          revert hok hrun
          simp only [IOCall.run]
          cases H5F_block_write opt intent sh h addr size buf with
          | mk r rest =>
            intro hok hrun
            have hr : r = .error .IO_WRITEERROR := hrun
            subst hr
            simp [Except.toBool] at hok

/-- C4 (as stated), refuted twice.  A successful read of size 0 at address 5
leaves `f_cur_off` at 0, which is not `5 + userblock_size + 0`.  And from the
state after `a.bin` was opened read-only and then with `WRITE`, whose
seek-elision fields do not describe the cursor of the host handle, a read of
8 bytes at address 52, in which every host call succeeds, returns the bytes
at host offset 0 (the signature) and not those at offset 52. -/
theorem C4_counterexample :
    (¬ ∀ (sh : H5F_file_t) (h : Host) (addr size : Nat), coherent sh h = true →
        (H5F_block_read true sh h addr size).1.toBool = true →
        (H5F_block_read true sh h addr size).2.1.f_cur_off =
          addr + sh.file_create_parms.userblock_size + size) ∧
    (coherent (upgradedWorld.deref 0) upgradedWorld.host = false ∧
      hostOpsSucceed true [.read 52 8] (upgradedWorld.deref 0) upgradedWorld.host = true ∧
      (upgradedWorld.deref 0).file_create_parms.userblock_size = 0 ∧
      (H5F_block_read true (upgradedWorld.deref 0) upgradedWorld.host 52 8).1 =
        .ok H5F_SIGNATURE ∧
      (sharedFile (upgradedWorld.deref 0) upgradedWorld.host).bytes 52 8 =
        [52, 53, 54, 55, 56, 57, 58, 59]) := by
  refine ⟨?_, by decide⟩
  intro hall
  have h5 := hall sampleShared scratchHost 5 0 (by decide) (by decide)
  revert h5
  decide

/-- From a state whose seek-elision fields describe the host cursor, along a
sequence of calls in which no host seek, read or write fails, every call
meets its postcondition. -/
theorem tracePost_of_coherent (opt : Bool) (cs : List IOCall)
    (sh : H5F_file_t) (h : Host) (hc : coherent sh h = true)
    (hops : hostOpsSucceed opt cs sh h = true) : tracePost opt cs sh h := by
  induction cs generalizing sh h with
  | nil => trivial
  | cons c cs ih =>
    simp only [hostOpsSucceed, Bool.and_eq_true] at hops
    obtain ⟨hpost, hcoh⟩ := IOCall.step opt c sh h hc hops.1
    exact ⟨hpost, ih _ _ hcoh hops.2⟩

/-- C4 (amended): from a state whose seek-elision fields describe the host
cursor, along every sequence of reads and writes in which no host seek, read
or write fails and every sum `addr + userblock_size + size` stays inside
`haddr_t` (so that the sums of the source do not overflow), every successful
call of size greater than 0 does its work at host offset
`addr + userblock_size` (a write stores the buffer there, a read returns the
host bytes there and leaves the file as it was), whether or not `H5F_OPT_SEEK`
is defined, and afterwards `f_cur_off` is `addr + userblock_size + size` and
equals the host cursor; a call of size 0 changes nothing. -/
theorem C4_block_io_goes_to_physical_offset (B : Build) (opt : Bool) (cs : List IOCall)
    (sh : H5F_file_t) (h : Host) (hc : coherent sh h = true) :
    addrsFit B sh cs = true → hostOpsSucceed opt cs sh h = true → tracePost opt cs sh h :=
  fun _ hops => tracePost_of_coherent opt cs sh h hc hops

/-- C4 (amended), at a concrete input: on an empty file, write 4 bytes at
address 8, write 4 more at address 12 (the seek is elided), read the 8 bytes
back, and issue a read of size 0. -/
theorem C4_block_io_goes_to_physical_offset_witness :
    (coherent sampleShared scratchHost = true ∧
      addrsFit sampleBuild sampleShared
        [.write 1 8 4 [1, 2, 3, 4], .write 1 12 4 [5, 6, 7, 8], .read 8 8, .read 5 0] = true ∧
      hostOpsSucceed true
        [.write 1 8 4 [1, 2, 3, 4], .write 1 12 4 [5, 6, 7, 8], .read 8 8, .read 5 0]
        sampleShared scratchHost = true) ∧
    tracePost true
      [.write 1 8 4 [1, 2, 3, 4], .write 1 12 4 [5, 6, 7, 8], .read 8 8, .read 5 0]
      sampleShared scratchHost :=
  ⟨by decide, C4_block_io_goes_to_physical_offset sampleBuild true _ sampleShared scratchHost
    (by decide) (by decide) (by decide)⟩

/-! ### Boot-block codec -/

theorem leEncode_length (n v : Nat) : (leEncode n v).length = n := by
  induction n generalizing v with
  | zero => rfl
  | succ n ih => simp [leEncode, ih]

theorem leDecode_leEncode (n v : Nat) : leDecode (leEncode n v) = v % 256 ^ n := by
  induction n generalizing v with
  | zero => simp [leEncode, leDecode, Nat.mod_one]
  | succ n ih =>
    simp only [leEncode, leDecode, ih]
    rw [pow_succ, Nat.mul_comm (256 ^ n) 256, Nat.mod_mul]

theorem leDecode_leEncode_of_lt (n v : Nat) (hv : v < 256 ^ n) :
    leDecode (leEncode n v) = v := by
  rw [leDecode_leEncode, Nat.mod_eq_of_lt hv]

theorem leDecode_take_append (n v : Nat) (rest : List Nat) (hv : v < 256 ^ n) :
    leDecode ((leEncode n v ++ rest).take n) = v := by
  rw [List.take_left' (leEncode_length n v), leDecode_leEncode_of_lt n v hv]

theorem drop_leEncode_append (n v : Nat) (rest : List Nat) :
    (leEncode n v ++ rest).drop n = rest :=
  List.drop_left' (leEncode_length n v)

/-- The bytes after the first 24 of the encoded boot block. -/
theorem H5F_flush_encode_drop (B : Build) (sh : H5F_file_t) :
    (H5F_flush_encode B sh).drop 24 =
      H5F_encode_offset sh.file_create_parms sh.smallobj_off ++
      (H5F_encode_offset sh.file_create_parms sh.freespace_off ++
      (H5F_encode_length sh.file_create_parms sh.logical_len ++
      B.H5G_ent_encode sh.file_create_parms sh.root_sym)) := by
  simp [H5F_flush_encode, H5F_SIGNATURE, UINT16ENCODE, UINT32ENCODE, leEncode]

/-- The first 24 bytes of the encoded boot block. -/
theorem H5F_flush_encode_take (B : Build) (sh : H5F_file_t) :
    (H5F_flush_encode B sh).take 24 =
      [137, 72, 68, 70, 13, 10, 26, 10,
       sh.file_create_parms.bootblock_ver % 256, sh.file_create_parms.smallobject_ver % 256,
       sh.file_create_parms.freespace_ver % 256, sh.file_create_parms.objectdir_ver % 256,
       sh.file_create_parms.sharedheader_ver % 256,
       sh.file_create_parms.offset_size % 256, sh.file_create_parms.length_size % 256, 0,
       sh.file_create_parms.sym_leaf_k % 256, sh.file_create_parms.sym_leaf_k / 256 % 256,
       sh.file_create_parms.btree_k % 256, sh.file_create_parms.btree_k / 256 % 256,
       sh.consist_flags % 256, sh.consist_flags / 256 % 256,
       sh.consist_flags / 256 / 256 % 256, sh.consist_flags / 256 / 256 / 256 % 256] := by
  simp [H5F_flush_encode, H5F_SIGNATURE, UINT16ENCODE, UINT32ENCODE, leEncode]

/-- Decoding the variable part that `H5F_flush` encodes. -/
theorem H5F_open_decode_variable_encode (B : Build) (sh sh1 : H5F_file_t)
    (hos : sh1.file_create_parms.offset_size = sh.file_create_parms.offset_size)
    (hls : sh1.file_create_parms.length_size = sh.file_create_parms.length_size)
    (hso : sh.smallobj_off < 256 ^ sh.file_create_parms.offset_size)
    (hfo : sh.freespace_off < 256 ^ sh.file_create_parms.offset_size)
    (hll : sh.logical_len < 256 ^ sh.file_create_parms.length_size)
    (hroot : B.H5G_ent_decode sh1.file_create_parms
      (B.H5G_ent_encode sh.file_create_parms sh.root_sym) = some sh.root_sym) :
    H5F_open_decode_variable B sh1 ((H5F_flush_encode B sh).drop 24) =
      .ok { sh1 with
        smallobj_off := sh.smallobj_off
        freespace_off := sh.freespace_off
        logical_len := sh.logical_len
        root_sym := sh.root_sym } := by
  rw [H5F_flush_encode_drop]
  unfold H5F_open_decode_variable
  simp only [H5F_decode_offset, H5F_decode_length, H5F_encode_offset, H5F_encode_length, hos, hls,
    drop_leEncode_append, leDecode_take_append _ _ _ hso, leDecode_take_append _ _ _ hfo,
    leDecode_take_append _ _ _ hll, hroot]

/-- Decoding the fixed part that `H5F_flush` encodes. -/
theorem H5F_open_decode_fixed_encode (B : Build) (sh sh0 : H5F_file_t)
    (hv1 : sh.file_create_parms.bootblock_ver = HDF5_BOOTBLOCK_VERSION)
    (hv2 : sh.file_create_parms.smallobject_ver = HDF5_SMALLOBJECT_VERSION)
    (hv3 : sh.file_create_parms.freespace_ver = HDF5_FREESPACE_VERSION)
    (hv4 : sh.file_create_parms.objectdir_ver = HDF5_OBJECTDIR_VERSION)
    (hv5 : sh.file_create_parms.sharedheader_ver = HDF5_SHAREDHEADER_VERSION)
    (hos : sh.file_create_parms.offset_size = 2 ∨ sh.file_create_parms.offset_size = 4 ∨
      sh.file_create_parms.offset_size = 8)
    (hls : sh.file_create_parms.length_size = 2 ∨ sh.file_create_parms.length_size = 4 ∨
      sh.file_create_parms.length_size = 8)
    (hk1 : 1 ≤ sh.file_create_parms.sym_leaf_k ∧ sh.file_create_parms.sym_leaf_k ≤ 65535)
    (hk2 : 1 ≤ sh.file_create_parms.btree_k ∧ sh.file_create_parms.btree_k ≤ 65535)
    (hcf : sh.consist_flags < 2 ^ 32) :
    H5F_open_decode_fixed sh0 ((H5F_flush_encode B sh).take 24) =
      .ok { sh0 with
        file_create_parms :=
          { sh.file_create_parms with userblock_size := sh0.file_create_parms.userblock_size }
        consist_flags := sh.consist_flags } := by
  rw [H5F_flush_encode_take]
  obtain ⟨key, flags, fh, nrefs, ⟨ub, slk, bk, os, ls, v1, v2, v3, v4, v5⟩, cf, so, fo, ll, root,
    lop, fco⟩ := sh
  simp only [HDF5_BOOTBLOCK_VERSION, HDF5_SMALLOBJECT_VERSION, HDF5_FREESPACE_VERSION,
    HDF5_OBJECTDIR_VERSION, HDF5_SHAREDHEADER_VERSION] at hv1 hv2 hv3 hv4 hv5
  simp only at hos hls hk1 hk2 hcf
  subst hv1 hv2 hv3 hv4 hv5
  have e1 : slk % 256 + 256 * (slk / 256 % 256) = slk := by omega
  have e2 : bk % 256 + 256 * (bk / 256 % 256) = bk := by omega
  have e3 : cf % 256 + 256 * (cf / 256 % 256 + 256 * (cf / 256 / 256 % 256 +
      256 * (cf / 256 / 256 / 256 % 256))) = cf := by omega
  have hs1 : ¬ slk < 1 := by omega
  have hs2 : ¬ bk < 1 := by omega
  rcases hos with rfl | rfl | rfl <;> rcases hls with rfl | rfl | rfl <;>
    simp [H5F_open_decode_fixed, HDF5_BOOTBLOCK_VERSION, HDF5_SMALLOBJECT_VERSION,
      HDF5_FREESPACE_VERSION, HDF5_OBJECTDIR_VERSION, HDF5_SHAREDHEADER_VERSION,
      UINT16DECODE, UINT32DECODE, leDecode, e1, e2, e3, hs1, hs2]

/-! ### Claims, continued -/

/-- C5: boot-block round trip.  For a shared struct with the accepted version
bytes, `offset_size` and `length_size` in {2, 4, 8}, both `k` values between 1
and 65535 and offsets and length that fit their encoded widths, the buffer
that `H5F_flush` encodes starts with the signature, and the decode path of
`H5F_open` (fixed part on the first 24 bytes, variable part on the rest)
succeeds and yields the same version bytes, sizes, `k` values,
`consist_flags`, `smallobj_off`, `freespace_off`, `logical_len` and (the root
codec round-tripping) root entry. -/
theorem C5_bootblock_roundtrip (B : Build) (sh sh0 : H5F_file_t)
    (hv1 : sh.file_create_parms.bootblock_ver = HDF5_BOOTBLOCK_VERSION)
    (hv2 : sh.file_create_parms.smallobject_ver = HDF5_SMALLOBJECT_VERSION)
    (hv3 : sh.file_create_parms.freespace_ver = HDF5_FREESPACE_VERSION)
    (hv4 : sh.file_create_parms.objectdir_ver = HDF5_OBJECTDIR_VERSION)
    (hv5 : sh.file_create_parms.sharedheader_ver = HDF5_SHAREDHEADER_VERSION)
    (hos : sh.file_create_parms.offset_size = 2 ∨ sh.file_create_parms.offset_size = 4 ∨
      sh.file_create_parms.offset_size = 8)
    (hls : sh.file_create_parms.length_size = 2 ∨ sh.file_create_parms.length_size = 4 ∨
      sh.file_create_parms.length_size = 8)
    (hk1 : 1 ≤ sh.file_create_parms.sym_leaf_k ∧ sh.file_create_parms.sym_leaf_k ≤ 65535)
    (hk2 : 1 ≤ sh.file_create_parms.btree_k ∧ sh.file_create_parms.btree_k ≤ 65535)
    (hcf : sh.consist_flags < 2 ^ 32)
    (hso : sh.smallobj_off < 256 ^ sh.file_create_parms.offset_size)
    (hfo : sh.freespace_off < 256 ^ sh.file_create_parms.offset_size)
    (hll : sh.logical_len < 256 ^ sh.file_create_parms.length_size)
    (hroot : B.H5G_ent_decode
      { sh.file_create_parms with userblock_size := sh0.file_create_parms.userblock_size }
      (B.H5G_ent_encode sh.file_create_parms sh.root_sym) = some sh.root_sym) :
    (H5F_flush_encode B sh).take 8 = H5F_SIGNATURE ∧
    ∃ sh1 sh2,
      H5F_open_decode_fixed sh0 ((H5F_flush_encode B sh).take 24) = .ok sh1 ∧
      H5F_open_decode_variable B sh1 ((H5F_flush_encode B sh).drop 24) = .ok sh2 ∧
      sh2.file_create_parms.bootblock_ver = sh.file_create_parms.bootblock_ver ∧
      sh2.file_create_parms.smallobject_ver = sh.file_create_parms.smallobject_ver ∧
      sh2.file_create_parms.freespace_ver = sh.file_create_parms.freespace_ver ∧
      sh2.file_create_parms.objectdir_ver = sh.file_create_parms.objectdir_ver ∧
      sh2.file_create_parms.sharedheader_ver = sh.file_create_parms.sharedheader_ver ∧
      sh2.file_create_parms.offset_size = sh.file_create_parms.offset_size ∧
      sh2.file_create_parms.length_size = sh.file_create_parms.length_size ∧
      sh2.file_create_parms.sym_leaf_k = sh.file_create_parms.sym_leaf_k ∧
      sh2.file_create_parms.btree_k = sh.file_create_parms.btree_k ∧
      sh2.consist_flags = sh.consist_flags ∧
      sh2.smallobj_off = sh.smallobj_off ∧
      sh2.freespace_off = sh.freespace_off ∧
      sh2.logical_len = sh.logical_len ∧
      sh2.root_sym = sh.root_sym := by
  refine ⟨by simp [H5F_flush_encode, H5F_SIGNATURE], _, _,
    H5F_open_decode_fixed_encode B sh sh0 hv1 hv2 hv3 hv4 hv5 hos hls hk1 hk2 hcf,
    H5F_open_decode_variable_encode B sh _ rfl rfl hso hfo hll hroot, ?_⟩
  simp

/-- C5 at a concrete input: 4-byte offsets and lengths, `sym_leaf_k = 4`,
`btree_k = 16`, `consist_flags = 3`, `smallobj_off = 1000`,
`freespace_off = 70000`, `logical_len = 4096`. -/
theorem C5_bootblock_roundtrip_witness :
    (H5F_flush_encode sampleBuild sampleFlushed).take 8 = H5F_SIGNATURE ∧
    ∃ sh1 sh2,
      H5F_open_decode_fixed H5F_file_t.calloc
        ((H5F_flush_encode sampleBuild sampleFlushed).take 24) = .ok sh1 ∧
      H5F_open_decode_variable sampleBuild sh1
        ((H5F_flush_encode sampleBuild sampleFlushed).drop 24) = .ok sh2 ∧
      sh2.file_create_parms.bootblock_ver = sampleFlushed.file_create_parms.bootblock_ver ∧
      sh2.file_create_parms.smallobject_ver = sampleFlushed.file_create_parms.smallobject_ver ∧
      sh2.file_create_parms.freespace_ver = sampleFlushed.file_create_parms.freespace_ver ∧
      sh2.file_create_parms.objectdir_ver = sampleFlushed.file_create_parms.objectdir_ver ∧
      sh2.file_create_parms.sharedheader_ver =
        sampleFlushed.file_create_parms.sharedheader_ver ∧
      sh2.file_create_parms.offset_size = sampleFlushed.file_create_parms.offset_size ∧
      sh2.file_create_parms.length_size = sampleFlushed.file_create_parms.length_size ∧
      sh2.file_create_parms.sym_leaf_k = sampleFlushed.file_create_parms.sym_leaf_k ∧
      sh2.file_create_parms.btree_k = sampleFlushed.file_create_parms.btree_k ∧
      sh2.consist_flags = sampleFlushed.consist_flags ∧
      sh2.smallobj_off = sampleFlushed.smallobj_off ∧
      sh2.freespace_off = sampleFlushed.freespace_off ∧
      sh2.logical_len = sampleFlushed.logical_len ∧
      sh2.root_sym = sampleFlushed.root_sym :=
  C5_bootblock_roundtrip sampleBuild sampleFlushed H5F_file_t.calloc rfl rfl rfl rfl rfl
    (by decide) (by decide) (by decide) (by decide) (by decide) (by decide) (by decide)
    (by decide) (by decide)

/-! ### The boot-block scan -/

theorem H5F_open_decode_fixed_eq (sh : H5F_file_t) (buf : List Nat) :
    H5F_open_decode_fixed sh buf =
      if fixedBad buf = true then .error .FILE_CANTOPENFILE
      else .ok { sh with
        file_create_parms := fixedParms sh.file_create_parms.userblock_size buf
        consist_flags := UINT32DECODE (buf.drop 20) } := by
  unfold H5F_open_decode_fixed fixedBad fixedParms
  simp only [Bool.or_eq_true, bne_iff_ne, ne_eq, Bool.not_eq_true', decide_eq_true_eq,
    Bool.or_eq_false_iff, beq_eq_false_iff_ne]
  split_ifs <;> first | (simp_all; done) | (simp_all; tauto)

theorem HostFile.bytes_take (file : HostFile) (off n m : Nat) (hm : m ≤ n) :
    (file.bytes off n).take m = file.bytes off m := by
  simp only [HostFile.bytes, ← List.map_take, List.take_range, Nat.min_eq_left hm]

theorem HostFile.bytes_length (file : HostFile) (off n : Nat) :
    (file.bytes off n).length = n := by
  simp [HostFile.bytes]

theorem scanShared_self (sh0 : H5F_file_t) :
    scanShared sh0 sh0.file_create_parms.userblock_size sh0.last_op sh0.f_cur_off = sh0 := rfl

/-- A read during the scan, in terms of the struct and host at scan entry. -/
theorem H5F_block_read_scan (opt : Bool) (sh0 : H5F_file_t) (h0 : Host) (d0 : HostFd)
    (hopen : d0.is_open = true) (a n u c pos : Nat) (o : H5F_fileop_t)
    (hco : o = OP_READ → c = pos) (hn : 0 < n)
    (hlen : a + u + n ≤ (h0.inodes d0.ino).len) :
    H5F_block_read opt (scanShared sh0 u o c)
        (h0.setFd sh0.file_handle { d0 with pos := pos }) a n =
      (.ok ((h0.inodes d0.ino).bytes (a + u) n),
       scanShared sh0 u OP_READ (a + u + n),
       h0.setFd sh0.file_handle { d0 with pos := a + u + n }) := by
  have hd : (h0.setFd sh0.file_handle { d0 with pos := pos }).openFd
      (scanShared sh0 u o c).file_handle = some { d0 with pos := pos } :=
    Host.openFd_setFd _ _ _ hopen
  rw [H5F_block_read_ok opt (scanShared sh0 u o c)
    (h0.setFd sh0.file_handle { d0 with pos := pos }) a n { d0 with pos := pos } hd hco hn
    (by simpa [scanShared, Host.setFd] using hlen)]
  simp only [Host.inodes_setFd]
  have e : (scanShared sh0 u o c).file_handle = sh0.file_handle := rfl
  rw [e, Host.setFd_setFd]
  rfl

/-- One iteration of the scan at a candidate that does not carry the signature. -/
theorem H5F_open_scan_mismatch (B : Build) (sh0 : H5F_file_t) (h0 : Host) (d0 : HostFd)
    (hopen : d0.is_open = true) (n i u c pos : Nat) (o : H5F_fileop_t)
    (hco : o = OP_READ → c = pos)
    (hlen : H5F_open_candidate B i + 24 ≤ (h0.inodes d0.ino).len)
    (hsig : (h0.inodes d0.ino).bytes (H5F_open_candidate B i) 8 ≠ H5F_SIGNATURE) :
    H5F_open_scan B (n + 1) i (scanShared sh0 u o c)
        (h0.setFd sh0.file_handle { d0 with pos := pos }) =
      H5F_open_scan B n (i + 1)
        (scanShared sh0 (H5F_open_candidate B i) OP_READ (H5F_open_candidate B i + 24))
        (h0.setFd sh0.file_handle { d0 with pos := H5F_open_candidate B i + 24 }) := by
  have hread := H5F_block_read_scan B.H5F_OPT_SEEK sh0 h0 d0 hopen 0 24
    (H5F_open_candidate B i) c pos o hco (by decide) (by simpa using hlen)
  simp only [Nat.zero_add] at hread
  rw [H5F_open_scan]
  have hsh : ({ scanShared sh0 u o c with file_create_parms :=
      { (scanShared sh0 u o c).file_create_parms with
        userblock_size := H5F_open_candidate B i } } : H5F_file_t) =
      scanShared sh0 (H5F_open_candidate B i) o c := rfl
  simp only [hsh, hread, HostFile.bytes_take _ _ 24 8 (by decide), hsig, ne_eq,
    not_false_eq_true, if_true]

theorem variable_size_pos (B : Build) (c : Nat) (F : List Nat) (hbad : fixedBad F = false) :
    0 < H5F_open_variable_size B (fixedParms c F) := by
  unfold fixedBad at hbad
  simp only [Bool.or_eq_false_iff, Bool.not_eq_false', Bool.or_eq_true, beq_iff_eq] at hbad
  have hos := hbad.1.1.1.2
  simp only [H5F_open_variable_size, fixedParms]
  omega

/-- The iteration of the scan at a candidate that carries the signature. -/
theorem H5F_open_scan_match (B : Build) (sh0 : H5F_file_t) (h0 : Host) (d0 : HostFd)
    (hopen : d0.is_open = true) (n i u c pos : Nat) (o : H5F_fileop_t) (ent : List Nat)
    (hco : o = OP_READ → c = pos)
    (hlen : H5F_open_candidate B i + 24 ≤ (h0.inodes d0.ino).len)
    (hsig : (h0.inodes d0.ino).bytes (H5F_open_candidate B i) 8 = H5F_SIGNATURE)
    (hvar : fixedBad ((h0.inodes d0.ino).bytes (H5F_open_candidate B i) 24) = false →
      H5F_open_candidate B i + 24 + H5F_open_variable_size B
          (fixedParms (H5F_open_candidate B i)
            ((h0.inodes d0.ino).bytes (H5F_open_candidate B i) 24)) ≤ (h0.inodes d0.ino).len ∧
      B.H5G_ent_decode
          (fixedParms (H5F_open_candidate B i)
            ((h0.inodes d0.ino).bytes (H5F_open_candidate B i) 24))
          (rootBytes (fixedParms (H5F_open_candidate B i)
            ((h0.inodes d0.ino).bytes (H5F_open_candidate B i) 24))
            ((h0.inodes d0.ino).bytes (H5F_open_candidate B i + 24)
              (H5F_open_variable_size B (fixedParms (H5F_open_candidate B i)
                ((h0.inodes d0.ino).bytes (H5F_open_candidate B i) 24))))) = some ent) :
    H5F_open_scan B (n + 1) i (scanShared sh0 u o c)
        (h0.setFd sh0.file_handle { d0 with pos := pos }) =
      if fixedBad ((h0.inodes d0.ino).bytes (H5F_open_candidate B i) 24) = true then
        (.error .FILE_CANTOPENFILE,
         scanShared sh0 (H5F_open_candidate B i) OP_READ (H5F_open_candidate B i + 24),
         h0.setFd sh0.file_handle { d0 with pos := H5F_open_candidate B i + 24 })
      else
        (.ok (),
         decodedShared B sh0 (H5F_open_candidate B i)
           ((h0.inodes d0.ino).bytes (H5F_open_candidate B i) 24)
           ((h0.inodes d0.ino).bytes (H5F_open_candidate B i + 24)
              (H5F_open_variable_size B (fixedParms (H5F_open_candidate B i)
                ((h0.inodes d0.ino).bytes (H5F_open_candidate B i) 24)))) ent,
         h0.setFd sh0.file_handle
           { d0 with
             pos := H5F_open_candidate B i + 24 +
               H5F_open_variable_size B (fixedParms (H5F_open_candidate B i)
                 ((h0.inodes d0.ino).bytes (H5F_open_candidate B i) 24)) }) := by
  generalize hcand : H5F_open_candidate B i = cand at *
  generalize hF : (h0.inodes d0.ino).bytes cand 24 = F at *
  have hread := H5F_block_read_scan B.H5F_OPT_SEEK sh0 h0 d0 hopen 0 24
    cand c pos o hco (by decide) (by simpa using hlen)
  simp only [Nat.zero_add, hF] at hread
  rw [H5F_open_scan]
  have hsh : ({ scanShared sh0 u o c with file_create_parms :=
      { (scanShared sh0 u o c).file_create_parms with
        userblock_size := H5F_open_candidate B i } } : H5F_file_t) =
      scanShared sh0 cand o c := by rw [hcand]; rfl
  have htake : F.take 8 = H5F_SIGNATURE := by
    rw [← hF, HostFile.bytes_take _ _ 24 8 (by decide), hsig]
  simp only [hsh, hread, htake, ne_eq, not_true_eq_false, if_false, H5F_open_decode_fixed_eq]
  by_cases hbad : fixedBad F = true
  · simp only [hbad, if_true]
  · have hbad0 : fixedBad F = false := by simpa using hbad
    obtain ⟨hvlen, hroot⟩ := hvar hbad0
    simp only [hbad0, Bool.false_eq_true, if_false]
    have hsh2 : ({ scanShared sh0 cand OP_READ (cand + 24) with
        file_create_parms := fixedParms cand F
        consist_flags := UINT32DECODE (F.drop 20) } : H5F_file_t) =
        scanShared { sh0 with
          file_create_parms := fixedParms cand F
          consist_flags := UINT32DECODE (F.drop 20) } cand OP_READ (cand + 24) := rfl
    have hread2 := H5F_block_read_scan B.H5F_OPT_SEEK
      { sh0 with file_create_parms := fixedParms cand F
                 consist_flags := UINT32DECODE (F.drop 20) } h0 d0 hopen 24
      (H5F_open_variable_size B (fixedParms cand F)) cand (cand + 24) (cand + 24) OP_READ
      (fun _ => rfl) (variable_size_pos B cand F hbad0) (by omega)
    have hcp : (scanShared { sh0 with
          file_create_parms := fixedParms cand F
          consist_flags := UINT32DECODE (F.drop 20) } cand OP_READ
          (cand + 24)).file_create_parms = fixedParms cand F := rfl
    simp only [Nat.add_comm 24 cand] at hread2
    have hub : (scanShared sh0 cand OP_READ (cand + 24)).file_create_parms.userblock_size =
        cand := rfl
    rw [hub, hsh2, hread2]
    simp only [H5F_open_decode_variable]
    have hcp2 : (scanShared { sh0 with
          file_create_parms := fixedParms cand F
          consist_flags := UINT32DECODE (F.drop 20) } cand OP_READ
          (cand + 24 + H5F_open_variable_size B (fixedParms cand F))).file_create_parms =
        fixedParms cand F := rfl
    rw [hcp2]
    unfold rootBytes at hroot
    rw [hroot]
    rfl

/-- Iterations of the scan over candidates that can be read and do not carry
the signature only change the user-block size and the seek-elision state. -/
theorem H5F_open_scan_skip (B : Build) (sh0 : H5F_file_t) (h0 : Host) (d0 : HostFd)
    (hopen : d0.is_open = true) (k : Nat) :
    ∀ (n i u c pos : Nat) (o : H5F_fileop_t), (o = OP_READ → c = pos) →
      (∀ j, i ≤ j → j < i + k →
        H5F_open_candidate B j + 24 ≤ (h0.inodes d0.ino).len ∧
        (h0.inodes d0.ino).bytes (H5F_open_candidate B j) 8 ≠ H5F_SIGNATURE) →
      ∃ (u1 c1 pos1 : Nat) (o1 : H5F_fileop_t), (o1 = OP_READ → c1 = pos1) ∧
        H5F_open_scan B (n + k) i (scanShared sh0 u o c)
            (h0.setFd sh0.file_handle { d0 with pos := pos }) =
          H5F_open_scan B n (i + k) (scanShared sh0 u1 o1 c1)
            (h0.setFd sh0.file_handle { d0 with pos := pos1 }) := by
  induction k with
  | zero =>
    intro n i u c pos o hco _
    exact ⟨u, c, pos, o, hco, rfl⟩
  | succ k ih =>
    intro n i u c pos o hco hall
    obtain ⟨hlen, hsig⟩ := hall i (Nat.le_refl i) (by omega)
    obtain ⟨u1, c1, pos1, o1, hco1, heq⟩ := ih n (i + 1) (H5F_open_candidate B i) 
      (H5F_open_candidate B i + 24) (H5F_open_candidate B i + 24) OP_READ (fun _ => rfl)
      (fun j hj1 hj2 => hall j (by omega) (by omega))
    refine ⟨u1, c1, pos1, o1, hco1, ?_⟩
    have hstep := H5F_open_scan_mismatch B sh0 h0 d0 hopen (n + k) i u c pos o hco hlen hsig
    have e1 : n + (k + 1) = n + k + 1 := by omega
    have e2 : i + (k + 1) = i + 1 + k := by omega
    rw [e1, hstep, heq, e2]

/-- The scan falls out of its loop when every candidate can be read and none
carries the signature: it returns success. -/
theorem H5F_open_scan_exhaust (B : Build) (sh0 : H5F_file_t) (h0 : Host) (d0 : HostFd)
    (hd0 : h0.openFd sh0.file_handle = some d0)
    (hcoh : sh0.last_op = OP_READ → sh0.f_cur_off = d0.pos) (n : Nat)
    (hall : ∀ j, 8 ≤ j → j < 8 + n →
      H5F_open_candidate B j + 24 ≤ (h0.inodes d0.ino).len ∧
      (h0.inodes d0.ino).bytes (H5F_open_candidate B j) 8 ≠ H5F_SIGNATURE) :
    ∃ (u1 c1 pos1 : Nat) (o1 : H5F_fileop_t),
      H5F_open_scan B n 8 sh0 h0 =
        (.ok (), scanShared sh0 u1 o1 c1, h0.setFd sh0.file_handle { d0 with pos := pos1 }) := by
  obtain ⟨hfd, hopen⟩ := Host.openFd_some h0 _ d0 hd0
  obtain ⟨u1, c1, pos1, o1, _, heq⟩ := H5F_open_scan_skip B sh0 h0 d0 hopen n 0 8
    sh0.file_create_parms.userblock_size sh0.f_cur_off d0.pos sh0.last_op hcoh hall
  refine ⟨u1, c1, pos1, o1, ?_⟩
  rw [scanShared_self, Host.setFd_self h0 _ d0 hfd, Nat.zero_add] at heq
  rw [heq, H5F_open_scan]

/-- The scan when the first candidate that carries the signature is the one of
iteration `i0`: the result is decided by the fixed part found there. -/
theorem H5F_open_scan_found (B : Build) (sh0 : H5F_file_t) (h0 : Host) (d0 : HostFd)
    (hd0 : h0.openFd sh0.file_handle = some d0)
    (hcoh : sh0.last_op = OP_READ → sh0.f_cur_off = d0.pos) (n i0 : Nat) (ent : List Nat)
    (hi0 : 8 ≤ i0) (hn : i0 < 8 + n)
    (hbefore : ∀ j, 8 ≤ j → j < i0 →
      H5F_open_candidate B j + 24 ≤ (h0.inodes d0.ino).len ∧
      (h0.inodes d0.ino).bytes (H5F_open_candidate B j) 8 ≠ H5F_SIGNATURE)
    (hlen : H5F_open_candidate B i0 + 24 ≤ (h0.inodes d0.ino).len)
    (hsig : (h0.inodes d0.ino).bytes (H5F_open_candidate B i0) 8 = H5F_SIGNATURE)
    (hvar : fixedBad ((h0.inodes d0.ino).bytes (H5F_open_candidate B i0) 24) = false →
      H5F_open_candidate B i0 + 24 + H5F_open_variable_size B
          (fixedParms (H5F_open_candidate B i0)
            ((h0.inodes d0.ino).bytes (H5F_open_candidate B i0) 24)) ≤ (h0.inodes d0.ino).len ∧
      B.H5G_ent_decode
          (fixedParms (H5F_open_candidate B i0)
            ((h0.inodes d0.ino).bytes (H5F_open_candidate B i0) 24))
          (rootBytes (fixedParms (H5F_open_candidate B i0)
            ((h0.inodes d0.ino).bytes (H5F_open_candidate B i0) 24))
            ((h0.inodes d0.ino).bytes (H5F_open_candidate B i0 + 24)
              (H5F_open_variable_size B (fixedParms (H5F_open_candidate B i0)
                ((h0.inodes d0.ino).bytes (H5F_open_candidate B i0) 24))))) = some ent) :
    H5F_open_scan B n 8 sh0 h0 =
      if fixedBad ((h0.inodes d0.ino).bytes (H5F_open_candidate B i0) 24) = true then
        (.error .FILE_CANTOPENFILE,
         scanShared sh0 (H5F_open_candidate B i0) OP_READ (H5F_open_candidate B i0 + 24),
         h0.setFd sh0.file_handle { d0 with pos := H5F_open_candidate B i0 + 24 })
      else
        (.ok (),
         decodedShared B sh0 (H5F_open_candidate B i0)
           ((h0.inodes d0.ino).bytes (H5F_open_candidate B i0) 24)
           ((h0.inodes d0.ino).bytes (H5F_open_candidate B i0 + 24)
              (H5F_open_variable_size B (fixedParms (H5F_open_candidate B i0)
                ((h0.inodes d0.ino).bytes (H5F_open_candidate B i0) 24)))) ent,
         h0.setFd sh0.file_handle
           { d0 with
             pos := H5F_open_candidate B i0 + 24 +
               H5F_open_variable_size B (fixedParms (H5F_open_candidate B i0)
                 ((h0.inodes d0.ino).bytes (H5F_open_candidate B i0) 24)) }) := by
  obtain ⟨hfd, hopen⟩ := Host.openFd_some h0 _ d0 hd0
  obtain ⟨u1, c1, pos1, o1, hco1, heq⟩ := H5F_open_scan_skip B sh0 h0 d0 hopen (i0 - 8)
    (n - (i0 - 8)) 8 sh0.file_create_parms.userblock_size sh0.f_cur_off d0.pos sh0.last_op hcoh
    (fun j hj1 hj2 => hbefore j hj1 (by omega))
  rw [scanShared_self, Host.setFd_self h0 _ d0 hfd] at heq
  have e1 : n - (i0 - 8) + (i0 - 8) = n := by omega
  have e2 : 8 + (i0 - 8) = i0 := by omega
  have e3 : n - (i0 - 8) = (n - (i0 - 8) - 1) + 1 := by omega
  rw [e1, e2, e3] at heq
  rw [heq]
  exact H5F_open_scan_match B sh0 h0 d0 hopen _ i0 u1 c1 pos1 o1 ent hco1 hlen hsig hvar

/-! ### The open engine on an existing file that is not open -/

theorem H5F_SEEKEND_ok (h : Host) (fd : Nat) (d : HostFd) (hd : h.openFd fd = some d) :
    H5F_SEEKEND h fd = some (h.setFd fd { d with pos := (h.inodes d.ino).len }) := by
  simp [H5F_SEEKEND, hd]

theorem H5F_TELL_ok (h : Host) (fd : Nat) (d : HostFd) (hd : h.openFd fd = some d) :
    H5F_TELL h fd = d.pos := by
  simp [H5F_TELL, hd]

/-- The first half of `H5F_open` for an existing, accessible file that is not
open, without `EXCL` and `TRUNC`, when the host open succeeds. -/
theorem H5F_open_fresh (B : Build) (env : Env) (name : String) (flags : Nat)
    (create_parms : file_create_temp_t) (w : World) (key : Nat × Nat)
    (hstat : stat w.host name = some key)
    (hexcl : flags &&& H5F_ACC_EXCL = 0)
    (htrunc : flags &&& H5F_ACC_TRUNC = 0)
    (hr : access_R_OK w.host name = true)
    (hw : flags &&& H5F_ACC_WRITE ≠ 0 → access_W_OK w.host name = true)
    (hsearch : H5Asearch_atom w key = none)
    (hopen : env.open_fails = false) :
    H5F_open B env name flags create_parms w =
      H5F_open_tail B env name flags create_parms (freshWorld B w key flags) w.next_ptr
        (some w.host.nfds) false := by
  have hpath : w.host.paths name = some key := hstat
  have hr1 : (w.host.inodes key).r_ok = true := by
    simpa [access_R_OK, hpath] using hr
  by_cases hwr : flags &&& H5F_ACC_WRITE = 0
  · have hOPEN : H5F_OPEN env w.host name (flags &&& H5F_ACC_WRITE != 0) =
        some (w.host.nfds, hostAfterOpen w.host key (flags &&& H5F_ACC_WRITE != 0)) := by
      simp [H5F_OPEN, hopen, hpath, hr1, hwr, hostAfterOpen]
    simp only [H5F_open, hstat, hexcl, htrunc, hr, hsearch, hOPEN]
    simp only [hwr, H5F_new, freshWorld, World.store, World.deref, freshShared, ne_eq,
      not_true_eq_false, false_and, if_false, Bool.not_true, Bool.false_eq_true]
    congr 1
    simp only [World.mk.injEq, true_and, and_true]
    funext k
    by_cases hk : k = w.next_ptr <;> simp [hk, H5F_file_t.calloc]
  · have hw1 : (w.host.inodes key).w_ok = true := by
      simpa [access_W_OK, hpath] using hw hwr
    have hOPEN : H5F_OPEN env w.host name (flags &&& H5F_ACC_WRITE != 0) =
        some (w.host.nfds, hostAfterOpen w.host key (flags &&& H5F_ACC_WRITE != 0)) := by
      simp [H5F_OPEN, hopen, hpath, hr1, hw1, hostAfterOpen]
    simp only [H5F_open, hstat, hexcl, htrunc, hr, hsearch, hOPEN]
    simp only [hwr, hw hwr, H5F_new, freshWorld, World.store, World.deref, freshShared, ne_eq,
      not_true_eq_false, not_false_eq_true, true_and, and_false, if_false, Bool.not_true,
      Bool.false_eq_true]
    congr 1
    simp only [World.mk.injEq, true_and, and_true]
    funext k
    by_cases hk : k = w.next_ptr <;> simp [hk, H5F_file_t.calloc]

theorem H5F_open_fail_fst (w : World) (f : H5F_t) (fd : Option Nat) (e : H5E) :
    (H5F_open_fail w f fd e).1 = .error e := by
  cases fd <;> rfl

theorem freshWorld_deref (B : Build) (w : World) (key : Nat × Nat) (flags : Nat) :
    (freshWorld B w key flags).deref w.next_ptr = freshShared B key flags w.host.nfds := by
  simp [freshWorld, World.deref]

theorem hostAfterOpen_openFd (h : Host) (key : Nat × Nat) (write : Bool) :
    (hostAfterOpen h key write).openFd h.nfds =
      some { ino := key, pos := 0, writable := write, is_open := true } := by
  simp [hostAfterOpen, Host.openFd, Host.setFd]

/-- The second half of `H5F_open` for the first handle on an existing file,
once the outcome of the scan is known. -/
theorem H5F_open_tail_of_scan (B : Build) (env : Env) (name : String) (flags : Nat)
    (create_parms : file_create_temp_t) (w : World) (p : Nat) (fd : Option Nat)
    (hn : (w.deref p).nrefs = 1)
    (r : Except H5E Unit) (sh1 : H5F_file_t) (h1 : Host)
    (hscan : H5F_open_scan B (32 * B.sizeof_haddr_t - 8) 8
      { w.deref p with file_create_parms := create_parms } w.host = (r, sh1, h1)) :
    (∀ e, r = .error e →
      (H5F_open_tail B env name flags create_parms w p fd false).1 = .error e) ∧
    (∀ d, r = .ok () → h1.openFd sh1.file_handle = some d →
      H5F_open_tail B env name flags create_parms w p fd false =
        (.ok { name := name, intent := flags, shared := p },
         { w with host := h1 }.store p { sh1 with logical_len := (h1.inodes d.ino).len })) := by
  have hn1 : (1 : Nat) = (w.deref p).nrefs := hn.symm
  refine ⟨?_, ?_⟩
  · intro e he
    subst he
    simp only [H5F_open_tail, hn1, if_true, Bool.false_eq_true, if_false, hscan]
    exact H5F_open_fail_fst _ _ _ _
  · intro d hr hd
    subst hr
    obtain ⟨hfd, hopen⟩ := Host.openFd_some h1 _ d hd
    have hopen1 : ({ d with pos := (h1.inodes d.ino).len } : HostFd).is_open = true := hopen
    have hd2 := Host.openFd_setFd h1 sh1.file_handle _ hopen1
    simp only [H5F_open_tail, hn1, if_true, Bool.false_eq_true, if_false, hscan,
      H5F_SEEKEND_ok h1 _ d hd, H5F_TELL_ok h1 _ d hd, H5F_TELL_ok _ _ _ hd2,
      H5F_SEEK_ok _ _ _ _ hd2, Option.getD_some, Host.setFd_setFd]
    have hback : h1.setFd sh1.file_handle
        { ino := d.ino, pos := d.pos, writable := d.writable, is_open := d.is_open } = h1 :=
      Host.setFd_self h1 _ d hfd
    rw [hback]

theorem fixedBad_iff (F : List Nat) :
    fixedBad F = true ↔
      (F.getD 8 0 ≠ HDF5_BOOTBLOCK_VERSION ∨ F.getD 9 0 ≠ HDF5_SMALLOBJECT_VERSION ∨
       F.getD 10 0 ≠ HDF5_FREESPACE_VERSION ∨ F.getD 11 0 ≠ HDF5_OBJECTDIR_VERSION ∨
       F.getD 12 0 ≠ HDF5_SHAREDHEADER_VERSION ∨
       (F.getD 13 0 ≠ 2 ∧ F.getD 13 0 ≠ 4 ∧ F.getD 13 0 ≠ 8) ∨
       (F.getD 14 0 ≠ 2 ∧ F.getD 14 0 ≠ 4 ∧ F.getD 14 0 ≠ 8) ∨
       UINT16DECODE (F.drop 16) < 1 ∨ UINT16DECODE (F.drop 18) < 1) := by
  unfold fixedBad
  simp only [Bool.or_eq_true, bne_iff_ne, ne_eq, Bool.not_eq_true', decide_eq_true_eq,
    Bool.or_eq_false_iff, beq_eq_false_iff_ne]
  tauto

/-- `H5F_open` on an existing, accessible file that is not open, without
`EXCL` and `TRUNC`, whose first candidate with the signature is the one of
iteration `i0`. -/
theorem H5F_open_existing_found (B : Build) (env : Env) (name : String) (flags : Nat)
    (create_parms : file_create_temp_t) (w : World) (key : Nat × Nat) (i0 : Nat)
    (ent : List Nat) (c : Nat) (file : HostFile) (F : List Nat)
    (hstat : stat w.host name = some key)
    (hexcl : flags &&& H5F_ACC_EXCL = 0)
    (htrunc : flags &&& H5F_ACC_TRUNC = 0)
    (hr : access_R_OK w.host name = true)
    (hw : flags &&& H5F_ACC_WRITE ≠ 0 → access_W_OK w.host name = true)
    (hsearch : H5Asearch_atom w key = none)
    (hopen : env.open_fails = false)
    (hfile : file = w.host.inodes key)
    (hc : c = H5F_open_candidate B i0)
    (hF : F = file.bytes c 24)
    (hi0 : 8 ≤ i0 ∧ i0 < 32 * B.sizeof_haddr_t)
    (hbefore : ∀ j, 8 ≤ j → j < i0 →
      H5F_open_candidate B j + 24 ≤ file.len ∧
      file.bytes (H5F_open_candidate B j) 8 ≠ H5F_SIGNATURE)
    (hat : c + 24 ≤ file.len ∧ file.bytes c 8 = H5F_SIGNATURE)
    (hvar : fixedBad F = false →
      c + 24 + H5F_open_variable_size B (fixedParms c F) ≤ file.len ∧
      B.H5G_ent_decode (fixedParms c F)
        (rootBytes (fixedParms c F)
          (file.bytes (c + 24) (H5F_open_variable_size B (fixedParms c F)))) = some ent) :
    (fixedBad F = true →
      (H5F_open B env name flags create_parms w).1 = .error .FILE_CANTOPENFILE) ∧
    (fixedBad F = false →
      ∃ w1, H5F_open B env name flags create_parms w =
          (.ok { name := name, intent := flags, shared := w.next_ptr }, w1) ∧
        (w1.deref w.next_ptr).file_create_parms = fixedParms c F) := by
  subst hfile hc hF
  rw [H5F_open_fresh B env name flags create_parms w key hstat hexcl htrunc hr hw hsearch hopen]
  have hscan := H5F_open_scan_found B
    { freshShared B key flags w.host.nfds with file_create_parms := create_parms }
    (freshWorld B w key flags).host
    { ino := key, pos := 0, writable := (flags &&& H5F_ACC_WRITE != 0), is_open := true }
    (hostAfterOpen_openFd w.host key _) (fun h => by cases h)
    (32 * B.sizeof_haddr_t - 8) i0 ent hi0.1 (by omega) hbefore hat.1 hat.2 hvar
  have hino : (freshWorld B w key flags).host.inodes key = w.host.inodes key := rfl
  dsimp only at hscan
  rw [hino] at hscan
  have hn : ((freshWorld B w key flags).deref w.next_ptr).nrefs = 1 := by
    rw [freshWorld_deref]; rfl
  have hderef : ({ (freshWorld B w key flags).deref w.next_ptr with
      file_create_parms := create_parms } : H5F_file_t) =
      { freshShared B key flags w.host.nfds with file_create_parms := create_parms } := by
    rw [freshWorld_deref]
  refine ⟨?_, ?_⟩
  · intro hbad
    rw [if_pos hbad] at hscan
    exact (H5F_open_tail_of_scan B env name flags create_parms (freshWorld B w key flags)
      w.next_ptr (some w.host.nfds) hn _ _ _ (by rw [hderef]; exact hscan)).1 _ rfl
  · intro hgood
    rw [if_neg (by simp [hgood])] at hscan
    have htail := (H5F_open_tail_of_scan B env name flags create_parms (freshWorld B w key flags)
      w.next_ptr (some w.host.nfds) hn _ _ _ (by rw [hderef]; exact hscan)).2
      { ino := key
        pos := H5F_open_candidate B i0 + 24 + H5F_open_variable_size B
          (fixedParms (H5F_open_candidate B i0)
            ((w.host.inodes key).bytes (H5F_open_candidate B i0) 24))
        writable := (flags &&& H5F_ACC_WRITE != 0)
        is_open := true } rfl (Host.openFd_setFd _ _ _ rfl)
    refine ⟨_, htail, ?_⟩
    simp [World.deref, World.store, decodedShared]

/-! ### Claims about the open engine -/

/-- C6: for an existing, accessible file that is not open yet, opened without
`TRUNC` and `EXCL`, whose first candidate position with the signature (the one
of scan iteration `i0`, at host offset `c`) holds the fixed part `F`, with
every host read succeeding and the root entry decoding: `H5F_open` fails with
`File/CantOpen` exactly when a version byte of `F` differs from its accepted
constant, or `offset_size` or `length_size` is none of 2, 4, 8, or
`sym_leaf_k < 1`, or `btree_k < 1`; otherwise it succeeds. -/
theorem C6_fixed_part_validation (B : Build) (env : Env) (name : String) (flags : Nat)
    (create_parms : file_create_temp_t) (w : World) (key : Nat × Nat) (i0 : Nat)
    (ent : List Nat) (c : Nat) (file : HostFile) (F : List Nat)
    (hstat : stat w.host name = some key)
    (hexcl : flags &&& H5F_ACC_EXCL = 0)
    (htrunc : flags &&& H5F_ACC_TRUNC = 0)
    (hr : access_R_OK w.host name = true)
    (hw : flags &&& H5F_ACC_WRITE ≠ 0 → access_W_OK w.host name = true)
    (hsearch : H5Asearch_atom w key = none)
    (hopen : env.open_fails = false)
    (hfile : file = w.host.inodes key)
    (hc : c = H5F_open_candidate B i0)
    (hF : F = file.bytes c 24)
    (hi0 : 8 ≤ i0 ∧ i0 < 32 * B.sizeof_haddr_t)
    (hbefore : ∀ j, 8 ≤ j → j < i0 →
      H5F_open_candidate B j + 24 ≤ file.len ∧
      file.bytes (H5F_open_candidate B j) 8 ≠ H5F_SIGNATURE)
    (hat : c + 24 ≤ file.len ∧ file.bytes c 8 = H5F_SIGNATURE)
    (hvar : fixedBad F = false →
      c + 24 + H5F_open_variable_size B (fixedParms c F) ≤ file.len ∧
      B.H5G_ent_decode (fixedParms c F)
        (rootBytes (fixedParms c F)
          (file.bytes (c + 24) (H5F_open_variable_size B (fixedParms c F)))) = some ent) :
    ((H5F_open B env name flags create_parms w).1 = .error .FILE_CANTOPENFILE ↔
      (F.getD 8 0 ≠ HDF5_BOOTBLOCK_VERSION ∨ F.getD 9 0 ≠ HDF5_SMALLOBJECT_VERSION ∨
       F.getD 10 0 ≠ HDF5_FREESPACE_VERSION ∨ F.getD 11 0 ≠ HDF5_OBJECTDIR_VERSION ∨
       F.getD 12 0 ≠ HDF5_SHAREDHEADER_VERSION ∨
       (F.getD 13 0 ≠ 2 ∧ F.getD 13 0 ≠ 4 ∧ F.getD 13 0 ≠ 8) ∨
       (F.getD 14 0 ≠ 2 ∧ F.getD 14 0 ≠ 4 ∧ F.getD 14 0 ≠ 8) ∨
       UINT16DECODE (F.drop 16) < 1 ∨ UINT16DECODE (F.drop 18) < 1)) ∧
    ((H5F_open B env name flags create_parms w).1 ≠ .error .FILE_CANTOPENFILE →
      (H5F_open B env name flags create_parms w).1 =
        .ok { name := name, intent := flags, shared := w.next_ptr }) := by
  obtain ⟨hbadcase, hgoodcase⟩ := H5F_open_existing_found B env name flags create_parms w key i0
    ent c file F hstat hexcl htrunc hr hw hsearch hopen hfile hc hF hi0 hbefore hat hvar
  rw [← fixedBad_iff]
  by_cases hbad : fixedBad F = true
  · have h1 := hbadcase hbad
    exact ⟨⟨fun _ => hbad, fun _ => h1⟩, fun hne => absurd h1 hne⟩
  · have hbad0 : fixedBad F = false := by simpa using hbad
    obtain ⟨w1, h1, _⟩ := hgoodcase hbad0
    refine ⟨⟨fun herr => ?_, fun hb => absurd hb hbad⟩, fun _ => by rw [h1]⟩
    rw [h1] at herr
    cases herr

/-- C6 at a concrete input: a boot block at offset 0 with `sym_leaf_k = 0` and
every other field valid; the open fails with `File/CantOpen`. -/
theorem C6_fixed_part_validation_witness :
    UINT16DECODE (((fileWithBootAt 0 (bootWithLeafK 0)).bytes 0 24).drop 16) < 1 ∧
    (H5F_open sampleBuild Env.ok "a.bin" 0 sampleBuild.default_parms
      (worldWithFile (fileWithBootAt 0 (bootWithLeafK 0)))).1 = .error .FILE_CANTOPENFILE :=
  ⟨by decide,
   (C6_fixed_part_validation sampleBuild Env.ok "a.bin" 0 sampleBuild.default_parms
      (worldWithFile (fileWithBootAt 0 (bootWithLeafK 0))) (0, 1) 8 [] 0
      (fileWithBootAt 0 (bootWithLeafK 0)) ((fileWithBootAt 0 (bootWithLeafK 0)).bytes 0 24)
      rfl (by decide) (by decide) (by decide) (by decide) (by decide) rfl rfl rfl rfl
      (by decide) (fun j h1 h2 => absurd h1 (by omega)) (by decide)
      (fun hgood => absurd hgood (by decide))).1.2
    (Or.inr (Or.inr (Or.inr (Or.inr (Or.inr (Or.inr (Or.inr (Or.inl (by decide)))))))))⟩

/-- C6, the boundary on the other side: the same file with `sym_leaf_k = 1`
opens. -/
theorem C6_sym_leaf_k_one_opens :
    (H5F_open sampleBuild Env.ok "a.bin" 0 sampleBuild.default_parms
      (worldWithFile (fileWithBootAt 0 (bootWithLeafK 1)))).1 =
      .ok { name := "a.bin", intent := 0, shared := 0 } := by
  decide

/-- C7: user-block skipping.  For an existing, accessible file that is not
open yet, opened without `TRUNC` and `EXCL`: if a valid boot block starts at
host offset `c`, where `c` is 0 (scan iteration 8) or `2 ^ i` for an iteration
`i >= 9` that the scan reaches and whose `2 ^ i` fits `uintn`, and none of the
earlier candidates `0, 512, ..., 2 ^ (i - 1)` starts with the signature, then
`H5F_open` succeeds and the shared struct of the new handle has
`userblock_size = c` and the creation parameters the boot block describes. -/
theorem C7_userblock_skipping (B : Build) (env : Env) (name : String) (flags : Nat)
    (create_parms : file_create_temp_t) (w : World) (key : Nat × Nat) (i : Nat)
    (ent : List Nat) (c : Nat) (file : HostFile) (F : List Nat)
    (hstat : stat w.host name = some key)
    (hexcl : flags &&& H5F_ACC_EXCL = 0)
    (htrunc : flags &&& H5F_ACC_TRUNC = 0)
    (hr : access_R_OK w.host name = true)
    (hw : flags &&& H5F_ACC_WRITE ≠ 0 → access_W_OK w.host name = true)
    (hsearch : H5Asearch_atom w key = none)
    (hopen : env.open_fails = false)
    (hfile : file = w.host.inodes key)
    (hi : 8 ≤ i ∧ i < B.uintn_bits ∧ i < 32 * B.sizeof_haddr_t)
    (hc : c = if i = 8 then 0 else 2 ^ i)
    (hF : F = file.bytes c 24)
    (hat : c + 24 ≤ file.len ∧ file.bytes c 8 = H5F_SIGNATURE)
    (hvalid : fixedBad F = false)
    (hvar : c + 24 + H5F_open_variable_size B (fixedParms c F) ≤ file.len ∧
      B.H5G_ent_decode (fixedParms c F)
        (rootBytes (fixedParms c F)
          (file.bytes (c + 24) (H5F_open_variable_size B (fixedParms c F)))) = some ent)
    (hbefore : ∀ j, 8 ≤ j → j < i →
      file.bytes (if j = 8 then 0 else 2 ^ j) 8 ≠ H5F_SIGNATURE) :
    ∃ w1, H5F_open B env name flags create_parms w =
        (.ok { name := name, intent := flags, shared := w.next_ptr }, w1) ∧
      (w1.deref w.next_ptr).file_create_parms.userblock_size = c ∧
      (w1.deref w.next_ptr).file_create_parms = fixedParms c F := by
  have hcand : ∀ j, j ≤ i → H5F_open_candidate B j = if j = 8 then 0 else 2 ^ j := by
    intro j hj
    unfold H5F_open_candidate
    split
    · rfl
    · exact Nat.mod_eq_of_lt (Nat.pow_lt_pow_right (by decide) (by omega))
  have hc1 : c = H5F_open_candidate B i := by rw [hcand i (Nat.le_refl i), hc]
  have hbefore1 : ∀ j, 8 ≤ j → j < i →
      H5F_open_candidate B j + 24 ≤ file.len ∧
      file.bytes (H5F_open_candidate B j) 8 ≠ H5F_SIGNATURE := by
    intro j hj1 hj2
    rw [hcand j (by omega)]
    refine ⟨?_, hbefore j hj1 hj2⟩
    have hi8 : i ≠ 8 := by omega
    rw [if_neg hi8] at hc
    by_cases hj8 : j = 8
    · rw [if_pos hj8]; omega
    · rw [if_neg hj8]
      have h512 : 2 ^ 9 ≤ 2 ^ j := Nat.pow_le_pow_right (by decide) (by omega)
      have hdouble : 2 ^ (j + 1) ≤ 2 ^ i := Nat.pow_le_pow_right (by decide) (by omega)
      rw [pow_succ] at hdouble
      norm_num at h512
      omega
  obtain ⟨_, hgoodcase⟩ := H5F_open_existing_found B env name flags create_parms w key i
    ent c file F hstat hexcl htrunc hr hw hsearch hopen hfile hc1 hF ⟨hi.1, hi.2.2⟩ hbefore1 hat
    (fun _ => hvar)
  obtain ⟨w1, h1, h2⟩ := hgoodcase hvalid
  exact ⟨w1, h1, by rw [h2]; rfl, h2⟩

/-- C7 at a concrete input: 512 filler bytes, then the sample boot block; the
open succeeds with `userblock_size = 512`. -/
theorem C7_userblock_skipping_witness :
    (fileWithBootAt 512 sampleBoot).bytes 0 8 ≠ H5F_SIGNATURE ∧
    (fileWithBootAt 512 sampleBoot).bytes 512 8 = H5F_SIGNATURE ∧
    ∃ w1, H5F_open sampleBuild Env.ok "a.bin" 0 sampleBuild.default_parms
        (worldWithFile (fileWithBootAt 512 sampleBoot)) =
        (.ok { name := "a.bin", intent := 0, shared := 0 }, w1) ∧
      (w1.deref 0).file_create_parms.userblock_size = 512 ∧
      (w1.deref 0).file_create_parms =
        fixedParms 512 ((fileWithBootAt 512 sampleBoot).bytes 512 24) :=
  ⟨by decide, by decide,
   C7_userblock_skipping sampleBuild Env.ok "a.bin" 0 sampleBuild.default_parms
    (worldWithFile (fileWithBootAt 512 sampleBoot)) (0, 1) 9 (List.replicate 16 0) 512
    (fileWithBootAt 512 sampleBoot) ((fileWithBootAt 512 sampleBoot).bytes 512 24)
    rfl (by decide) (by decide) (by decide) (by decide) (by decide) rfl rfl (by decide)
    (by decide) rfl (by decide) (by decide) (by decide)
    (fun j h1 h2 => by
      have hj : j = 8 := by omega
      subst hj
      decide)⟩

set_option maxRecDepth 1000000 in
/-- C8, evaluated on the code: on a readable 4 GiB file of zero bytes, no
candidate position carries the signature and every read of the scan stays
inside the file, so the loop runs through all its iterations, and `H5F_open`
returns a handle instead of failing with `File/NotContainer`. -/
theorem C8_scan_exhaustion_opens :
    (∀ j, j < 32 * sampleBuild.sizeof_haddr_t → 8 ≤ j →
      H5F_open_candidate sampleBuild j + 24 ≤ zeroFile.len ∧
      zeroFile.bytes (H5F_open_candidate sampleBuild j) 8 ≠ H5F_SIGNATURE) ∧
    (H5F_open sampleBuild Env.ok "a.bin" 0 sampleBuild.default_parms
      (worldWithFile zeroFile)).1 = .ok { name := "a.bin", intent := 0, shared := 0 } := by
  decide

/-- C9: for an existing path `H5F_open` reports the first applicable failure
in source order and leaves the process state untouched: `EXCL` set gives
`File/Exists` whatever the permissions and the content; else an unreadable
file gives `File/ReadError`; else `WRITE` on an unwritable file gives
`File/WriteError`; else `TRUNC` on a file that is already open gives
`File/FileOpen`; else `TRUNC` without `WRITE` on a file that is not open gives
`File/BadValue`. -/
theorem C9_open_error_precedence (B : Build) (env : Env) (name : String) (flags : Nat)
    (create_parms : file_create_temp_t) (w : World) (key : Nat × Nat)
    (hstat : stat w.host name = some key) :
    (flags &&& H5F_ACC_EXCL ≠ 0 →
      H5F_open B env name flags create_parms w = (.error .FILE_FILEEXISTS, w)) ∧
    (flags &&& H5F_ACC_EXCL = 0 → access_R_OK w.host name = false →
      H5F_open B env name flags create_parms w = (.error .FILE_READERROR, w)) ∧
    (flags &&& H5F_ACC_EXCL = 0 → access_R_OK w.host name = true →
      flags &&& H5F_ACC_WRITE ≠ 0 → access_W_OK w.host name = false →
      H5F_open B env name flags create_parms w = (.error .FILE_WRITEERROR, w)) ∧
    (flags &&& H5F_ACC_EXCL = 0 → access_R_OK w.host name = true →
      (flags &&& H5F_ACC_WRITE ≠ 0 → access_W_OK w.host name = true) →
      (H5Asearch_atom w key).isSome = true → flags &&& H5F_ACC_TRUNC ≠ 0 →
      H5F_open B env name flags create_parms w = (.error .FILE_FILEOPEN, w)) ∧
    (flags &&& H5F_ACC_EXCL = 0 → access_R_OK w.host name = true →
      (flags &&& H5F_ACC_WRITE ≠ 0 → access_W_OK w.host name = true) →
      H5Asearch_atom w key = none → flags &&& H5F_ACC_TRUNC ≠ 0 →
      flags &&& H5F_ACC_WRITE = 0 →
      H5F_open B env name flags create_parms w = (.error .FILE_BADVALUE, w)) := by
  refine ⟨?_, ?_, ?_, ?_, ?_⟩
  · intro hexcl
    simp [H5F_open, hstat, hexcl]
  · intro hexcl hr
    simp [H5F_open, hstat, hexcl, hr]
  · intro hexcl hr hwr hw
    simp [H5F_open, hstat, hexcl, hr, hwr, hw]
  · intro hexcl hr hw hsearch htrunc
    obtain ⟨old, hold⟩ := Option.isSome_iff_exists.1 hsearch
    by_cases hwr : flags &&& H5F_ACC_WRITE = 0
    · simp [H5F_open, hstat, hexcl, hr, hwr, hold, htrunc]
    · simp [H5F_open, hstat, hexcl, hr, hwr, hw hwr, hold, htrunc]
  · intro hexcl hr _ hsearch htrunc hwr
    simp [H5F_open, hstat, hexcl, hr, hwr, hsearch, htrunc]

/-- C9 at a concrete input: `a.bin` exists on the sample host; with
`EXCL | WRITE | CREAT` the open fails with `File/Exists`, and with `TRUNC`
alone (file not open) it fails with `File/BadValue`. -/
theorem C9_open_error_precedence_witness :
    stat sampleWorld.host "a.bin" = some (0, 1) ∧
    H5F_open sampleBuild Env.ok "a.bin" 7 sampleBuild.default_parms sampleWorld =
      (.error .FILE_FILEEXISTS, sampleWorld) ∧
    H5F_open sampleBuild Env.ok "a.bin" 8 sampleBuild.default_parms sampleWorld =
      (.error .FILE_BADVALUE, sampleWorld) :=
  ⟨rfl,
   (C9_open_error_precedence sampleBuild Env.ok "a.bin" 7 sampleBuild.default_parms sampleWorld
      (0, 1) rfl).1 (by decide),
   (C9_open_error_precedence sampleBuild Env.ok "a.bin" 8 sampleBuild.default_parms sampleWorld
      (0, 1) rfl).2.2.2.2 (by decide) (by decide) (by decide) (by decide) (by decide)
      (by decide)⟩

/-- C11: for every path that does not exist and every flag set without
`H5F_ACC_CREAT`, `H5F_open` fails with `File/CantOpen` and returns the process
state it was given: no host file, descriptor or shared struct is created. -/
theorem C11_absent_without_creat (B : Build) (env : Env) (name : String) (flags : Nat)
    (create_parms : file_create_temp_t) (w : World)
    (hstat : stat w.host name = none)
    (hcreat : flags &&& H5F_ACC_CREAT = 0) :
    H5F_open B env name flags create_parms w = (.error .FILE_CANTOPENFILE, w) := by
  simp [H5F_open, hstat, hcreat]

/-- C11 at a concrete input: `missing.bin` does not exist on the sample host
and the flags are `WRITE | TRUNC`. -/
theorem C11_absent_without_creat_witness :
    (stat sampleWorld.host "missing.bin" = none ∧ (9 : Nat) &&& H5F_ACC_CREAT = 0) ∧
    H5F_open sampleBuild Env.ok "missing.bin" 9 sampleBuild.default_parms sampleWorld =
      (.error .FILE_CANTOPENFILE, sampleWorld) :=
  ⟨by decide, C11_absent_without_creat sampleBuild Env.ok "missing.bin" 9
    sampleBuild.default_parms sampleWorld (by decide) (by decide)⟩

theorem H5F_open_decode_variable_error (B : Build) (sh : H5F_file_t) (buf : List Nat) (e : H5E)
    (he : H5F_open_decode_variable B sh buf = .error e) : e = .FILE_CANTOPENFILE := by
  unfold H5F_open_decode_variable at he
  simp only at he
  split at he
  · cases he; rfl
  · cases he

/-- The scan fails with `File/NotContainer` or `File/CantOpen` only. -/
theorem H5F_open_scan_error (B : Build) (n : Nat) :
    ∀ (i : Nat) (sh : H5F_file_t) (h : Host) (e : H5E),
      (H5F_open_scan B n i sh h).1 = .error e →
      e = .FILE_NOTHDF5 ∨ e = .FILE_CANTOPENFILE := by
  induction n with
  | zero =>
    intro i sh h e he
    simp [H5F_open_scan] at he
  | succ n ih =>
    intro i sh h e he
    rw [H5F_open_scan] at he
    simp only at he
    split at he
    · simp only [Except.error.injEq] at he
      exact Or.inl he.symm
    · split at he
      · exact ih _ _ _ _ he
      · rw [H5F_open_decode_fixed_eq] at he
        split at he
        · rename_i hfix
          split at hfix
          · simp only [Except.error.injEq] at hfix he
            subst hfix
            exact Or.inr he.symm
          · cases hfix
        · split at he
          · simp only [Except.error.injEq] at he
            exact Or.inl he.symm
          · split at he
            · rename_i hvar
              simp only [Except.error.injEq] at he
              subst he
              exact Or.inr (H5F_open_decode_variable_error _ _ _ _ hvar)
            · cases he

/-- `H5F_open_tail` is the parameter copy, the boot-block step and the end. -/
theorem H5F_open_tail_eq (B : Build) (env : Env) (name : String) (flags : Nat)
    (create_parms : file_create_temp_t) (w : World) (p : Nat) (fd : Option Nat)
    (empty_file : Bool) :
    H5F_open_tail B env name flags create_parms w p fd empty_file =
      H5F_open_finish name flags w p fd
        (H5F_open_boot B env flags (H5F_open_parms create_parms (w.deref p)) w.host
          empty_file) := by
  unfold H5F_open_tail H5F_open_finish H5F_open_boot H5F_open_parms
  by_cases h1 : 1 = (w.deref p).nrefs <;> cases empty_file <;> simp [h1]

theorem H5F_open_boot_error (B : Build) (env : Env) (flags : Nat) (sh : H5F_file_t)
    (h : Host) (empty_file : Bool) (e : H5E)
    (he : (H5F_open_boot B env flags sh h empty_file).1 = .error e) :
    e = .FILE_CANTINIT ∨ e = .FILE_NOTHDF5 ∨ e = .FILE_CANTOPENFILE := by
  unfold H5F_open_boot at he
  cases empty_file with
  | true =>
    simp only [if_true] at he
    split at he
    · simp only [Except.error.injEq] at he
      exact Or.inl he.symm
    · cases he
  | false =>
    simp only [Bool.false_eq_true, if_false] at he
    split at he
    · exact Or.inr (H5F_open_scan_error B _ _ _ _ e he)
    · cases he

theorem H5F_open_finish_error (name : String) (flags : Nat) (w : World) (p : Nat)
    (fd : Option Nat) (r : Except H5E Unit × H5F_file_t × Host) (e : H5E)
    (he : (H5F_open_finish name flags w p fd r).1 = .error e) :
    r.1 = .error e ∨ e = .FILE_CANTINIT := by
  obtain ⟨x, sh1, h1⟩ := r
  cases x with
  | error e1 =>
    simp only [H5F_open_finish, H5F_open_fail_fst, Except.error.injEq] at he
    exact Or.inl (by rw [he])
  | ok u =>
    simp only [H5F_open_finish] at he
    split at he
    · rw [H5F_open_fail_fst] at he
      simp only [Except.error.injEq] at he
      exact Or.inr he.symm
    · cases he

/-- The second half of `H5F_open` fails with `File/CantInit`,
`File/NotContainer` or `File/CantOpen` only. -/
theorem H5F_open_tail_error (B : Build) (env : Env) (name : String) (flags : Nat)
    (create_parms : file_create_temp_t) (w : World) (p : Nat) (fd : Option Nat)
    (empty_file : Bool) (e : H5E)
    (he : (H5F_open_tail B env name flags create_parms w p fd empty_file).1 = .error e) :
    e = .FILE_CANTINIT ∨ e = .FILE_NOTHDF5 ∨ e = .FILE_CANTOPENFILE := by
  rw [H5F_open_tail_eq] at he
  rcases H5F_open_finish_error _ _ _ _ _ _ _ he with h1 | h1
  · exact H5F_open_boot_error _ _ _ _ _ _ _ h1
  · exact Or.inl h1

/-! ### The paths through `H5F_open` -/

theorem World.store_store (w : World) (p : Nat) (a b : H5F_file_t) :
    (w.store p a).store p b = w.store p b := by
  simp only [World.store]
  congr 1
  funext k
  by_cases hk : k = p <;> simp [hk]

theorem World.deref_store (w : World) (p : Nat) (a : H5F_file_t) :
    (w.store p a).deref p = a := by
  simp [World.store, World.deref]

theorem H5F_new_none (B : Build) (w : World) (key : Nat × Nat) (flags fd : Nat) :
    ((H5F_new B w none).2.store (H5F_new B w none).1
      { ((H5F_new B w none).2.deref (H5F_new B w none).1) with
        key := key, flags := flags, file_handle := fd }) =
      allocWorld B w w.host key flags fd ∧ (H5F_new B w none).1 = w.next_ptr := by
  refine ⟨?_, rfl⟩
  simp only [H5F_new, World.store, World.deref, allocWorld, freshShared]
  congr 1
  funext k
  by_cases hk : k = w.next_ptr <;> simp [hk, H5F_file_t.calloc]

theorem option_cases {α : Type} (x : Option α) : x = none ∨ ∃ a, x = some a := by
  cases x with
  | none => exact Or.inl rfl
  | some a => exact Or.inr ⟨a, rfl⟩

/-- `H5F_open` is its checks followed by one of its three branches. -/
theorem H5F_open_eq (B : Build) (env : Env) (name : String) (flags : Nat)
    (create_parms : file_create_temp_t) (w : World) :
    H5F_open B env name flags create_parms w =
      match stat w.host name with
      | some sb =>
        if flags &&& H5F_ACC_EXCL ≠ 0 then (.error .FILE_FILEEXISTS, w)
        else if !access_R_OK w.host name then (.error .FILE_READERROR, w)
        else if flags &&& H5F_ACC_WRITE ≠ 0 ∧ !access_W_OK w.host name then
          (.error .FILE_WRITEERROR, w)
        else
          match H5Asearch_atom w sb with
          | some old => H5F_open_found B env name flags create_parms w old
          | none => H5F_open_unopened B env name flags create_parms w sb
      | none => H5F_open_absent B env name flags create_parms w := by
  unfold H5F_open H5F_open_found H5F_open_unopened H5F_open_absent
  rfl

theorem H5F_open_alloc (B : Build) (env : Env) (name : String) (flags : Nat)
    (create_parms : file_create_temp_t) (w : World) (h1 : Host) (key : Nat × Nat) (fd : Nat)
    (empty_file : Bool) :
    (match H5F_new B { w with host := h1 } none with
      | (p, w1) =>
        H5F_open_tail B env name flags create_parms
          (w1.store p { (w1.deref p) with key := key, flags := flags, file_handle := fd })
          p (some fd) empty_file) =
      H5F_open_tail B env name flags create_parms (allocWorld B w h1 key flags fd)
        w.next_ptr (some fd) empty_file := by
  have hn := H5F_new_none B { w with host := h1 } key flags fd
  show H5F_open_tail B env name flags create_parms
    ((H5F_new B { w with host := h1 } none).2.store (H5F_new B { w with host := h1 } none).1
      { ((H5F_new B { w with host := h1 } none).2.deref
          (H5F_new B { w with host := h1 } none).1) with
        key := key, flags := flags, file_handle := fd })
    (H5F_new B { w with host := h1 } none).1 (some fd) empty_file = _
  rw [hn.1, hn.2]
  rfl

/-- Every path through `H5F_open`: an early return that changes nothing, the
return after a failed `stat` of a created file, or the second half of the
function on a new shared struct, on a found shared struct, or on a found
shared struct whose host handle was replaced. -/
theorem H5F_open_cases (B : Build) (env : Env) (name : String) (flags : Nat)
    (create_parms : file_create_temp_t) (w : World) :
    (∃ e, e ≠ H5E.FILE_BADVALUE ∧
      H5F_open B env name flags create_parms w = (.error e, w)) ∨
    (flags &&& H5F_ACC_WRITE = 0 ∧
      ((stat w.host name = none ∧ flags &&& H5F_ACC_CREAT ≠ 0) ∨
       (∃ key, stat w.host name = some key ∧ H5Asearch_atom w key = none ∧
          flags &&& H5F_ACC_TRUNC ≠ 0)) ∧
      H5F_open B env name flags create_parms w = (.error .FILE_BADVALUE, w)) ∨
    (∃ h1, stat w.host name = none ∧ H5F_open B env name flags create_parms w =
      (.error .FILE_CANTCREATE, { w with host := h1 })) ∨
    (∃ key fd h1 empty_file,
      (∀ k old, stat w.host name = some k → H5Asearch_atom w k ≠ some old) ∧
      H5F_open B env name flags create_parms w =
        H5F_open_tail B env name flags create_parms (allocWorld B w h1 key flags fd)
          w.next_ptr (some fd) empty_file) ∨
    (∃ key old, stat w.host name = some key ∧ H5Asearch_atom w key = some old ∧
      ¬ (flags &&& H5F_ACC_WRITE ≠ 0 ∧ (w.deref old.shared).flags &&& H5F_ACC_WRITE = 0) ∧
      H5F_open B env name flags create_parms w =
        H5F_open_tail B env name flags create_parms
          (w.store old.shared
            { (w.deref old.shared) with nrefs := (w.deref old.shared).nrefs + 1 })
          old.shared none false) ∨
    (∃ key old fd h1, stat w.host name = some key ∧ H5Asearch_atom w key = some old ∧
      flags &&& H5F_ACC_WRITE ≠ 0 ∧ (w.deref old.shared).flags &&& H5F_ACC_WRITE = 0 ∧
      H5F_OPEN env w.host name true = some (fd, h1) ∧
      H5F_open B env name flags create_parms w =
        H5F_open_tail B env name flags create_parms
          ({ w with host := H5F_CLOSE h1 (w.deref old.shared).file_handle }.store old.shared
            { (w.deref old.shared) with
              file_handle := fd
              flags := (w.deref old.shared).flags ||| H5F_ACC_WRITE
              nrefs := (w.deref old.shared).nrefs + 1 })
          old.shared none false) := by
  rcases option_cases (stat w.host name) with hstat | ⟨key, hstat⟩
  · have hopen : H5F_open B env name flags create_parms w =
        H5F_open_absent B env name flags create_parms w := by
      rw [H5F_open_eq]; simp only [hstat]
    rw [hopen]
    unfold H5F_open_absent
    by_cases hcreat : flags &&& H5F_ACC_CREAT = 0
    · exact Or.inl ⟨H5E.FILE_CANTOPENFILE, by decide, by simp [hcreat]⟩
    · rw [if_pos hcreat]
      by_cases hwr : flags &&& H5F_ACC_WRITE = 0
      · exact Or.inr (Or.inl ⟨hwr, Or.inl ⟨hstat, hcreat⟩, by rw [if_pos hwr]⟩)
      · rw [if_neg hwr]
        rcases option_cases (H5F_CREATE env w.host name) with hcr | ⟨⟨fd, h1⟩, hcr⟩
        · exact Or.inl ⟨H5E.FILE_CANTCREATE, by decide, by simp only [hcr]⟩
        · simp only [hcr]
          rcases option_cases (if env.stat_fails = true then none else stat h1 name) with
            hst2 | ⟨sb, hst2⟩
          · exact Or.inr (Or.inr (Or.inl ⟨h1, hstat, by simp only [hst2]⟩))
          · refine Or.inr (Or.inr (Or.inr (Or.inl ⟨sb, fd, h1, true,
              (fun k old hs => by rw [hstat] at hs; cases hs), ?_⟩)))
            simp only [hst2]
            exact H5F_open_alloc B env name flags create_parms w h1 sb fd true
  · have hopen : H5F_open B env name flags create_parms w =
        if flags &&& H5F_ACC_EXCL ≠ 0 then (.error .FILE_FILEEXISTS, w)
        else if !access_R_OK w.host name then (.error .FILE_READERROR, w)
        else if flags &&& H5F_ACC_WRITE ≠ 0 ∧ !access_W_OK w.host name then
          (.error .FILE_WRITEERROR, w)
        else
          match H5Asearch_atom w key with
          | some old => H5F_open_found B env name flags create_parms w old
          | none => H5F_open_unopened B env name flags create_parms w key := by
      rw [H5F_open_eq]; simp only [hstat]
    rw [hopen]
    by_cases hexcl : flags &&& H5F_ACC_EXCL ≠ 0
    · exact Or.inl ⟨H5E.FILE_FILEEXISTS, by decide, by rw [if_pos hexcl]⟩
    rw [if_neg hexcl]
    by_cases hr : (!access_R_OK w.host name) = true
    · exact Or.inl ⟨H5E.FILE_READERROR, by decide, by rw [if_pos hr]⟩
    rw [if_neg hr]
    by_cases hwok : flags &&& H5F_ACC_WRITE ≠ 0 ∧ (!access_W_OK w.host name) = true
    · exact Or.inl ⟨H5E.FILE_WRITEERROR, by decide, by rw [if_pos hwok]⟩
    rw [if_neg hwok]
    rcases option_cases (H5Asearch_atom w key) with hsearch | ⟨old, hsearch⟩
    · simp only [hsearch]
      unfold H5F_open_unopened
      by_cases htrunc : flags &&& H5F_ACC_TRUNC ≠ 0
      · rw [if_pos htrunc]
        by_cases hwr : flags &&& H5F_ACC_WRITE = 0
        · exact Or.inr (Or.inl ⟨hwr, Or.inr ⟨key, hstat, hsearch, htrunc⟩, by rw [if_pos hwr]⟩)
        · rw [if_neg hwr]
          rcases option_cases (H5F_CREATE env w.host name) with hcr | ⟨⟨fd, h1⟩, hcr⟩
          · exact Or.inl ⟨H5E.FILE_CANTCREATE, by decide, by simp only [hcr]⟩
          · refine Or.inr (Or.inr (Or.inr (Or.inl ⟨key, fd, h1, true,
              (fun k old hs hsr => by
                rw [hstat] at hs; cases hs; rw [hsearch] at hsr; cases hsr), ?_⟩)))
            simp only [hcr]
            exact H5F_open_alloc B env name flags create_parms w h1 key fd true
      · rw [if_neg htrunc]
        rcases option_cases (H5F_OPEN env w.host name (flags &&& H5F_ACC_WRITE != 0)) with
          hop | ⟨⟨fd, h1⟩, hop⟩
        · exact Or.inl ⟨H5E.FILE_CANTOPENFILE, by decide, by simp only [hop]⟩
        · refine Or.inr (Or.inr (Or.inr (Or.inl ⟨key, fd, h1, false,
            (fun k old hs hsr => by
              rw [hstat] at hs; cases hs; rw [hsearch] at hsr; cases hsr), ?_⟩)))
          simp only [hop]
          exact H5F_open_alloc B env name flags create_parms w h1 key fd false
    · simp only [hsearch]
      unfold H5F_open_found
      by_cases htrunc : flags &&& H5F_ACC_TRUNC ≠ 0
      · exact Or.inl ⟨H5E.FILE_FILEOPEN, by decide, by rw [if_pos htrunc]⟩
      rw [if_neg htrunc]
      by_cases hup : flags &&& H5F_ACC_WRITE ≠ 0 ∧
          (w.deref old.shared).flags &&& H5F_ACC_WRITE = 0
      · rw [if_pos hup]
        rcases option_cases (H5F_OPEN env w.host name true) with hop | ⟨⟨fd, h1⟩, hop⟩
        · exact Or.inl ⟨H5E.FILE_CANTOPENFILE, by decide, by simp only [hop]⟩
        · refine Or.inr (Or.inr (Or.inr (Or.inr (Or.inr
            ⟨key, old, fd, h1, hstat, hsearch, hup.1, hup.2, hop, ?_⟩))))
          simp only [hop, H5F_new, World.deref_store, World.store_store]
      · refine Or.inr (Or.inr (Or.inr (Or.inr (Or.inl ⟨key, old, hstat, hsearch, hup, ?_⟩))))
        rw [if_neg hup]
        simp only [H5F_new]

/-- C12: whenever `H5F_open` fails with `File/BadValue`, the flags lack
`WRITE` and either the path is absent and `CREAT` is set, or the file exists,
is not open and `TRUNC` is set; and the call returns the process state it was
given, so the host (files, descriptors, cursors) and every shared struct are
exactly as before the call. -/
theorem C12_badvalue_changes_nothing (B : Build) (env : Env) (name : String) (flags : Nat)
    (create_parms : file_create_temp_t) (w : World)
    (he : (H5F_open B env name flags create_parms w).1 = .error .FILE_BADVALUE) :
    H5F_open B env name flags create_parms w = (.error .FILE_BADVALUE, w) ∧
    flags &&& H5F_ACC_WRITE = 0 ∧
    ((stat w.host name = none ∧ flags &&& H5F_ACC_CREAT ≠ 0) ∨
     (∃ key, stat w.host name = some key ∧ H5Asearch_atom w key = none ∧
        flags &&& H5F_ACC_TRUNC ≠ 0)) := by
  rcases H5F_open_cases B env name flags create_parms w with
    ⟨e, hne, h⟩ | ⟨hwr, hcase, h⟩ | ⟨h1, _, h⟩ | ⟨key, fd, h1, ef, _, h⟩ |
    ⟨key, old, _, _, _, h⟩ |
    ⟨key, old, fd, h1, _, _, _, _, _, h⟩
  · rw [h] at he
    simp only [Except.error.injEq] at he
    exact absurd he hne
  · exact ⟨h, hwr, hcase⟩
  · rw [h] at he
    cases he
  · rw [h] at he
    rcases H5F_open_tail_error _ _ _ _ _ _ _ _ _ _ he with h2 | h2 | h2 <;> cases h2
  · rw [h] at he
    rcases H5F_open_tail_error _ _ _ _ _ _ _ _ _ _ he with h2 | h2 | h2 <;> cases h2
  · rw [h] at he
    rcases H5F_open_tail_error _ _ _ _ _ _ _ _ _ _ he with h2 | h2 | h2 <;> cases h2

/-- C12 at a concrete input: `TRUNC` alone on the existing file `a.bin`, which
is not open. -/
theorem C12_badvalue_changes_nothing_witness :
    H5F_open sampleBuild Env.ok "a.bin" 8 sampleBuild.default_parms sampleWorld =
      (.error .FILE_BADVALUE, sampleWorld) ∧
    (8 : Nat) &&& H5F_ACC_WRITE = 0 ∧
    ((stat sampleWorld.host "a.bin" = none ∧ (8 : Nat) &&& H5F_ACC_CREAT ≠ 0) ∨
     (∃ key, stat sampleWorld.host "a.bin" = some key ∧ H5Asearch_atom sampleWorld key = none ∧
        (8 : Nat) &&& H5F_ACC_TRUNC ≠ 0)) :=
  C12_badvalue_changes_nothing sampleBuild Env.ok "a.bin" 8 sampleBuild.default_parms
    sampleWorld (by decide)

/-- C19: on a shared struct whose flags lack `WRITE`, `H5F_flush` returns
`SUCCEED` for both values of `invalidate` and whatever the shadow and cache
flushes would answer, and leaves the shared struct and the host (content,
descriptors, cursors) untouched. -/
theorem C19_flush_read_only_is_noop (B : Build) (env : Env) (intent : Nat) (sh : H5F_file_t)
    (h : Host) (invalidate : Bool)
    (hflags : sh.flags &&& H5F_ACC_WRITE = 0) :
    H5F_flush B env intent sh h invalidate = ((SUCCEED, none), sh, h) := by
  unfold H5F_flush
  rw [Nat.land_comm] at hflags
  rw [if_pos hflags]

/-- C19 at a concrete input: flags 0, every collaborator set to fail. -/
theorem C19_flush_read_only_is_noop_witness :
    ({ sampleShared with flags := 0 } : H5F_file_t).flags &&& H5F_ACC_WRITE = 0 ∧
    H5F_flush sampleBuild
      { open_fails := true, create_fails := true, stat_fails := true,
        shadow_flush_fails := true, cache_flush_fails := true, register_fails := true }
      H5F_ACC_WRITE { sampleShared with flags := 0 } scratchHost true =
      ((SUCCEED, none), { sampleShared with flags := 0 }, scratchHost) :=
  ⟨by decide, C19_flush_read_only_is_noop sampleBuild _ H5F_ACC_WRITE
    { sampleShared with flags := 0 } scratchHost true (by decide)⟩

theorem H5F_flush_encode_length_pos (B : Build) (sh : H5F_file_t) :
    0 < (H5F_flush_encode B sh).length := by
  simp [H5F_flush_encode, H5F_SIGNATURE]

/-- `H5F_flush` through a handle without write intent on a writable shared
struct, the cache flush succeeding: the boot-block write is refused, the flush
fails and nothing is changed. -/
theorem H5F_flush_no_intent (B : Build) (env : Env) (intent : Nat)
    (sh : H5F_file_t) (h : Host) (invalidate : Bool)
    (hintent : intent &&& H5F_ACC_WRITE = 0)
    (hflags : sh.flags &&& H5F_ACC_WRITE ≠ 0)
    (hcache : env.cache_flush_fails = false) :
    H5F_flush B env intent sh h invalidate = ((FAIL, some .IO_WRITEERROR), sh, h) := by
  unfold H5F_flush
  rw [Nat.land_comm] at hflags
  rw [if_neg hflags]
  simp only [hcache, Bool.false_eq_true, if_false]
  rw [H5F_block_write_no_intent _ _ _ _ _ _ _ hintent (H5F_flush_encode_length_pos B sh)]

/-- C20, evaluated on the code: through a handle whose intent lacks `WRITE`
(intent 0), on a shared struct whose flags include `WRITE` and whose host
descriptor is open for writing, with no collaborator failing, `H5F_flush`
returns `FAIL` with `IO/WriteError` for both values of `invalidate` and leaves
the shared struct and the host untouched: no boot block is written. -/
theorem C20_flush_through_read_only_handle_fails :
    ((0 : Nat) &&& H5F_ACC_WRITE = 0 ∧ sampleShared.flags &&& H5F_ACC_WRITE ≠ 0 ∧
      coherent sampleShared scratchHost = true) ∧
    H5F_flush sampleBuild Env.ok 0 sampleShared scratchHost true =
      ((FAIL, some .IO_WRITEERROR), sampleShared, scratchHost) ∧
    H5F_flush sampleBuild Env.ok 0 sampleShared scratchHost false =
      ((FAIL, some .IO_WRITEERROR), sampleShared, scratchHost) ∧
    (sharedFile sampleShared scratchHost).len = 0 :=
  ⟨by decide,
   H5F_flush_no_intent sampleBuild Env.ok 0 sampleShared scratchHost true
    (by decide) (by decide) rfl,
   H5F_flush_no_intent sampleBuild Env.ok 0 sampleShared scratchHost false
    (by decide) (by decide) rfl,
   by decide⟩


/-! ### Frame of `H5F_dest` and of the second half of `H5F_open` -/

theorem sameCore_refl (a : H5F_file_t) : sameCore a a :=
  ⟨Eq.refl _, Eq.refl _, Eq.refl _, Eq.refl _⟩

theorem sameCore_trans {a b c : H5F_file_t} (h1 : sameCore a b) (h2 : sameCore b c) :
    sameCore a c :=
  ⟨h2.1.trans h1.1, h2.2.1.trans h1.2.1, h2.2.2.1.trans h1.2.2.1, h2.2.2.2.trans h1.2.2.2⟩

theorem sameTables_refl (w : World) : sameTables w w := ⟨Eq.refl _, Eq.refl _, Eq.refl _⟩

theorem H5F_dest_heap (w : World) (f : H5F_t) :
    (H5F_dest w f).heap = heapWith w f.shared (dropRef (w.deref f.shared)) ∧
    sameTables w (H5F_dest w f) ∧ (H5F_dest w f).host = w.host := by
  unfold H5F_dest dropRef heapWith sameTables
  by_cases h : (w.deref f.shared).nrefs - 1 = 0
  · simp [h]
  · simp [h, World.store]

theorem H5F_open_fail_heap (w : World) (f : H5F_t) (fd : Option Nat) (e : H5E) :
    (H5F_open_fail w f fd e).2.heap = heapWith w f.shared (dropRef (w.deref f.shared)) ∧
    sameTables w (H5F_open_fail w f fd e).2 := by
  have hd := H5F_dest_heap w f
  cases fd with
  | none => exact ⟨hd.1, hd.2.1⟩
  | some d => exact ⟨hd.1, hd.2.1⟩

theorem heapWith_store (w : World) (h1 : Host) (p : Nat) (a : H5F_file_t)
    (x : Option H5F_file_t) :
    heapWith ({ w with host := h1 }.store p a) p x = heapWith w p x := by
  funext k
  by_cases hk : k = p <;> simp [heapWith, World.store, hk]

/-- The end of `H5F_open`: on success the struct at `p` is stored with the
file size as its logical length; on failure `H5F_dest` drops one reference. -/
theorem H5F_open_finish_heap (name : String) (flags : Nat) (w : World) (p : Nat)
    (fd : Option Nat) (x : Except H5E Unit) (sh1 : H5F_file_t) (h1 : Host) :
    sameTables w (H5F_open_finish name flags w p fd (x, sh1, h1)).2 ∧
    ((∃ len, (H5F_open_finish name flags w p fd (x, sh1, h1)).1 =
          .ok { name := name, intent := flags, shared := p } ∧
        (H5F_open_finish name flags w p fd (x, sh1, h1)).2.heap =
          heapWith w p (some { sh1 with logical_len := len })) ∨
     (∃ e, (H5F_open_finish name flags w p fd (x, sh1, h1)).1 = .error e ∧
        (H5F_open_finish name flags w p fd (x, sh1, h1)).2.heap =
          heapWith w p (dropRef sh1))) := by
  have hfail : ∀ e, sameTables w (H5F_open_fail ({ w with host := h1 }.store p sh1)
        { name := name, intent := flags, shared := p } fd e).2 ∧
      (H5F_open_fail ({ w with host := h1 }.store p sh1)
        { name := name, intent := flags, shared := p } fd e).2.heap =
        heapWith w p (dropRef sh1) := by
    intro e
    have hf := H5F_open_fail_heap ({ w with host := h1 }.store p sh1)
      { name := name, intent := flags, shared := p } fd e
    simp only [World.deref_store, heapWith_store] at hf
    exact ⟨hf.2, hf.1⟩
  cases x with
  | error e =>
    have hfin : H5F_open_finish name flags w p fd (.error e, sh1, h1) =
        H5F_open_fail ({ w with host := h1 }.store p sh1)
          { name := name, intent := flags, shared := p } fd e := rfl
    rw [hfin]
    exact ⟨(hfail e).1, Or.inr ⟨e, H5F_open_fail_fst _ _ _ _, (hfail e).2⟩⟩
  | ok u =>
    rcases option_cases (H5F_SEEKEND h1 sh1.file_handle) with hs | ⟨h2, hs⟩
    · have hfin : H5F_open_finish name flags w p fd (.ok u, sh1, h1) =
          H5F_open_fail ({ w with host := h1 }.store p sh1)
            { name := name, intent := flags, shared := p } fd .FILE_CANTINIT := by
        simp only [H5F_open_finish, hs]
      rw [hfin]
      exact ⟨(hfail _).1, Or.inr ⟨_, H5F_open_fail_fst _ _ _ _, (hfail _).2⟩⟩
    · have hfin : H5F_open_finish name flags w p fd (.ok u, sh1, h1) =
          (.ok { name := name, intent := flags, shared := p },
            { w with host := (H5F_SEEK h2 sh1.file_handle
                (H5F_TELL h1 sh1.file_handle)).getD h2 }.store p
              { sh1 with logical_len := H5F_TELL h2 sh1.file_handle }) := by
        simp only [H5F_open_finish, hs]
      rw [hfin]
      refine ⟨by simp [sameTables, World.store],
        Or.inl ⟨H5F_TELL h2 sh1.file_handle, Eq.refl _, ?_⟩⟩
      funext k
      by_cases hk : k = p <;> simp [heapWith, World.store, hk]

theorem H5Asearch_atom_some (w : World) (key : Nat × Nat) (old : H5F_t)
    (h : H5Asearch_atom w key = some old) :
    ∃ sh, w.heap old.shared = some sh ∧ sh.key = key := by
  unfold H5Asearch_atom at h
  rcases option_cases (w.atoms.find? (fun a => H5F_compare_files w a.2 key)) with
    hn | ⟨a, ha⟩
  · rw [hn] at h; cases h
  · rw [ha] at h
    simp only [Option.map_some', Option.some.injEq] at h
    have hp := List.find?_some ha
    simp only [H5F_compare_files] at hp
    rw [h] at hp
    rcases option_cases (w.heap old.shared) with hh | ⟨sh, hh⟩
    · rw [hh] at hp; cases hp
    · rw [hh] at hp
      simp only [Bool.and_eq_true, beq_iff_eq] at hp
      exact ⟨sh, hh, Prod.ext hp.1 hp.2⟩

/-- On a shared struct that already has another reference the second half of
`H5F_open` copies no parameters and does not run the boot-block scan. -/
theorem H5F_open_tail_attached (B : Build) (env : Env) (name : String) (flags : Nat)
    (create_parms : file_create_temp_t) (w : World) (p : Nat) (fd : Option Nat)
    (hrefs : 1 ≠ (w.deref p).nrefs) :
    H5F_open_tail B env name flags create_parms w p fd false =
      H5F_open_finish name flags w p fd (.ok (), w.deref p, w.host) := by
  rw [H5F_open_tail_eq]
  unfold H5F_open_boot H5F_open_parms
  rw [if_neg hrefs]
  simp only [Bool.false_eq_true, if_false]
  rw [if_neg hrefs]

theorem H5F_open_tail_attached_heap (B : Build) (env : Env) (name : String) (flags : Nat)
    (create_parms : file_create_temp_t) (w : World) (p : Nat) (fd : Option Nat)
    (hrefs : 1 ≠ (w.deref p).nrefs) :
    sameTables w (H5F_open_tail B env name flags create_parms w p fd false).2 ∧
    ((∃ len, (H5F_open_tail B env name flags create_parms w p fd false).1 =
          .ok { name := name, intent := flags, shared := p } ∧
        (H5F_open_tail B env name flags create_parms w p fd false).2.heap =
          heapWith w p (some { (w.deref p) with logical_len := len })) ∨
     (∃ e, (H5F_open_tail B env name flags create_parms w p fd false).1 = .error e ∧
        (H5F_open_tail B env name flags create_parms w p fd false).2.heap =
          heapWith w p (dropRef (w.deref p)))) := by
  rw [H5F_open_tail_attached B env name flags create_parms w p fd hrefs]
  exact H5F_open_finish_heap name flags w p fd (.ok ()) (w.deref p) w.host

theorem heapWith_self (w : World) (q : Nat) (x : Option H5F_file_t) :
    heapWith w q x q = x := by
  simp [heapWith]

theorem heapWith_other (w : World) (q k : Nat) (x : Option H5F_file_t) (hk : k ≠ q) :
    heapWith w q x k = w.heap k := by
  simp [heapWith, hk]

theorem dropRef_succ (sh : H5F_file_t) (n : Nat) (hn : 1 ≤ n) :
    dropRef { sh with nrefs := n + 1 } = some { sh with nrefs := n } := by
  unfold dropRef
  have h : n + 1 - 1 = n := by omega
  simp only [h]
  rw [if_neg (by omega)]

/-- C18: an `H5F_open` that finds the file already open (the registry search
returns a handle whose shared struct has `nrefs >= 1`) leaves the creation
parameters of that shared struct as they were, whatever `create_parms` the
caller passes and whether the call succeeds or fails; the other fields the
boot-block decode assigns (`consist_flags`, the two offsets, the root entry)
and the seek-elision fields are unchanged as well, so no decode ran.  On
success the handle is attached to that struct, whose `nrefs` is now at least
2.  The copy of `create_parms` is made for a struct with `nrefs = 1`, which is
the new struct of the call that creates it. -/
theorem C18_attach_keeps_create_parms (B : Build) (env : Env) (name : String) (flags : Nat)
    (create_parms : file_create_temp_t) (w : World) (key : Nat × Nat) (old : H5F_t)
    (hstat : stat w.host name = some key)
    (hsearch : H5Asearch_atom w key = some old)
    (hrefs : 1 ≤ (w.deref old.shared).nrefs) :
    (∃ sh1, (H5F_open B env name flags create_parms w).2.heap old.shared = some sh1 ∧
      sh1.file_create_parms = (w.deref old.shared).file_create_parms ∧
      sh1.consist_flags = (w.deref old.shared).consist_flags ∧
      sh1.smallobj_off = (w.deref old.shared).smallobj_off ∧
      sh1.freespace_off = (w.deref old.shared).freespace_off ∧
      sh1.root_sym = (w.deref old.shared).root_sym ∧
      sh1.last_op = (w.deref old.shared).last_op ∧
      sh1.f_cur_off = (w.deref old.shared).f_cur_off ∧
      (∀ f, (H5F_open B env name flags create_parms w).1 = .ok f →
        f.shared = old.shared ∧ sh1.nrefs = (w.deref old.shared).nrefs + 1 ∧ 2 ≤ sh1.nrefs) ∧
      (∀ e, (H5F_open B env name flags create_parms w).1 = .error e →
        sh1.nrefs = (w.deref old.shared).nrefs)) ∧
    (∀ (key1 : Nat × Nat) (fd : Nat),
      (H5F_open_parms create_parms (freshShared B key1 flags fd)).file_create_parms =
        create_parms) := by
  refine ⟨?_, fun key1 fd => by simp [H5F_open_parms, freshShared]⟩
  obtain ⟨osh, hosh, _⟩ := H5Asearch_atom_some w key old hsearch
  have hderef : w.deref old.shared = osh := by simp [World.deref, hosh]
  subst hderef
  rcases H5F_open_cases B env name flags create_parms w with
    ⟨e, _, h⟩ | ⟨_, _, h⟩ | ⟨h1, hs, _⟩ | ⟨_, _, _, _, hs, _⟩ |
    ⟨key1, old1, hs1, hs2, _, h⟩ | ⟨key1, old1, fd, h1, hs1, hs2, _, _, _, h⟩
  · rw [h]
    exact ⟨_, hosh, rfl, rfl, rfl, rfl, rfl, rfl, rfl,
      (fun f hf => by cases hf), (fun _ _ => rfl)⟩
  · rw [h]
    exact ⟨_, hosh, rfl, rfl, rfl, rfl, rfl, rfl, rfl,
      (fun f hf => by cases hf), (fun _ _ => rfl)⟩
  · rw [hstat] at hs; cases hs
  · exact absurd hsearch (hs key old hstat)
  · rw [hstat] at hs1
    cases hs1
    rw [hsearch] at hs2
    cases hs2
    rw [h]
    have hne : 1 ≠ ((w.store old.shared
        { (w.deref old.shared) with nrefs := (w.deref old.shared).nrefs + 1 }).deref
          old.shared).nrefs := by
      rw [World.deref_store]; simp only; omega
    obtain ⟨_, hres⟩ := H5F_open_tail_attached_heap B env name flags create_parms _ old.shared
      none hne
    rw [World.deref_store] at hres
    rcases hres with ⟨len, hok, hheap⟩ | ⟨e, herr, hheap⟩
    · rw [hheap, hok, heapWith_self]
      exact ⟨_, rfl, rfl, rfl, rfl, rfl, rfl, rfl, rfl,
        (fun f hf => by
          simp only [Except.ok.injEq] at hf
          subst hf
          exact ⟨rfl, rfl, by simp only; omega⟩),
        (fun e he => by cases he)⟩
    · rw [hheap, herr, heapWith_self, dropRef_succ _ _ hrefs]
      exact ⟨_, rfl, rfl, rfl, rfl, rfl, rfl, rfl, rfl,
        (fun f hf => by cases hf), (fun _ _ => rfl)⟩
  · rw [hstat] at hs1
    cases hs1
    rw [hsearch] at hs2
    cases hs2
    rw [h]
    have hne : 1 ≠ (({ w with host := H5F_CLOSE h1 (w.deref old.shared).file_handle }.store
        old.shared
        { (w.deref old.shared) with
          file_handle := fd
          flags := (w.deref old.shared).flags ||| H5F_ACC_WRITE
          nrefs := (w.deref old.shared).nrefs + 1 }).deref old.shared).nrefs := by
      rw [World.deref_store]; simp only; omega
    obtain ⟨_, hres⟩ := H5F_open_tail_attached_heap B env name flags create_parms _ old.shared
      none hne
    rw [World.deref_store] at hres
    rcases hres with ⟨len, hok, hheap⟩ | ⟨e, herr, hheap⟩
    · rw [hheap, hok, heapWith_self]
      exact ⟨_, rfl, rfl, rfl, rfl, rfl, rfl, rfl, rfl,
        (fun f hf => by
          simp only [Except.ok.injEq] at hf
          subst hf
          exact ⟨rfl, rfl, by simp only; omega⟩),
        (fun e he => by cases he)⟩
    · have hd := dropRef_succ
        { (w.deref old.shared) with
          file_handle := fd
          flags := (w.deref old.shared).flags ||| H5F_ACC_WRITE } _ hrefs
      rw [hheap, herr, heapWith_self]
      rw [hd]
      exact ⟨_, rfl, rfl, rfl, rfl, rfl, rfl, rfl, rfl,
        (fun f hf => by cases hf), (fun _ _ => rfl)⟩

/-- C18 at a concrete input: `a.bin` is open once, and a second `H5F_open`
passes creation parameters that differ from those of the open file. -/
theorem C18_attach_keeps_create_parms_witness :
    (stat openedWorld.host "a.bin" = some (0, 1) ∧
      H5Asearch_atom openedWorld (0, 1) = some { name := "a.bin", intent := 0, shared := 0 } ∧
      1 ≤ (openedWorld.deref 0).nrefs) ∧
    (∃ sh1, (H5F_open sampleBuild Env.ok "a.bin" 0 otherParms openedWorld).2.heap 0 =
        some sh1 ∧
      sh1.file_create_parms = (openedWorld.deref 0).file_create_parms ∧
      sh1.consist_flags = (openedWorld.deref 0).consist_flags ∧
      sh1.smallobj_off = (openedWorld.deref 0).smallobj_off ∧
      sh1.freespace_off = (openedWorld.deref 0).freespace_off ∧
      sh1.root_sym = (openedWorld.deref 0).root_sym ∧
      sh1.last_op = (openedWorld.deref 0).last_op ∧
      sh1.f_cur_off = (openedWorld.deref 0).f_cur_off ∧
      (∀ f, (H5F_open sampleBuild Env.ok "a.bin" 0 otherParms openedWorld).1 = .ok f →
        f.shared = 0 ∧ sh1.nrefs = (openedWorld.deref 0).nrefs + 1 ∧ 2 ≤ sh1.nrefs) ∧
      (∀ e, (H5F_open sampleBuild Env.ok "a.bin" 0 otherParms openedWorld).1 = .error e →
        sh1.nrefs = (openedWorld.deref 0).nrefs)) ∧
    (∀ (key1 : Nat × Nat) (fd : Nat),
      (H5F_open_parms otherParms (freshShared sampleBuild key1 0 fd)).file_create_parms =
        otherParms) :=
  ⟨by decide,
   C18_attach_keeps_create_parms sampleBuild Env.ok "a.bin" 0 otherParms openedWorld (0, 1)
    { name := "a.bin", intent := 0, shared := 0 } (by decide) (by decide) (by decide)⟩

/-! ### The read-only to read-write upgrade -/

theorem H5F_open_finish_ok (name : String) (flags : Nat) (w : World) (p : Nat)
    (fd : Option Nat) (sh1 : H5F_file_t) (h1 : Host) (d : HostFd)
    (hd : h1.openFd sh1.file_handle = some d) :
    H5F_open_finish name flags w p fd (.ok (), sh1, h1) =
      (.ok { name := name, intent := flags, shared := p },
       { w with host := h1 }.store p { sh1 with logical_len := (h1.inodes d.ino).len }) := by
  obtain ⟨hfd, hopen⟩ := Host.openFd_some h1 _ d hd
  have hopen1 : ({ d with pos := (h1.inodes d.ino).len } : HostFd).is_open = true := hopen
  have hd2 := Host.openFd_setFd h1 sh1.file_handle _ hopen1
  simp only [H5F_open_finish, H5F_SEEKEND_ok h1 _ d hd, H5F_TELL_ok h1 _ d hd,
    H5F_TELL_ok _ _ _ hd2, H5F_SEEK_ok _ _ _ _ hd2, Option.getD_some, Host.setFd_setFd]
  have hback : h1.setFd sh1.file_handle
      { ino := d.ino, pos := d.pos, writable := d.writable, is_open := d.is_open } = h1 :=
    Host.setFd_self h1 _ d hfd
  rw [hback]

theorem H5F_OPEN_ok (env : Env) (h : Host) (name : String) (key : Nat × Nat) (write : Bool)
    (hopen : env.open_fails = false)
    (hstat : stat h name = some key)
    (hr : access_R_OK h name = true)
    (hw : write = true → access_W_OK h name = true) :
    H5F_OPEN env h name write = some (h.nfds, hostAfterOpen h key write) := by
  have hpath : h.paths name = some key := hstat
  have hr1 : (h.inodes key).r_ok = true := by
    simpa [access_R_OK, hpath] using hr
  cases write with
  | false => simp [H5F_OPEN, hopen, hpath, hr1, hostAfterOpen]
  | true =>
    have hw1 : (h.inodes key).w_ok = true := by
      simpa [access_W_OK, hpath] using hw rfl
    simp [H5F_OPEN, hopen, hpath, hr1, hw1, hostAfterOpen]

theorem H5F_CLOSE_openFd_ne (h : Host) (fd k : Nat) (hk : k ≠ fd) :
    (H5F_CLOSE h fd).openFd k = h.openFd k := by
  unfold H5F_CLOSE
  rcases option_cases (h.openFd fd) with hn | ⟨d, hd⟩
  · rw [hn]
  · rw [hd]
    simp [Host.openFd, Host.setFd, hk]

theorem H5F_CLOSE_inodes (h : Host) (fd : Nat) : (H5F_CLOSE h fd).inodes = h.inodes := by
  unfold H5F_CLOSE
  rcases option_cases (h.openFd fd) with hn | ⟨d, hd⟩
  · rw [hn]
  · rw [hd]; rfl

/-- A positioned write of at least one byte through a handle with write intent
succeeds when the host descriptor of the shared struct is open for writing. -/
theorem H5F_block_write_succeeds (opt : Bool) (intent : Nat) (sh : H5F_file_t) (h : Host)
    (addr size : Nat) (buf : List Nat) (d : HostFd)
    (hd : h.openFd sh.file_handle = some d) (hw : d.writable = true)
    (hintent : intent &&& H5F_ACC_WRITE ≠ 0) :
    (H5F_block_write opt intent sh h addr size buf).1 = .ok () := by
  obtain ⟨hfd, hopen⟩ := Host.openFd_some h _ d hd
  unfold H5F_block_write
  by_cases hsize : size = 0
  · rw [if_pos hsize]
  rw [if_neg hsize]
  simp only []
  rw [if_neg hintent]
  by_cases hel : (!opt || sh.last_op != OP_WRITE ||
      sh.f_cur_off != addr + sh.file_create_parms.userblock_size) = true
  · simp only [hel, if_true]
    have hd1 : (h.setFd sh.file_handle
        { d with pos := addr + sh.file_create_parms.userblock_size }).openFd sh.file_handle =
        some { d with pos := addr + sh.file_create_parms.userblock_size } :=
      Host.openFd_setFd _ _ _ hopen
    rw [H5F_SEEK_ok h _ _ d hd]
    simp only []
    rw [H5F_WRITE_ok _ _ size buf _ hd1 hw]
  · rw [if_neg hel]
    rw [H5F_WRITE_ok h _ size buf d hd hw]

/-- The upgrading path of `H5F_open` (lines 608-618 and the second half): the
file is found open with a read-only shared struct, `WRITE` is requested and
the host reopens the file. -/
theorem H5F_open_upgrade (B : Build) (env : Env) (name : String) (flags : Nat)
    (create_parms : file_create_temp_t) (w : World) (key : Nat × Nat) (old : H5F_t)
    (hstat : stat w.host name = some key)
    (hexcl : flags &&& H5F_ACC_EXCL = 0)
    (htrunc : flags &&& H5F_ACC_TRUNC = 0)
    (hr : access_R_OK w.host name = true)
    (hw : access_W_OK w.host name = true)
    (hsearch : H5Asearch_atom w key = some old)
    (hro : (w.deref old.shared).flags &&& H5F_ACC_WRITE = 0)
    (hwr : flags &&& H5F_ACC_WRITE ≠ 0)
    (hopen : env.open_fails = false)
    (hrefs : 1 ≤ (w.deref old.shared).nrefs)
    (hfd : (w.deref old.shared).file_handle ≠ w.host.nfds) :
    H5F_open B env name flags create_parms w =
      (.ok { name := name, intent := flags, shared := old.shared },
       { w with
         host := hostAfterUpgrade w.host key (w.deref old.shared).file_handle }.store old.shared
         { (w.deref old.shared) with
           file_handle := w.host.nfds
           flags := (w.deref old.shared).flags ||| H5F_ACC_WRITE
           nrefs := (w.deref old.shared).nrefs + 1
           logical_len := (w.host.inodes key).len }) := by
  have hOPEN := H5F_OPEN_ok env w.host name key true hopen hstat hr (fun _ => hw)
  have hfound : H5F_open B env name flags create_parms w =
      H5F_open_found B env name flags create_parms w old := by
    rw [H5F_open_eq]
    simp only [hstat]
    rw [if_neg (by simp [hexcl]), if_neg (by simp [hr]), if_neg (by simp [hw])]
    simp only [hsearch]
  rw [hfound]
  unfold H5F_open_found
  rw [if_neg (by simp [htrunc]), if_pos ⟨hwr, hro⟩]
  simp only [hOPEN, H5F_new, World.deref_store, World.store_store]
  have hhost : H5F_CLOSE (hostAfterOpen w.host key true) (w.deref old.shared).file_handle =
      hostAfterUpgrade w.host key (w.deref old.shared).file_handle := rfl
  rw [hhost]
  have hne : 1 ≠ (({ w with
        host := hostAfterUpgrade w.host key (w.deref old.shared).file_handle }.store old.shared
      { (w.deref old.shared) with
        file_handle := w.host.nfds
        flags := (w.deref old.shared).flags ||| H5F_ACC_WRITE
        nrefs := (w.deref old.shared).nrefs + 1 }).deref old.shared).nrefs := by
    rw [World.deref_store]; simp only; omega
  rw [H5F_open_tail_attached B env name flags create_parms _ old.shared none hne]
  rw [World.deref_store]
  have hd : (hostAfterUpgrade w.host key (w.deref old.shared).file_handle).openFd
      w.host.nfds = some { ino := key, pos := 0, writable := true, is_open := true } := by
    unfold hostAfterUpgrade
    rw [H5F_CLOSE_openFd_ne _ _ _ (Ne.symm hfd)]
    exact hostAfterOpen_openFd w.host key true
  rw [H5F_open_finish_ok name flags _ old.shared none _ _ _ hd]
  refine Prod.ext rfl ?_
  simp only [World.store, hostAfterUpgrade, H5F_CLOSE_inodes, hostAfterOpen, Host.setFd,
    World.mk.injEq, true_and, and_true]
  funext k
  by_cases hk : k = old.shared <;> simp [hk]

theorem lor_land_self (a b : Nat) : (a ||| b) &&& b = b := by
  apply Nat.eq_of_testBit_eq
  intro i
  simp only [Nat.testBit_land, Nat.testBit_lor]
  cases a.testBit i <;> cases b.testBit i <;> rfl

theorem World.block_write_fst (B : Build) (w : World) (f : H5F_t) (addr size : Nat)
    (buf : List Nat) :
    (World.block_write B w f addr size buf).1 =
      (H5F_block_write B.H5F_OPT_SEEK f.intent (w.deref f.shared) w.host addr size buf).1 :=
  rfl

/-- C13: let `h5` be a handle without write intent on a shared struct that is
read-only (flags without `WRITE`), found by the registry search for the file
`name`.  An `H5F_open` of `name` with `WRITE` (no `EXCL`, no `TRUNC`), the file
being readable and writable and the host reopen succeeding, returns a handle
`h6` on the same shared struct; afterwards the flags of that struct include
`WRITE`, its host handle is the descriptor the host has just opened for
writing (and not the former one), its `nrefs` is one more, the intent of `h5`
still lacks `WRITE`, a write of 8 bytes at address 0 through `h6` succeeds and
the same write through `h5` fails with `IO/WriteError`. -/
theorem C13_read_only_then_upgrade (B : Build) (env : Env) (name : String) (flags : Nat)
    (create_parms : file_create_temp_t) (w : World) (key : Nat × Nat) (old h5 : H5F_t)
    (bytes : List Nat)
    (hstat : stat w.host name = some key)
    (hexcl : flags &&& H5F_ACC_EXCL = 0)
    (htrunc : flags &&& H5F_ACC_TRUNC = 0)
    (hr : access_R_OK w.host name = true)
    (hw : access_W_OK w.host name = true)
    (hsearch : H5Asearch_atom w key = some old)
    (hshared : h5.shared = old.shared)
    (hintent : h5.intent &&& H5F_ACC_WRITE = 0)
    (hro : (w.deref h5.shared).flags &&& H5F_ACC_WRITE = 0)
    (hwr : flags &&& H5F_ACC_WRITE ≠ 0)
    (hopen : env.open_fails = false)
    (hrefs : 1 ≤ (w.deref h5.shared).nrefs)
    (hfd : (w.deref h5.shared).file_handle ≠ w.host.nfds) :
    ∃ h6 w1, H5F_open B env name flags create_parms w = (.ok h6, w1) ∧
      h6.shared = h5.shared ∧ h6.intent = flags ∧
      (w1.deref h5.shared).flags &&& H5F_ACC_WRITE ≠ 0 ∧
      (w1.deref h5.shared).file_handle = w.host.nfds ∧
      (w1.deref h5.shared).file_handle ≠ (w.deref h5.shared).file_handle ∧
      w1.host.openFd w.host.nfds =
        some { ino := key, pos := 0, writable := true, is_open := true } ∧
      (w1.deref h5.shared).nrefs = (w.deref h5.shared).nrefs + 1 ∧
      h5.intent &&& H5F_ACC_WRITE = 0 ∧
      (World.block_write B w1 h6 0 8 bytes).1 = .ok () ∧
      (World.block_write B w1 h5 0 8 bytes).1 = .error .IO_WRITEERROR := by
  rw [hshared] at hro hrefs hfd ⊢
  have hup := H5F_open_upgrade B env name flags create_parms w key old hstat hexcl htrunc hr hw
    hsearch hro hwr hopen hrefs hfd
  have hd : (hostAfterUpgrade w.host key (w.deref old.shared).file_handle).openFd
      w.host.nfds = some { ino := key, pos := 0, writable := true, is_open := true } := by
    unfold hostAfterUpgrade
    rw [H5F_CLOSE_openFd_ne _ _ _ (Ne.symm hfd)]
    exact hostAfterOpen_openFd w.host key true
  refine ⟨_, _, hup, rfl, rfl, ?_, ?_, ?_, hd, ?_, hintent, ?_, ?_⟩
  · rw [World.deref_store]
    show ((w.deref old.shared).flags ||| H5F_ACC_WRITE) &&& H5F_ACC_WRITE ≠ 0
    rw [lor_land_self]
    decide
  · rw [World.deref_store]
  · rw [World.deref_store]
    exact Ne.symm hfd
  · rw [World.deref_store]
  · rw [World.block_write_fst, World.deref_store]
    exact H5F_block_write_succeeds _ _ _ _ _ _ _ _ hd rfl hwr
  · rw [World.block_write_fst, hshared, World.deref_store]
    rw [H5F_block_write_no_intent _ _ _ _ _ _ _ hintent (by decide)]

/-- C13 at a concrete input: `a.bin` is open read-only (handle `h5`, file id
0) and is opened again with `WRITE`. -/
theorem C13_read_only_then_upgrade_witness :
    (stat openedWorld.host "a.bin" = some (0, 1) ∧
      H5Asearch_atom openedWorld (0, 1) = some { name := "a.bin", intent := 0, shared := 0 } ∧
      (openedWorld.deref 0).flags &&& H5F_ACC_WRITE = 0 ∧
      1 ≤ (openedWorld.deref 0).nrefs ∧
      (openedWorld.deref 0).file_handle ≠ openedWorld.host.nfds) ∧
    ∃ h6 w1, H5F_open sampleBuild Env.ok "a.bin" H5F_ACC_WRITE sampleBuild.default_parms
        openedWorld = (.ok h6, w1) ∧
      h6.shared = 0 ∧ h6.intent = H5F_ACC_WRITE ∧
      (w1.deref 0).flags &&& H5F_ACC_WRITE ≠ 0 ∧
      (w1.deref 0).file_handle = openedWorld.host.nfds ∧
      (w1.deref 0).file_handle ≠ (openedWorld.deref 0).file_handle ∧
      w1.host.openFd openedWorld.host.nfds =
        some { ino := (0, 1), pos := 0, writable := true, is_open := true } ∧
      (w1.deref 0).nrefs = (openedWorld.deref 0).nrefs + 1 ∧
      (0 : Nat) &&& H5F_ACC_WRITE = 0 ∧
      (World.block_write sampleBuild w1 h6 0 8 [1, 2, 3, 4, 5, 6, 7, 8]).1 = .ok () ∧
      (World.block_write sampleBuild w1 { name := "a.bin", intent := 0, shared := 0 } 0 8
        [1, 2, 3, 4, 5, 6, 7, 8]).1 = .error .IO_WRITEERROR :=
  ⟨by decide,
   C13_read_only_then_upgrade sampleBuild Env.ok "a.bin" H5F_ACC_WRITE
    sampleBuild.default_parms openedWorld (0, 1)
    { name := "a.bin", intent := 0, shared := 0 } { name := "a.bin", intent := 0, shared := 0 }
    [1, 2, 3, 4, 5, 6, 7, 8]
    (by decide) (by decide) (by decide) (by decide) (by decide) (by decide) rfl (by decide)
    (by decide) (by decide) rfl (by decide) (by decide)⟩


set_option maxRecDepth 1000000 in
/-- C16, evaluated on the code with no collaborator failing: `a.bin` is opened
read-only (id 0) and read-write (id 1) on one shared struct at address 0.
`H5Fclose` of id 0 returns `FAIL`: the flush inside `H5F_close` fails, the
handle is not destroyed (`nrefs` stays 2) and the id is removed all the same.
`H5Fclose` of id 1 succeeds and leaves the struct live with `nrefs = 1` and no
id that reaches it.  The next `H5Fopen` of `a.bin` finds no open file and
builds a second struct at address 1: two live shared structs hold the same
`(device, inode)` key. -/
theorem C16_two_shared_structs_for_one_file :
    (upgradedWorld.heap 0).map (fun sh => (sh.key, sh.nrefs)) = some ((0, 1), 2) ∧
    upgradedWorld.heap 1 = none ∧
    closeReadOnlyFirst.1 = (FAIL, some .CACHE_CANTFLUSH) ∧
    (closeReadOnlyFirst.2.heap 0).map (fun sh => sh.nrefs) = some 2 ∧
    closeReadOnlyFirst.2.atoms.map (fun a => a.1) = [1] ∧
    closeReadWriteNext.1 = (SUCCEED, none) ∧
    (closeReadWriteNext.2.heap 0).map (fun sh => sh.nrefs) = some 1 ∧
    closeReadWriteNext.2.atoms = [] ∧
    reopenAfterCloses.1 = .ok 2 ∧
    H5Aatom_object reopenAfterCloses.2 2 = some { name := "a.bin", intent := 0, shared := 1 } ∧
    (reopenAfterCloses.2.heap 0).map (fun sh => (sh.key, sh.nrefs)) = some ((0, 1), 1) ∧
    (reopenAfterCloses.2.heap 1).map (fun sh => (sh.key, sh.nrefs)) = some ((0, 1), 1) := by
  decide

/-! ### Key, flags, host handle and reference count are assigned by `H5F_open`, `H5F_new` and `H5F_dest` only -/

theorem H5F_block_read_core (opt : Bool) (sh : H5F_file_t) (h : Host) (addr size : Nat) :
    sameCore sh (H5F_block_read opt sh h addr size).2.1 := by
  unfold H5F_block_read
  by_cases hs : size = 0
  · rw [if_pos hs]
    exact sameCore_refl _
  rw [if_neg hs]
  simp only []
  by_cases hel : (!opt || sh.last_op != OP_READ ||
      sh.f_cur_off != addr + sh.file_create_parms.userblock_size) = true
  · rw [if_pos hel]
    rcases option_cases (H5F_SEEK h sh.file_handle
      (addr + sh.file_create_parms.userblock_size)) with hk | ⟨h1, hk⟩
    · simp only [hk]
      exact ⟨rfl, rfl, rfl, rfl⟩
    · simp only [hk]
      rcases hrd : H5F_READ h1 sh.file_handle size with ⟨_ | bytes, h2⟩
      · exact ⟨rfl, rfl, rfl, rfl⟩
      · exact ⟨rfl, rfl, rfl, rfl⟩
  · rw [if_neg hel]
    rcases hrd : H5F_READ h sh.file_handle size with ⟨_ | bytes, h2⟩
    · exact ⟨rfl, rfl, rfl, rfl⟩
    · exact ⟨rfl, rfl, rfl, rfl⟩

theorem H5F_block_write_core (opt : Bool) (intent : Nat) (sh : H5F_file_t) (h : Host)
    (addr size : Nat) (buf : List Nat) :
    sameCore sh (H5F_block_write opt intent sh h addr size buf).2.1 := by
  unfold H5F_block_write
  by_cases hs : size = 0
  · rw [if_pos hs]
    exact sameCore_refl _
  rw [if_neg hs]
  simp only []
  by_cases hi : intent &&& H5F_ACC_WRITE = 0
  · rw [if_pos hi]
    exact sameCore_refl _
  rw [if_neg hi]
  by_cases hel : (!opt || sh.last_op != OP_WRITE ||
      sh.f_cur_off != addr + sh.file_create_parms.userblock_size) = true
  · rw [if_pos hel]
    rcases option_cases (H5F_SEEK h sh.file_handle
      (addr + sh.file_create_parms.userblock_size)) with hk | ⟨h1, hk⟩
    · simp only [hk]
      exact ⟨rfl, rfl, rfl, rfl⟩
    · simp only [hk]
      rcases hwr : H5F_WRITE h1 sh.file_handle buf size with ⟨_ | _, h2⟩
      · exact ⟨rfl, rfl, rfl, rfl⟩
      · exact ⟨rfl, rfl, rfl, rfl⟩
  · rw [if_neg hel]
    rcases hwr : H5F_WRITE h sh.file_handle buf size with ⟨_ | _, h2⟩
    · exact ⟨rfl, rfl, rfl, rfl⟩
    · exact ⟨rfl, rfl, rfl, rfl⟩

theorem H5F_flush_core (B : Build) (env : Env) (intent : Nat) (sh : H5F_file_t) (h : Host)
    (invalidate : Bool) :
    sameCore sh (H5F_flush B env intent sh h invalidate).2.1 := by
  unfold H5F_flush
  split
  · exact sameCore_refl _
  · simp only []
    split
    · exact sameCore_refl _
    · have hw := H5F_block_write_core B.H5F_OPT_SEEK intent sh h 0
        (H5F_flush_encode B sh).length (H5F_flush_encode B sh)
      split
      · rename_i heq
        rw [heq] at hw
        exact hw
      · rename_i heq
        rw [heq] at hw
        repeat' split
        all_goals exact sameCore_trans hw ⟨rfl, rfl, rfl, rfl⟩

theorem H5F_open_decode_fixed_core (sh sh2 : H5F_file_t) (buf : List Nat)
    (h : H5F_open_decode_fixed sh buf = .ok sh2) : sameCore sh sh2 := by
  rw [H5F_open_decode_fixed_eq] at h
  split at h
  · cases h
  · simp only [Except.ok.injEq] at h
    subst h
    exact ⟨rfl, rfl, rfl, rfl⟩

theorem H5F_open_decode_variable_core (B : Build) (sh sh2 : H5F_file_t) (buf : List Nat)
    (h : H5F_open_decode_variable B sh buf = .ok sh2) : sameCore sh sh2 := by
  unfold H5F_open_decode_variable at h
  simp only at h
  split at h
  · cases h
  · simp only [Except.ok.injEq] at h
    subst h
    exact ⟨rfl, rfl, rfl, rfl⟩

theorem H5F_open_scan_core (B : Build) (n : Nat) :
    ∀ (i : Nat) (sh : H5F_file_t) (h : Host), sameCore sh (H5F_open_scan B n i sh h).2.1 := by
  induction n with
  | zero =>
    intro i sh h
    exact sameCore_refl _
  | succ n ih =>
    intro i sh h
    rw [H5F_open_scan]
    simp only
    have h0 := H5F_block_read_core B.H5F_OPT_SEEK
      { sh with file_create_parms :=
        { sh.file_create_parms with userblock_size := H5F_open_candidate B i } } h 0 24
    have hsh0 : sameCore sh { sh with file_create_parms :=
        { sh.file_create_parms with userblock_size := H5F_open_candidate B i } } :=
      ⟨rfl, rfl, rfl, rfl⟩
    split
    · rename_i heq
      rw [heq] at h0
      exact sameCore_trans hsh0 h0
    · rename_i buf sh1 h1 heq
      rw [heq] at h0
      have h1c := sameCore_trans hsh0 h0
      split
      · exact sameCore_trans h1c (ih _ _ _)
      · split
        · exact h1c
        · rename_i sh2 hfix
          have h2c := sameCore_trans h1c (H5F_open_decode_fixed_core _ _ _ hfix)
          have h3 := H5F_block_read_core B.H5F_OPT_SEEK sh2 h1 24
            (H5F_open_variable_size B sh2.file_create_parms)
          split
          · rename_i heq2
            rw [heq2] at h3
            exact sameCore_trans h2c h3
          · rename_i buf2 sh3 h2 heq2
            rw [heq2] at h3
            have h3c := sameCore_trans h2c h3
            split
            · exact h3c
            · rename_i sh4 hvar
              exact sameCore_trans h3c (H5F_open_decode_variable_core _ _ _ _ hvar)

theorem H5F_open_parms_core (create_parms : file_create_temp_t) (sh : H5F_file_t) :
    sameCore sh (H5F_open_parms create_parms sh) := by
  unfold H5F_open_parms
  split <;> exact ⟨rfl, rfl, rfl, rfl⟩

theorem H5F_open_boot_core (B : Build) (env : Env) (flags : Nat) (sh : H5F_file_t)
    (h : Host) (empty_file : Bool) :
    sameCore sh (H5F_open_boot B env flags sh h empty_file).2.1 := by
  unfold H5F_open_boot
  cases empty_file with
  | true =>
    simp only [if_true]
    have hf := H5F_flush_core B env flags { sh with consist_flags := 3 } h false
    have h0 : sameCore sh { sh with consist_flags := 3 } := ⟨rfl, rfl, rfl, rfl⟩
    split <;> exact sameCore_trans h0 hf
  | false =>
    simp only [Bool.false_eq_true, if_false]
    split
    · exact H5F_open_scan_core B _ _ _ _
    · exact sameCore_refl _

/-- The second half of `H5F_open` leaves the allocator and the atom table
alone and changes the heap at the address of the handle only: on success the
struct there is stored with key, flags, host handle and reference count as
they were on entry; on failure `H5F_dest` has dropped one reference of it. -/
theorem H5F_open_tail_heap (B : Build) (env : Env) (name : String) (flags : Nat)
    (create_parms : file_create_temp_t) (w : World) (p : Nat) (fd : Option Nat)
    (empty_file : Bool) :
    sameTables w (H5F_open_tail B env name flags create_parms w p fd empty_file).2 ∧
    ∃ sh1, sameCore (w.deref p) sh1 ∧
      (((H5F_open_tail B env name flags create_parms w p fd empty_file).1 =
          .ok { name := name, intent := flags, shared := p } ∧
        (H5F_open_tail B env name flags create_parms w p fd empty_file).2.heap =
          heapWith w p (some sh1)) ∨
       (∃ e, (H5F_open_tail B env name flags create_parms w p fd empty_file).1 = .error e ∧
        (H5F_open_tail B env name flags create_parms w p fd empty_file).2.heap =
          heapWith w p (dropRef sh1))) := by
  rw [H5F_open_tail_eq]
  have hc := sameCore_trans (H5F_open_parms_core create_parms (w.deref p))
    (H5F_open_boot_core B env flags (H5F_open_parms create_parms (w.deref p)) w.host
      empty_file)
  rcases hb : H5F_open_boot B env flags (H5F_open_parms create_parms (w.deref p))
    w.host empty_file with ⟨x, sh1, h1⟩
  rw [hb] at hc
  obtain ⟨ht, hres⟩ := H5F_open_finish_heap name flags w p fd x sh1 h1
  refine ⟨ht, ?_⟩
  rcases hres with ⟨len, hok, hheap⟩ | ⟨e, herr, hheap⟩
  · have hl : sameCore sh1 { sh1 with logical_len := len } := ⟨rfl, rfl, rfl, rfl⟩
    exact ⟨{ sh1 with logical_len := len }, sameCore_trans hc hl, Or.inl ⟨hok, hheap⟩⟩
  · exact ⟨sh1, hc, Or.inr ⟨e, herr, hheap⟩⟩

/-! ### The effect of each call on the heap of shared structs -/

theorem heapWith_congr (w w1 : World) (q : Nat) (x : Option H5F_file_t)
    (h : ∀ k, k ≠ q → w1.heap k = w.heap k) : heapWith w1 q x = heapWith w q x := by
  funext k
  by_cases hk : k = q
  · simp [heapWith, hk]
  · simp [heapWith, hk, h k hk]

theorem store_heap (w : World) (q : Nat) (sh : H5F_file_t) :
    (w.store q sh).heap = heapWith w q (some sh) := rfl

theorem heap_deref (w : World) (q : Nat) (sh : H5F_file_t) (h : w.heap q = some sh) :
    w.deref q = sh := by
  simp [World.deref, h]

theorem dropRef_one (sh : H5F_file_t) (h : sh.nrefs = 1) : dropRef sh = none := by
  simp [dropRef, h]

/-- Every path through `H5F_open`, seen from the heap: nothing changes (an
early failure); or a struct with one reference is allocated at `next_ptr`, and
freed again when the call fails; or the struct of an open file gets one more
reference, which a failure drops again. -/
theorem H5F_open_effect (B : Build) (env : Env) (name : String) (flags : Nat)
    (create_parms : file_create_temp_t) (w : World) (r : Except H5E H5F_t × World)
    (hr : H5F_open B env name flags create_parms w = r) :
    ((∃ e, r.1 = .error e) ∧ r.2.heap = w.heap ∧ r.2.next_ptr = w.next_ptr) ∨
    (r.2.next_ptr = w.next_ptr + 1 ∧ ∃ sh1, sh1.nrefs = 1 ∧
      ((r.1 = .ok { name := name, intent := flags, shared := w.next_ptr } ∧
          r.2.heap = heapWith w w.next_ptr (some sh1)) ∨
       ((∃ e, r.1 = .error e) ∧ r.2.heap = heapWith w w.next_ptr none))) ∨
    (r.2.next_ptr = w.next_ptr ∧ ∃ q osh sh1, w.heap q = some osh ∧
      sh1.nrefs = osh.nrefs + 1 ∧ stepRel (flags &&& H5F_ACC_WRITE != 0) osh sh1 ∧
      ((r.1 = .ok { name := name, intent := flags, shared := q } ∧
          r.2.heap = heapWith w q (some sh1)) ∨
       ((∃ e, r.1 = .error e) ∧ r.2.heap = heapWith w q (dropRef sh1)))) := by
  subst hr
  rcases H5F_open_cases B env name flags create_parms w with
    ⟨e, _, h⟩ | ⟨_, _, h⟩ | ⟨h1, _, h⟩ | ⟨key, fd, h1, ef, _, h⟩ |
    ⟨key, old, _, hsearch, _, h⟩ | ⟨key, old, fd, h1, _, hsearch, hwr, hro, _, h⟩
  · rw [h]; exact Or.inl ⟨⟨e, rfl⟩, rfl, rfl⟩
  · rw [h]; exact Or.inl ⟨⟨_, rfl⟩, rfl, rfl⟩
  · rw [h]; exact Or.inl ⟨⟨_, rfl⟩, rfl, rfl⟩
  · rw [h]
    obtain ⟨ht, sh1, hc, hres⟩ := H5F_open_tail_heap B env name flags create_parms
      (allocWorld B w h1 key flags fd) w.next_ptr (some fd) ef
    have hderef : (allocWorld B w h1 key flags fd).deref w.next_ptr =
        freshShared B key flags fd := by
      simp [allocWorld, World.deref]
    rw [hderef] at hc
    have hn : sh1.nrefs = 1 := hc.2.2.2
    have hh : ∀ x, heapWith (allocWorld B w h1 key flags fd) w.next_ptr x =
        heapWith w w.next_ptr x :=
      fun x => heapWith_congr _ _ _ _ (fun k hk => by simp [allocWorld, hk])
    refine Or.inr (Or.inl ⟨ht.1, sh1, hn, ?_⟩)
    rcases hres with ⟨hok, hheap⟩ | ⟨e, herr, hheap⟩
    · exact Or.inl ⟨hok, by rw [hheap, hh]⟩
    · exact Or.inr ⟨⟨e, herr⟩, by rw [hheap, hh, dropRef_one _ hn]⟩
  · rw [h]
    obtain ⟨osh, hosh, _⟩ := H5Asearch_atom_some w key old hsearch
    have hd := heap_deref w _ _ hosh
    rw [hd]
    obtain ⟨ht, sh1, hc, hres⟩ := H5F_open_tail_heap B env name flags create_parms
      (w.store old.shared { osh with nrefs := osh.nrefs + 1 }) old.shared none false
    rw [World.deref_store] at hc
    have hh : ∀ x, heapWith (w.store old.shared { osh with nrefs := osh.nrefs + 1 })
        old.shared x = heapWith w old.shared x :=
      fun x => heapWith_congr _ _ _ _ (fun k hk => by simp [World.store, hk])
    refine Or.inr (Or.inr ⟨ht.1, old.shared, osh, sh1, hosh, hc.2.2.2,
      Or.inl ⟨hc.2.1, hc.2.2.1⟩, ?_⟩)
    rcases hres with ⟨hok, hheap⟩ | ⟨e, herr, hheap⟩
    · exact Or.inl ⟨hok, by rw [hheap, hh]⟩
    · exact Or.inr ⟨⟨e, herr⟩, by rw [hheap, hh]⟩
  · rw [h]
    obtain ⟨osh, hosh, _⟩ := H5Asearch_atom_some w key old hsearch
    have hd := heap_deref w _ _ hosh
    rw [hd] at hro ⊢
    obtain ⟨ht, sh1, hc, hres⟩ := H5F_open_tail_heap B env name flags create_parms
      ({ w with host := H5F_CLOSE h1 osh.file_handle }.store old.shared
        { osh with
          file_handle := fd
          flags := osh.flags ||| H5F_ACC_WRITE
          nrefs := osh.nrefs + 1 }) old.shared none false
    rw [World.deref_store] at hc
    have hh : ∀ x, heapWith ({ w with host := H5F_CLOSE h1 osh.file_handle }.store old.shared
        { osh with
          file_handle := fd
          flags := osh.flags ||| H5F_ACC_WRITE
          nrefs := osh.nrefs + 1 }) old.shared x = heapWith w old.shared x :=
      fun x => heapWith_congr _ _ _ _ (fun k hk => by simp [World.store, hk])
    refine Or.inr (Or.inr ⟨ht.1, old.shared, osh, sh1, hosh, hc.2.2.2,
      Or.inr ⟨by simpa using hwr, hro, hc.2.1⟩, ?_⟩)
    rcases hres with ⟨hok, hheap⟩ | ⟨e, herr, hheap⟩
    · exact Or.inl ⟨hok, by rw [hheap, hh]⟩
    · exact Or.inr ⟨⟨e, herr⟩, by rw [hheap, hh]⟩

/-- `H5F_close`, seen from the heap: the allocator and the atom table are not
touched; when it returns `FAIL` the struct of the handle is stored with its
reference count as before, otherwise `H5F_dest` has dropped one reference. -/
theorem H5F_close_effect (B : Build) (env : Env) (w : World) (f : H5F_t)
    (r : (Int × Option H5E) × World) (hr : H5F_close B env w f = r) :
    sameTables w r.2 ∧ ∃ sh1, sameCore (w.deref f.shared) sh1 ∧
      ((r.1.1 = FAIL ∧ r.2.heap = heapWith w f.shared (some sh1)) ∨
       (r.1.1 ≠ FAIL ∧ r.2.heap = heapWith w f.shared (dropRef sh1))) := by
  subst hr
  have hc := H5F_flush_core B env f.intent (w.deref f.shared) w.host true
  unfold H5F_close
  rcases hfl : H5F_flush B env f.intent (w.deref f.shared) w.host true with
    ⟨⟨rv, e⟩, sh1, h1⟩
  rw [hfl] at hc
  simp only []
  by_cases hgen : rv ≠ -2 ∧ rv < 0
  · rw [if_pos hgen]
    refine ⟨⟨rfl, rfl, rfl⟩, sh1, hc, Or.inl ⟨rfl, ?_⟩⟩
    exact heapWith_congr _ _ _ _ (fun k hk => rfl)
  · rw [if_neg hgen]
    have hne : rv ≠ FAIL := by
      intro hrv
      apply hgen
      rw [hrv]
      decide
    have hd := H5F_dest_heap
      { ({ w with host := h1 }.store f.shared sh1) with
        host := H5F_CLOSE ({ w with host := h1 }.store f.shared sh1).host
          (({ w with host := h1 }.store f.shared sh1).deref f.shared).file_handle } f
    have hderef : ({ ({ w with host := h1 }.store f.shared sh1) with
        host := H5F_CLOSE ({ w with host := h1 }.store f.shared sh1).host
          (({ w with host := h1 }.store f.shared sh1).deref f.shared).file_handle }).deref
          f.shared = sh1 := by
      simp [World.deref, World.store]
    rw [hderef] at hd
    have hh : heapWith { ({ w with host := h1 }.store f.shared sh1) with
        host := H5F_CLOSE ({ w with host := h1 }.store f.shared sh1).host
          (({ w with host := h1 }.store f.shared sh1).deref f.shared).file_handle }
        f.shared (dropRef sh1) = heapWith w f.shared (dropRef sh1) :=
      heapWith_congr _ _ _ _ (fun k hk => by simp [World.store, hk])
    rw [hh] at hd
    by_cases hneg : rv < 0
    · rw [if_pos hneg]
      exact ⟨hd.2.1, sh1, hc, Or.inr ⟨hne, hd.1⟩⟩
    · rw [if_neg hneg]
      exact ⟨hd.2.1, sh1, hc, Or.inr ⟨hne, hd.1⟩⟩

theorem World.flush_effect (B : Build) (env : Env) (w : World) (f : H5F_t)
    (invalidate : Bool) :
    sameTables w (World.flush B env w f invalidate).2 ∧
    ∃ sh1, sameCore (w.deref f.shared) sh1 ∧
      (World.flush B env w f invalidate).2.heap = heapWith w f.shared (some sh1) :=
  ⟨⟨rfl, rfl, rfl⟩, _, H5F_flush_core B env f.intent (w.deref f.shared) w.host invalidate,
    rfl⟩

theorem World.block_read_effect (B : Build) (w : World) (f : H5F_t) (addr size : Nat) :
    sameTables w (World.block_read B w f addr size).2 ∧
    ∃ sh1, sameCore (w.deref f.shared) sh1 ∧
      (World.block_read B w f addr size).2.heap = heapWith w f.shared (some sh1) :=
  ⟨⟨rfl, rfl, rfl⟩, _, H5F_block_read_core B.H5F_OPT_SEEK (w.deref f.shared) w.host addr size,
    rfl⟩

theorem World.block_write_effect (B : Build) (w : World) (f : H5F_t) (addr size : Nat)
    (buf : List Nat) :
    sameTables w (World.block_write B w f addr size buf).2 ∧
    ∃ sh1, sameCore (w.deref f.shared) sh1 ∧
      (World.block_write B w f addr size buf).2.heap = heapWith w f.shared (some sh1) :=
  ⟨⟨rfl, rfl, rfl⟩, _,
    H5F_block_write_core B.H5F_OPT_SEEK f.intent (w.deref f.shared) w.host addr size buf, rfl⟩

theorem registerAtom_effect (B : Build) (env : Env) (f : H5F_t) (w : World) :
    ((Op.registerAtom env f).run B w).heap = w.heap ∧
    ((Op.registerAtom env f).run B w).next_ptr = w.next_ptr := by
  simp only [Op.run, H5Aregister_atom]
  split <;> rename_i heq
  · split at heq
    · cases heq
    · simp only [Option.some.injEq, Prod.mk.injEq] at heq
      obtain ⟨_, h2⟩ := heq
      subst h2
      exact ⟨rfl, rfl⟩
  · exact ⟨rfl, rfl⟩

/-! ### Flags and host handle of a shared struct along a sequence of calls -/

theorem dropRef_some (sh sh2 : H5F_file_t) (h : dropRef sh = some sh2) :
    sameCore sh { sh2 with nrefs := sh.nrefs } ∧ sh2.nrefs = sh.nrefs - 1 ∧
      sh.nrefs - 1 ≠ 0 := by
  unfold dropRef at h
  by_cases hn : sh.nrefs - 1 = 0
  · rw [if_pos hn] at h; cases h
  · rw [if_neg hn] at h
    simp only [Option.some.injEq] at h
    subst h
    exact ⟨⟨rfl, rfl, rfl, rfl⟩, rfl, hn⟩

theorem World.wf_lt (w : World) (hwf : w.wf) (p : Nat) (sh : H5F_file_t)
    (h : w.heap p = some sh) : p < w.next_ptr := by
  by_contra hlt
  have := hwf p (by omega)
  rw [this] at h
  cases h

theorem Keeps_same (up : Bool) (w w1 : World) (hwf : w.wf) (hh : w1.heap = w.heap)
    (hn : w1.next_ptr = w.next_ptr) : Keeps up w w1 := by
  refine ⟨?_, by omega, fun p => ⟨?_, ?_⟩⟩
  · intro p hp
    rw [hh]
    exact hwf p (by omega)
  · intro _ hp
    rw [hh]
    exact hp
  · intro sh sh1 h0 h1
    rw [hh, h0] at h1
    simp only [Option.some.injEq] at h1
    subst h1
    exact Or.inl ⟨rfl, rfl⟩

theorem Keeps_heapWith (up : Bool) (w w1 : World) (q : Nat) (osh : H5F_file_t)
    (x : Option H5F_file_t) (hwf : w.wf) (hq : w.heap q = some osh)
    (hh : w1.heap = heapWith w q x) (hn : w1.next_ptr = w.next_ptr)
    (hx : ∀ sh1, x = some sh1 → stepRel up osh sh1) : Keeps up w w1 := by
  have hlt := World.wf_lt w hwf q osh hq
  refine ⟨?_, by omega, fun p => ⟨?_, ?_⟩⟩
  · intro p hp
    rw [hh, heapWith_other _ _ _ _ (by omega)]
    exact hwf p (by omega)
  · intro _ hp
    have hpq : p ≠ q := by
      intro hpq
      rw [hpq, hq] at hp
      cases hp
    rw [hh, heapWith_other _ _ _ _ hpq]
    exact hp
  · intro sh sh1 h0 h1
    by_cases hpq : p = q
    · subst hpq
      rw [hh, heapWith_self] at h1
      rw [hq] at h0
      simp only [Option.some.injEq] at h0
      subst h0
      exact hx sh1 h1
    · rw [hh, heapWith_other _ _ _ _ hpq, h0] at h1
      simp only [Option.some.injEq] at h1
      subst h1
      exact Or.inl ⟨rfl, rfl⟩

theorem Keeps_alloc (up : Bool) (w w1 : World) (x : Option H5F_file_t) (hwf : w.wf)
    (hh : w1.heap = heapWith w w.next_ptr x) (hn : w1.next_ptr = w.next_ptr + 1) :
    Keeps up w w1 := by
  refine ⟨?_, by omega, fun p => ⟨?_, ?_⟩⟩
  · intro p hp
    rw [hh, heapWith_other _ _ _ _ (by omega)]
    exact hwf p (by omega)
  · intro hlt hp
    rw [hh, heapWith_other _ _ _ _ (by omega)]
    exact hp
  · intro sh sh1 h0 h1
    have hlt := World.wf_lt w hwf p sh h0
    rw [hh, heapWith_other _ _ _ _ (by omega), h0] at h1
    simp only [Option.some.injEq] at h1
    subst h1
    exact Or.inl ⟨rfl, rfl⟩

theorem stepRel_core (up : Bool) (osh sh1 : H5F_file_t) (hc : sameCore osh sh1) :
    stepRel up osh sh1 :=
  Or.inl ⟨hc.2.1, hc.2.2.1⟩

theorem stepRel_dropRef (up : Bool) (osh sh1 sh2 : H5F_file_t) (hs : stepRel up osh sh1)
    (hd : dropRef sh1 = some sh2) : stepRel up osh sh2 := by
  obtain ⟨hc, _, _⟩ := dropRef_some sh1 sh2 hd
  have hf : sh2.flags = sh1.flags := hc.2.1
  have hh : sh2.file_handle = sh1.file_handle := hc.2.2.1
  rcases hs with ⟨h1, h2⟩ | ⟨h1, h2, h3⟩
  · exact Or.inl ⟨hf.trans h1, hh.trans h2⟩
  · exact Or.inr ⟨h1, h2, hf.trans h3⟩

/-- A call on a handle whose shared struct is live stores that struct with
key, flags, host handle and reference count unchanged, or drops one reference. -/
theorem Keeps_touch (up : Bool) (w w1 : World) (f : H5F_t) (sh1 : H5F_file_t)
    (x : Option H5F_file_t) (hwf : w.wf) (hdef : (w.heap f.shared).isSome = true)
    (ht : sameTables w w1) (hc : sameCore (w.deref f.shared) sh1)
    (hx : x = some sh1 ∨ x = dropRef sh1)
    (hh : w1.heap = heapWith w f.shared x) : Keeps up w w1 := by
  obtain ⟨osh, hosh⟩ := Option.isSome_iff_exists.mp hdef
  rw [heap_deref w _ _ hosh] at hc
  refine Keeps_heapWith up w w1 f.shared osh x hwf hosh hh ht.1 ?_
  intro sh2 hx2
  rcases hx with hx | hx
  · rw [hx] at hx2
    simp only [Option.some.injEq] at hx2
    subst hx2
    exact stepRel_core up osh _ hc
  · rw [hx] at hx2
    exact stepRel_dropRef up osh sh1 sh2 (stepRel_core up osh sh1 hc) hx2

theorem step_keeps (B : Build) (op : Op) (w : World) (hwf : w.wf)
    (hdef : op.defined w = true) : Keeps op.opensForWrite w (op.run B w) := by
  cases op with
  | openFile env name flags create_parms =>
    rcases H5F_open_effect B env name flags create_parms w _ rfl with
      ⟨_, hh, hn⟩ | ⟨hn, sh1, _, hres⟩ | ⟨hn, q, osh, sh1, hq, _, hrel, hres⟩
    · exact Keeps_same _ w _ hwf hh hn
    · rcases hres with ⟨_, hh⟩ | ⟨_, hh⟩
      · exact Keeps_alloc _ w _ _ hwf hh hn
      · exact Keeps_alloc _ w _ _ hwf hh hn
    · rcases hres with ⟨_, hh⟩ | ⟨_, hh⟩
      · refine Keeps_heapWith _ w _ q osh _ hwf hq hh hn ?_
        intro sh2 h2
        simp only [Option.some.injEq] at h2
        subst h2
        exact hrel
      · exact Keeps_heapWith _ w _ q osh _ hwf hq hh hn
          (fun sh2 h2 => stepRel_dropRef _ osh sh1 sh2 hrel h2)
  | closeFile env f =>
    obtain ⟨ht, sh1, hc, hres⟩ := H5F_close_effect B env w f _ rfl
    rcases hres with ⟨_, hh⟩ | ⟨_, hh⟩
    · exact Keeps_touch _ w _ f sh1 _ hwf hdef ht hc (Or.inl rfl) hh
    · exact Keeps_touch _ w _ f sh1 _ hwf hdef ht hc (Or.inr rfl) hh
  | flushFile env f invalidate =>
    obtain ⟨ht, sh1, hc, hh⟩ := World.flush_effect B env w f invalidate
    exact Keeps_touch _ w _ f sh1 _ hwf hdef ht hc (Or.inl rfl) hh
  | readBlock f addr size =>
    obtain ⟨ht, sh1, hc, hh⟩ := World.block_read_effect B w f addr size
    exact Keeps_touch _ w _ f sh1 _ hwf hdef ht hc (Or.inl rfl) hh
  | writeBlock f addr size buf =>
    obtain ⟨ht, sh1, hc, hh⟩ := World.block_write_effect B w f addr size buf
    exact Keeps_touch _ w _ f sh1 _ hwf hdef ht hc (Or.inl rfl) hh
  | registerAtom env f =>
    obtain ⟨hh, hn⟩ := registerAtom_effect B env f w
    exact Keeps_same _ w _ hwf hh hn
  | removeAtom fid =>
    exact Keeps_same _ w _ hwf rfl rfl

theorem runOps_append (B : Build) (a b : List Op) :
    ∀ w, runOps B (a ++ b) w = runOps B b (runOps B a w) := by
  induction a with
  | nil => intro w; rfl
  | cons op a ih => intro w; exact ih _

theorem definedRun_append (B : Build) (a b : List Op) :
    ∀ w, definedRun B (a ++ b) w = (definedRun B a w && definedRun B b (runOps B a w)) := by
  induction a with
  | nil => intro w; simp [definedRun, runOps]
  | cons op a ih =>
    intro w
    show (op.defined w && definedRun B (a ++ b) (op.run B w)) =
      ((op.defined w && definedRun B a (op.run B w)) &&
        definedRun B b (runOps B a (op.run B w)))
    rw [ih, Bool.and_assoc]

theorem writable_iff (w : World) (p : Nat) :
    w.writable p = true ↔ ∃ sh, w.heap p = some sh ∧ sh.flags &&& H5F_ACC_WRITE ≠ 0 := by
  unfold World.writable
  rcases option_cases (w.heap p) with h | ⟨sh, h⟩
  · rw [h]; simp
  · rw [h]; simp

theorem stepRel_writable (up : Bool) (sh sh1 : H5F_file_t) (hs : stepRel up sh sh1)
    (hw : sh.flags &&& H5F_ACC_WRITE ≠ 0) :
    sh1.flags &&& H5F_ACC_WRITE ≠ 0 ∧ sh1.file_handle = sh.file_handle := by
  rcases hs with ⟨h1, h2⟩ | ⟨_, h2, _⟩
  · rw [h1]; exact ⟨hw, h2⟩
  · exact absurd h2 hw

/-- Along a sequence of calls the allocator invariant is kept, a freed struct
stays freed, and a struct whose flags include `WRITE` keeps `WRITE` while it
lives. -/
theorem run_keeps (B : Build) (ops : List Op) :
    ∀ w : World, w.wf → definedRun B ops w = true →
      (runOps B ops w).wf ∧ w.next_ptr ≤ (runOps B ops w).next_ptr ∧
      ∀ p, (p < w.next_ptr → w.heap p = none → (runOps B ops w).heap p = none) ∧
        (w.writable p = true → (runOps B ops w).live p = true →
          (runOps B ops w).writable p = true) := by
  induction ops with
  | nil =>
    intro w hwf _
    exact ⟨hwf, Nat.le_refl _, fun p => ⟨fun _ h => h, fun h _ => h⟩⟩
  | cons op ops ih =>
    intro w hwf hdef
    simp only [definedRun, Bool.and_eq_true] at hdef
    obtain ⟨hwf1, hn1, hk⟩ := step_keeps B op w hwf hdef.1
    obtain ⟨hwf2, hn2, hi⟩ := ih (op.run B w) hwf1 hdef.2
    refine ⟨hwf2, Nat.le_trans hn1 hn2, fun p => ⟨?_, ?_⟩⟩
    · intro hlt hp
      exact (hi p).1 (by omega) ((hk p).1 hlt hp)
    · intro hw hl
      obtain ⟨sh, hsh, hW⟩ := (writable_iff w p).mp hw
      have hlt := World.wf_lt w hwf p sh hsh
      rcases option_cases ((op.run B w).heap p) with h1 | ⟨sh1, h1⟩
      · have hdead := (hi p).1 (by omega) h1
        simp only [runOps, World.live, hdead] at hl
        cases hl
      · have hrel := (hk p).2 sh sh1 hsh h1
        have hW1 := (stepRel_writable _ sh sh1 hrel hW).1
        exact (hi p).2 ((writable_iff _ p).mpr ⟨sh1, h1, hW1⟩) hl

/-- C14: take any sequence of `H5F_open`, `H5F_close`, `H5F_flush`,
`H5F_block_read`, `H5F_block_write` and registry calls, started in a state in
which the allocator has handed out the addresses below `next_ptr` only, no
call dereferencing a handle whose shared struct was freed.  If after some
prefix of the sequence the flags of the shared struct at address `p` include
`WRITE`, and a struct lives at `p` at a later point of the sequence, then its
flags include `WRITE` there.  (Addresses are not reused, so that struct is the
same one.) -/
theorem C14_write_bit_never_cleared (B : Build) (w : World) (before after : List Op) (p : Nat)
    (hwf : w.wf)
    (hdef : definedRun B (before ++ after) w = true)
    (hset : (runOps B before w).writable p = true)
    (hlive : (runOps B (before ++ after) w).live p = true) :
    (runOps B (before ++ after) w).writable p = true := by
  rw [definedRun_append, Bool.and_eq_true] at hdef
  rw [runOps_append] at hlive ⊢
  have h1 := run_keeps B before w hwf hdef.1
  exact ((run_keeps B after _ h1.1 hdef.2).2.2 p).2 hset hlive

set_option maxRecDepth 1000000 in
/-- C14 at a concrete input: `a.bin` is opened read-only and then with `WRITE`;
after further writes, flushes, opens and closes the struct at address 0 still
has `WRITE`. -/
theorem C14_write_bit_never_cleared_witness :
    (sampleWorld.wf ∧
      definedRun sampleBuild (sampleOpsBefore ++ sampleOpsAfter) sampleWorld = true ∧
      (runOps sampleBuild sampleOpsBefore sampleWorld).writable 0 = true ∧
      (runOps sampleBuild (sampleOpsBefore ++ sampleOpsAfter) sampleWorld).live 0 = true) ∧
    (runOps sampleBuild (sampleOpsBefore ++ sampleOpsAfter) sampleWorld).writable 0 = true :=
  ⟨⟨fun _ _ => rfl, by decide, by decide, by decide⟩,
   C14_write_bit_never_cleared sampleBuild sampleWorld sampleOpsBefore sampleOpsAfter 0
    (fun _ _ => rfl) (by decide) (by decide) (by decide)⟩

/-- Along a sequence of calls every replacement of the host handle of the
struct at `p` is an upgrade, there is at most one, and there is none once the
struct has `WRITE` or was freed. -/
theorem run_swaps (B : Build) (p : Nat) (ops : List Op) :
    ∀ w : World, w.wf → definedRun B ops w = true →
      swapsAreUpgrades B p ops w = true ∧ handleSwaps B p ops w ≤ 1 ∧
      (p < w.next_ptr → (w.heap p = none ∨ w.writable p = true) →
        handleSwaps B p ops w = 0) := by
  induction ops with
  | nil =>
    intro w _ _
    exact ⟨rfl, Nat.zero_le _, fun _ _ => rfl⟩
  | cons op ops ih =>
    intro w hwf hdef
    simp only [definedRun, Bool.and_eq_true] at hdef
    obtain ⟨hwf1, hn1, hk⟩ := step_keeps B op w hwf hdef.1
    obtain ⟨hup, hle, hzero⟩ := ih (op.run B w) hwf1 hdef.2
    simp only [swapsAreUpgrades, handleSwaps, Bool.and_eq_true, Bool.or_eq_true,
      Bool.not_eq_true']
    by_cases hs : handleSwapped p w (op.run B w) = true
    · unfold handleSwapped at hs
      rcases option_cases (w.heap p) with h0 | ⟨sh, h0⟩
      · rw [h0] at hs; cases hs
      rcases option_cases ((op.run B w).heap p) with h1 | ⟨sh1, h1⟩
      · rw [h0, h1] at hs; cases hs
      have hs0 := hs
      rw [h0, h1] at hs
      simp only [bne_iff_ne, ne_eq] at hs
      have hlt := World.wf_lt w hwf p sh h0
      rcases (hk p).2 sh sh1 h0 h1 with ⟨_, hh⟩ | ⟨hopw, hro, hfl⟩
      · exact absurd hh.symm hs
      · have hw1 : (op.run B w).writable p = true := by
          refine (writable_iff _ p).mpr ⟨sh1, h1, ?_⟩
          rw [hfl, lor_land_self]
          decide
        have hnw : w.writable p = false := by
          simp [World.writable, h0, hro]
        have hz := hzero (by omega) (Or.inr hw1)
        refine ⟨⟨Or.inr ⟨hopw, hnw⟩, hup⟩, ?_, ?_⟩
        · rw [hz]
          split <;> omega
        · intro _ hcase
          rcases hcase with hd | hw
          · rw [hd] at h0; cases h0
          · rw [hnw] at hw; cases hw
    · have hsf : handleSwapped p w (op.run B w) = false := by
        simpa using hs
      rw [hsf]
      refine ⟨⟨Or.inl rfl, hup⟩, by simpa using hle, ?_⟩
      intro hlt hcase
      simp only [Bool.false_eq_true, if_false, Nat.zero_add]
      rcases hcase with hd | hw
      · exact hzero (by omega) (Or.inl ((hk p).1 hlt hd))
      · obtain ⟨sh, hsh, hW⟩ := (writable_iff w p).mp hw
        rcases option_cases ((op.run B w).heap p) with h1 | ⟨sh1, h1⟩
        · exact hzero (by omega) (Or.inl h1)
        · have hW1 := (stepRel_writable _ sh sh1 ((hk p).2 sh sh1 hsh h1) hW).1
          exact hzero (by omega) (Or.inr ((writable_iff _ p).mpr ⟨sh1, h1, hW1⟩))

/-- C15: along any sequence of `H5F_open`, `H5F_close`, `H5F_flush`,
`H5F_block_read`, `H5F_block_write` and registry calls (started in a state in
which the allocator has handed out the addresses below `next_ptr` only, no
call dereferencing a handle whose shared struct was freed), the host handle of
the shared struct at address `p` is replaced by at most one call, and every
call that replaces it is an `H5F_open` whose flags include `WRITE` and that
finds the flags of the struct without `WRITE`.  (Addresses are not reused, so
the calls counted all fall into the one lifetime of the struct at `p`.) -/
theorem C15_handle_replaced_at_most_once (B : Build) (w : World) (ops : List Op) (p : Nat)
    (hwf : w.wf) (hdef : definedRun B ops w = true) :
    handleSwaps B p ops w ≤ 1 ∧ swapsAreUpgrades B p ops w = true :=
  ⟨(run_swaps B p ops w hwf hdef).2.1, (run_swaps B p ops w hwf hdef).1⟩

set_option maxRecDepth 1000000 in
/-- C15 at a concrete input, where the one replacement happens: the second
open of `a.bin` asks for `WRITE`. -/
theorem C15_handle_replaced_at_most_once_witness :
    (sampleWorld.wf ∧
      definedRun sampleBuild (sampleOpsBefore ++ sampleOpsAfter) sampleWorld = true) ∧
    (handleSwaps sampleBuild 0 (sampleOpsBefore ++ sampleOpsAfter) sampleWorld ≤ 1 ∧
      swapsAreUpgrades sampleBuild 0 (sampleOpsBefore ++ sampleOpsAfter) sampleWorld = true) ∧
    handleSwaps sampleBuild 0 (sampleOpsBefore ++ sampleOpsAfter) sampleWorld = 1 :=
  ⟨⟨fun _ _ => rfl, by decide⟩,
   C15_handle_replaced_at_most_once sampleBuild sampleWorld (sampleOpsBefore ++ sampleOpsAfter)
    0 (fun _ _ => rfl) (by decide),
   by decide⟩

/-! ### Reference counts along a sequence of calls -/

theorem attached_cons (f : H5F_t) (live : List H5F_t) (p : Nat) :
    attached (f :: live) p = attached live p + (if f.shared = p then 1 else 0) := by
  unfold attached
  rw [List.countP_cons]
  by_cases h : f.shared = p <;> simp [h]

theorem attached_erase (f : H5F_t) (live : List H5F_t) (p : Nat) (hf : f ∈ live) :
    attached (live.erase f) p = attached live p - (if f.shared = p then 1 else 0) := by
  have hperm := List.perm_cons_erase hf
  have hc : attached live p = attached (f :: live.erase f) p := by
    unfold attached
    exact hperm.countP_eq _
  rw [hc, attached_cons]
  omega

theorem attached_pos (f : H5F_t) (live : List H5F_t) (hf : f ∈ live) :
    1 ≤ attached live f.shared := by
  unfold attached
  exact List.countP_pos_iff.mpr ⟨f, hf, by simp⟩

theorem refsCounted_live (w : World) (live : List H5F_t) (f : H5F_t)
    (hinv : refsCounted w live) (hf : f ∈ live) :
    ∃ osh, w.heap f.shared = some osh ∧ 1 ≤ osh.nrefs ∧ osh.nrefs = attached live f.shared := by
  have hpos := attached_pos f live hf
  have href := hinv.2.2 f.shared
  unfold World.refs at href
  rcases option_cases (w.heap f.shared) with h | ⟨osh, h⟩
  · rw [h] at href
    simp only at href
    omega
  · rw [h] at href
    exact ⟨osh, h, hinv.2.1 _ _ h, href⟩

theorem refsCounted_same (w w1 : World) (live : List H5F_t) (hinv : refsCounted w live)
    (hh : w1.heap = w.heap) (hn : w1.next_ptr = w.next_ptr) : refsCounted w1 live := by
  obtain ⟨hwf, hpos, href⟩ := hinv
  refine ⟨?_, ?_, ?_⟩
  · intro p hp
    rw [hh]
    exact hwf p (by omega)
  · intro p sh h
    rw [hh] at h
    exact hpos p sh h
  · intro p
    have := href p
    unfold World.refs at this ⊢
    rw [hh]
    exact this

theorem refsCounted_heapWith (w w1 : World) (live live1 : List H5F_t) (q : Nat)
    (x : Option H5F_file_t) (hinv : refsCounted w live)
    (hh : w1.heap = heapWith w q x)
    (hn : w.next_ptr ≤ w1.next_ptr) (hq : q < w1.next_ptr)
    (hother : ∀ p, p ≠ q → attached live1 p = attached live p)
    (hsome : ∀ sh, x = some sh → 1 ≤ sh.nrefs ∧ sh.nrefs = attached live1 q)
    (hnone : x = none → attached live1 q = 0) : refsCounted w1 live1 := by
  obtain ⟨hwf, hpos, href⟩ := hinv
  refine ⟨?_, ?_, ?_⟩
  · intro p hp
    rw [hh, heapWith_other _ _ _ _ (by omega)]
    exact hwf p (by omega)
  · intro p sh h
    by_cases hpq : p = q
    · subst hpq
      rw [hh, heapWith_self] at h
      exact (hsome sh h).1
    · rw [hh, heapWith_other _ _ _ _ hpq] at h
      exact hpos p sh h
  · intro p
    by_cases hpq : p = q
    · subst hpq
      unfold World.refs
      rw [hh, heapWith_self]
      rcases option_cases x with hx | ⟨sh, hx⟩
      · rw [hx]
        exact (hnone hx).symm
      · rw [hx]
        exact (hsome sh hx).2
    · have := href p
      unfold World.refs at this ⊢
      rw [hh, heapWith_other _ _ _ _ hpq, hother p hpq]
      exact this

theorem refsCounted_touch (w w1 : World) (live : List H5F_t) (f : H5F_t) (sh1 : H5F_file_t)
    (hinv : refsCounted w live) (hf : f ∈ live) (ht : sameTables w w1)
    (hc : sameCore (w.deref f.shared) sh1)
    (hh : w1.heap = heapWith w f.shared (some sh1)) : refsCounted w1 live := by
  obtain ⟨osh, hosh, hpos, hcount⟩ := refsCounted_live w live f hinv hf
  rw [heap_deref w _ _ hosh] at hc
  have hlt := World.wf_lt w hinv.1 _ _ hosh
  refine refsCounted_heapWith w w1 live live f.shared _ hinv hh (by rw [ht.1])
    (by rw [ht.1]; exact hlt) (fun _ _ => rfl) ?_ (fun h => by cases h)
  intro sh hsh
  simp only [Option.some.injEq] at hsh
  subst hsh
  rw [hc.2.2.2]
  exact ⟨hpos, hcount⟩

/-- One call keeps the reference counts equal to the numbers of attached
handles. -/
theorem step_counts (B : Build) (op : Op) (w : World) (live : List H5F_t)
    (hinv : refsCounted w live) (hex : op.handleIn live = true) :
    refsCounted (op.run B w) (op.handles B w live) := by
  cases op with
  | openFile env name flags create_parms =>
    show refsCounted (H5F_open B env name flags create_parms w).2
      (match (H5F_open B env name flags create_parms w).1 with
        | .ok f => f :: live
        | .error _ => live)
    rcases H5F_open_effect B env name flags create_parms w _ rfl with
      ⟨⟨e, he⟩, hh, hn⟩ | ⟨hn, sh1, hone, hres⟩ | ⟨hn, q, osh, sh1, hq, hcnt, _, hres⟩
    · rw [he]
      exact refsCounted_same w _ live hinv hh hn
    · have hzero : attached live w.next_ptr = 0 := by
        have := hinv.2.2 w.next_ptr
        unfold World.refs at this
        rw [hinv.1 w.next_ptr (Nat.le_refl _)] at this
        exact this.symm
      rcases hres with ⟨hok, hh⟩ | ⟨⟨e, he⟩, hh⟩
      · rw [hok]
        refine refsCounted_heapWith w _ live _ w.next_ptr _ hinv hh (by omega) (by omega)
          ?_ ?_ (fun h => by cases h)
        · intro p hp
          rw [attached_cons, if_neg (fun h => hp h.symm)]
          rfl
        · intro sh hsh
          simp only [Option.some.injEq] at hsh
          subst hsh
          rw [attached_cons, hzero, hone]
          simp
      · rw [he]
        exact refsCounted_heapWith w _ live live w.next_ptr _ hinv hh (by omega) (by omega)
          (fun _ _ => rfl) (fun sh h => by cases h) (fun _ => hzero)
    · have hlt := World.wf_lt w hinv.1 _ _ hq
      have hpos := hinv.2.1 q osh hq
      have hcount : osh.nrefs = attached live q := by
        have := hinv.2.2 q
        unfold World.refs at this
        rw [hq] at this
        exact this
      rcases hres with ⟨hok, hh⟩ | ⟨⟨e, he⟩, hh⟩
      · rw [hok]
        refine refsCounted_heapWith w _ live _ q _ hinv hh (by omega) (by omega)
          ?_ ?_ (fun h => by cases h)
        · intro p hp
          rw [attached_cons, if_neg (fun h => hp h.symm)]
          rfl
        · intro sh hsh
          simp only [Option.some.injEq] at hsh
          subst hsh
          rw [attached_cons, hcnt, hcount]
          simp
      · rw [he]
        refine refsCounted_heapWith w _ live live q _ hinv hh (by omega) (by omega)
          (fun _ _ => rfl) ?_ ?_
        · intro sh hsh
          obtain ⟨_, h2, _⟩ := dropRef_some sh1 sh hsh
          rw [h2, hcnt, ← hcount]
          omega
        · intro hnone
          unfold dropRef at hnone
          rw [if_neg (by omega)] at hnone
          cases hnone
  | closeFile env f =>
    have hf : f ∈ live := by simpa [Op.handleIn, Op.handle] using hex
    obtain ⟨osh, hosh, hpos, hcount⟩ := refsCounted_live w live f hinv hf
    have hlt := World.wf_lt w hinv.1 _ _ hosh
    obtain ⟨ht, sh1, hc, hres⟩ := H5F_close_effect B env w f _ rfl
    show refsCounted (H5F_close B env w f).2
      (if (H5F_close B env w f).1.1 = FAIL then live else live.erase f)
    rcases hres with ⟨hfail, hh⟩ | ⟨hnf, hh⟩
    · rw [if_pos hfail]
      exact refsCounted_touch w _ live f sh1 hinv hf ht hc hh
    · rw [if_neg hnf]
      rw [heap_deref w _ _ hosh] at hc
      have hn1 : sh1.nrefs = osh.nrefs := hc.2.2.2
      refine refsCounted_heapWith w _ live _ f.shared _ hinv hh (by rw [ht.1])
        (by rw [ht.1]; exact hlt) ?_ ?_ ?_
      · intro p hp
        rw [attached_erase f live p hf, if_neg (fun h => hp h.symm)]
        rfl
      · intro sh hsh
        obtain ⟨_, h2, h3⟩ := dropRef_some sh1 sh hsh
        rw [attached_erase f live _ hf, if_pos rfl, h2, hn1, ← hcount]
        omega
      · intro hnone
        rw [attached_erase f live _ hf, if_pos rfl, ← hcount]
        unfold dropRef at hnone
        by_cases h0 : sh1.nrefs - 1 = 0
        · omega
        · rw [if_neg h0] at hnone
          cases hnone
  | flushFile env f invalidate =>
    have hf : f ∈ live := by simpa [Op.handleIn, Op.handle] using hex
    obtain ⟨ht, sh1, hc, hh⟩ := World.flush_effect B env w f invalidate
    exact refsCounted_touch w _ live f sh1 hinv hf ht hc hh
  | readBlock f addr size =>
    have hf : f ∈ live := by simpa [Op.handleIn, Op.handle] using hex
    obtain ⟨ht, sh1, hc, hh⟩ := World.block_read_effect B w f addr size
    exact refsCounted_touch w _ live f sh1 hinv hf ht hc hh
  | writeBlock f addr size buf =>
    have hf : f ∈ live := by simpa [Op.handleIn, Op.handle] using hex
    obtain ⟨ht, sh1, hc, hh⟩ := World.block_write_effect B w f addr size buf
    exact refsCounted_touch w _ live f sh1 hinv hf ht hc hh
  | registerAtom env f =>
    obtain ⟨hh, hn⟩ := registerAtom_effect B env f w
    exact refsCounted_same w _ live hinv hh hn
  | removeAtom fid =>
    exact refsCounted_same w _ live hinv rfl rfl

/-- C17: start in a state in which the reference counts describe the existing
handles (every live shared struct has `nrefs >= 1`, and `nrefs` is the number
of handles attached to it; for instance the state with no file open), and
make any sequence of `H5F_open`, `H5F_close`, `H5F_flush`, `H5F_block_read`,
`H5F_block_write` and registry calls, successful or failing, each call that
takes a handle being given one that exists.  Then the same holds at the end:
the handles being those returned by successful `H5F_open` calls and not yet
destroyed by `H5F_close`, each live shared struct has `nrefs >= 1` equal to
the number of handles attached to it, and an address without a live struct has
no handle attached.  In particular a failing `H5F_open` leaves every reference
count as it was. -/
theorem C17_nrefs_counts_handles (B : Build) (ops : List Op) (w : World) (live : List H5F_t)
    (hinv : refsCounted w live) (hex : handlesExist B ops w live = true) :
    refsCounted (runOps B ops w) (runHandles B ops w live) ∧
    (∀ env name flags create_parms e,
      (H5F_open B env name flags create_parms (runOps B ops w)).1 = .error e →
      ∀ p, (H5F_open B env name flags create_parms (runOps B ops w)).2.refs p =
        (runOps B ops w).refs p) := by
  have hrun : ∀ (ops : List Op) (w : World) (live : List H5F_t), refsCounted w live →
      handlesExist B ops w live = true →
      refsCounted (runOps B ops w) (runHandles B ops w live) := by
    intro ops
    induction ops with
    | nil => intro w live h _; exact h
    | cons op ops ih =>
      intro w live h hex
      simp only [handlesExist, Bool.and_eq_true] at hex
      exact ih _ _ (step_counts B op w live h hex.1) hex.2
  have hfin := hrun ops w live hinv hex
  refine ⟨hfin, ?_⟩
  intro env name flags create_parms e he p
  have hstep := step_counts B (.openFile env name flags create_parms) _ _ hfin rfl
  have hl : (Op.openFile env name flags create_parms).handles B (runOps B ops w)
      (runHandles B ops w live) = runHandles B ops w live := by
    simp only [Op.handles, he]
  rw [hl] at hstep
  exact (hstep.2.2 p).trans (hfin.2.2 p).symm

set_option maxRecDepth 1000000 in
/-- C17 at a concrete input: from the state with no file open, `a.bin` is
opened three times on one shared struct, one `H5F_close` fails in its flush
and one succeeds; two handles are left and `nrefs` is 2. -/
theorem C17_nrefs_counts_handles_witness :
    (refsCounted sampleWorld [] ∧
      handlesExist sampleBuild (sampleOpsBefore ++ sampleOpsAfter) sampleWorld [] = true) ∧
    (refsCounted (runOps sampleBuild (sampleOpsBefore ++ sampleOpsAfter) sampleWorld)
        (runHandles sampleBuild (sampleOpsBefore ++ sampleOpsAfter) sampleWorld []) ∧
      (∀ env name flags create_parms e,
        (H5F_open sampleBuild env name flags create_parms
          (runOps sampleBuild (sampleOpsBefore ++ sampleOpsAfter) sampleWorld)).1 = .error e →
        ∀ p, (H5F_open sampleBuild env name flags create_parms
            (runOps sampleBuild (sampleOpsBefore ++ sampleOpsAfter) sampleWorld)).2.refs p =
          (runOps sampleBuild (sampleOpsBefore ++ sampleOpsAfter) sampleWorld).refs p)) ∧
    (runOps sampleBuild (sampleOpsBefore ++ sampleOpsAfter) sampleWorld).refs 0 = 2 ∧
    runHandles sampleBuild (sampleOpsBefore ++ sampleOpsAfter) sampleWorld [] =
      [handleOn 0, handleOn 0] :=
  ⟨⟨⟨fun _ _ => rfl, fun _ _ h => by simp [sampleWorld] at h, fun _ => rfl⟩, by decide⟩,
   C17_nrefs_counts_handles sampleBuild (sampleOpsBefore ++ sampleOpsAfter) sampleWorld []
    ⟨fun _ _ => rfl, fun _ _ h => by simp [sampleWorld] at h, fun _ => rfl⟩ (by decide),
   by decide, by decide⟩


/-! ### Status of `H5F_flush` and teardown in `H5F_close` -/

theorem HostFile.store_bytes (file : HostFile) (pos : Nat) (buf : List Nat) :
    (file.store pos buf.length buf).bytes pos buf.length = buf := by
  unfold HostFile.bytes HostFile.store
  apply List.ext_getElem
  · simp
  · intro k h1 h2
    simp only [List.getElem_map, List.getElem_range]
    rw [if_pos ⟨Nat.le_add_right _ _, by omega⟩, Nat.add_sub_cancel_left]
    exact List.getD_eq_getElem _ _ h2

theorem HostFile.store_len (file : HostFile) (pos n : Nat) (buf : List Nat) :
    (file.store pos n buf).len = max file.len (pos + n) := rfl

/-- `H5F_flush` on a writable shared struct through a handle with write intent,
the cache flush succeeding and the descriptor open for writing: the boot block
is written, and the status is -2 when the shadow flush failed and `SUCCEED`
otherwise. -/
theorem H5F_flush_ok (B : Build) (env : Env) (intent : Nat) (sh : H5F_file_t) (h : Host)
    (invalidate : Bool) (d : HostFd)
    (hflags : sh.flags &&& H5F_ACC_WRITE ≠ 0)
    (hcache : env.cache_flush_fails = false)
    (hd : h.openFd sh.file_handle = some d) (hw : d.writable = true)
    (hintent : intent &&& H5F_ACC_WRITE ≠ 0)
    (hc : sh.last_op = OP_WRITE → sh.f_cur_off = d.pos) :
    H5F_flush B env intent sh h invalidate =
      (if env.shadow_flush_fails = true then ((-2, some .CACHE_CANTFLUSH),
          flushedShared B sh, flushedHost B sh h d)
       else ((SUCCEED, none), flushedShared B sh, flushedHost B sh h d)) := by
  unfold H5F_flush
  rw [Nat.land_comm] at hflags
  rw [if_neg hflags]
  simp only [hcache, Bool.false_eq_true, if_false]
  rw [H5F_block_write_ok B.H5F_OPT_SEEK intent sh h 0 _ _ d hd hw hintent hc
    (H5F_flush_encode_length_pos B sh)]
  simp only []
  by_cases hs : env.shadow_flush_fails = true
  · rw [if_pos hs]
    simp only [hs, if_true]
    rw [if_pos (by decide)]
    by_cases hl : sh.logical_len ≤ 0 <;> simp [flushedShared, flushedHost, hl]
  · rw [if_neg hs]
    have hs1 : env.shadow_flush_fails = false := by simpa using hs
    simp only [hs1, Bool.false_eq_true, if_false]
    rw [if_neg (by decide)]
    by_cases hl : sh.logical_len ≤ 0 <;> simp [flushedShared, flushedHost, hl]

theorem flushedHost_file (B : Build) (sh : H5F_file_t) (h : Host) (d : HostFd) :
    (flushedHost B sh h d).inodes d.ino =
      (h.inodes d.ino).store (0 + sh.file_create_parms.userblock_size)
        (H5F_flush_encode B sh).length (H5F_flush_encode B sh) := by
  simp [flushedHost, Host.setFd, Host.setInode]

theorem flushedHost_bytes (B : Build) (sh : H5F_file_t) (h : Host) (d : HostFd) :
    ((flushedHost B sh h d).inodes d.ino).bytes sh.file_create_parms.userblock_size
      (H5F_flush_encode B sh).length = H5F_flush_encode B sh := by
  rw [flushedHost_file, Nat.zero_add]
  exact HostFile.store_bytes _ _ _

/-- C21: on a shared struct whose flags include `WRITE`, `H5F_flush` returns
-2 (objects still open) exactly when the shadow flush failed, the cache flush
succeeded and the write of the boot block succeeded, and then the host is the
one after that write; when the descriptor is open and the seek-elision fields
describe its cursor, the file then holds the encoded boot block at offset
`userblock_size`.  When the cache flush fails the result is `FAIL` with
`Cache/CantFlush`, whatever the shadow flush did, and neither the shared
struct nor the host is touched.  When the cache flush succeeds and the write
of the boot block fails the result is `FAIL` with `IO/WriteError`.  In the
remaining case (all three succeed) the result is `SUCCEED`. -/
theorem C21_flush_status (B : Build) (env : Env) (intent : Nat) (sh : H5F_file_t) (h : Host)
    (invalidate : Bool) (hflags : sh.flags &&& H5F_ACC_WRITE ≠ 0) :
    ((H5F_flush B env intent sh h invalidate).1.1 = -2 ↔
      (env.shadow_flush_fails = true ∧ env.cache_flush_fails = false ∧
        (H5F_block_write B.H5F_OPT_SEEK intent sh h 0 (H5F_flush_encode B sh).length
          (H5F_flush_encode B sh)).1 = .ok ())) ∧
    ((H5F_flush B env intent sh h invalidate).1.1 = -2 →
      (H5F_flush B env intent sh h invalidate).2.2 =
        (H5F_block_write B.H5F_OPT_SEEK intent sh h 0 (H5F_flush_encode B sh).length
          (H5F_flush_encode B sh)).2.2 ∧
      ∀ d, h.openFd sh.file_handle = some d → (sh.last_op = OP_WRITE → sh.f_cur_off = d.pos) →
        (((H5F_flush B env intent sh h invalidate).2.2).inodes d.ino).bytes
          sh.file_create_parms.userblock_size (H5F_flush_encode B sh).length =
          H5F_flush_encode B sh) ∧
    (env.cache_flush_fails = true →
      H5F_flush B env intent sh h invalidate = ((FAIL, some .CACHE_CANTFLUSH), sh, h)) ∧
    (env.cache_flush_fails = false →
      (H5F_block_write B.H5F_OPT_SEEK intent sh h 0 (H5F_flush_encode B sh).length
        (H5F_flush_encode B sh)).1 ≠ .ok () →
      (H5F_flush B env intent sh h invalidate).1 = (FAIL, some .IO_WRITEERROR)) ∧
    ((H5F_flush B env intent sh h invalidate).1 = (SUCCEED, none) ↔
      (env.shadow_flush_fails = false ∧ env.cache_flush_fails = false ∧
        (H5F_block_write B.H5F_OPT_SEEK intent sh h 0 (H5F_flush_encode B sh).length
          (H5F_flush_encode B sh)).1 = .ok ())) := by
  have hflags1 : ¬ (H5F_ACC_WRITE &&& sh.flags = 0) := by
    rw [Nat.land_comm]; exact hflags
  have hunf : H5F_flush B env intent sh h invalidate =
      if env.cache_flush_fails = true then ((FAIL, some .CACHE_CANTFLUSH), sh, h)
      else
        match H5F_block_write B.H5F_OPT_SEEK intent sh h 0 (H5F_flush_encode B sh).length
            (H5F_flush_encode B sh) with
        | (.error _, sh1, h1) => ((FAIL, some .IO_WRITEERROR), sh1, h1)
        | (.ok _, sh1, h1) =>
          if (if env.shadow_flush_fails = true then FAIL else SUCCEED) < 0 then
            ((-2, some .CACHE_CANTFLUSH),
              if sh1.logical_len ≤ 0 then
                { sh1 with logical_len := (H5F_flush_encode B sh).length } else sh1, h1)
          else ((SUCCEED, none),
              if sh1.logical_len ≤ 0 then
                { sh1 with logical_len := (H5F_flush_encode B sh).length } else sh1, h1) := by
    unfold H5F_flush
    rw [if_neg hflags1]
  rw [hunf]
  by_cases hcache : env.cache_flush_fails = true
  · rw [if_pos hcache]
    refine ⟨⟨(fun h1 => by cases h1), (fun h1 => by rw [hcache] at h1; cases h1.2.1)⟩,
      (fun h1 => by cases h1), (fun _ => rfl),
      (fun h1 => by rw [hcache] at h1; cases h1),
      ⟨(fun h1 => by cases h1), (fun h1 => by rw [hcache] at h1; cases h1.2.1)⟩⟩
  · rw [if_neg hcache]
    have hcache1 : env.cache_flush_fails = false := by simpa using hcache
    rcases hwr : H5F_block_write B.H5F_OPT_SEEK intent sh h 0 (H5F_flush_encode B sh).length
      (H5F_flush_encode B sh) with ⟨r, sh1, h1⟩
    cases r with
    | error e =>
      refine ⟨⟨(fun h1 => by cases h1), (fun h1 => by cases h1.2.2)⟩,
        (fun h1 => by cases h1), (fun h1 => absurd h1 hcache),
        (fun _ _ => rfl), ⟨(fun h1 => by cases h1), (fun h1 => by cases h1.2.2)⟩⟩
    | ok u =>
      by_cases hs : env.shadow_flush_fails = true
      · have hlt : (if env.shadow_flush_fails = true then FAIL else SUCCEED) < 0 := by
          rw [if_pos hs]; decide
        simp only []
        rw [if_pos hlt]
        refine ⟨⟨(fun _ => ⟨hs, hcache1, trivial⟩), (fun _ => rfl)⟩, ?_,
          (fun h1 => absurd h1 hcache), (fun _ h2 => absurd rfl h2),
          ⟨(fun h1 => by cases h1), (fun h1 => by rw [hs] at h1; cases h1.1)⟩⟩
        intro _
        refine ⟨rfl, ?_⟩
        intro d hd hc
        by_cases hi : intent &&& H5F_ACC_WRITE = 0
        · rw [H5F_block_write_no_intent _ _ _ _ _ _ _ hi
            (H5F_flush_encode_length_pos B sh)] at hwr
          cases hwr
        by_cases hw : d.writable = true
        · rw [H5F_block_write_ok B.H5F_OPT_SEEK intent sh h 0 _ _ d hd hw hi hc
            (H5F_flush_encode_length_pos B sh)] at hwr
          simp only [Prod.mk.injEq] at hwr
          rw [← hwr.2.2]
          exact flushedHost_bytes B sh h d
        · have hw0 : d.writable = false := by simpa using hw
          have hun := H5F_block_write_unwritable B.H5F_OPT_SEEK intent sh h 0 _
            (H5F_flush_encode B sh) d hd hw0 (H5F_flush_encode_length_pos B sh)
          rw [hwr] at hun
          cases hun
      · have hs1 : env.shadow_flush_fails = false := by simpa using hs
        have hlt : ¬ (if env.shadow_flush_fails = true then FAIL else SUCCEED) < 0 := by
          rw [if_neg hs]; decide
        simp only []
        rw [if_neg hlt]
        refine ⟨⟨(fun h1 => by cases h1), (fun h1 => absurd h1.1 hs)⟩,
          (fun h1 => by cases h1), (fun h1 => absurd h1 hcache),
          (fun _ h2 => absurd rfl h2), ⟨(fun _ => ⟨hs1, hcache1, trivial⟩), (fun _ => rfl)⟩⟩

/-- C21 at a concrete input: a writable shared struct on an open descriptor,
the shadow flush failing and nothing else; the status is -2. -/
theorem C21_flush_status_witness :
    sampleShared.flags &&& H5F_ACC_WRITE ≠ 0 ∧
    (H5F_flush sampleBuild shadowFails H5F_ACC_WRITE sampleShared scratchHost true).1.1 = -2 ∧
    ((H5F_flush sampleBuild shadowFails H5F_ACC_WRITE sampleShared scratchHost true).1.1 = -2 ↔
      (shadowFails.shadow_flush_fails = true ∧ shadowFails.cache_flush_fails = false ∧
        (H5F_block_write sampleBuild.H5F_OPT_SEEK H5F_ACC_WRITE sampleShared scratchHost 0
          (H5F_flush_encode sampleBuild sampleShared).length
          (H5F_flush_encode sampleBuild sampleShared)).1 = .ok ())) :=
  ⟨by decide, by decide,
   (C21_flush_status sampleBuild shadowFails H5F_ACC_WRITE sampleShared scratchHost true
    (by decide)).1⟩

theorem H5F_CLOSE_openFd_self (h : Host) (fd : Nat) : (H5F_CLOSE h fd).openFd fd = none := by
  unfold H5F_CLOSE
  rcases option_cases (h.openFd fd) with hn | ⟨d, hd⟩
  · rw [hn]; exact hn
  · rw [hd]
    simp [Host.openFd, Host.setFd]

/-- `H5F_close` when its flush does not fail generically: the host handle is
closed and `H5F_dest` runs, and the flush status is returned. -/
theorem H5F_close_teardown (B : Build) (env : Env) (w : World) (f : H5F_t)
    (hrv : ¬ ((H5F_flush B env f.intent (w.deref f.shared) w.host true).1.1 ≠ -2 ∧
      (H5F_flush B env f.intent (w.deref f.shared) w.host true).1.1 < 0)) :
    H5F_close B env w f =
      ((if (H5F_flush B env f.intent (w.deref f.shared) w.host true).1.1 < 0 then
          ((H5F_flush B env f.intent (w.deref f.shared) w.host true).1.1, some .SYM_CANTFLUSH)
        else ((H5F_flush B env f.intent (w.deref f.shared) w.host true).1.1, none)),
       H5F_dest
        { ({ w with
              host := (H5F_flush B env f.intent (w.deref f.shared) w.host true).2.2 }.store
            f.shared (H5F_flush B env f.intent (w.deref f.shared) w.host true).2.1) with
          host := H5F_CLOSE (H5F_flush B env f.intent (w.deref f.shared) w.host true).2.2
            (H5F_flush B env f.intent (w.deref f.shared) w.host true).2.1.file_handle } f) := by
  unfold H5F_close
  rcases hfl : H5F_flush B env f.intent (w.deref f.shared) w.host true with
    ⟨⟨rv, e⟩, sh1, h1⟩
  rw [hfl] at hrv
  simp only []
  rw [if_neg hrv]
  by_cases hneg : rv < 0
  · rw [if_pos hneg, if_pos hneg]
    simp [World.deref, World.store]
  · rw [if_neg hneg, if_neg hneg]
    simp [World.deref, World.store]

theorem H5Fclose_fst (B : Build) (env : Env) (fid : Nat) (w : World) (f : H5F_t)
    (hfid : H5Aatom_object w fid = some f) :
    (H5Fclose B env fid w).1 =
      (if (H5F_close B env w f).1.1 < 0 then FAIL else SUCCEED, (H5F_close B env w f).1.2) := by
  unfold H5Fclose
  rw [hfid]

/-- C22: when the flush inside `H5F_close` returns -2 (objects still open) or
`SUCCEED`, `H5F_close` closes the host handle of the shared struct and
destroys the handle: the shared struct loses one reference and is freed when
none is left.  After a flush status of -2 it returns -2 with `Sym/CantFlush`,
which `H5Fclose` reports as `FAIL`; after `SUCCEED` both return `SUCCEED`. -/
theorem C22_close_after_still_open (B : Build) (env : Env) (w : World) (f : H5F_t)
    (hrv : (H5F_flush B env f.intent (w.deref f.shared) w.host true).1.1 = -2 ∨
      (H5F_flush B env f.intent (w.deref f.shared) w.host true).1.1 = SUCCEED) :
    (H5F_close B env w f).2.heap = heapWith w f.shared
      (dropRef (H5F_flush B env f.intent (w.deref f.shared) w.host true).2.1) ∧
    (H5F_flush B env f.intent (w.deref f.shared) w.host true).2.1.nrefs =
      (w.deref f.shared).nrefs ∧
    (H5F_close B env w f).2.host =
      H5F_CLOSE (H5F_flush B env f.intent (w.deref f.shared) w.host true).2.2
        (w.deref f.shared).file_handle ∧
    (H5F_close B env w f).2.host.openFd (w.deref f.shared).file_handle = none ∧
    ((H5F_flush B env f.intent (w.deref f.shared) w.host true).1.1 = -2 →
      (H5F_close B env w f).1 = (-2, some .SYM_CANTFLUSH) ∧
      ∀ fid, H5Aatom_object w fid = some f →
        (H5Fclose B env fid w).1 = (FAIL, some .SYM_CANTFLUSH)) ∧
    ((H5F_flush B env f.intent (w.deref f.shared) w.host true).1.1 = SUCCEED →
      (H5F_close B env w f).1 = (SUCCEED, none) ∧
      ∀ fid, H5Aatom_object w fid = some f → (H5Fclose B env fid w).1 = (SUCCEED, none)) := by
  have hc := H5F_flush_core B env f.intent (w.deref f.shared) w.host true
  have hgen : ¬ ((H5F_flush B env f.intent (w.deref f.shared) w.host true).1.1 ≠ -2 ∧
      (H5F_flush B env f.intent (w.deref f.shared) w.host true).1.1 < 0) := by
    rcases hrv with h | h
    · exact fun hh => hh.1 h
    · intro hh
      rw [h] at hh
      exact absurd hh.2 (by decide)
  have hclose := H5F_close_teardown B env w f hgen
  have hfh : (H5F_flush B env f.intent (w.deref f.shared) w.host true).2.1.file_handle =
      (w.deref f.shared).file_handle := hc.2.2.1
  have hd := H5F_dest_heap
    { ({ w with
          host := (H5F_flush B env f.intent (w.deref f.shared) w.host true).2.2 }.store
        f.shared (H5F_flush B env f.intent (w.deref f.shared) w.host true).2.1) with
      host := H5F_CLOSE (H5F_flush B env f.intent (w.deref f.shared) w.host true).2.2
        (H5F_flush B env f.intent (w.deref f.shared) w.host true).2.1.file_handle } f
  have hderef : ({ ({ w with
          host := (H5F_flush B env f.intent (w.deref f.shared) w.host true).2.2 }.store
        f.shared (H5F_flush B env f.intent (w.deref f.shared) w.host true).2.1) with
      host := H5F_CLOSE (H5F_flush B env f.intent (w.deref f.shared) w.host true).2.2
        (H5F_flush B env f.intent (w.deref f.shared) w.host true).2.1.file_handle }).deref
      f.shared = (H5F_flush B env f.intent (w.deref f.shared) w.host true).2.1 := by
    simp [World.deref, World.store]
  rw [hderef] at hd
  have hheap : (H5F_close B env w f).2.heap = heapWith w f.shared
      (dropRef (H5F_flush B env f.intent (w.deref f.shared) w.host true).2.1) := by
    rw [hclose]
    show (H5F_dest _ f).heap = _
    rw [hd.1]
    exact heapWith_congr _ _ _ _ (fun k hk => by simp [World.store, hk])
  have hhost : (H5F_close B env w f).2.host =
      H5F_CLOSE (H5F_flush B env f.intent (w.deref f.shared) w.host true).2.2
        (w.deref f.shared).file_handle := by
    rw [hclose]
    show (H5F_dest _ f).host = _
    rw [hd.2.2, hfh]
  refine ⟨hheap, hc.2.2.2, hhost, ?_, ?_, ?_⟩
  · rw [hhost]
    exact H5F_CLOSE_openFd_self _ _
  · intro h2
    have h1 : (H5F_close B env w f).1 = (-2, some .SYM_CANTFLUSH) := by
      rw [hclose, h2]
      rfl
    refine ⟨h1, ?_⟩
    intro fid hfid
    rw [H5Fclose_fst B env fid w f hfid, h1]
    rfl
  · intro h2
    have h1 : (H5F_close B env w f).1 = (SUCCEED, none) := by
      rw [hclose, h2]
      rfl
    refine ⟨h1, ?_⟩
    intro fid hfid
    rw [H5Fclose_fst B env fid w f hfid, h1]
    rfl

set_option maxRecDepth 1000000 in
/-- C22 at a concrete input: `a.bin` is open for writing with one handle (file
id 0) and is closed while the shadow flush fails. -/
theorem C22_close_after_still_open_witness :
    (H5F_flush sampleBuild shadowFails (handleOn H5F_ACC_WRITE).intent
      (writableWorld.deref (handleOn H5F_ACC_WRITE).shared) writableWorld.host true).1.1 = -2 ∧
    H5Aatom_object writableWorld 0 = some (handleOn H5F_ACC_WRITE) ∧
    (H5F_close sampleBuild shadowFails writableWorld (handleOn H5F_ACC_WRITE)).1 =
      (-2, some .SYM_CANTFLUSH) ∧
    (H5Fclose sampleBuild shadowFails 0 writableWorld).1 = (FAIL, some .SYM_CANTFLUSH) ∧
    (H5F_close sampleBuild shadowFails writableWorld (handleOn H5F_ACC_WRITE)).2.heap 0 = none ∧
    (H5F_close sampleBuild shadowFails writableWorld
      (handleOn H5F_ACC_WRITE)).2.host.openFd 3 = none :=
  have h := C22_close_after_still_open sampleBuild shadowFails writableWorld
    (handleOn H5F_ACC_WRITE) (Or.inl (by decide))
  ⟨by decide, by decide, (h.2.2.2.2.1 (by decide)).1,
    (h.2.2.2.2.1 (by decide)).2 0 (by decide), by decide, by decide⟩


/-! ### Layout of the encoded boot block -/

theorem leEncode_getD (n : Nat) : ∀ (v k : Nat), k < n →
    (leEncode n v).getD k 0 = v / 256 ^ k % 256 := by
  induction n with
  | zero => intro v k hk; omega
  | succ n ih =>
    intro v k hk
    cases k with
    | zero => simp [leEncode]
    | succ k =>
      simp only [leEncode, List.getD_cons_succ]
      rw [ih (v / 256) k (by omega), Nat.div_div_eq_div_mul, pow_succ, Nat.mul_comm]

theorem getD_drop (l : List Nat) (n k : Nat) : (l.drop n).getD k 0 = l.getD (n + k) 0 := by
  simp [List.getD_eq_getElem?_getD, List.getElem?_drop]

theorem getD_append_left (a b : List Nat) (k : Nat) (hk : k < a.length) :
    (a ++ b).getD k 0 = a.getD k 0 := by
  simp [List.getD_eq_getElem?_getD, List.getElem?_append_left hk]

theorem getD_append_right (a b : List Nat) (k : Nat) :
    (a ++ b).getD (a.length + k) 0 = b.getD k 0 := by
  simp [List.getD_eq_getElem?_getD, List.getElem?_append_right]

theorem getD_append_at (a b : List Nat) (n k : Nat) (hn : a.length = n) :
    (a ++ b).getD (n + k) 0 = b.getD k 0 := by
  rw [← hn]
  exact getD_append_right a b k

theorem drop_append_at (a b : List Nat) (n : Nat) (hn : a.length = n) :
    (a ++ b).drop n = b := by
  rw [← hn]
  exact List.drop_left a b

theorem drop_add (l : List Nat) (m n : Nat) : l.drop (m + n) = (l.drop m).drop n := by
  rw [List.drop_drop, Nat.add_comm]

/-- C28: the buffer `H5F_flush` builds and writes at logical address 0.  Its
first 8 bytes are the signature; bytes 8 to 12 are the five version numbers,
byte 13 is `offset_size`, byte 14 is `length_size` (each stored as one byte),
byte 15 is 0; bytes 16-17 are `sym_leaf_k`, bytes 18-19 `btree_k` and bytes
20-23 `consist_flags`, low byte first; then come `smallobj_off` and
`freespace_off` in `offset_size` bytes each and `logical_len` in `length_size`
bytes, low byte first, and the root entry as `H5G_ent_encode` emits it.  When
the root entry takes `H5G_SIZEOF_ENTRY` bytes the length is
`24 + 2 * offset_size + length_size + H5G_SIZEOF_ENTRY`.  On a writable shared
struct whose cache flush succeeds `H5F_flush` passes exactly this buffer and
its length to `H5F_block_write` at address 0. -/
theorem C28_bootblock_layout (B : Build) (sh : H5F_file_t)
    (hent : (B.H5G_ent_encode sh.file_create_parms sh.root_sym).length =
      B.H5G_SIZEOF_ENTRY sh.file_create_parms) :
    (H5F_flush_encode B sh).length =
      24 + 2 * sh.file_create_parms.offset_size + sh.file_create_parms.length_size +
        B.H5G_SIZEOF_ENTRY sh.file_create_parms ∧
    (H5F_flush_encode B sh).take 8 = H5F_SIGNATURE ∧
    (H5F_flush_encode B sh).getD 8 0 = sh.file_create_parms.bootblock_ver % 256 ∧
    (H5F_flush_encode B sh).getD 9 0 = sh.file_create_parms.smallobject_ver % 256 ∧
    (H5F_flush_encode B sh).getD 10 0 = sh.file_create_parms.freespace_ver % 256 ∧
    (H5F_flush_encode B sh).getD 11 0 = sh.file_create_parms.objectdir_ver % 256 ∧
    (H5F_flush_encode B sh).getD 12 0 = sh.file_create_parms.sharedheader_ver % 256 ∧
    (H5F_flush_encode B sh).getD 13 0 = sh.file_create_parms.offset_size % 256 ∧
    (H5F_flush_encode B sh).getD 14 0 = sh.file_create_parms.length_size % 256 ∧
    (H5F_flush_encode B sh).getD 15 0 = 0 ∧
    (∀ k, k < 2 → (H5F_flush_encode B sh).getD (16 + k) 0 =
      sh.file_create_parms.sym_leaf_k / 256 ^ k % 256) ∧
    (∀ k, k < 2 → (H5F_flush_encode B sh).getD (18 + k) 0 =
      sh.file_create_parms.btree_k / 256 ^ k % 256) ∧
    (∀ k, k < 4 → (H5F_flush_encode B sh).getD (20 + k) 0 =
      sh.consist_flags / 256 ^ k % 256) ∧
    (∀ k, k < sh.file_create_parms.offset_size →
      (H5F_flush_encode B sh).getD (24 + k) 0 = sh.smallobj_off / 256 ^ k % 256) ∧
    (∀ k, k < sh.file_create_parms.offset_size →
      (H5F_flush_encode B sh).getD (24 + sh.file_create_parms.offset_size + k) 0 =
        sh.freespace_off / 256 ^ k % 256) ∧
    (∀ k, k < sh.file_create_parms.length_size →
      (H5F_flush_encode B sh).getD (24 + 2 * sh.file_create_parms.offset_size + k) 0 =
        sh.logical_len / 256 ^ k % 256) ∧
    (H5F_flush_encode B sh).drop
      (24 + 2 * sh.file_create_parms.offset_size + sh.file_create_parms.length_size) =
      B.H5G_ent_encode sh.file_create_parms sh.root_sym ∧
    (∀ (env : Env) (intent : Nat) (h : Host) (invalidate : Bool),
      sh.flags &&& H5F_ACC_WRITE ≠ 0 → env.cache_flush_fails = false →
      (H5F_flush B env intent sh h invalidate).2.2 =
        (H5F_block_write B.H5F_OPT_SEEK intent sh h 0 (H5F_flush_encode B sh).length
          (H5F_flush_encode B sh)).2.2) := by
  have htake := H5F_flush_encode_take B sh
  have hdrop := H5F_flush_encode_drop B sh
  have hsplit : H5F_flush_encode B sh =
      (H5F_flush_encode B sh).take 24 ++ (H5F_flush_encode B sh).drop 24 :=
    (List.take_append_drop 24 _).symm
  have hlen24 : ((H5F_flush_encode B sh).take 24).length = 24 := by
    rw [htake]; rfl
  have hfix : ∀ k, k < 24 → (H5F_flush_encode B sh).getD k 0 =
      ((H5F_flush_encode B sh).take 24).getD k 0 := by
    intro k hk
    conv_lhs => rw [hsplit]
    exact getD_append_left _ _ k (by rw [hlen24]; exact hk)
  have hvar : ∀ k, (H5F_flush_encode B sh).getD (24 + k) 0 =
      ((H5F_flush_encode B sh).drop 24).getD k 0 := fun k => (getD_drop _ 24 k).symm
  have hos : (H5F_encode_offset sh.file_create_parms sh.smallobj_off).length =
      sh.file_create_parms.offset_size := leEncode_length _ _
  have hfs : (H5F_encode_offset sh.file_create_parms sh.freespace_off).length =
      sh.file_create_parms.offset_size := leEncode_length _ _
  have hll : (H5F_encode_length sh.file_create_parms sh.logical_len).length =
      sh.file_create_parms.length_size := leEncode_length _ _
  refine ⟨?_, ?_, ?_, ?_, ?_, ?_, ?_, ?_, ?_, ?_, ?_, ?_, ?_, ?_, ?_, ?_, ?_, ?_⟩
  · conv_lhs => rw [hsplit]
    rw [List.length_append, hlen24, hdrop]
    simp only [List.length_append, hos, hfs, hll, hent]
    omega
  · have h8 : (H5F_flush_encode B sh).take 8 = ((H5F_flush_encode B sh).take 24).take 8 := by
      rw [List.take_take]; rfl
    rw [h8, htake]; rfl
  · rw [hfix 8 (by decide), htake]; rfl
  · rw [hfix 9 (by decide), htake]; rfl
  · rw [hfix 10 (by decide), htake]; rfl
  · rw [hfix 11 (by decide), htake]; rfl
  · rw [hfix 12 (by decide), htake]; rfl
  · rw [hfix 13 (by decide), htake]; rfl
  · rw [hfix 14 (by decide), htake]; rfl
  · rw [hfix 15 (by decide), htake]; rfl
  · intro k hk
    rw [hfix (16 + k) (by omega), htake]
    have : k = 0 ∨ k = 1 := by omega
    rcases this with rfl | rfl <;> simp
  · intro k hk
    rw [hfix (18 + k) (by omega), htake]
    have : k = 0 ∨ k = 1 := by omega
    rcases this with rfl | rfl <;> simp
  · intro k hk
    rw [hfix (20 + k) (by omega), htake]
    have : k = 0 ∨ k = 1 ∨ k = 2 ∨ k = 3 := by omega
    rcases this with rfl | rfl | rfl | rfl <;> simp [Nat.div_div_eq_div_mul]
  · intro k hk
    rw [hvar, hdrop, getD_append_left _ _ k (by rw [hos]; exact hk)]
    exact leEncode_getD _ _ _ hk
  · intro k hk
    rw [Nat.add_assoc, hvar, hdrop, getD_append_at _ _ _ k hos,
      getD_append_left _ _ k (by rw [hfs]; exact hk)]
    exact leEncode_getD _ _ _ hk
  · intro k hk
    have e : 24 + 2 * sh.file_create_parms.offset_size + k =
        24 + (sh.file_create_parms.offset_size + (sh.file_create_parms.offset_size + k)) := by
      omega
    rw [e, hvar, hdrop, getD_append_at _ _ _ _ hos, getD_append_at _ _ _ _ hfs,
      getD_append_left _ _ k (by rw [hll]; exact hk)]
    exact leEncode_getD _ _ _ hk
  · have e : 24 + 2 * sh.file_create_parms.offset_size + sh.file_create_parms.length_size =
        24 + sh.file_create_parms.offset_size + sh.file_create_parms.offset_size +
          sh.file_create_parms.length_size := by
      omega
    rw [e, drop_add, drop_add, drop_add, hdrop, drop_append_at _ _ _ hos,
      drop_append_at _ _ _ hfs, drop_append_at _ _ _ hll]
  · intro env intent h invalidate hflags hcache
    unfold H5F_flush
    rw [Nat.land_comm] at hflags
    rw [if_neg hflags]
    simp only [hcache, Bool.false_eq_true, if_false]
    rcases hwr : H5F_block_write B.H5F_OPT_SEEK intent sh h 0 (H5F_flush_encode B sh).length
      (H5F_flush_encode B sh) with ⟨r, sh1, h1⟩
    cases r with
    | error e => rfl
    | ok u =>
      simp only []
      split <;> rfl

/-- C28 at a concrete input: 4-byte offsets and lengths and a root entry of 16
bytes give a boot block of 52 bytes. -/
theorem C28_bootblock_layout_witness :
    (sampleBuild.H5G_ent_encode sampleFlushed.file_create_parms sampleFlushed.root_sym).length =
      sampleBuild.H5G_SIZEOF_ENTRY sampleFlushed.file_create_parms ∧
    ((H5F_flush_encode sampleBuild sampleFlushed).length =
        24 + 2 * sampleFlushed.file_create_parms.offset_size +
          sampleFlushed.file_create_parms.length_size +
          sampleBuild.H5G_SIZEOF_ENTRY sampleFlushed.file_create_parms ∧
      (H5F_flush_encode sampleBuild sampleFlushed).take 8 = H5F_SIGNATURE) ∧
    H5F_flush_encode sampleBuild sampleFlushed =
      [137, 72, 68, 70, 13, 10, 26, 10, 0, 0, 0, 0, 0, 4, 4, 0, 4, 0, 16, 0, 3, 0, 0, 0,
       232, 3, 0, 0, 112, 17, 1, 0, 0, 16, 0, 0,
       0, 0, 0, 0, 0, 0, 0, 0, 0, 0, 0, 0, 0, 0, 0, 0] :=
  ⟨by decide,
   ⟨(C28_bootblock_layout sampleBuild sampleFlushed (by decide)).1,
    (C28_bootblock_layout sampleBuild sampleFlushed (by decide)).2.1⟩,
   by decide⟩


/-! ### The flags of `H5Fcreate` -/

theorem land_compl_ne_zero (w flags ov : Nat) (hfl : flags < 2 ^ w) (hov : ov < 2 ^ w) :
    flags &&& (2 ^ w - 1 - ov) ≠ 0 ↔ ∃ i, flags.testBit i = true ∧ ov.testBit i = false := by
  have e : 2 ^ w - 1 - ov = 2 ^ w - (ov + 1) := by omega
  rw [e]
  constructor
  · intro hne
    obtain ⟨i, hi⟩ := Nat.ne_zero_implies_bit_true hne
    rw [Nat.testBit_land, Nat.testBit_two_pow_sub_succ hov] at hi
    simp only [Bool.and_eq_true, decide_eq_true_eq, Bool.not_eq_true'] at hi
    exact ⟨i, hi.1, hi.2.2⟩
  · rintro ⟨i, h1, h2⟩ hzero
    have hlt : i < w := by
      by_contra hge
      have hle : 2 ^ w ≤ 2 ^ i := Nat.pow_le_pow_right (by decide) (by omega)
      have := Nat.testBit_lt_two_pow (Nat.lt_of_lt_of_le hfl hle)
      rw [this] at h1
      cases h1
    have hb : (flags &&& (2 ^ w - (ov + 1))).testBit i = true := by
      rw [Nat.testBit_land, Nat.testBit_two_pow_sub_succ hov]
      simp [h1, h2, hlt]
    rw [hzero, Nat.zero_testBit] at hb
    cases hb

/-- C26: `H5Fcreate` fails with `Args/BadValue`, the process state untouched,
for a null and for an empty file name, and for every `flags` with a bit that
`H5ACC_OVERWRITE` does not have.  With a non-empty name and a creation
template, `flags = H5ACC_OVERWRITE` passes `WRITE | CREAT | TRUNC` to
`H5F_open` and `flags = 0` passes `WRITE | CREAT | EXCL`; the result of
`H5F_open` is then registered.  (`H5ACC_OVERWRITE` is a non-zero `uintn`.) -/
theorem C26_create_flags (B : Build) (env : Env) (tmpl : Nat → Option file_create_temp_t)
    (name : String) (create_temp : Nat) (create_parms : file_create_temp_t) (w : World)
    (hov0 : B.H5ACC_OVERWRITE ≠ 0)
    (hov : B.H5ACC_OVERWRITE < 2 ^ B.uintn_bits)
    (hname : name ≠ "")
    (htmpl : H5Fcreate_template B tmpl create_temp = some create_parms) :
    (∀ flags, H5Fcreate B env tmpl none flags create_temp w = (.error .ARGS_BADVALUE, w)) ∧
    (∀ flags, H5Fcreate B env tmpl (some "") flags create_temp w =
      (.error .ARGS_BADVALUE, w)) ∧
    (∀ flags, flags < 2 ^ B.uintn_bits →
      (∃ i, flags.testBit i = true ∧ B.H5ACC_OVERWRITE.testBit i = false) →
      H5Fcreate B env tmpl (some name) flags create_temp w = (.error .ARGS_BADVALUE, w)) ∧
    H5Fcreate B env tmpl (some name) B.H5ACC_OVERWRITE create_temp w =
      H5Fcreate_finish B env
        (H5F_open B env name (H5F_ACC_WRITE ||| H5F_ACC_CREAT ||| H5F_ACC_TRUNC)
          create_parms w) ∧
    H5Fcreate B env tmpl (some name) 0 create_temp w =
      H5Fcreate_finish B env
        (H5F_open B env name (H5F_ACC_WRITE ||| H5F_ACC_CREAT ||| H5F_ACC_EXCL)
          create_parms w) := by
  refine ⟨fun _ => rfl, fun _ => rfl, ?_, ?_, ?_⟩
  · intro flags hfl hbit
    have hne := (land_compl_ne_zero B.uintn_bits flags B.H5ACC_OVERWRITE hfl hov).mpr hbit
    unfold H5Fcreate
    simp only []
    rw [if_neg hname, if_pos hne]
  · have hz : ¬ (B.H5ACC_OVERWRITE &&& (2 ^ B.uintn_bits - 1 - B.H5ACC_OVERWRITE) ≠ 0) := by
      rw [land_compl_ne_zero B.uintn_bits _ _ hov hov]
      rintro ⟨i, h1, h2⟩
      rw [h1] at h2
      cases h2
    unfold H5Fcreate
    simp only []
    rw [if_neg hname, if_neg hz, htmpl]
    simp only [if_true]
  · have hz : ¬ (0 &&& (2 ^ B.uintn_bits - 1 - B.H5ACC_OVERWRITE) ≠ 0) := by
      rw [Nat.zero_and]
      exact fun h => h rfl
    unfold H5Fcreate
    simp only []
    rw [if_neg hname, if_neg hz, htmpl]
    simp only [if_neg hov0]

/-- C26 at a concrete input: `H5ACC_OVERWRITE = 2` and the default template. -/
theorem C26_create_flags_witness :
    (sampleBuild.H5ACC_OVERWRITE ≠ 0 ∧
      sampleBuild.H5ACC_OVERWRITE < 2 ^ sampleBuild.uintn_bits ∧
      "new.bin" ≠ "" ∧
      H5Fcreate_template sampleBuild (fun _ => none) 0 = some sampleBuild.default_parms) ∧
    H5Fcreate sampleBuild Env.ok (fun _ => none) (some "new.bin") 0 0 sampleWorld =
      H5Fcreate_finish sampleBuild Env.ok
        (H5F_open sampleBuild Env.ok "new.bin"
          (H5F_ACC_WRITE ||| H5F_ACC_CREAT ||| H5F_ACC_EXCL) sampleBuild.default_parms
          sampleWorld) ∧
    H5Fcreate sampleBuild Env.ok (fun _ => none) (some "new.bin") 3 0 sampleWorld =
      (.error .ARGS_BADVALUE, sampleWorld) :=
  have h := C26_create_flags sampleBuild Env.ok (fun _ => none) "new.bin" 0
    sampleBuild.default_parms sampleWorld (by decide) (by decide) (by decide) rfl
  ⟨⟨by decide, by decide, by decide, rfl⟩, h.2.2.2.2,
    h.2.2.1 3 (by decide) ⟨0, by decide, by decide⟩⟩


set_option maxRecDepth 1000000 in
/-- C25, evaluated on the code: `new.bin` does not exist and is opened with
`WRITE | CREAT`; `H5F_CREATE` succeeds on descriptor 3 and the `stat` that
follows fails.  `H5F_open` fails with `File/CantCreate` and allocates no
shared struct, but descriptor 3, which was not open before the call, is still
open for writing on the new file when the call returns.  For comparison, a
failure behind the allocation of the handle (an empty `a.bin`, which is not a
container) leaves descriptor 3 closed. -/
theorem C25_created_descriptor_left_open :
    stat sampleWorld.host "new.bin" = none ∧
    sampleWorld.host.openFd 3 = none ∧
    createThenStatFails.1 = .error .FILE_CANTCREATE ∧
    createThenStatFails.2.heap 0 = none ∧
    createThenStatFails.2.next_ptr = sampleWorld.next_ptr ∧
    createThenStatFails.2.host.paths "new.bin" = some (0, 2) ∧
    createThenStatFails.2.host.openFd 3 =
      some { ino := (0, 2), pos := 0, writable := true, is_open := true } ∧
    (H5Fcreate sampleBuild statFails (fun _ => none) (some "new.bin") 0 0
      sampleWorld).2.host.openFd 3 =
      some { ino := (0, 2), pos := 0, writable := true, is_open := true } ∧
    (H5F_open sampleBuild Env.ok "a.bin" 0 sampleBuild.default_parms
      (worldWithFile (fileWithBootAt 0 []))).1 = .error .FILE_NOTHDF5 ∧
    (H5F_open sampleBuild Env.ok "a.bin" 0 sampleBuild.default_parms
      (worldWithFile (fileWithBootAt 0 []))).2.host.openFd 3 = none := by
  decide

/-! ### The size query at the end of `H5F_open` -/

/-- When the end of `H5F_open` succeeds, the step before it succeeded, the
descriptor of the shared struct is open, and the result is the state before
the size query with the file size stored as logical length. -/
theorem H5F_open_finish_ok_inv (name : String) (flags : Nat) (w : World) (p : Nat)
    (fd : Option Nat) (r : Except H5E Unit × H5F_file_t × Host) (f : H5F_t)
    (hok : (H5F_open_finish name flags w p fd r).1 = .ok f) :
    r.1 = .ok () ∧ f = { name := name, intent := flags, shared := p } ∧
    ∃ d, r.2.2.openFd r.2.1.file_handle = some d ∧
      (H5F_open_finish name flags w p fd r).2 =
        { w with host := r.2.2 }.store p { r.2.1 with logical_len := (r.2.2.inodes d.ino).len } := by
  obtain ⟨x, sh1, h1⟩ := r
  cases x with
  | error e =>
    have hfin : H5F_open_finish name flags w p fd (.error e, sh1, h1) =
        H5F_open_fail ({ w with host := h1 }.store p sh1)
          { name := name, intent := flags, shared := p } fd e := rfl
    rw [hfin, H5F_open_fail_fst] at hok
    cases hok
  | ok u =>
    rcases option_cases (h1.openFd sh1.file_handle) with hn | ⟨d, hd⟩
    · have hs : H5F_SEEKEND h1 sh1.file_handle = none := by
        simp [H5F_SEEKEND, hn]
      have hfin : H5F_open_finish name flags w p fd (.ok u, sh1, h1) =
          H5F_open_fail ({ w with host := h1 }.store p sh1)
            { name := name, intent := flags, shared := p } fd .FILE_CANTINIT := by
        simp only [H5F_open_finish, hs]
      rw [hfin, H5F_open_fail_fst] at hok
      cases hok
    · have hfin := H5F_open_finish_ok name flags w p fd sh1 h1 d hd
      rw [hfin] at hok ⊢
      simp only [Except.ok.injEq] at hok
      exact ⟨rfl, hok.symm, d, hd, rfl⟩

/-- A successful `H5F_open` went through the second half of the function. -/
theorem H5F_open_ok_tail (B : Build) (env : Env) (name : String) (flags : Nat)
    (create_parms : file_create_temp_t) (w : World) (f : H5F_t)
    (hok : (H5F_open B env name flags create_parms w).1 = .ok f) :
    ∃ w0 p fd empty_file, H5F_open B env name flags create_parms w =
      H5F_open_tail B env name flags create_parms w0 p fd empty_file := by
  rcases H5F_open_cases B env name flags create_parms w with
    ⟨e, _, h⟩ | ⟨_, _, h⟩ | ⟨h1, _, h⟩ | ⟨key, fd, h1, ef, _, h⟩ |
    ⟨key, old, _, _, _, h⟩ | ⟨key, old, fd, h1, _, _, _, _, _, h⟩
  · rw [h] at hok; cases hok
  · rw [h] at hok; cases hok
  · rw [h] at hok; cases hok
  · exact ⟨_, _, _, _, h⟩
  · exact ⟨_, _, _, _, h⟩
  · exact ⟨_, _, _, _, h⟩

theorem coherent_logical_len (sh : H5F_file_t) (h : Host) (len : Nat) :
    coherent { sh with logical_len := len } h = coherent sh h := rfl

/-- C29: after every successful `H5F_open` the descriptor of the shared struct
of the new handle is open and `logical_len` is the length of the host file
behind it (the length decoded from a boot block is overwritten).  The call
went through the second half of `H5F_open`; compared with the state in which
that half reached the size query (after the boot block was written or read),
the host is unchanged, so the cursor of the descriptor is where it was, and
the shared struct differs in `logical_len` only; hence if the seek-elision
fields described the cursor before the query they do so after the call. -/
theorem C29_logical_len_is_file_size (B : Build) (env : Env) (name : String) (flags : Nat)
    (create_parms : file_create_temp_t) (w : World) (f : H5F_t)
    (hok : (H5F_open B env name flags create_parms w).1 = .ok f) :
    ∃ d, (H5F_open B env name flags create_parms w).2.host.openFd
        ((H5F_open B env name flags create_parms w).2.deref f.shared).file_handle = some d ∧
      ((H5F_open B env name flags create_parms w).2.deref f.shared).logical_len =
        ((H5F_open B env name flags create_parms w).2.host.inodes d.ino).len ∧
      ∃ w0 fd empty_file,
        H5F_open B env name flags create_parms w =
          H5F_open_tail B env name flags create_parms w0 f.shared fd empty_file ∧
        (H5F_open_boot B env flags (H5F_open_parms create_parms (w0.deref f.shared))
          w0.host empty_file).1 = .ok () ∧
        (H5F_open B env name flags create_parms w).2.host =
          (H5F_open_boot B env flags (H5F_open_parms create_parms (w0.deref f.shared))
            w0.host empty_file).2.2 ∧
        (H5F_open B env name flags create_parms w).2.deref f.shared =
          { (H5F_open_boot B env flags (H5F_open_parms create_parms (w0.deref f.shared))
              w0.host empty_file).2.1 with
            logical_len := ((H5F_open B env name flags create_parms w).2.host.inodes d.ino).len } ∧
        (coherent
            (H5F_open_boot B env flags (H5F_open_parms create_parms (w0.deref f.shared))
              w0.host empty_file).2.1
            (H5F_open_boot B env flags (H5F_open_parms create_parms (w0.deref f.shared))
              w0.host empty_file).2.2 = true →
          coherent ((H5F_open B env name flags create_parms w).2.deref f.shared)
            (H5F_open B env name flags create_parms w).2.host = true) := by
  obtain ⟨w0, p, fd, ef, htail⟩ := H5F_open_ok_tail B env name flags create_parms w f hok
  rw [htail] at hok ⊢
  rw [H5F_open_tail_eq] at hok ⊢
  obtain ⟨hx, hf, d, hd, hres⟩ := H5F_open_finish_ok_inv name flags w0 p fd _ f hok
  subst hf
  rw [hres]
  simp only [World.deref_store]
  refine ⟨d, hd, rfl, w0, fd, ef, ?_, hx, rfl, rfl, ?_⟩
  · rfl
  · intro hc
    rw [coherent_logical_len]
    exact hc

set_option maxRecDepth 1000000 in
/-- C29 at a concrete input: `a.bin` has 60 bytes and a boot block of 52 bytes
that records a logical length of 0; after the open `logical_len` is 60 and the
cursor is at 52, where the scan left it. -/
theorem C29_logical_len_is_file_size_witness :
    (H5F_open sampleBuild Env.ok "a.bin" 0 sampleBuild.default_parms sampleWorld).1 =
      .ok (handleOn 0) ∧
    (∃ d, (H5F_open sampleBuild Env.ok "a.bin" 0 sampleBuild.default_parms
          sampleWorld).2.host.openFd
        ((H5F_open sampleBuild Env.ok "a.bin" 0 sampleBuild.default_parms
          sampleWorld).2.deref (handleOn 0).shared).file_handle = some d ∧
      ((H5F_open sampleBuild Env.ok "a.bin" 0 sampleBuild.default_parms
          sampleWorld).2.deref (handleOn 0).shared).logical_len =
        ((H5F_open sampleBuild Env.ok "a.bin" 0 sampleBuild.default_parms
          sampleWorld).2.host.inodes d.ino).len) ∧
    ((H5F_open sampleBuild Env.ok "a.bin" 0 sampleBuild.default_parms
      sampleWorld).2.deref 0).logical_len = 60 ∧
    H5F_TELL (H5F_open sampleBuild Env.ok "a.bin" 0 sampleBuild.default_parms
      sampleWorld).2.host 3 = 52 ∧
    ((H5F_open sampleBuild Env.ok "a.bin" 0 sampleBuild.default_parms
      sampleWorld).2.deref 0).f_cur_off = 52 :=
  ⟨by decide,
   (C29_logical_len_is_file_size sampleBuild Env.ok "a.bin" 0 sampleBuild.default_parms
    sampleWorld (handleOn 0) (by decide)).imp (fun _ h => ⟨h.1, h.2.1⟩),
   by decide, by decide, by decide⟩


/-! ### Creating and truncating opens -/

theorem H5F_CREATE_some (env : Env) (h : Host) (name : String) (fd : Nat) (h1 : Host)
    (hc : H5F_CREATE env h name = some (fd, h1)) :
    fd = h.nfds ∧ ∃ key, h1.paths name = some key ∧
      h1.openFd fd = some { ino := key, pos := 0, writable := true, is_open := true } ∧
      (h1.inodes key).len = 0 := by
  unfold H5F_CREATE at hc
  by_cases hf : env.create_fails = true
  · rw [if_pos hf] at hc; cases hc
  rw [if_neg hf] at hc
  rcases option_cases (h.paths name) with hp | ⟨key, hp⟩
  · rw [hp] at hc
    simp only [Option.some.injEq, Prod.mk.injEq] at hc
    obtain ⟨h1e, h2e⟩ := hc
    subst h1e h2e
    exact ⟨rfl, (0, h.next_ino), by simp [Host.setFd, Host.setInode],
      by simp [Host.openFd, Host.setFd], by simp [Host.setFd, Host.setInode]⟩
  · rw [hp] at hc
    simp only at hc
    by_cases hw : (h.inodes key).w_ok = true
    · rw [if_pos hw] at hc
      simp only [Option.some.injEq, Prod.mk.injEq] at hc
      obtain ⟨h1e, h2e⟩ := hc
      subst h1e h2e
      exact ⟨rfl, key, by simpa [Host.setFd, Host.setInode] using hp,
        by simp [Host.openFd, Host.setFd], by simp [Host.setFd, Host.setInode]⟩
    · rw [if_neg hw] at hc; cases hc

/-- An `H5F_open` that creates or truncates: it returns early with the heap
untouched, or it runs the second half of the function with `empty_file` set
on the new shared struct and the descriptor `H5F_CREATE` returned. -/
theorem H5F_open_creating (B : Build) (env : Env) (name : String) (flags : Nat)
    (create_parms : file_create_temp_t) (w : World)
    (hcreate : (stat w.host name = none ∧ flags &&& H5F_ACC_CREAT ≠ 0) ∨
      (∃ key, stat w.host name = some key ∧ H5Asearch_atom w key = none ∧
        flags &&& H5F_ACC_TRUNC ≠ 0)) :
    (∃ e w1, H5F_open B env name flags create_parms w = (.error e, w1) ∧
      e ≠ H5E.FILE_CANTINIT) ∨
    (∃ key fd h1, H5F_CREATE env w.host name = some (fd, h1) ∧
      flags &&& H5F_ACC_WRITE ≠ 0 ∧
      H5F_open B env name flags create_parms w =
        H5F_open_tail B env name flags create_parms (allocWorld B w h1 key flags fd)
          w.next_ptr (some fd) true) := by
  rcases hcreate with ⟨hstat, hcreat⟩ | ⟨key, hstat, hsearch, htrunc⟩
  · have hopen : H5F_open B env name flags create_parms w =
        H5F_open_absent B env name flags create_parms w := by
      rw [H5F_open_eq]; simp only [hstat]
    rw [hopen]
    unfold H5F_open_absent
    rw [if_pos hcreat]
    by_cases hwr : flags &&& H5F_ACC_WRITE = 0
    · exact Or.inl ⟨H5E.FILE_BADVALUE, w, by rw [if_pos hwr], by decide⟩
    · rw [if_neg hwr]
      rcases option_cases (H5F_CREATE env w.host name) with hcr | ⟨⟨fd, h1⟩, hcr⟩
      · exact Or.inl ⟨H5E.FILE_CANTCREATE, w, by simp only [hcr], by decide⟩
      · simp only [hcr]
        rcases option_cases (if env.stat_fails = true then none else stat h1 name) with
          hst2 | ⟨sb, hst2⟩
        · exact Or.inl ⟨H5E.FILE_CANTCREATE, { w with host := h1 }, by simp only [hst2],
            by decide⟩
        · refine Or.inr ⟨sb, fd, h1, rfl, hwr, ?_⟩
          simp only [hst2]
          exact H5F_open_alloc B env name flags create_parms w h1 sb fd true
  · have hopen : H5F_open B env name flags create_parms w =
        if flags &&& H5F_ACC_EXCL ≠ 0 then (.error .FILE_FILEEXISTS, w)
        else if !access_R_OK w.host name then (.error .FILE_READERROR, w)
        else if flags &&& H5F_ACC_WRITE ≠ 0 ∧ !access_W_OK w.host name then
          (.error .FILE_WRITEERROR, w)
        else H5F_open_unopened B env name flags create_parms w key := by
      rw [H5F_open_eq]; simp only [hstat, hsearch]
    rw [hopen]
    by_cases hexcl : flags &&& H5F_ACC_EXCL ≠ 0
    · exact Or.inl ⟨H5E.FILE_FILEEXISTS, w, by rw [if_pos hexcl], by decide⟩
    rw [if_neg hexcl]
    by_cases hr : (!access_R_OK w.host name) = true
    · exact Or.inl ⟨H5E.FILE_READERROR, w, by rw [if_pos hr], by decide⟩
    rw [if_neg hr]
    by_cases hwok : flags &&& H5F_ACC_WRITE ≠ 0 ∧ (!access_W_OK w.host name) = true
    · exact Or.inl ⟨H5E.FILE_WRITEERROR, w, by rw [if_pos hwok], by decide⟩
    rw [if_neg hwok]
    unfold H5F_open_unopened
    rw [if_pos htrunc]
    by_cases hwr : flags &&& H5F_ACC_WRITE = 0
    · exact Or.inl ⟨H5E.FILE_BADVALUE, w, by rw [if_pos hwr], by decide⟩
    · rw [if_neg hwr]
      rcases option_cases (H5F_CREATE env w.host name) with hcr | ⟨⟨fd, h1⟩, hcr⟩
      · exact Or.inl ⟨H5E.FILE_CANTCREATE, w, by simp only [hcr], by decide⟩
      · refine Or.inr ⟨key, fd, h1, hcr, hwr, ?_⟩
        simp only [hcr]
        exact H5F_open_alloc B env name flags create_parms w h1 key fd true

theorem newBootBlock_eq (B : Build) (cp : file_create_temp_t) (key : Nat × Nat)
    (flags fd : Nat) :
    H5F_flush_encode B
      { (H5F_open_parms cp (freshShared B key flags fd)) with consist_flags := 3 } =
      newBootBlock B cp := by
  simp [H5F_flush_encode, newBootBlock, H5F_open_parms, freshShared, H5F_file_t.calloc]

/-- The second half of `H5F_open` for a new file: when the flush of the boot
block returns a negative status the open fails with `File/CantInit`. -/
theorem H5F_open_tail_cantinit (B : Build) (env : Env) (name : String) (flags : Nat)
    (create_parms : file_create_temp_t) (w0 : World) (p : Nat) (fd : Option Nat)
    (hneg : (H5F_flush B env flags
      { (H5F_open_parms create_parms (w0.deref p)) with consist_flags := 3 }
      w0.host false).1.1 < 0) :
    (H5F_open_tail B env name flags create_parms w0 p fd true).1 = .error .FILE_CANTINIT := by
  rw [H5F_open_tail_eq]
  have hb : H5F_open_boot B env flags (H5F_open_parms create_parms (w0.deref p)) w0.host true =
      (.error .FILE_CANTINIT,
        (H5F_flush B env flags
          { (H5F_open_parms create_parms (w0.deref p)) with consist_flags := 3 }
          w0.host false).2.1,
        (H5F_flush B env flags
          { (H5F_open_parms create_parms (w0.deref p)) with consist_flags := 3 }
          w0.host false).2.2) := by
    unfold H5F_open_boot
    simp only [if_true]
    rw [if_pos hneg]
  rw [hb]
  exact H5F_open_fail_fst _ _ _ _

theorem flushedHost_openFd (B : Build) (sh : H5F_file_t) (h : Host) (d : HostFd)
    (hopen : d.is_open = true) :
    (flushedHost B sh h d).openFd sh.file_handle =
      some { d with
        pos := 0 + sh.file_create_parms.userblock_size + (H5F_flush_encode B sh).length } := by
  unfold flushedHost
  exact Host.openFd_setFd _ _ _ hopen

/-- The second half of `H5F_open` for a new file whose descriptor is open for
writing, when it succeeds: the shared struct has `consist_flags = 3` and the
caller's creation parameters, and the file holds the new boot block at offset
`userblock_size`. -/
theorem H5F_open_tail_new (B : Build) (env : Env) (name : String) (flags : Nat)
    (create_parms : file_create_temp_t) (w : World) (h1 : Host) (key : Nat × Nat)
    (fd : Nat) (d : HostFd) (f : H5F_t)
    (hd : h1.openFd fd = some d) (hw : d.writable = true)
    (hwr : flags &&& H5F_ACC_WRITE ≠ 0)
    (hok : (H5F_open_tail B env name flags create_parms (allocWorld B w h1 key flags fd)
      w.next_ptr (some fd) true).1 = .ok f) :
    f.shared = w.next_ptr ∧
    ((H5F_open_tail B env name flags create_parms (allocWorld B w h1 key flags fd)
      w.next_ptr (some fd) true).2.deref w.next_ptr).consist_flags = 3 ∧
    ((H5F_open_tail B env name flags create_parms (allocWorld B w h1 key flags fd)
      w.next_ptr (some fd) true).2.deref w.next_ptr).file_create_parms = create_parms ∧
    (sharedFile
      ((H5F_open_tail B env name flags create_parms (allocWorld B w h1 key flags fd)
        w.next_ptr (some fd) true).2.deref w.next_ptr)
      (H5F_open_tail B env name flags create_parms (allocWorld B w h1 key flags fd)
        w.next_ptr (some fd) true).2.host).bytes create_parms.userblock_size
        (newBootBlock B create_parms).length = newBootBlock B create_parms := by
  obtain ⟨hfd, hopen⟩ := Host.openFd_some h1 _ d hd
  have hderef : (allocWorld B w h1 key flags fd).deref w.next_ptr =
      freshShared B key flags fd := by
    simp [allocWorld, World.deref]
  have hfold : ({ (H5F_open_parms create_parms (freshShared B key flags fd)) with
      consist_flags := 3 } : H5F_file_t) = newShared B create_parms key flags fd := rfl
  have henc := newBootBlock_eq B create_parms key flags fd
  rw [hfold] at henc
  have hneg : ¬ (H5F_flush B env flags
      { (H5F_open_parms create_parms ((allocWorld B w h1 key flags fd).deref w.next_ptr)) with
        consist_flags := 3 } (allocWorld B w h1 key flags fd).host false).1.1 < 0 := by
    intro hlt
    rw [H5F_open_tail_cantinit B env name flags create_parms _ _ _ hlt] at hok
    cases hok
  rw [hderef] at hneg
  have hhost : (allocWorld B w h1 key flags fd).host = h1 := rfl
  rw [hhost, hfold] at hneg
  have hcache : env.cache_flush_fails = false := by
    by_contra hc
    have hc1 : env.cache_flush_fails = true := by simpa using hc
    apply hneg
    show (H5F_flush B env flags (newShared B create_parms key flags fd) h1 false).1.1 < 0
    unfold H5F_flush
    rw [if_neg (by rw [Nat.land_comm]; exact hwr)]
    simp only [hc1, if_true]
    exact (by decide : (FAIL : Int) < 0)
  have hfl := H5F_flush_ok B env flags (newShared B create_parms key flags fd)
    h1 false d hwr hcache hd hw hwr (fun h => by cases h)
  have hshadow : ¬ env.shadow_flush_fails = true := by
    intro hs
    apply hneg
    rw [hfl, if_pos hs]
    exact (by decide : (-2 : Int) < 0)
  rw [if_neg hshadow] at hfl
  have hboot : H5F_open_boot B env flags
      (H5F_open_parms create_parms ((allocWorld B w h1 key flags fd).deref w.next_ptr))
      (allocWorld B w h1 key flags fd).host true =
      (.ok (),
       flushedShared B
        (newShared B create_parms key flags fd),
       flushedHost B
        (newShared B create_parms key flags fd)
        h1 d) := by
    unfold H5F_open_boot
    simp only [if_true]
    rw [hderef, hhost, hfold, hfl]
    exact if_neg (by decide : ¬ (SUCCEED : Int) < 0)
  have hd2 := flushedHost_openFd B
    (newShared B create_parms key flags fd)
    h1 d hopen
  have hfh : (flushedShared B
      (newShared B create_parms key flags fd)).file_handle = fd := by
    simp [flushedShared, newShared, H5F_open_parms, freshShared]
  have hfh0 : (newShared B create_parms key flags fd).file_handle = fd := by
    simp [newShared, H5F_open_parms, freshShared]
  rw [hfh0] at hd2
  have hfin := H5F_open_finish_ok name flags (allocWorld B w h1 key flags fd) w.next_ptr
    (some fd) _ _ _ (by rw [hfh]; exact hd2)
  rw [H5F_open_tail_eq, hboot, hfin] at hok ⊢
  simp only [Except.ok.injEq] at hok
  subst hok
  rw [World.deref_store]
  refine ⟨rfl, rfl, ?_, ?_⟩
  · simp [flushedShared, newShared, H5F_open_parms, freshShared]
  · have hd3 : (flushedHost B (newShared B create_parms key flags fd) h1 d).openFd
        ({ (flushedShared B (newShared B create_parms key flags fd)) with
          logical_len := ((flushedHost B (newShared B create_parms key flags fd) h1
            d).inodes d.ino).len } : H5F_file_t).file_handle = some { d with
        pos := 0 + (newShared B create_parms key flags fd).file_create_parms.userblock_size +
          (H5F_flush_encode B (newShared B create_parms key flags fd)).length } := by
      show (flushedHost B (newShared B create_parms key flags fd) h1 d).openFd
        (flushedShared B (newShared B create_parms key flags fd)).file_handle = _
      rw [hfh]
      exact hd2
    have hsf := sharedFile_eq _ _ _ hd3
    have hhost2 : ({ (allocWorld B w h1 key flags fd) with
        host := flushedHost B (newShared B create_parms key flags fd) h1 d }.store w.next_ptr
        { (flushedShared B (newShared B create_parms key flags fd)) with
          logical_len := ((flushedHost B (newShared B create_parms key flags fd) h1
            d).inodes d.ino).len }).host =
        flushedHost B (newShared B create_parms key flags fd) h1 d := rfl
    rw [hhost2, hsf]
    have hb := flushedHost_bytes B (newShared B create_parms key flags fd) h1 d
    rw [henc] at hb
    have hub : (newShared B create_parms key flags fd).file_create_parms.userblock_size =
        create_parms.userblock_size := by
      simp [newShared, H5F_open_parms, freshShared]
    rw [hub] at hb
    exact hb

/-- C27: let `H5F_open` create a new file (the path is absent and `CREAT` is
set) or truncate an existing one (the file exists, is not open, and `TRUNC` is
set).  If it succeeds, the shared struct of the new handle has
`consist_flags = 3` and the caller's creation parameters, and the host file
holds, from offset `userblock_size` on, the encoded boot block of the new
file, which starts with the signature and whose bytes 20 to 23 are 3, 0, 0, 0.
Such a call either returns before the handle is allocated (never with
`File/CantInit`) or runs the second half of `H5F_open` with `empty_file` set,
and there a negative status of the flush that writes the boot block makes the
open fail with `File/CantInit`. -/
theorem C27_new_file_boot_block (B : Build) (env : Env) (name : String) (flags : Nat)
    (create_parms : file_create_temp_t) (w : World)
    (hcreate : (stat w.host name = none ∧ flags &&& H5F_ACC_CREAT ≠ 0) ∨
      (∃ key, stat w.host name = some key ∧ H5Asearch_atom w key = none ∧
        flags &&& H5F_ACC_TRUNC ≠ 0)) :
    (∀ f, (H5F_open B env name flags create_parms w).1 = .ok f →
      ((H5F_open B env name flags create_parms w).2.deref f.shared).consist_flags = 3 ∧
      ((H5F_open B env name flags create_parms w).2.deref f.shared).file_create_parms =
        create_parms ∧
      (sharedFile ((H5F_open B env name flags create_parms w).2.deref f.shared)
        (H5F_open B env name flags create_parms w).2.host).bytes
          create_parms.userblock_size (newBootBlock B create_parms).length =
        newBootBlock B create_parms) ∧
    (newBootBlock B create_parms).take 8 = H5F_SIGNATURE ∧
    ((newBootBlock B create_parms).drop 20).take 4 = [3, 0, 0, 0] ∧
    ((∃ e w1, H5F_open B env name flags create_parms w = (.error e, w1) ∧
        e ≠ H5E.FILE_CANTINIT) ∨
      ∃ w0 p fd, H5F_open B env name flags create_parms w =
        H5F_open_tail B env name flags create_parms w0 p fd true) ∧
    (∀ w0 p fd,
      (H5F_flush B env flags
        { (H5F_open_parms create_parms (w0.deref p)) with consist_flags := 3 }
        w0.host false).1.1 < 0 →
      (H5F_open_tail B env name flags create_parms w0 p fd true).1 =
        .error .FILE_CANTINIT) := by
  refine ⟨?_, ?_, ?_, ?_, fun w0 p fd h =>
    H5F_open_tail_cantinit B env name flags create_parms w0 p fd h⟩
  · intro f hok
    rcases H5F_open_creating B env name flags create_parms w hcreate with
      ⟨e, w1, h, _⟩ | ⟨key, fd, h1, hcr, hwr, h⟩
    · rw [h] at hok; cases hok
    · obtain ⟨_, key1, _, hd, _⟩ := H5F_CREATE_some env w.host name fd h1 hcr
      rw [h] at hok ⊢
      obtain ⟨hf, h3, h4, h5⟩ := H5F_open_tail_new B env name flags create_parms w h1 key fd _ f
        hd rfl hwr hok
      rw [hf]
      exact ⟨h3, h4, h5⟩
  · simp [newBootBlock, H5F_flush_encode, H5F_SIGNATURE]
  · simp [newBootBlock, H5F_flush_encode, H5F_SIGNATURE, UINT16ENCODE, UINT32ENCODE, leEncode]
  · rcases H5F_open_creating B env name flags create_parms w hcreate with
      ⟨e, w1, h, hne⟩ | ⟨key, fd, h1, _, _, h⟩
    · exact Or.inl ⟨e, w1, h, hne⟩
    · exact Or.inr ⟨_, _, _, h⟩

set_option maxRecDepth 1000000 in
/-- C27 at a concrete input: `new.bin` is created with a user block of 512
bytes. -/
theorem C27_new_file_boot_block_witness :
    (stat sampleWorld.host "new.bin" = none ∧
      (H5F_ACC_WRITE ||| H5F_ACC_CREAT) &&& H5F_ACC_CREAT ≠ 0) ∧
    (H5F_open sampleBuild Env.ok "new.bin" (H5F_ACC_WRITE ||| H5F_ACC_CREAT) otherParms
      sampleWorld).1 = .ok { name := "new.bin", intent := 3, shared := 0 } ∧
    (((H5F_open sampleBuild Env.ok "new.bin" (H5F_ACC_WRITE ||| H5F_ACC_CREAT) otherParms
        sampleWorld).2.deref 0).consist_flags = 3 ∧
      ((H5F_open sampleBuild Env.ok "new.bin" (H5F_ACC_WRITE ||| H5F_ACC_CREAT) otherParms
        sampleWorld).2.deref 0).file_create_parms = otherParms ∧
      (sharedFile ((H5F_open sampleBuild Env.ok "new.bin" (H5F_ACC_WRITE ||| H5F_ACC_CREAT)
          otherParms sampleWorld).2.deref 0)
        (H5F_open sampleBuild Env.ok "new.bin" (H5F_ACC_WRITE ||| H5F_ACC_CREAT) otherParms
          sampleWorld).2.host).bytes otherParms.userblock_size
          (newBootBlock sampleBuild otherParms).length = newBootBlock sampleBuild otherParms) ∧
    (newBootBlock sampleBuild otherParms).length = 52 :=
  ⟨by decide, by decide,
   (C27_new_file_boot_block sampleBuild Env.ok "new.bin" (H5F_ACC_WRITE ||| H5F_ACC_CREAT)
    otherParms sampleWorld (Or.inl (by decide))).1
      { name := "new.bin", intent := 3, shared := 0 } (by decide),
   by decide⟩


/-! ### The "none" selection -/

/-- C36: for every dataspace and every buffer, `H5S_none_select_serialize`
returns `SUCCEED` and stores exactly 16 bytes at the front of the buffer: the
selection type (reduced modulo `2 ^ 32`) as four little-endian bytes, then
`01 00 00 00`, then eight zero bytes; the bytes of the buffer behind them are
untouched.  The result of `H5S_none_select_deserialize` is the same for any
two buffers: it is `FAIL` with `Dataspace/CantDelete` when `H5S_select_none`
returns a negative status, and the status of `H5S_select_none` otherwise. -/
theorem C36_none_select_serialize (H5S_select_none : H5S_t → Int × H5S_t) (space : H5S_t)
    (buf buf2 : List Nat) :
    (H5S_none_select_serialize space buf).1 = SUCCEED ∧
    (H5S_none_select_serialize space buf).2.take 16 =
      [(space.select_type % 2 ^ 32).toNat % 256,
       (space.select_type % 2 ^ 32).toNat / 256 % 256,
       (space.select_type % 2 ^ 32).toNat / 65536 % 256,
       (space.select_type % 2 ^ 32).toNat / 16777216 % 256,
       1, 0, 0, 0, 0, 0, 0, 0, 0, 0, 0, 0] ∧
    (H5S_none_select_serialize space buf).2.drop 16 = buf.drop 16 ∧
    (16 ≤ buf.length → (H5S_none_select_serialize space buf).2.length = buf.length) ∧
    H5S_none_select_deserialize H5S_select_none space buf =
      H5S_none_select_deserialize H5S_select_none space buf2 ∧
    ((H5S_select_none space).1 < 0 →
      (H5S_none_select_deserialize H5S_select_none space buf).1 =
        (FAIL, some .DATASPACE_CANTDELETE)) ∧
    (¬ (H5S_select_none space).1 < 0 →
      (H5S_none_select_deserialize H5S_select_none space buf).1 =
        ((H5S_select_none space).1, none)) := by
  have hlen : (UINT32ENCODE (space.select_type % 2 ^ 32).toNat ++ UINT32ENCODE 1 ++
      UINT32ENCODE 0 ++ UINT32ENCODE 0).length = 16 := by
    simp [UINT32ENCODE, leEncode_length]
  have hbytes : UINT32ENCODE (space.select_type % 2 ^ 32).toNat ++ UINT32ENCODE 1 ++
      UINT32ENCODE 0 ++ UINT32ENCODE 0 =
      [(space.select_type % 2 ^ 32).toNat % 256,
       (space.select_type % 2 ^ 32).toNat / 256 % 256,
       (space.select_type % 2 ^ 32).toNat / 65536 % 256,
       (space.select_type % 2 ^ 32).toNat / 16777216 % 256,
       1, 0, 0, 0, 0, 0, 0, 0, 0, 0, 0, 0] := by
    simp [UINT32ENCODE, leEncode, Nat.div_div_eq_div_mul]
  have hres : (H5S_none_select_serialize space buf).2 =
      (UINT32ENCODE (space.select_type % 2 ^ 32).toNat ++ UINT32ENCODE 1 ++
        UINT32ENCODE 0 ++ UINT32ENCODE 0) ++ buf.drop 16 := by
    simp only [H5S_none_select_serialize, hlen]
  refine ⟨rfl, ?_, ?_, ?_, rfl, ?_, ?_⟩
  · rw [hres, List.take_left' hlen, hbytes]
  · rw [hres, List.drop_left' hlen]
  · intro h16
    rw [hres, List.length_append, hlen, List.length_drop]
    omega
  · intro hneg
    simp only [H5S_none_select_deserialize]
    rw [if_pos hneg]
  · intro hpos
    simp only [H5S_none_select_deserialize]
    rw [if_neg hpos]

/-- C36 at a concrete input: selection type 258 and a buffer of 18 bytes; the
first 16 bytes become `02 01 00 00 01 00 ...` and the last two stay. -/
theorem C36_none_select_serialize_witness :
    H5S_none_select_serialize { select_type := 258 } (List.replicate 18 9) =
      (SUCCEED, [2, 1, 0, 0, 1, 0, 0, 0, 0, 0, 0, 0, 0, 0, 0, 0, 9, 9]) ∧
    (H5S_none_select_serialize { select_type := 258 } (List.replicate 18 9)).2.take 16 =
      [2, 1, 0, 0, 1, 0, 0, 0, 0, 0, 0, 0, 0, 0, 0, 0] ∧
    H5S_none_select_deserialize (fun s => (0, { s with select_type := 0 }))
        { select_type := 258 } [1, 2, 3] =
      H5S_none_select_deserialize (fun s => (0, { s with select_type := 0 }))
        { select_type := 258 } [] :=
  ⟨by decide,
   (C36_none_select_serialize (fun s => (0, { s with select_type := 0 }))
      { select_type := 258 } (List.replicate 18 9) []).2.1,
   (C36_none_select_serialize (fun s => (0, { s with select_type := 0 }))
      { select_type := 258 } [1, 2, 3] []).2.2.2.2.1⟩


/-! ### A failed reopen for writing -/

/-- C33: `H5F_open` with `WRITE` (and without `EXCL` and `TRUNC`) on an
accessible file that a registered handle `old` has open without `WRITE` in the
shared flags, when the host open for writing fails: the call fails with
`File/CantOpen` and the process state is the one before the call.  In
particular the shared struct of `old` is unchanged, its host descriptor `d` is
still open and installed, its flags still lack `WRITE` and its `nrefs` is as
before. -/
theorem C33_failed_upgrade_changes_nothing (B : Build) (env : Env) (name : String) (flags : Nat)
    (create_parms : file_create_temp_t) (w : World) (key : Nat × Nat) (old : H5F_t) (d : HostFd)
    (hstat : stat w.host name = some key)
    (hexcl : flags &&& H5F_ACC_EXCL = 0)
    (hr : access_R_OK w.host name = true)
    (hw : access_W_OK w.host name = true)
    (hsearch : H5Asearch_atom w key = some old)
    (htrunc : flags &&& H5F_ACC_TRUNC = 0)
    (hwrite : flags &&& H5F_ACC_WRITE ≠ 0)
    (hro : (w.deref old.shared).flags &&& H5F_ACC_WRITE = 0)
    (hd : w.host.openFd (w.deref old.shared).file_handle = some d)
    (hfail : H5F_OPEN env w.host name true = none) :
    H5F_open B env name flags create_parms w = (.error .FILE_CANTOPENFILE, w) ∧
    (H5F_open B env name flags create_parms w).2.heap old.shared = w.heap old.shared ∧
    ((H5F_open B env name flags create_parms w).2.deref old.shared).file_handle =
      (w.deref old.shared).file_handle ∧
    (H5F_open B env name flags create_parms w).2.host.openFd
      ((H5F_open B env name flags create_parms w).2.deref old.shared).file_handle = some d ∧
    ((H5F_open B env name flags create_parms w).2.deref old.shared).flags &&& H5F_ACC_WRITE = 0 ∧
    ((H5F_open B env name flags create_parms w).2.deref old.shared).nrefs =
      (w.deref old.shared).nrefs := by
  have hres : H5F_open B env name flags create_parms w = (.error .FILE_CANTOPENFILE, w) := by
    simp only [H5F_open, hstat, hexcl, hr, hw, hsearch, htrunc, hro, hfail, ne_eq,
      not_true_eq_false, if_false, Bool.not_true, Bool.false_eq_true, and_false, hwrite,
      not_false_eq_true, and_self, if_true]
  rw [hres]
  exact ⟨rfl, rfl, rfl, hd, hro, rfl⟩

/-- C33 at a concrete input: `a.bin` is open read-only (file id 0, host
descriptor 3) and the host open of the upgrading `H5F_open` fails. -/
theorem C33_failed_upgrade_changes_nothing_witness :
    H5F_OPEN openFails openedWorld.host "a.bin" true = none ∧
    H5F_open sampleBuild openFails "a.bin" H5F_ACC_WRITE sampleBuild.default_parms openedWorld =
      (.error .FILE_CANTOPENFILE, openedWorld) ∧
    openedWorld.host.openFd (openedWorld.deref 0).file_handle =
      some { ino := (0, 1), pos := 52, writable := false, is_open := true } ∧
    (openedWorld.deref 0).nrefs = 1 :=
  ⟨rfl,
   (C33_failed_upgrade_changes_nothing sampleBuild openFails "a.bin" H5F_ACC_WRITE
      sampleBuild.default_parms openedWorld (0, 1) (handleOn 0)
      { ino := (0, 1), pos := 52, writable := false, is_open := true }
      (by decide) (by decide) (by decide) (by decide) (by decide) (by decide) (by decide)
      (by decide) (by decide) rfl).1,
   by decide, by decide⟩


/-! ### Files and descriptors of the host across a call -/

theorem filesGrow_refl (h : Host) : filesGrow h h :=
  ⟨Eq.refl _, fun _ => Nat.le_refl _⟩

theorem filesGrow_trans {a b c : Host} (h1 : filesGrow a b) (h2 : filesGrow b c) :
    filesGrow a c :=
  ⟨h2.1.trans h1.1, fun k => Nat.le_trans (h1.2 k) (h2.2 k)⟩

theorem hostIO_refl (h : Host) : hostIO h h :=
  ⟨filesGrow_refl h, fun _ => Eq.refl _⟩

theorem hostIO_trans {a b c : Host} (h1 : hostIO a b) (h2 : hostIO b c) : hostIO a c :=
  ⟨filesGrow_trans h1.1 h2.1, fun fd => (h2.2 fd).trans (h1.2 fd)⟩

theorem hostIO_setFd (h : Host) (fd : Nat) (d d1 : HostFd) (hd : h.openFd fd = some d)
    (hopen : d1.is_open = true) : hostIO h (h.setFd fd d1) := by
  refine ⟨⟨rfl, fun _ => Nat.le_refl _⟩, fun k => ?_⟩
  by_cases hk : k = fd
  · subst hk
    rw [Host.openFd_setFd _ _ _ hopen, hd]
    rfl
  · simp [Host.openFd, Host.setFd, hk]

theorem H5F_SEEK_io (h : Host) (fd off : Nat) (h1 : Host) (hs : H5F_SEEK h fd off = some h1) :
    hostIO h h1 := by
  unfold H5F_SEEK at hs
  rcases option_cases (h.openFd fd) with hd | ⟨d, hd⟩
  · rw [hd] at hs
    cases hs
  · rw [hd] at hs
    simp only [Option.some.injEq] at hs
    subst hs
    exact hostIO_setFd h fd d _ hd (Host.openFd_some h fd d hd).2

theorem H5F_SEEKEND_io (h : Host) (fd : Nat) (h1 : Host) (hs : H5F_SEEKEND h fd = some h1) :
    hostIO h h1 := by
  unfold H5F_SEEKEND at hs
  rcases option_cases (h.openFd fd) with hd | ⟨d, hd⟩
  · rw [hd] at hs
    cases hs
  · rw [hd] at hs
    simp only [Option.some.injEq] at hs
    subst hs
    exact hostIO_setFd h fd d _ hd (Host.openFd_some h fd d hd).2

theorem H5F_READ_io (h : Host) (fd n : Nat) : hostIO h (H5F_READ h fd n).2 := by
  unfold H5F_READ
  rcases option_cases (h.openFd fd) with hd | ⟨d, hd⟩
  · rw [hd]
    exact hostIO_refl h
  · rw [hd]
    simp only []
    split <;> exact hostIO_setFd h fd d _ hd (Host.openFd_some h fd d hd).2

theorem H5F_WRITE_io (h : Host) (fd n : Nat) (buf : List Nat) :
    hostIO h (H5F_WRITE h fd buf n).2 := by
  unfold H5F_WRITE
  rcases option_cases (h.openFd fd) with hd | ⟨d, hd⟩
  · rw [hd]
    exact hostIO_refl h
  · rw [hd]
    simp only []
    by_cases hw : d.writable = true
    · rw [if_pos hw]
      have h1 : hostIO h (h.setInode d.ino ((h.inodes d.ino).store d.pos n buf)) := by
        refine ⟨⟨rfl, fun k => ?_⟩, fun _ => rfl⟩
        by_cases hk : k = d.ino
        · subst hk
          simp only [Host.setInode, if_true, HostFile.store]
          exact Nat.le_max_left _ _
        · simp [Host.setInode, hk]
      have hd1 : (h.setInode d.ino ((h.inodes d.ino).store d.pos n buf)).openFd fd = some d := hd
      exact hostIO_trans h1 (hostIO_setFd _ fd d _ hd1 (Host.openFd_some h fd d hd).2)
    · rw [if_neg hw]
      exact hostIO_refl h

theorem H5F_CLOSE_files (h : Host) (fd : Nat) : filesGrow h (H5F_CLOSE h fd) := by
  unfold H5F_CLOSE
  split
  · exact ⟨rfl, fun _ => Nat.le_refl _⟩
  · exact filesGrow_refl h

theorem H5F_OPEN_files (env : Env) (h : Host) (name : String) (write : Bool) (fd : Nat)
    (h1 : Host) (ho : H5F_OPEN env h name write = some (fd, h1)) : filesGrow h h1 := by
  unfold H5F_OPEN at ho
  split at ho
  · cases ho
  · split at ho
    · cases ho
    · split at ho
      · simp only [Option.some.injEq, Prod.mk.injEq] at ho
        rw [← ho.2]
        exact ⟨rfl, fun _ => Nat.le_refl _⟩
      · cases ho

theorem H5F_block_read_io (opt : Bool) (sh : H5F_file_t) (h : Host) (addr size : Nat) :
    hostIO h (H5F_block_read opt sh h addr size).2.2 := by
  unfold H5F_block_read
  by_cases hs : size = 0
  · rw [if_pos hs]
    exact hostIO_refl h
  rw [if_neg hs]
  simp only []
  by_cases hel : (!opt || sh.last_op != OP_READ ||
      sh.f_cur_off != addr + sh.file_create_parms.userblock_size) = true
  · rw [if_pos hel]
    rcases option_cases (H5F_SEEK h sh.file_handle
      (addr + sh.file_create_parms.userblock_size)) with hk | ⟨h1, hk⟩
    · simp only [hk]
      exact hostIO_refl h
    · simp only [hk]
      have hr := H5F_READ_io h1 sh.file_handle size
      rcases hrd : H5F_READ h1 sh.file_handle size with ⟨_ | bytes, h2⟩
      · rw [hrd] at hr
        exact hostIO_trans (H5F_SEEK_io _ _ _ _ hk) hr
      · rw [hrd] at hr
        exact hostIO_trans (H5F_SEEK_io _ _ _ _ hk) hr
  · rw [if_neg hel]
    have hr := H5F_READ_io h sh.file_handle size
    rcases hrd : H5F_READ h sh.file_handle size with ⟨_ | bytes, h2⟩
    · rw [hrd] at hr
      exact hr
    · rw [hrd] at hr
      exact hr

theorem H5F_block_write_io (opt : Bool) (intent : Nat) (sh : H5F_file_t) (h : Host)
    (addr size : Nat) (buf : List Nat) :
    hostIO h (H5F_block_write opt intent sh h addr size buf).2.2 := by
  unfold H5F_block_write
  by_cases hs : size = 0
  · rw [if_pos hs]
    exact hostIO_refl h
  rw [if_neg hs]
  simp only []
  by_cases hi : intent &&& H5F_ACC_WRITE = 0
  · rw [if_pos hi]
    exact hostIO_refl h
  rw [if_neg hi]
  by_cases hel : (!opt || sh.last_op != OP_WRITE ||
      sh.f_cur_off != addr + sh.file_create_parms.userblock_size) = true
  · rw [if_pos hel]
    rcases option_cases (H5F_SEEK h sh.file_handle
      (addr + sh.file_create_parms.userblock_size)) with hk | ⟨h1, hk⟩
    · simp only [hk]
      exact hostIO_refl h
    · simp only [hk]
      have hr := H5F_WRITE_io h1 sh.file_handle size buf
      rcases hwr : H5F_WRITE h1 sh.file_handle buf size with ⟨_ | _, h2⟩
      · rw [hwr] at hr
        exact hostIO_trans (H5F_SEEK_io _ _ _ _ hk) hr
      · rw [hwr] at hr
        exact hostIO_trans (H5F_SEEK_io _ _ _ _ hk) hr
  · rw [if_neg hel]
    have hr := H5F_WRITE_io h sh.file_handle size buf
    rcases hwr : H5F_WRITE h sh.file_handle buf size with ⟨_ | _, h2⟩
    · rw [hwr] at hr
      exact hr
    · rw [hwr] at hr
      exact hr

theorem H5F_flush_io (B : Build) (env : Env) (intent : Nat) (sh : H5F_file_t) (h : Host)
    (invalidate : Bool) :
    hostIO h (H5F_flush B env intent sh h invalidate).2.2 := by
  unfold H5F_flush
  split
  · exact hostIO_refl h
  · simp only []
    split
    · exact hostIO_refl h
    · have hw := H5F_block_write_io B.H5F_OPT_SEEK intent sh h 0
        (H5F_flush_encode B sh).length (H5F_flush_encode B sh)
      split
      · rename_i heq
        rw [heq] at hw
        exact hw
      · rename_i heq
        rw [heq] at hw
        repeat' split
        all_goals exact hw

theorem H5F_open_scan_io (B : Build) (n : Nat) :
    ∀ (i : Nat) (sh : H5F_file_t) (h : Host), hostIO h (H5F_open_scan B n i sh h).2.2 := by
  induction n with
  | zero =>
    intro i sh h
    exact hostIO_refl h
  | succ n ih =>
    intro i sh h
    rw [H5F_open_scan]
    simp only
    have h0 := H5F_block_read_io B.H5F_OPT_SEEK
      { sh with file_create_parms :=
        { sh.file_create_parms with userblock_size := H5F_open_candidate B i } } h 0 24
    split
    · rename_i heq
      rw [heq] at h0
      exact h0
    · rename_i buf sh1 h1 heq
      rw [heq] at h0
      split
      · exact hostIO_trans h0 (ih _ _ _)
      · split
        · exact h0
        · rename_i sh2 hfix
          have h3 := H5F_block_read_io B.H5F_OPT_SEEK sh2 h1 24
            (H5F_open_variable_size B sh2.file_create_parms)
          split
          · rename_i heq2
            rw [heq2] at h3
            exact hostIO_trans h0 h3
          · rename_i buf2 sh3 h2 heq2
            rw [heq2] at h3
            split
            · exact hostIO_trans h0 h3
            · exact hostIO_trans h0 h3

theorem H5F_open_boot_io (B : Build) (env : Env) (flags : Nat) (sh : H5F_file_t)
    (h : Host) (empty_file : Bool) :
    hostIO h (H5F_open_boot B env flags sh h empty_file).2.2 := by
  unfold H5F_open_boot
  cases empty_file with
  | true =>
    simp only [if_true]
    have hf := H5F_flush_io B env flags { sh with consist_flags := 3 } h false
    split <;> exact hf
  | false =>
    simp only [Bool.false_eq_true, if_false]
    split
    · exact H5F_open_scan_io B _ _ _ _
    · exact hostIO_refl h

theorem H5F_dest_host (w : World) (f : H5F_t) : (H5F_dest w f).host = w.host := by
  unfold H5F_dest
  simp only []
  split <;> rfl

theorem H5F_open_fail_files (w : World) (f : H5F_t) (fd : Option Nat) (e : H5E) :
    filesGrow w.host (H5F_open_fail w f fd e).2.host := by
  unfold H5F_open_fail
  cases fd with
  | none =>
    simp only []
    rw [H5F_dest_host]
    exact filesGrow_refl _
  | some d =>
    simp only []
    rw [H5F_dest_host]
    exact H5F_CLOSE_files _ _

theorem H5F_open_finish_files (name : String) (flags : Nat) (w : World) (p : Nat)
    (fd : Option Nat) (x : Except H5E Unit) (sh1 : H5F_file_t) (h1 : Host) :
    filesGrow h1 (H5F_open_finish name flags w p fd (x, sh1, h1)).2.host := by
  have hfail : ∀ e, filesGrow h1 (H5F_open_fail ({ w with host := h1 }.store p sh1)
      { name := name, intent := flags, shared := p } fd e).2.host := by
    intro e
    have hf := H5F_open_fail_files ({ w with host := h1 }.store p sh1)
      { name := name, intent := flags, shared := p } fd e
    have hhost : ({ w with host := h1 }.store p sh1).host = h1 := rfl
    rw [hhost] at hf
    exact hf
  cases x with
  | error e =>
    have hfin : H5F_open_finish name flags w p fd (.error e, sh1, h1) =
        H5F_open_fail ({ w with host := h1 }.store p sh1)
          { name := name, intent := flags, shared := p } fd e := rfl
    rw [hfin]
    exact hfail e
  | ok u =>
    rcases option_cases (H5F_SEEKEND h1 sh1.file_handle) with hs | ⟨h2, hs⟩
    · have hfin : H5F_open_finish name flags w p fd (.ok u, sh1, h1) =
          H5F_open_fail ({ w with host := h1 }.store p sh1)
            { name := name, intent := flags, shared := p } fd .FILE_CANTINIT := by
        simp only [H5F_open_finish, hs]
      rw [hfin]
      exact hfail _
    · have hfin : H5F_open_finish name flags w p fd (.ok u, sh1, h1) =
          (.ok { name := name, intent := flags, shared := p },
            { w with host := (H5F_SEEK h2 sh1.file_handle
                (H5F_TELL h1 sh1.file_handle)).getD h2 }.store p
              { sh1 with logical_len := H5F_TELL h2 sh1.file_handle }) := by
        simp only [H5F_open_finish, hs]
      rw [hfin]
      have h12 := (H5F_SEEKEND_io _ _ _ hs).1
      show filesGrow h1 ((H5F_SEEK h2 sh1.file_handle (H5F_TELL h1 sh1.file_handle)).getD h2)
      rcases option_cases (H5F_SEEK h2 sh1.file_handle (H5F_TELL h1 sh1.file_handle)) with
        hk | ⟨h3, hk⟩
      · rw [hk]
        exact h12
      · rw [hk]
        exact filesGrow_trans h12 (H5F_SEEK_io _ _ _ _ hk).1

/-- The second half of `H5F_open` creates and truncates no file. -/
theorem H5F_open_tail_files (B : Build) (env : Env) (name : String) (flags : Nat)
    (create_parms : file_create_temp_t) (w : World) (p : Nat) (fd : Option Nat)
    (empty_file : Bool) :
    filesGrow w.host (H5F_open_tail B env name flags create_parms w p fd empty_file).2.host := by
  rw [H5F_open_tail_eq]
  have hb := (H5F_open_boot_io B env flags (H5F_open_parms create_parms (w.deref p)) w.host
    empty_file).1
  rcases hbo : H5F_open_boot B env flags (H5F_open_parms create_parms (w.deref p))
    w.host empty_file with ⟨x, sh1, h1⟩
  rw [hbo] at hb
  exact filesGrow_trans hb (H5F_open_finish_files name flags w p fd x sh1 h1)

/-- `H5F_open` without `CREAT` and `TRUNC` in its flags creates and truncates
no file. -/
theorem H5F_open_files (B : Build) (env : Env) (name : String) (flags : Nat)
    (create_parms : file_create_temp_t) (w : World)
    (hc : flags &&& H5F_ACC_CREAT = 0) (ht : flags &&& H5F_ACC_TRUNC = 0) :
    filesGrow w.host (H5F_open B env name flags create_parms w).2.host := by
  rw [H5F_open_eq]
  rcases option_cases (stat w.host name) with hstat | ⟨key, hstat⟩
  · simp only [hstat]
    unfold H5F_open_absent
    rw [if_neg (not_not.mpr hc)]
    exact filesGrow_refl _
  · simp only [hstat]
    by_cases h1 : flags &&& H5F_ACC_EXCL ≠ 0
    · rw [if_pos h1]
      exact filesGrow_refl _
    rw [if_neg h1]
    by_cases h2 : (!access_R_OK w.host name) = true
    · rw [if_pos h2]
      exact filesGrow_refl _
    rw [if_neg h2]
    by_cases h3 : flags &&& H5F_ACC_WRITE ≠ 0 ∧ (!access_W_OK w.host name) = true
    · rw [if_pos h3]
      exact filesGrow_refl _
    rw [if_neg h3]
    rcases option_cases (H5Asearch_atom w key) with hs | ⟨old, hs⟩
    · simp only [hs]
      unfold H5F_open_unopened
      rw [if_neg (not_not.mpr ht)]
      rcases option_cases (H5F_OPEN env w.host name (flags &&& H5F_ACC_WRITE != 0)) with
        hop | ⟨⟨fd, h1⟩, hop⟩
      · simp only [hop]
        exact filesGrow_refl _
      · simp only [hop]
        have hal := H5F_open_alloc B env name flags create_parms w h1 key fd false
        simp only [] at hal
        rw [hal]
        have htl := H5F_open_tail_files B env name flags create_parms
          (allocWorld B w h1 key flags fd) w.next_ptr (some fd) false
        have hh : (allocWorld B w h1 key flags fd).host = h1 := rfl
        rw [hh] at htl
        exact filesGrow_trans (H5F_OPEN_files _ _ _ _ _ _ hop) htl
    · simp only [hs]
      unfold H5F_open_found
      rw [if_neg (not_not.mpr ht)]
      by_cases hup : flags &&& H5F_ACC_WRITE ≠ 0 ∧
          (w.deref old.shared).flags &&& H5F_ACC_WRITE = 0
      · rw [if_pos hup]
        rcases option_cases (H5F_OPEN env w.host name true) with hop | ⟨⟨fd, h1⟩, hop⟩
        · simp only [hop]
          exact filesGrow_refl _
        · simp only [hop, H5F_new, World.deref_store, World.store_store]
          have htl := H5F_open_tail_files B env name flags create_parms
            ({ w with host := H5F_CLOSE h1 (w.deref old.shared).file_handle }.store old.shared
              { (w.deref old.shared) with
                file_handle := fd
                flags := (w.deref old.shared).flags ||| H5F_ACC_WRITE
                nrefs := (w.deref old.shared).nrefs + 1 }) old.shared none false
          have hh : ({ w with host := H5F_CLOSE h1 (w.deref old.shared).file_handle }.store
              old.shared
              { (w.deref old.shared) with
                file_handle := fd
                flags := (w.deref old.shared).flags ||| H5F_ACC_WRITE
                nrefs := (w.deref old.shared).nrefs + 1 }).host =
              H5F_CLOSE h1 (w.deref old.shared).file_handle := rfl
          rw [hh] at htl
          exact filesGrow_trans
            (filesGrow_trans (H5F_OPEN_files _ _ _ _ _ _ hop) (H5F_CLOSE_files _ _)) htl
      · rw [if_neg hup]
        simp only [H5F_new]
        have htl := H5F_open_tail_files B env name flags create_parms
          (w.store old.shared
            { (w.deref old.shared) with nrefs := (w.deref old.shared).nrefs + 1 })
          old.shared none false
        have hh : (w.store old.shared
            { (w.deref old.shared) with nrefs := (w.deref old.shared).nrefs + 1 }).host =
            w.host := rfl
        rw [hh] at htl
        exact htl

/-- `H5F_close` creates and truncates no file. -/
theorem H5F_close_files (B : Build) (env : Env) (w : World) (f : H5F_t) :
    filesGrow w.host (H5F_close B env w f).2.host := by
  have hf := (H5F_flush_io B env f.intent (w.deref f.shared) w.host true).1
  unfold H5F_close
  rcases hfl : H5F_flush B env f.intent (w.deref f.shared) w.host true with
    ⟨⟨rv, e⟩, sh1, h1⟩
  rw [hfl] at hf
  simp only []
  by_cases hgen : rv ≠ -2 ∧ rv < 0
  · rw [if_pos hgen]
    exact hf
  · rw [if_neg hgen]
    have hd : ∀ x : Int × Option H5E,
        filesGrow w.host ((x, H5F_dest
          { ({ w with host := h1 }.store f.shared sh1) with
            host := H5F_CLOSE ({ w with host := h1 }.store f.shared sh1).host
              (({ w with host := h1 }.store f.shared sh1).deref f.shared).file_handle } f).2.host) := by
      intro x
      show filesGrow w.host (H5F_dest _ f).host
      rw [H5F_dest_host]
      exact filesGrow_trans hf (H5F_CLOSE_files _ _)
    by_cases hneg : rv < 0
    · rw [if_pos hneg]
      exact hd _
    · rw [if_neg hneg]
      exact hd _

theorem land_land_self (a b : Nat) : (a &&& b) &&& b = a &&& b := by
  apply Nat.eq_of_testBit_eq
  intro i
  simp only [Nat.testBit_land]
  cases a.testBit i <;> cases b.testBit i <;> rfl

/-- C34: `H5Fopen` reads only the `H5ACC_WRITE` bit of its flags: for every
flags value it returns what it returns for `flags & H5ACC_WRITE`, with the same
process state.  On a path that does not exist it fails (with `File/CantOpen`
for a non-empty name) and leaves the process state alone.  And whatever the
flags, no path is added to or removed from the host directory and no host file
becomes shorter: no file is created and none is truncated. -/
theorem C34_open_honours_write_bit_only (B : Build) (env : Env) (filename : String)
    (flags : Nat) (w : World) :
    H5Fopen B env filename flags w = H5Fopen B env filename (flags &&& B.H5ACC_WRITE) w ∧
    (stat w.host filename = none →
      (∃ e, H5Fopen B env filename flags w = (.error e, w)) ∧
      (filename ≠ "" → H5Fopen B env filename flags w = (.error .FILE_CANTOPENFILE, w))) ∧
    (H5Fopen B env filename flags w).2.host.paths = w.host.paths ∧
    (∀ k, (w.host.inodes k).len ≤ ((H5Fopen B env filename flags w).2.host.inodes k).len) := by
  have hfl : ∀ fl : Nat, (if fl &&& B.H5ACC_WRITE ≠ 0 then H5F_ACC_WRITE else 0) &&&
        H5F_ACC_CREAT = 0 ∧
      (if fl &&& B.H5ACC_WRITE ≠ 0 then H5F_ACC_WRITE else 0) &&& H5F_ACC_TRUNC = 0 := by
    intro fl
    split <;> exact ⟨by decide, by decide⟩
  have hgrow : filesGrow w.host (H5Fopen B env filename flags w).2.host := by
    unfold H5Fopen
    by_cases hname : filename = ""
    · rw [if_pos hname]
      exact filesGrow_refl _
    rw [if_neg hname]
    simp only []
    have ho := H5F_open_files B env filename
      (if flags &&& B.H5ACC_WRITE ≠ 0 then H5F_ACC_WRITE else 0) B.default_parms w
      (hfl flags).1 (hfl flags).2
    rcases hres : H5F_open B env filename
      (if flags &&& B.H5ACC_WRITE ≠ 0 then H5F_ACC_WRITE else 0) B.default_parms w with
      ⟨_ | new_file, w1⟩
    · rw [hres] at ho
      exact ho
    · rw [hres] at ho
      simp only []
      rcases option_cases (H5Aregister_atom env w1 new_file) with hreg | ⟨⟨id, w2⟩, hreg⟩
      · simp only [hreg]
        exact filesGrow_trans ho (H5F_close_files B env w1 new_file)
      · simp only [hreg]
        unfold H5Aregister_atom at hreg
        split at hreg
        · cases hreg
        · simp only [Option.some.injEq, Prod.mk.injEq] at hreg
          rw [← hreg.2]
          exact ho
  refine ⟨?_, ?_, hgrow.1, hgrow.2⟩
  · unfold H5Fopen
    rw [land_land_self]
  · intro hstat
    have habs : ∀ fl, H5F_open B env filename
        (if fl &&& B.H5ACC_WRITE ≠ 0 then H5F_ACC_WRITE else 0) B.default_parms w =
        (.error .FILE_CANTOPENFILE, w) := by
      intro fl
      rw [H5F_open_eq]
      simp only [hstat]
      unfold H5F_open_absent
      rw [if_neg (not_not.mpr (hfl fl).1)]
    by_cases hname : filename = ""
    · refine ⟨⟨.ARGS_BADRANGE, ?_⟩, fun hne => absurd hname hne⟩
      unfold H5Fopen
      rw [if_pos hname]
    · have hres : H5Fopen B env filename flags w = (.error .FILE_CANTOPENFILE, w) := by
        unfold H5Fopen
        rw [if_neg hname]
        simp only [habs flags]
      exact ⟨⟨_, hres⟩, fun _ => hres⟩

/-- C34 at concrete inputs: with all four `H5F_ACC_*` bits and more set (flags
15 and 14), `H5Fopen` of the existing file `a.bin` does what it does for flags
1 and 0, and `H5Fopen` of the absent path `new.bin` fails and creates nothing. -/
theorem C34_open_honours_write_bit_only_witness :
    (H5Fopen sampleBuild Env.ok "a.bin" 15 sampleWorld =
      H5Fopen sampleBuild Env.ok "a.bin" (15 &&& sampleBuild.H5ACC_WRITE) sampleWorld) ∧
    (H5Fopen sampleBuild Env.ok "a.bin" 15 sampleWorld).1 = .ok 0 ∧
    ((H5Fopen sampleBuild Env.ok "a.bin" 15 sampleWorld).2.host.inodes (0, 1)).len = 60 ∧
    H5Fopen sampleBuild Env.ok "new.bin" 14 sampleWorld =
      (.error .FILE_CANTOPENFILE, sampleWorld) ∧
    stat (H5Fopen sampleBuild Env.ok "new.bin" 14 sampleWorld).2.host "new.bin" = none :=
  ⟨(C34_open_honours_write_bit_only sampleBuild Env.ok "a.bin" 15 sampleWorld).1,
   by decide, by decide,
   (C34_open_honours_write_bit_only sampleBuild Env.ok "new.bin" 14 sampleWorld).2.1
     (by decide) |>.2 (by decide),
   by decide⟩


/-! ### A close whose flush fails -/

theorem H5Aatom_object_removed (w : World) (fid : Nat) :
    H5Aatom_object (H5Aremove_atom w fid) fid = none := by
  unfold H5Aatom_object H5Aremove_atom
  simp only [Option.map_eq_none', List.find?_eq_none, List.mem_filter]
  intro a ha
  simpa using ha.2

theorem H5Aatom_object_remove_ne (w : World) (fid id : Nat) (hne : id ≠ fid) :
    H5Aatom_object (H5Aremove_atom w fid) id = H5Aatom_object w id := by
  unfold H5Aatom_object H5Aremove_atom
  simp only []
  congr 1
  induction w.atoms with
  | nil => rfl
  | cons a l ih =>
    by_cases ha : a.1 = fid
    · have h1 : (a.1 != fid) = false := by simp [ha]
      have h2 : (a.1 == id) = false := by
        simp only [beq_eq_false_iff_ne, ne_eq]
        intro h
        exact hne (h.symm.trans ha)
      have hf : List.filter (fun a => a.1 != fid) (a :: l) =
          List.filter (fun a => a.1 != fid) l := by
        simp [List.filter_cons, h1]
      rw [hf, List.find?_cons_of_neg _ (by simp [h2])]
      exact ih
    · have h1 : (a.1 != fid) = true := by simp [ha]
      have hf : List.filter (fun a => a.1 != fid) (a :: l) =
          a :: List.filter (fun a => a.1 != fid) l := by
        simp [List.filter_cons, h1]
      rw [hf]
      by_cases hid : (a.1 == id) = true
      · simp only [List.find?_cons, hid]
      · have hid0 : (a.1 == id) = false := by simpa using hid
        simp only [List.find?_cons, hid0]
        exact ih

theorem H5Aatom_object_mem (w : World) (id : Nat) (g : H5F_t)
    (h : H5Aatom_object w id = some g) : (id, g) ∈ w.atoms := by
  unfold H5Aatom_object at h
  simp only [Option.map_eq_some'] at h
  obtain ⟨a, ha, hg⟩ := h
  have hmem := List.mem_of_find?_eq_some ha
  have hid := List.find?_some ha
  simp only [beq_iff_eq] at hid
  have e : a = (id, g) := by
    rw [← hid, ← hg]
  rw [← e]
  exact hmem

/-- `H5F_close` when its flush fails generically: the early return of line
1214, after the flush has run. -/
theorem H5F_close_early (B : Build) (env : Env) (w : World) (f : H5F_t)
    (hgen : (H5F_flush B env f.intent (w.deref f.shared) w.host true).1.1 ≠ -2 ∧
      (H5F_flush B env f.intent (w.deref f.shared) w.host true).1.1 < 0) :
    H5F_close B env w f =
      ((FAIL, some .CACHE_CANTFLUSH),
       { w with host := (H5F_flush B env f.intent (w.deref f.shared) w.host true).2.2 }.store
         f.shared (H5F_flush B env f.intent (w.deref f.shared) w.host true).2.1) := by
  unfold H5F_close
  rcases hfl : H5F_flush B env f.intent (w.deref f.shared) w.host true with
    ⟨⟨rv, e⟩, sh1, h1⟩
  rw [hfl] at hgen
  simp only []
  rw [if_pos hgen]

/-- C35: `H5Fclose (fid)` on a registered handle `file` whose shared struct
`sh` is live with its host descriptor open, when the flush inside `H5F_close`
fails generically (negative, not -2).  `H5F_close` returns `FAIL` with
`Cache/CantFlush`; the shared struct is still live with the same `nrefs` and
the same host descriptor, which is still open.  `H5Fclose` returns `FAIL`
too and removes `fid` from the registry, the other ids keeping their handles:
`fid` does not resolve any more, a second `H5Fclose (fid)` fails with
`Args/BadType` and changes nothing, and when no other id was attached to the
shared struct, no id reaches it any more. -/
theorem C35_failed_close_leaks_handle (B : Build) (env : Env) (fid : Nat) (w : World)
    (file : H5F_t) (sh : H5F_file_t)
    (hatom : H5Aatom_object w fid = some file)
    (hlive : w.heap file.shared = some sh)
    (hfd : (w.host.openFd sh.file_handle).isSome = true)
    (hgen : (H5F_flush B env file.intent (w.deref file.shared) w.host true).1.1 ≠ -2 ∧
      (H5F_flush B env file.intent (w.deref file.shared) w.host true).1.1 < 0) :
    (H5F_close B env w file).1 = (FAIL, some .CACHE_CANTFLUSH) ∧
    (∃ sh1, (H5F_close B env w file).2.heap file.shared = some sh1 ∧
      sh1.nrefs = sh.nrefs ∧ sh1.file_handle = sh.file_handle ∧
      ((H5F_close B env w file).2.host.openFd sh1.file_handle).isSome = true) ∧
    (H5Fclose B env fid w).1 = (FAIL, some .CACHE_CANTFLUSH) ∧
    (H5Fclose B env fid w).2.heap = (H5F_close B env w file).2.heap ∧
    (H5Fclose B env fid w).2.host = (H5F_close B env w file).2.host ∧
    H5Aatom_object (H5Fclose B env fid w).2 fid = none ∧
    (∀ id, id ≠ fid → H5Aatom_object (H5Fclose B env fid w).2 id = H5Aatom_object w id) ∧
    (∀ env2, H5Fclose B env2 fid (H5Fclose B env fid w).2 =
      ((FAIL, some .ARGS_BADTYPE), (H5Fclose B env fid w).2)) ∧
    ((∀ a ∈ w.atoms, a.2.shared = file.shared → a.1 = fid) →
      ∀ id g, H5Aatom_object (H5Fclose B env fid w).2 id = some g →
        g.shared ≠ file.shared) := by
  have hclose := H5F_close_early B env w file hgen
  have hcore := H5F_flush_core B env file.intent (w.deref file.shared) w.host true
  have hio := H5F_flush_io B env file.intent (w.deref file.shared) w.host true
  have hderef := heap_deref w _ sh hlive
  have hnr : (H5F_flush B env file.intent (w.deref file.shared) w.host true).2.1.nrefs =
      sh.nrefs := hcore.2.2.2.trans (by rw [hderef])
  have hfh : (H5F_flush B env file.intent (w.deref file.shared) w.host true).2.1.file_handle =
      sh.file_handle := hcore.2.2.1.trans (by rw [hderef])
  have hFclose : H5Fclose B env fid w =
      ((FAIL, some .CACHE_CANTFLUSH), H5Aremove_atom (H5F_close B env w file).2 fid) := by
    unfold H5Fclose
    rw [hatom]
    simp only []
    rw [hclose]
    simp only []
    rw [if_pos (by decide : (FAIL : Int) < 0)]
  have hatoms : (H5F_close B env w file).2.atoms = w.atoms := by
    rw [hclose]
    rfl
  have hobj : ∀ id, H5Aatom_object (H5F_close B env w file).2 id = H5Aatom_object w id := by
    intro id
    unfold H5Aatom_object
    rw [hatoms]
  have hgone : H5Aatom_object (H5Fclose B env fid w).2 fid = none := by
    rw [hFclose]
    exact H5Aatom_object_removed _ fid
  refine ⟨by rw [hclose], ?_, by rw [hFclose], by rw [hFclose]; rfl, by rw [hFclose]; rfl,
    hgone, ?_, ?_, ?_⟩
  · refine ⟨(H5F_flush B env file.intent (w.deref file.shared) w.host true).2.1, ?_,
      hnr, hfh, ?_⟩
    · rw [hclose]
      simp [World.store]
    · rw [hclose, hfh]
      show ((H5F_flush B env file.intent (w.deref file.shared) w.host true).2.2.openFd
        sh.file_handle).isSome = true
      rw [hio.2 sh.file_handle]
      exact hfd
  · intro id hne
    rw [hFclose]
    show H5Aatom_object (H5Aremove_atom (H5F_close B env w file).2 fid) id = _
    rw [H5Aatom_object_remove_ne _ fid id hne, hobj]
  · intro env2
    have h2 : ∀ w2 : World, H5Aatom_object w2 fid = none →
        H5Fclose B env2 fid w2 = ((FAIL, some .ARGS_BADTYPE), w2) := by
      intro w2 h
      unfold H5Fclose
      rw [h]
    exact h2 _ hgone
  · intro honly id g hg
    have hid : id ≠ fid := by
      intro h
      rw [h, hgone] at hg
      cases hg
    rw [hFclose] at hg
    have hg2 : H5Aatom_object (H5Aremove_atom (H5F_close B env w file).2 fid) id = some g := hg
    rw [H5Aatom_object_remove_ne _ fid id hid, hobj] at hg2
    intro hshared
    exact hid (honly (id, g) (H5Aatom_object_mem w id g hg2) hshared)

/-- C35 at a concrete input: `a.bin` is open for writing with file id 0, and
the cache flush inside the close fails. -/
theorem C35_failed_close_leaks_handle_witness :
    (H5F_close sampleBuild cacheFails writableWorld (handleOn H5F_ACC_WRITE)).1 =
      (FAIL, some .CACHE_CANTFLUSH) ∧
    (H5Fclose sampleBuild cacheFails 0 writableWorld).1 = (FAIL, some .CACHE_CANTFLUSH) ∧
    ((H5Fclose sampleBuild cacheFails 0 writableWorld).2.heap 0).map (fun sh => sh.nrefs) =
      some 1 ∧
    (H5Fclose sampleBuild cacheFails 0 writableWorld).2.atoms = [] ∧
    ∀ id g, H5Aatom_object (H5Fclose sampleBuild cacheFails 0 writableWorld).2 id = some g →
      g.shared ≠ (handleOn H5F_ACC_WRITE).shared :=
  ⟨(C35_failed_close_leaks_handle sampleBuild cacheFails 0 writableWorld
      (handleOn H5F_ACC_WRITE) (writableWorld.deref 0) (by decide) (by decide) (by decide)
      (by decide)).1,
   by decide, by decide, by decide,
   (C35_failed_close_leaks_handle sampleBuild cacheFails 0 writableWorld
      (handleOn H5F_ACC_WRITE) (writableWorld.deref 0) (by decide) (by decide) (by decide)
      (by decide)).2.2.2.2.2.2.2.2 (by decide)⟩


/-! ### The cursor after a failed call -/

/-- A failing `H5F_block_read` leaves `f_cur_off` as it was, also when it has
moved the host cursor. -/
theorem H5F_block_read_error_keeps_cursor (opt : Bool) (sh : H5F_file_t) (h : Host)
    (addr size : Nat) (e : H5E) (he : (H5F_block_read opt sh h addr size).1 = .error e) :
    (H5F_block_read opt sh h addr size).2.1.f_cur_off = sh.f_cur_off := by
  unfold H5F_block_read at he ⊢
  by_cases hs : size = 0
  · rw [if_pos hs]
  rw [if_neg hs] at he ⊢
  simp only [] at he ⊢
  by_cases hel : (!opt || sh.last_op != OP_READ ||
      sh.f_cur_off != addr + sh.file_create_parms.userblock_size) = true
  · rw [if_pos hel] at he ⊢
    rcases option_cases (H5F_SEEK h sh.file_handle
      (addr + sh.file_create_parms.userblock_size)) with hk | ⟨h1, hk⟩
    · simp only [hk]
    · simp only [hk] at he ⊢
      rcases hrd : H5F_READ h1 sh.file_handle size with ⟨_ | bytes, h2⟩
      · rfl
      · rw [hrd] at he
        cases he
  · rw [if_neg hel] at he ⊢
    rcases hrd : H5F_READ h sh.file_handle size with ⟨_ | bytes, h2⟩
    · rfl
    · rw [hrd] at he
      cases he

/-- A failing `H5F_block_write` leaves `f_cur_off` as it was, also when it has
moved the host cursor. -/
theorem H5F_block_write_error_keeps_cursor (opt : Bool) (intent : Nat) (sh : H5F_file_t)
    (h : Host) (addr size : Nat) (buf : List Nat) (e : H5E)
    (he : (H5F_block_write opt intent sh h addr size buf).1 = .error e) :
    (H5F_block_write opt intent sh h addr size buf).2.1.f_cur_off = sh.f_cur_off := by
  unfold H5F_block_write at he ⊢
  by_cases hs : size = 0
  · rw [if_pos hs]
  rw [if_neg hs] at he ⊢
  simp only [] at he ⊢
  by_cases hi : intent &&& H5F_ACC_WRITE = 0
  · rw [if_pos hi]
  rw [if_neg hi] at he ⊢
  by_cases hel : (!opt || sh.last_op != OP_WRITE ||
      sh.f_cur_off != addr + sh.file_create_parms.userblock_size) = true
  · rw [if_pos hel] at he ⊢
    rcases option_cases (H5F_SEEK h sh.file_handle
      (addr + sh.file_create_parms.userblock_size)) with hk | ⟨h1, hk⟩
    · simp only [hk]
    · simp only [hk] at he ⊢
      rcases hwr : H5F_WRITE h1 sh.file_handle buf size with ⟨_ | _, h2⟩
      · rfl
      · rw [hwr] at he
        cases he
  · rw [if_neg hel] at he ⊢
    rcases hwr : H5F_WRITE h sh.file_handle buf size with ⟨_ | _, h2⟩
    · rfl
    · rw [hwr] at he
      cases he

/-- C31, evaluated on the code: on the 60-byte file `a.bin`, a read of 8 bytes
at address 0 succeeds and records `f_cur_off = 8`; a read of 24 bytes at
address 40 seeks, fails with `IO/ReadError` and leaves `f_cur_off = 8` while
the host cursor is at 60.  The next read of 8 bytes at address 8 therefore
elides its seek when `H5F_OPT_SEEK` is defined and fails with `IO/ReadError`,
although the bytes are in the file; when every call seeks it returns them. -/
theorem C31_failed_call_keeps_stale_cursor :
    readsAroundFailure sampleBuild =
      ([.ok H5F_SIGNATURE, .error .IO_READERROR, .error .IO_READERROR], 8, 60) ∧
    readsAroundFailure { sampleBuild with H5F_OPT_SEEK := false } =
      ([.ok H5F_SIGNATURE, .error .IO_READERROR, .ok [0, 0, 0, 0, 0, 4, 4, 0]], 8, 60) ∧
    sampleFile.bytes 8 8 = [0, 0, 0, 0, 0, 4, 4, 0] := by
  decide


/-! ### The scan stops at the first signature -/

/-- The second half of `H5F_open` for the first handle on a file, when the
scan fails: the `done:` block runs on the state the scan left. -/
theorem H5F_open_tail_scan_error (B : Build) (env : Env) (name : String) (flags : Nat)
    (create_parms : file_create_temp_t) (w : World) (p : Nat) (fd : Option Nat)
    (hn : (w.deref p).nrefs = 1) (e : H5E) (sh1 : H5F_file_t) (h1 : Host)
    (hscan : H5F_open_scan B (32 * B.sizeof_haddr_t - 8) 8
      { w.deref p with file_create_parms := create_parms } w.host = (.error e, sh1, h1)) :
    H5F_open_tail B env name flags create_parms w p fd false =
      H5F_open_fail ({ w with host := h1 }.store p sh1)
        { name := name, intent := flags, shared := p } fd e := by
  have hn1 : (1 : Nat) = (w.deref p).nrefs := hn.symm
  simp only [H5F_open_tail, hn1, if_true, Bool.false_eq_true, if_false, hscan]

/-- C32: for an existing, accessible file that is not open yet, opened without
`TRUNC` and `EXCL`, whose first candidate position with the signature is the
one of scan iteration `i0`, at host offset `c`: if the fixed part found there
fails validation, `H5F_open` fails with `File/CantOpen`, whatever the file
holds behind offset `c + 24`.  The new shared struct is freed, no file is
changed, and the descriptor the call had opened is closed with its cursor at
`c + 24`, the end of the fixed part: no later candidate was read. -/
theorem C32_scan_stops_at_first_signature (B : Build) (env : Env) (name : String) (flags : Nat)
    (create_parms : file_create_temp_t) (w : World) (key : Nat × Nat) (i0 : Nat)
    (c : Nat) (file : HostFile) (F : List Nat)
    (hstat : stat w.host name = some key)
    (hexcl : flags &&& H5F_ACC_EXCL = 0)
    (htrunc : flags &&& H5F_ACC_TRUNC = 0)
    (hr : access_R_OK w.host name = true)
    (hw : flags &&& H5F_ACC_WRITE ≠ 0 → access_W_OK w.host name = true)
    (hsearch : H5Asearch_atom w key = none)
    (hopen : env.open_fails = false)
    (hfile : file = w.host.inodes key)
    (hc : c = H5F_open_candidate B i0)
    (hF : F = file.bytes c 24)
    (hi0 : 8 ≤ i0 ∧ i0 < 32 * B.sizeof_haddr_t)
    (hbefore : ∀ j, 8 ≤ j → j < i0 →
      H5F_open_candidate B j + 24 ≤ file.len ∧
      file.bytes (H5F_open_candidate B j) 8 ≠ H5F_SIGNATURE)
    (hat : c + 24 ≤ file.len ∧ file.bytes c 8 = H5F_SIGNATURE)
    (hbad : fixedBad F = true) :
    (H5F_open B env name flags create_parms w).1 = .error .FILE_CANTOPENFILE ∧
    (H5F_open B env name flags create_parms w).2.heap w.next_ptr = none ∧
    (H5F_open B env name flags create_parms w).2.host.inodes = w.host.inodes ∧
    (H5F_open B env name flags create_parms w).2.host.fds w.host.nfds =
      some { ino := key, pos := c + 24, writable := (flags &&& H5F_ACC_WRITE != 0),
             is_open := false } := by
  subst hfile hc hF
  rw [H5F_open_fresh B env name flags create_parms w key hstat hexcl htrunc hr hw hsearch hopen]
  have hscan := H5F_open_scan_found B
    { freshShared B key flags w.host.nfds with file_create_parms := create_parms }
    (freshWorld B w key flags).host
    { ino := key, pos := 0, writable := (flags &&& H5F_ACC_WRITE != 0), is_open := true }
    (hostAfterOpen_openFd w.host key _) (fun h => by cases h)
    (32 * B.sizeof_haddr_t - 8) i0 [] hi0.1 (by omega) hbefore hat.1 hat.2
    (fun hgood => by
      have hino : (freshWorld B w key flags).host.inodes key = w.host.inodes key := rfl
      dsimp only at hgood
      rw [hino, hbad] at hgood
      cases hgood)
  have hino : (freshWorld B w key flags).host.inodes key = w.host.inodes key := rfl
  dsimp only at hscan
  rw [hino, if_pos hbad] at hscan
  have hn : ((freshWorld B w key flags).deref w.next_ptr).nrefs = 1 := by
    rw [freshWorld_deref]; rfl
  have hderef : ({ (freshWorld B w key flags).deref w.next_ptr with
      file_create_parms := create_parms } : H5F_file_t) =
      { freshShared B key flags w.host.nfds with file_create_parms := create_parms } := by
    rw [freshWorld_deref]
  rw [H5F_open_tail_scan_error B env name flags create_parms (freshWorld B w key flags)
    w.next_ptr (some w.host.nfds) hn _ _ _ (by rw [hderef]; exact hscan)]
  refine ⟨H5F_open_fail_fst _ _ _ _, ?_, ?_, ?_⟩
  · simp [H5F_open_fail, H5F_dest, World.deref, World.store, freshShared, scanShared]
  · simp [H5F_open_fail, H5F_dest, World.deref, World.store, freshShared, scanShared,
      H5F_CLOSE, Host.openFd, Host.setFd, freshWorld, hostAfterOpen]
  · simp [H5F_open_fail, H5F_dest, World.deref, World.store, freshShared, scanShared,
      H5F_CLOSE, Host.openFd, Host.setFd, freshWorld, hostAfterOpen]

/-- C32 at a concrete input: a file whose boot block at offset 0 has
`sym_leaf_k = 0` and which holds a valid boot block at offset 512.  The open
fails with `File/CantOpen` and the cursor of the closed descriptor is at 24. -/
theorem C32_scan_stops_at_first_signature_witness :
    (fileWithTwoBoots.bytes 512 8 = H5F_SIGNATURE ∧
      fixedBad (fileWithTwoBoots.bytes 512 24) = false) ∧
    (H5F_open sampleBuild Env.ok "a.bin" 0 sampleBuild.default_parms
      (worldWithFile fileWithTwoBoots)).1 = .error .FILE_CANTOPENFILE ∧
    (H5F_open sampleBuild Env.ok "a.bin" 0 sampleBuild.default_parms
      (worldWithFile fileWithTwoBoots)).2.host.fds 3 =
      some { ino := (0, 1), pos := 24, writable := false, is_open := false } ∧
    (H5F_open sampleBuild Env.ok "a.bin" 0 sampleBuild.default_parms
      (worldWithFile (fileWithBootAt 512 sampleBoot))).1 =
      .ok { name := "a.bin", intent := 0, shared := 0 } :=
  ⟨by decide,
   (C32_scan_stops_at_first_signature sampleBuild Env.ok "a.bin" 0 sampleBuild.default_parms
      (worldWithFile fileWithTwoBoots) (0, 1) 8 0 fileWithTwoBoots
      (fileWithTwoBoots.bytes 0 24)
      rfl (by decide) (by decide) (by decide) (by decide) (by decide) rfl rfl rfl rfl
      (by decide) (fun j h1 h2 => absurd h1 (by omega)) (by decide) (by decide)).1,
   (C32_scan_stops_at_first_signature sampleBuild Env.ok "a.bin" 0 sampleBuild.default_parms
      (worldWithFile fileWithTwoBoots) (0, 1) 8 0 fileWithTwoBoots
      (fileWithTwoBoots.bytes 0 24)
      rfl (by decide) (by decide) (by decide) (by decide) (by decide) rfl rfl rfl rfl
      (by decide) (fun j h1 h2 => absurd h1 (by omega)) (by decide) (by decide)).2.2.2,
   by decide⟩


/-! ### `last_op` becomes `OP_WRITE` only through a handle with write intent -/

theorem marked_refl (c : Prop) (sh : H5F_file_t) : marked c sh sh :=
  fun h => Or.inl h

theorem marked_trans {c : Prop} {a b d : H5F_file_t} (h1 : marked c a b) (h2 : marked c b d) :
    marked c a d := by
  intro h
  rcases h2 h with h3 | h3
  · exact h1 h3
  · exact Or.inr h3

theorem marked_mono {c c1 : Prop} {a b : H5F_file_t} (hc : c → c1) (h : marked c a b) :
    marked c1 a b := by
  intro h1
  rcases h h1 with h2 | h2
  · exact Or.inl h2
  · exact Or.inr (hc h2)

theorem H5F_block_read_mark (opt : Bool) (sh : H5F_file_t) (h : Host) (addr size : Nat) :
    marked False sh (H5F_block_read opt sh h addr size).2.1 := by
  unfold H5F_block_read
  by_cases hs : size = 0
  · rw [if_pos hs]
    exact marked_refl _ _
  rw [if_neg hs]
  simp only []
  by_cases hel : (!opt || sh.last_op != OP_READ ||
      sh.f_cur_off != addr + sh.file_create_parms.userblock_size) = true
  · rw [if_pos hel]
    rcases option_cases (H5F_SEEK h sh.file_handle
      (addr + sh.file_create_parms.userblock_size)) with hk | ⟨h1, hk⟩
    · simp only [hk]
      exact fun hw => by cases hw
    · simp only [hk]
      rcases hrd : H5F_READ h1 sh.file_handle size with ⟨_ | bytes, h2⟩
      · exact fun hw => by cases hw
      · exact fun hw => by cases hw
  · rw [if_neg hel]
    rcases hrd : H5F_READ h sh.file_handle size with ⟨_ | bytes, h2⟩
    · exact fun hw => Or.inl hw
    · exact fun hw => Or.inl hw

theorem H5F_block_write_mark (opt : Bool) (intent : Nat) (sh : H5F_file_t) (h : Host)
    (addr size : Nat) (buf : List Nat) :
    marked (intent &&& H5F_ACC_WRITE ≠ 0) sh
      (H5F_block_write opt intent sh h addr size buf).2.1 := by
  unfold H5F_block_write
  by_cases hs : size = 0
  · rw [if_pos hs]
    exact marked_refl _ _
  rw [if_neg hs]
  simp only []
  by_cases hi : intent &&& H5F_ACC_WRITE = 0
  · rw [if_pos hi]
    exact marked_refl _ _
  rw [if_neg hi]
  by_cases hel : (!opt || sh.last_op != OP_WRITE ||
      sh.f_cur_off != addr + sh.file_create_parms.userblock_size) = true
  · rw [if_pos hel]
    rcases option_cases (H5F_SEEK h sh.file_handle
      (addr + sh.file_create_parms.userblock_size)) with hk | ⟨h1, hk⟩
    · simp only [hk]
      exact fun _ => Or.inr hi
    · simp only [hk]
      rcases hwr : H5F_WRITE h1 sh.file_handle buf size with ⟨_ | _, h2⟩
      · exact fun _ => Or.inr hi
      · exact fun _ => Or.inr hi
  · rw [if_neg hel]
    rcases hwr : H5F_WRITE h sh.file_handle buf size with ⟨_ | _, h2⟩
    · exact fun _ => Or.inr hi
    · exact fun _ => Or.inr hi

theorem H5F_flush_mark (B : Build) (env : Env) (intent : Nat) (sh : H5F_file_t) (h : Host)
    (invalidate : Bool) :
    marked (sh.flags &&& H5F_ACC_WRITE ≠ 0) sh
      (H5F_flush B env intent sh h invalidate).2.1 := by
  unfold H5F_flush
  by_cases hfl : H5F_ACC_WRITE &&& sh.flags = 0
  · rw [if_pos hfl]
    exact marked_refl _ _
  · rw [if_neg hfl]
    have hw : sh.flags &&& H5F_ACC_WRITE ≠ 0 := by
      rw [Nat.land_comm]
      exact hfl
    exact fun _ => Or.inr hw

theorem H5F_open_decode_fixed_mark (sh sh2 : H5F_file_t) (buf : List Nat)
    (h : H5F_open_decode_fixed sh buf = .ok sh2) : sh2.last_op = sh.last_op := by
  rw [H5F_open_decode_fixed_eq] at h
  split at h
  · cases h
  · simp only [Except.ok.injEq] at h
    subst h
    rfl

theorem H5F_open_decode_variable_mark (B : Build) (sh sh2 : H5F_file_t) (buf : List Nat)
    (h : H5F_open_decode_variable B sh buf = .ok sh2) : sh2.last_op = sh.last_op := by
  unfold H5F_open_decode_variable at h
  simp only at h
  split at h
  · cases h
  · simp only [Except.ok.injEq] at h
    subst h
    rfl

theorem H5F_open_scan_mark (B : Build) (n : Nat) :
    ∀ (i : Nat) (sh : H5F_file_t) (h : Host),
      marked False sh (H5F_open_scan B n i sh h).2.1 := by
  induction n with
  | zero =>
    intro i sh h
    exact marked_refl _ _
  | succ n ih =>
    intro i sh h
    rw [H5F_open_scan]
    simp only
    have h0 := H5F_block_read_mark B.H5F_OPT_SEEK
      { sh with file_create_parms :=
        { sh.file_create_parms with userblock_size := H5F_open_candidate B i } } h 0 24
    have hsh0 : marked False sh { sh with file_create_parms :=
        { sh.file_create_parms with userblock_size := H5F_open_candidate B i } } :=
      fun hw => Or.inl hw
    split
    · rename_i heq
      rw [heq] at h0
      exact marked_trans hsh0 h0
    · rename_i buf sh1 h1 heq
      rw [heq] at h0
      have h1c := marked_trans hsh0 h0
      split
      · exact marked_trans h1c (ih _ _ _)
      · split
        · exact h1c
        · rename_i sh2 hfix
          have h2c : marked False sh sh2 := by
            intro hw
            rw [H5F_open_decode_fixed_mark _ _ _ hfix] at hw
            exact h1c hw
          have h3 := H5F_block_read_mark B.H5F_OPT_SEEK sh2 h1 24
            (H5F_open_variable_size B sh2.file_create_parms)
          split
          · rename_i heq2
            rw [heq2] at h3
            exact marked_trans h2c h3
          · rename_i buf2 sh3 h2 heq2
            rw [heq2] at h3
            have h3c := marked_trans h2c h3
            split
            · exact h3c
            · rename_i sh4 hvar
              intro hw
              rw [H5F_open_decode_variable_mark _ _ _ _ hvar] at hw
              exact h3c hw

theorem H5F_open_boot_mark (B : Build) (env : Env) (flags : Nat) (sh : H5F_file_t)
    (h : Host) (empty_file : Bool) :
    marked (sh.flags &&& H5F_ACC_WRITE ≠ 0) sh
      (H5F_open_boot B env flags sh h empty_file).2.1 := by
  unfold H5F_open_boot
  cases empty_file with
  | true =>
    simp only [if_true]
    have hf := H5F_flush_mark B env flags { sh with consist_flags := 3 } h false
    have hf2 : marked (sh.flags &&& H5F_ACC_WRITE ≠ 0) sh
        (H5F_flush B env flags { sh with consist_flags := 3 } h false).2.1 := hf
    split <;> exact hf2
  | false =>
    simp only [Bool.false_eq_true, if_false]
    split
    · exact marked_mono (fun hf => hf.elim) (H5F_open_scan_mark B _ _ _ _)
    · exact marked_refl _ _

theorem H5F_open_parms_mark (create_parms : file_create_temp_t) (sh : H5F_file_t) :
    (H5F_open_parms create_parms sh).last_op = sh.last_op ∧
    (H5F_open_parms create_parms sh).flags = sh.flags := by
  unfold H5F_open_parms
  split <;> exact ⟨rfl, rfl⟩

/-- The second half of `H5F_open`, as `H5F_open_tail_heap`, with the write
mark: the struct it stores records a write only if the struct on entry did, or
if the flags of that struct include `WRITE`. -/
theorem H5F_open_tail_marks (B : Build) (env : Env) (name : String) (flags : Nat)
    (create_parms : file_create_temp_t) (w : World) (p : Nat) (fd : Option Nat)
    (empty_file : Bool) :
    ∃ sh1, sameCore (w.deref p) sh1 ∧
      marked ((w.deref p).flags &&& H5F_ACC_WRITE ≠ 0) (w.deref p) sh1 ∧
      (((H5F_open_tail B env name flags create_parms w p fd empty_file).1 =
          .ok { name := name, intent := flags, shared := p } ∧
        (H5F_open_tail B env name flags create_parms w p fd empty_file).2.heap =
          heapWith w p (some sh1)) ∨
       (∃ e, (H5F_open_tail B env name flags create_parms w p fd empty_file).1 = .error e ∧
        (H5F_open_tail B env name flags create_parms w p fd empty_file).2.heap =
          heapWith w p (dropRef sh1))) := by
  rw [H5F_open_tail_eq]
  have hc := sameCore_trans (H5F_open_parms_core create_parms (w.deref p))
    (H5F_open_boot_core B env flags (H5F_open_parms create_parms (w.deref p)) w.host
      empty_file)
  have hm0 := H5F_open_boot_mark B env flags (H5F_open_parms create_parms (w.deref p)) w.host
    empty_file
  have hpm := H5F_open_parms_mark create_parms (w.deref p)
  rcases hb : H5F_open_boot B env flags (H5F_open_parms create_parms (w.deref p))
    w.host empty_file with ⟨x, sh1, h1⟩
  rw [hb] at hc hm0
  have hm : marked ((w.deref p).flags &&& H5F_ACC_WRITE ≠ 0) (w.deref p) sh1 := by
    intro hw
    rcases hm0 hw with h2 | h2
    · exact Or.inl (hpm.1 ▸ h2)
    · exact Or.inr (hpm.2 ▸ h2)
  obtain ⟨_, hres⟩ := H5F_open_finish_heap name flags w p fd x sh1 h1
  rcases hres with ⟨len, hok, hheap⟩ | ⟨e, herr, hheap⟩
  · have hl : sameCore sh1 { sh1 with logical_len := len } := ⟨rfl, rfl, rfl, rfl⟩
    exact ⟨{ sh1 with logical_len := len }, sameCore_trans hc hl, hm, Or.inl ⟨hok, hheap⟩⟩
  · exact ⟨sh1, hc, hm, Or.inr ⟨e, herr, hheap⟩⟩

theorem dropRef_fields (sh sh2 : H5F_file_t) (h : dropRef sh = some sh2) :
    sh2.flags = sh.flags ∧ sh2.last_op = sh.last_op := by
  unfold dropRef at h
  by_cases hn : sh.nrefs - 1 = 0
  · rw [if_pos hn] at h; cases h
  · rw [if_neg hn] at h
    simp only [Option.some.injEq] at h
    subst h
    exact ⟨rfl, rfl⟩

/-- Every path through `H5F_open`, seen from the flags and the write mark:
nothing changes; or a new struct is stored at `next_ptr` with the flags of the
call (or freed again); or the struct of an open file is stored again, keeping
`WRITE` in its flags if it had it and getting it if the call asks for it. -/
theorem H5F_open_marks (B : Build) (env : Env) (name : String) (flags : Nat)
    (create_parms : file_create_temp_t) (w : World) (r : Except H5E H5F_t × World)
    (hr : H5F_open B env name flags create_parms w = r) :
    ((∃ e, r.1 = .error e) ∧ r.2.heap = w.heap) ∨
    (∃ sh1, sh1.flags = flags ∧ (sh1.last_op = OP_WRITE → sh1.flags &&& H5F_ACC_WRITE ≠ 0) ∧
      ((r.1 = .ok { name := name, intent := flags, shared := w.next_ptr } ∧
          r.2.heap = heapWith w w.next_ptr (some sh1)) ∨
       ((∃ e, r.1 = .error e) ∧ r.2.heap = heapWith w w.next_ptr (dropRef sh1)))) ∨
    (∃ q osh sh1, w.heap q = some osh ∧
      (osh.flags &&& H5F_ACC_WRITE ≠ 0 → sh1.flags &&& H5F_ACC_WRITE ≠ 0) ∧
      (flags &&& H5F_ACC_WRITE ≠ 0 → sh1.flags &&& H5F_ACC_WRITE ≠ 0) ∧
      (sh1.last_op = OP_WRITE → osh.last_op = OP_WRITE ∨ sh1.flags &&& H5F_ACC_WRITE ≠ 0) ∧
      ((r.1 = .ok { name := name, intent := flags, shared := q } ∧
          r.2.heap = heapWith w q (some sh1)) ∨
       ((∃ e, r.1 = .error e) ∧ r.2.heap = heapWith w q (dropRef sh1)))) := by
  subst hr
  rcases H5F_open_cases B env name flags create_parms w with
    ⟨e, _, h⟩ | ⟨_, _, h⟩ | ⟨h1, _, h⟩ | ⟨key, fd, h1, ef, _, h⟩ |
    ⟨key, old, _, hsearch, hnup, h⟩ | ⟨key, old, fd, h1, _, hsearch, hwr, hro, _, h⟩
  · rw [h]; exact Or.inl ⟨⟨e, rfl⟩, rfl⟩
  · rw [h]; exact Or.inl ⟨⟨_, rfl⟩, rfl⟩
  · rw [h]; exact Or.inl ⟨⟨_, rfl⟩, rfl⟩
  · rw [h]
    obtain ⟨sh1, hc, hm, hres⟩ := H5F_open_tail_marks B env name flags create_parms
      (allocWorld B w h1 key flags fd) w.next_ptr (some fd) ef
    have hderef : (allocWorld B w h1 key flags fd).deref w.next_ptr =
        freshShared B key flags fd := by
      simp [allocWorld, World.deref]
    rw [hderef] at hc hm
    have hfl : sh1.flags = flags := hc.2.1
    have hh : ∀ x, heapWith (allocWorld B w h1 key flags fd) w.next_ptr x =
        heapWith w w.next_ptr x :=
      fun x => heapWith_congr _ _ _ _ (fun k hk => by simp [allocWorld, hk])
    have hmark : sh1.last_op = OP_WRITE → sh1.flags &&& H5F_ACC_WRITE ≠ 0 := by
      intro hw
      rcases hm hw with h2 | h2
      · cases h2
      · rw [hfl]
        exact h2
    refine Or.inr (Or.inl ⟨sh1, hfl, hmark, ?_⟩)
    rcases hres with ⟨hok, hheap⟩ | ⟨e, herr, hheap⟩
    · exact Or.inl ⟨hok, by rw [hheap, hh]⟩
    · exact Or.inr ⟨⟨e, herr⟩, by rw [hheap, hh]⟩
  · rw [h]
    obtain ⟨osh, hosh, _⟩ := H5Asearch_atom_some w key old hsearch
    have hd := heap_deref w _ _ hosh
    rw [hd] at hnup ⊢
    obtain ⟨sh1, hc, hm, hres⟩ := H5F_open_tail_marks B env name flags create_parms
      (w.store old.shared { osh with nrefs := osh.nrefs + 1 }) old.shared none false
    rw [World.deref_store] at hc hm
    have hfl : sh1.flags = osh.flags := hc.2.1
    have hh : ∀ x, heapWith (w.store old.shared { osh with nrefs := osh.nrefs + 1 })
        old.shared x = heapWith w old.shared x :=
      fun x => heapWith_congr _ _ _ _ (fun k hk => by simp [World.store, hk])
    refine Or.inr (Or.inr ⟨old.shared, osh, sh1, hosh, fun hw => by rw [hfl]; exact hw,
      ?_, ?_, ?_⟩)
    · intro hw
      rw [hfl]
      intro hz
      exact hnup ⟨hw, hz⟩
    · intro hw
      rcases hm hw with h2 | h2
      · exact Or.inl h2
      · exact Or.inr (by rw [hfl]; exact h2)
    · rcases hres with ⟨hok, hheap⟩ | ⟨e, herr, hheap⟩
      · exact Or.inl ⟨hok, by rw [hheap, hh]⟩
      · exact Or.inr ⟨⟨e, herr⟩, by rw [hheap, hh]⟩
  · rw [h]
    obtain ⟨osh, hosh, _⟩ := H5Asearch_atom_some w key old hsearch
    have hd := heap_deref w _ _ hosh
    rw [hd]
    obtain ⟨sh1, hc, hm, hres⟩ := H5F_open_tail_marks B env name flags create_parms
      ({ w with host := H5F_CLOSE h1 osh.file_handle }.store old.shared
        { osh with
          file_handle := fd
          flags := osh.flags ||| H5F_ACC_WRITE
          nrefs := osh.nrefs + 1 }) old.shared none false
    rw [World.deref_store] at hc hm
    have hfl : sh1.flags = osh.flags ||| H5F_ACC_WRITE := hc.2.1
    have hW : sh1.flags &&& H5F_ACC_WRITE ≠ 0 := by
      rw [hfl, lor_land_self]
      decide
    have hh : ∀ x, heapWith ({ w with host := H5F_CLOSE h1 osh.file_handle }.store old.shared
        { osh with
          file_handle := fd
          flags := osh.flags ||| H5F_ACC_WRITE
          nrefs := osh.nrefs + 1 }) old.shared x = heapWith w old.shared x :=
      fun x => heapWith_congr _ _ _ _ (fun k hk => by simp [World.store, hk])
    refine Or.inr (Or.inr ⟨old.shared, osh, sh1, hosh, fun _ => hW, fun _ => hW,
      fun _ => Or.inr hW, ?_⟩)
    rcases hres with ⟨hok, hheap⟩ | ⟨e, herr, hheap⟩
    · exact Or.inl ⟨hok, by rw [hheap, hh]⟩
    · exact Or.inr ⟨⟨e, herr⟩, by rw [hheap, hh]⟩

/-- `H5F_close`, as `H5F_close_effect`, with the write mark of its flush. -/
theorem H5F_close_marks (B : Build) (env : Env) (w : World) (f : H5F_t)
    (r : (Int × Option H5E) × World) (hr : H5F_close B env w f = r) :
    ∃ sh1, sameCore (w.deref f.shared) sh1 ∧
      marked ((w.deref f.shared).flags &&& H5F_ACC_WRITE ≠ 0) (w.deref f.shared) sh1 ∧
      ((r.1.1 = FAIL ∧ r.2.heap = heapWith w f.shared (some sh1)) ∨
       (r.1.1 ≠ FAIL ∧ r.2.heap = heapWith w f.shared (dropRef sh1))) := by
  subst hr
  have hc := H5F_flush_core B env f.intent (w.deref f.shared) w.host true
  have hm := H5F_flush_mark B env f.intent (w.deref f.shared) w.host true
  unfold H5F_close
  rcases hfl : H5F_flush B env f.intent (w.deref f.shared) w.host true with
    ⟨⟨rv, e⟩, sh1, h1⟩
  rw [hfl] at hc hm
  simp only []
  by_cases hgen : rv ≠ -2 ∧ rv < 0
  · rw [if_pos hgen]
    refine ⟨sh1, hc, hm, Or.inl ⟨rfl, ?_⟩⟩
    exact heapWith_congr _ _ _ _ (fun k hk => rfl)
  · rw [if_neg hgen]
    have hne : rv ≠ FAIL := by
      intro hrv
      apply hgen
      rw [hrv]
      decide
    have hd := H5F_dest_heap
      { ({ w with host := h1 }.store f.shared sh1) with
        host := H5F_CLOSE ({ w with host := h1 }.store f.shared sh1).host
          (({ w with host := h1 }.store f.shared sh1).deref f.shared).file_handle } f
    have hderef : ({ ({ w with host := h1 }.store f.shared sh1) with
        host := H5F_CLOSE ({ w with host := h1 }.store f.shared sh1).host
          (({ w with host := h1 }.store f.shared sh1).deref f.shared).file_handle }).deref
          f.shared = sh1 := by
      simp [World.deref, World.store]
    rw [hderef] at hd
    have hh : heapWith { ({ w with host := h1 }.store f.shared sh1) with
        host := H5F_CLOSE ({ w with host := h1 }.store f.shared sh1).host
          (({ w with host := h1 }.store f.shared sh1).deref f.shared).file_handle }
        f.shared (dropRef sh1) = heapWith w f.shared (dropRef sh1) :=
      heapWith_congr _ _ _ _ (fun k hk => by simp [World.store, hk])
    rw [hh] at hd
    by_cases hneg : rv < 0
    · rw [if_pos hneg]
      exact ⟨sh1, hc, hm, Or.inr ⟨hne, hd.1⟩⟩
    · rw [if_neg hneg]
      exact ⟨sh1, hc, hm, Or.inr ⟨hne, hd.1⟩⟩

theorem writeMarked_same (w w1 : World) (live : List H5F_t) (hinv : writeMarked w live)
    (hh : w1.heap = w.heap) : writeMarked w1 live := by
  refine ⟨fun f hf hw => ?_, fun p sh h => ?_⟩
  · have := hinv.1 f hf hw
    unfold World.writable at this ⊢
    rw [hh]
    exact this
  · rw [hh] at h
    exact hinv.2 p sh h

/-- The invariant of write access is kept when the heap changes at one address
`q`, the struct stored there keeping or getting `WRITE` as the handles need it. -/
theorem writeMarked_heapWith (w w1 : World) (live live1 : List H5F_t) (q : Nat)
    (x : Option H5F_file_t) (hinv : writeMarked w live) (hcnt1 : refsCounted w1 live1)
    (hh : w1.heap = heapWith w q x)
    (hnew : ∀ sh2, x = some sh2 →
      (sh2.last_op = OP_WRITE → sh2.flags &&& H5F_ACC_WRITE ≠ 0) ∧
      (∀ osh, w.heap q = some osh → osh.flags &&& H5F_ACC_WRITE ≠ 0 →
        sh2.flags &&& H5F_ACC_WRITE ≠ 0))
    (hlive : ∀ f ∈ live1, f ∈ live ∨
      (f.shared = q ∧ (f.intent &&& H5F_ACC_WRITE ≠ 0 →
        ∃ sh2, x = some sh2 ∧ sh2.flags &&& H5F_ACC_WRITE ≠ 0))) :
    writeMarked w1 live1 := by
  refine ⟨fun f hf hw => ?_, fun p sh h => ?_⟩
  · rw [writable_iff]
    rcases hlive f hf with hold | ⟨hq, hnewf⟩
    · have hwr := hinv.1 f hold hw
      rw [writable_iff] at hwr
      obtain ⟨osh, hosh, hoW⟩ := hwr
      by_cases hfq : f.shared = q
      · obtain ⟨sh2, hsh2, _⟩ := refsCounted_live w1 live1 f hcnt1 hf
        refine ⟨sh2, hsh2, ?_⟩
        rw [hh, hfq, heapWith_self] at hsh2
        rw [hfq] at hosh
        exact (hnew sh2 hsh2).2 osh hosh hoW
      · refine ⟨osh, ?_, hoW⟩
        rw [hh, heapWith_other _ _ _ _ hfq]
        exact hosh
    · obtain ⟨sh2, hx, hW⟩ := hnewf hw
      refine ⟨sh2, ?_, hW⟩
      rw [hh, hq, heapWith_self]
      exact hx
  · by_cases hpq : p = q
    · rw [hh, hpq, heapWith_self] at h
      exact (hnew sh h).1
    · rw [hh, heapWith_other _ _ _ _ hpq] at h
      exact hinv.2 p sh h

/-- A call that stores the struct of an existing handle `f` again, with the
same flags and with a write recorded only if one was recorded before, or the
flags include `WRITE`, or the intent of `f` does. -/
theorem writeMarked_touch (w w1 : World) (live : List H5F_t) (f : H5F_t) (sh1 : H5F_file_t)
    (hcnt : refsCounted w live) (hinv : writeMarked w live) (hcnt1 : refsCounted w1 live)
    (hf : f ∈ live) (hc : sameCore (w.deref f.shared) sh1)
    (hm : marked ((w.deref f.shared).flags &&& H5F_ACC_WRITE ≠ 0 ∨
      f.intent &&& H5F_ACC_WRITE ≠ 0) (w.deref f.shared) sh1)
    (hh : w1.heap = heapWith w f.shared (some sh1)) : writeMarked w1 live := by
  obtain ⟨osh, hosh, _, _⟩ := refsCounted_live w live f hcnt hf
  rw [heap_deref w _ _ hosh] at hc hm
  have hfl : sh1.flags = osh.flags := hc.2.1
  refine writeMarked_heapWith w w1 live live f.shared _ hinv hcnt1 hh ?_
    (fun g hg => Or.inl hg)
  intro sh2 hsh2
  simp only [Option.some.injEq] at hsh2
  subst hsh2
  refine ⟨fun hw => ?_, fun osh2 hosh2 hW => ?_⟩
  · rw [hfl]
    rcases hm hw with h2 | h2 | h2
    · exact hinv.2 _ _ hosh h2
    · exact h2
    · have hwr := hinv.1 f hf h2
      rw [writable_iff] at hwr
      obtain ⟨osh3, hosh3, hW3⟩ := hwr
      rw [hosh] at hosh3
      simp only [Option.some.injEq] at hosh3
      rw [hosh3]
      exact hW3
  · rw [hosh] at hosh2
    simp only [Option.some.injEq] at hosh2
    rw [hfl, hosh2]
    exact hW

/-- One call keeps the invariant of write access. -/
theorem step_marks (B : Build) (op : Op) (w : World) (live : List H5F_t)
    (hcnt : refsCounted w live) (hinv : writeMarked w live)
    (hex : op.handleIn live = true) :
    writeMarked (op.run B w) (op.handles B w live) := by
  have hcnt1 := step_counts B op w live hcnt hex
  cases op with
  | openFile env name flags create_parms =>
    have hcnt2 : refsCounted (H5F_open B env name flags create_parms w).2
      (match (H5F_open B env name flags create_parms w).1 with
        | .ok f => f :: live
        | .error _ => live) := hcnt1
    show writeMarked (H5F_open B env name flags create_parms w).2
      (match (H5F_open B env name flags create_parms w).1 with
        | .ok f => f :: live
        | .error _ => live)
    rcases H5F_open_marks B env name flags create_parms w _ rfl with
      ⟨⟨e, he⟩, hh⟩ | ⟨sh1, hfl, hmark, hres⟩ | ⟨q, osh, sh1, hq, hmono, hnewW, hmark, hres⟩
    · rw [he]
      exact writeMarked_same w _ live hinv hh
    · have hnone : w.heap w.next_ptr = none := hcnt.1 w.next_ptr (Nat.le_refl _)
      rcases hres with ⟨hok, hh⟩ | ⟨⟨e, he⟩, hh⟩
      · rw [hok] at hcnt2 ⊢
        refine writeMarked_heapWith w _ live _ w.next_ptr _ hinv hcnt2 hh ?_ ?_
        · intro sh2 hsh2
          simp only [Option.some.injEq] at hsh2
          subst hsh2
          exact ⟨hmark, fun osh hosh _ => by rw [hnone] at hosh; cases hosh⟩
        · intro g hg
          rcases List.mem_cons.mp hg with hg1 | hg1
          · refine Or.inr ⟨by rw [hg1], fun hw => ⟨sh1, rfl, ?_⟩⟩
            rw [hg1] at hw
            rw [hfl]
            exact hw
          · exact Or.inl hg1
      · rw [he] at hcnt2 ⊢
        refine writeMarked_heapWith w _ live live w.next_ptr _ hinv hcnt2 hh ?_
          (fun g hg => Or.inl hg)
        intro sh2 hsh2
        obtain ⟨h1, h2⟩ := dropRef_fields sh1 sh2 hsh2
        refine ⟨fun hw => ?_, fun osh hosh _ => by rw [hnone] at hosh; cases hosh⟩
        rw [h1]
        rw [h2] at hw
        exact hmark hw
    · have hmark2 : sh1.last_op = OP_WRITE → sh1.flags &&& H5F_ACC_WRITE ≠ 0 := by
        intro hw
        rcases hmark hw with h2 | h2
        · exact hmono (hinv.2 q osh hq h2)
        · exact h2
      have hmono2 : ∀ osh2, w.heap q = some osh2 → osh2.flags &&& H5F_ACC_WRITE ≠ 0 →
          sh1.flags &&& H5F_ACC_WRITE ≠ 0 := by
        intro osh2 hosh2 hW
        rw [hq] at hosh2
        simp only [Option.some.injEq] at hosh2
        rw [← hosh2] at hW
        exact hmono hW
      rcases hres with ⟨hok, hh⟩ | ⟨⟨e, he⟩, hh⟩
      · rw [hok] at hcnt2 ⊢
        refine writeMarked_heapWith w _ live _ q _ hinv hcnt2 hh ?_ ?_
        · intro sh2 hsh2
          simp only [Option.some.injEq] at hsh2
          subst hsh2
          exact ⟨hmark2, hmono2⟩
        · intro g hg
          rcases List.mem_cons.mp hg with hg1 | hg1
          · refine Or.inr ⟨by rw [hg1], fun hw => ⟨sh1, rfl, ?_⟩⟩
            rw [hg1] at hw
            exact hnewW hw
          · exact Or.inl hg1
      · rw [he] at hcnt2 ⊢
        refine writeMarked_heapWith w _ live live q _ hinv hcnt2 hh ?_
          (fun g hg => Or.inl hg)
        intro sh2 hsh2
        obtain ⟨h1, h2⟩ := dropRef_fields sh1 sh2 hsh2
        refine ⟨fun hw => ?_, fun osh2 hosh2 hW => ?_⟩
        · rw [h1]
          rw [h2] at hw
          exact hmark2 hw
        · rw [h1]
          exact hmono2 osh2 hosh2 hW
  | closeFile env f =>
    have hf : f ∈ live := by simpa [Op.handleIn, Op.handle] using hex
    obtain ⟨osh, hosh, _, _⟩ := refsCounted_live w live f hcnt hf
    obtain ⟨sh1, hc, hm, hres⟩ := H5F_close_marks B env w f _ rfl
    have hcnt2 : refsCounted (H5F_close B env w f).2
      (if (H5F_close B env w f).1.1 = FAIL then live else live.erase f) := hcnt1
    show writeMarked (H5F_close B env w f).2
      (if (H5F_close B env w f).1.1 = FAIL then live else live.erase f)
    rcases hres with ⟨hfail, hh⟩ | ⟨hnf, hh⟩
    · rw [if_pos hfail] at hcnt2 ⊢
      exact writeMarked_touch w _ live f sh1 hcnt hinv hcnt2 hf hc
        (marked_mono (fun h => Or.inl h) hm) hh
    · rw [if_neg hnf] at hcnt2 ⊢
      rw [heap_deref w _ _ hosh] at hc hm
      have hfl : sh1.flags = osh.flags := hc.2.1
      refine writeMarked_heapWith w _ live _ f.shared _ hinv hcnt2 hh ?_
        (fun g hg => Or.inl (List.mem_of_mem_erase hg))
      intro sh2 hsh2
      obtain ⟨h1, h2⟩ := dropRef_fields sh1 sh2 hsh2
      refine ⟨fun hw => ?_, fun osh2 hosh2 hW => ?_⟩
      · rw [h1, hfl]
        rw [h2] at hw
        rcases hm hw with h3 | h3
        · exact hinv.2 _ _ hosh h3
        · exact h3
      · rw [hosh] at hosh2
        simp only [Option.some.injEq] at hosh2
        rw [h1, hfl, hosh2]
        exact hW
  | flushFile env f invalidate =>
    have hf : f ∈ live := by simpa [Op.handleIn, Op.handle] using hex
    exact writeMarked_touch w _ live f _ hcnt hinv hcnt1 hf
      (H5F_flush_core B env f.intent (w.deref f.shared) w.host invalidate)
      (marked_mono (fun h => Or.inl h)
        (H5F_flush_mark B env f.intent (w.deref f.shared) w.host invalidate)) rfl
  | readBlock f addr size =>
    have hf : f ∈ live := by simpa [Op.handleIn, Op.handle] using hex
    exact writeMarked_touch w _ live f _ hcnt hinv hcnt1 hf
      (H5F_block_read_core B.H5F_OPT_SEEK (w.deref f.shared) w.host addr size)
      (marked_mono (fun h => h.elim)
        (H5F_block_read_mark B.H5F_OPT_SEEK (w.deref f.shared) w.host addr size)) rfl
  | writeBlock f addr size buf =>
    have hf : f ∈ live := by simpa [Op.handleIn, Op.handle] using hex
    exact writeMarked_touch w _ live f _ hcnt hinv hcnt1 hf
      (H5F_block_write_core B.H5F_OPT_SEEK f.intent (w.deref f.shared) w.host addr size buf)
      (marked_mono (fun h => Or.inr h)
        (H5F_block_write_mark B.H5F_OPT_SEEK f.intent (w.deref f.shared) w.host addr size
          buf)) rfl
  | registerAtom env f =>
    obtain ⟨hh, _⟩ := registerAtom_effect B env f w
    exact writeMarked_same w _ live hinv hh
  | removeAtom fid =>
    exact writeMarked_same w _ live hinv rfl

/-- C30: start in a state in which the reference counts describe the existing
handles and the invariant of write access holds (for instance the state with
no file open), and make any sequence of `H5F_open`, `H5F_close`, `H5F_flush`,
`H5F_block_read`, `H5F_block_write` and registry calls, successful or failing,
each call that takes a handle being given one that exists.  Then at the end
every shared struct with `last_op = OP_WRITE` has `WRITE` in its flags, and
every existing handle whose intent includes `WRITE` is attached to a live
shared struct whose flags include `WRITE`. -/
theorem C30_write_mark_implies_write_flag (B : Build) (ops : List Op) (w : World)
    (live : List H5F_t) (hcnt : refsCounted w live) (hinv : writeMarked w live)
    (hex : handlesExist B ops w live = true) :
    (∀ p sh, (runOps B ops w).heap p = some sh → sh.last_op = OP_WRITE →
      sh.flags &&& H5F_ACC_WRITE ≠ 0) ∧
    (∀ f ∈ runHandles B ops w live, f.intent &&& H5F_ACC_WRITE ≠ 0 →
      ∃ sh, (runOps B ops w).heap f.shared = some sh ∧ sh.flags &&& H5F_ACC_WRITE ≠ 0) := by
  have hrun : ∀ (ops : List Op) (w : World) (live : List H5F_t), refsCounted w live →
      writeMarked w live → handlesExist B ops w live = true →
      writeMarked (runOps B ops w) (runHandles B ops w live) := by
    intro ops
    induction ops with
    | nil => intro w live _ h _; exact h
    | cons op ops ih =>
      intro w live hc h hex
      simp only [handlesExist, Bool.and_eq_true] at hex
      exact ih _ _ (step_counts B op w live hc hex.1) (step_marks B op w live hc h hex.1) hex.2
  have hfin := hrun ops w live hcnt hinv hex
  exact ⟨hfin.2, fun f hf hw => (writable_iff _ _).mp (hfin.1 f hf hw)⟩

set_option maxRecDepth 1000000 in
/-- C30 at a concrete input: from the state with no file open, `a.bin` is
opened read-only and then with `WRITE` (the upgrade), and 8 bytes are written
and the boot block is flushed through the second handle.  At the end the
shared struct records a write and its flags are `WRITE`. -/
theorem C30_write_mark_implies_write_flag_witness :
    handlesExist sampleBuild (sampleOpsBefore ++ sampleOpsAfter.take 3) sampleWorld [] = true ∧
    ((∀ p sh, (runOps sampleBuild (sampleOpsBefore ++ sampleOpsAfter.take 3) sampleWorld).heap p =
        some sh → sh.last_op = OP_WRITE → sh.flags &&& H5F_ACC_WRITE ≠ 0) ∧
      (∀ f ∈ runHandles sampleBuild (sampleOpsBefore ++ sampleOpsAfter.take 3) sampleWorld [],
        f.intent &&& H5F_ACC_WRITE ≠ 0 →
        ∃ sh, (runOps sampleBuild (sampleOpsBefore ++ sampleOpsAfter.take 3) sampleWorld).heap
            f.shared = some sh ∧ sh.flags &&& H5F_ACC_WRITE ≠ 0)) ∧
    ((runOps sampleBuild (sampleOpsBefore ++ sampleOpsAfter.take 3) sampleWorld).heap 0).map
      (fun sh => (sh.last_op, sh.flags)) = some (OP_WRITE, H5F_ACC_WRITE) ∧
    runHandles sampleBuild (sampleOpsBefore ++ sampleOpsAfter.take 3) sampleWorld [] =
      [handleOn H5F_ACC_WRITE, handleOn 0] :=
  ⟨by decide,
   C30_write_mark_implies_write_flag sampleBuild (sampleOpsBefore ++ sampleOpsAfter.take 3)
    sampleWorld []
    ⟨fun _ _ => rfl, fun _ _ h => by simp [sampleWorld] at h, fun _ => rfl⟩
    ⟨(fun _ hf => by cases hf), (fun _ _ h => by simp [sampleWorld] at h)⟩ (by decide),
   by decide, by decide⟩


/-! ### `H5Fis_hdf5` -/

theorem HostFile.bytes_drop (file : HostFile) (off n m : Nat) :
    (file.bytes off n).drop m = file.bytes (off + m) (n - m) := by
  unfold HostFile.bytes
  apply List.ext_getElem
  · simp
  · intro k h1 h2
    simp only [List.getElem_drop, List.getElem_map, List.getElem_range]
    rw [Nat.add_assoc]

theorem H5F_flush_encode_length (B : Build) (sh : H5F_file_t) :
    (H5F_flush_encode B sh).length =
      24 + (sh.file_create_parms.offset_size + sh.file_create_parms.offset_size +
        sh.file_create_parms.length_size +
        (B.H5G_ent_encode sh.file_create_parms sh.root_sym).length) := by
  simp only [H5F_flush_encode, H5F_SIGNATURE, UINT16ENCODE, UINT32ENCODE, H5F_encode_offset,
    H5F_encode_length, List.length_append, leEncode_length, List.length_cons, List.length_nil]
  omega

/-- The fixed part of an encoded boot block with valid fields passes the checks
of `H5F_open` and describes the creation parameters it was encoded from. -/
theorem fixedParms_encode (B : Build) (sh : H5F_file_t) (c : Nat)
    (hv1 : sh.file_create_parms.bootblock_ver = HDF5_BOOTBLOCK_VERSION)
    (hv2 : sh.file_create_parms.smallobject_ver = HDF5_SMALLOBJECT_VERSION)
    (hv3 : sh.file_create_parms.freespace_ver = HDF5_FREESPACE_VERSION)
    (hv4 : sh.file_create_parms.objectdir_ver = HDF5_OBJECTDIR_VERSION)
    (hv5 : sh.file_create_parms.sharedheader_ver = HDF5_SHAREDHEADER_VERSION)
    (hos : sh.file_create_parms.offset_size = 2 ∨ sh.file_create_parms.offset_size = 4 ∨
      sh.file_create_parms.offset_size = 8)
    (hls : sh.file_create_parms.length_size = 2 ∨ sh.file_create_parms.length_size = 4 ∨
      sh.file_create_parms.length_size = 8)
    (hk1 : 1 ≤ sh.file_create_parms.sym_leaf_k ∧ sh.file_create_parms.sym_leaf_k ≤ 65535)
    (hk2 : 1 ≤ sh.file_create_parms.btree_k ∧ sh.file_create_parms.btree_k ≤ 65535)
    (hcf : sh.consist_flags < 2 ^ 32) :
    fixedBad ((H5F_flush_encode B sh).take 24) = false ∧
    fixedParms c ((H5F_flush_encode B sh).take 24) =
      { sh.file_create_parms with userblock_size := c } ∧
    UINT32DECODE (((H5F_flush_encode B sh).take 24).drop 20) = sh.consist_flags := by
  have henc := H5F_open_decode_fixed_encode B sh
    { H5F_file_t.calloc with
      file_create_parms := { H5F_file_t.calloc.file_create_parms with userblock_size := c } }
    hv1 hv2 hv3 hv4 hv5 hos hls hk1 hk2 hcf
  rw [H5F_open_decode_fixed_eq] at henc
  by_cases hbad : fixedBad ((H5F_flush_encode B sh).take 24) = true
  · rw [if_pos hbad] at henc
    cases henc
  · rw [if_neg hbad] at henc
    simp only [Except.ok.injEq] at henc
    have h1 := congrArg H5F_file_t.file_create_parms henc
    have h2 := congrArg H5F_file_t.consist_flags henc
    exact ⟨by simpa using hbad, h1, h2⟩

/-- `H5F_open` on an existing, accessible file that is not open, without `EXCL`
and `TRUNC`, whose first candidate with the signature (scan iteration `i0`,
offset `c`) holds the boot block that `H5F_flush` encodes from a shared struct
`sh` with valid fields: the open succeeds and the new shared struct has the
creation parameters (with `userblock_size = c`), `consist_flags`, offsets and
root entry of `sh`, and the length of the file as `logical_len`. -/
theorem H5F_open_reads_bootblock (B : Build) (env : Env) (name : String) (flags : Nat)
    (create_parms : file_create_temp_t) (w : World) (key : Nat × Nat) (i0 c : Nat)
    (file : HostFile) (sh : H5F_file_t)
    (hstat : stat w.host name = some key)
    (hexcl : flags &&& H5F_ACC_EXCL = 0)
    (htrunc : flags &&& H5F_ACC_TRUNC = 0)
    (hr : access_R_OK w.host name = true)
    (hw : flags &&& H5F_ACC_WRITE ≠ 0 → access_W_OK w.host name = true)
    (hsearch : H5Asearch_atom w key = none)
    (hopen : env.open_fails = false)
    (hfile : file = w.host.inodes key)
    (hc : c = H5F_open_candidate B i0)
    (hi0 : 8 ≤ i0 ∧ i0 < 32 * B.sizeof_haddr_t)
    (hbefore : ∀ j, 8 ≤ j → j < i0 →
      H5F_open_candidate B j + 24 ≤ file.len ∧
      file.bytes (H5F_open_candidate B j) 8 ≠ H5F_SIGNATURE)
    (hfit : c + (H5F_flush_encode B sh).length ≤ file.len)
    (hboot : file.bytes c (H5F_flush_encode B sh).length = H5F_flush_encode B sh)
    (hv1 : sh.file_create_parms.bootblock_ver = HDF5_BOOTBLOCK_VERSION)
    (hv2 : sh.file_create_parms.smallobject_ver = HDF5_SMALLOBJECT_VERSION)
    (hv3 : sh.file_create_parms.freespace_ver = HDF5_FREESPACE_VERSION)
    (hv4 : sh.file_create_parms.objectdir_ver = HDF5_OBJECTDIR_VERSION)
    (hv5 : sh.file_create_parms.sharedheader_ver = HDF5_SHAREDHEADER_VERSION)
    (hos : sh.file_create_parms.offset_size = 2 ∨ sh.file_create_parms.offset_size = 4 ∨
      sh.file_create_parms.offset_size = 8)
    (hls : sh.file_create_parms.length_size = 2 ∨ sh.file_create_parms.length_size = 4 ∨
      sh.file_create_parms.length_size = 8)
    (hk1 : 1 ≤ sh.file_create_parms.sym_leaf_k ∧ sh.file_create_parms.sym_leaf_k ≤ 65535)
    (hk2 : 1 ≤ sh.file_create_parms.btree_k ∧ sh.file_create_parms.btree_k ≤ 65535)
    (hcf : sh.consist_flags < 2 ^ 32)
    (hso : sh.smallobj_off < 256 ^ sh.file_create_parms.offset_size)
    (hfo : sh.freespace_off < 256 ^ sh.file_create_parms.offset_size)
    (hent : (B.H5G_ent_encode sh.file_create_parms sh.root_sym).length =
      B.H5G_SIZEOF_ENTRY { sh.file_create_parms with userblock_size := c })
    (hroot : B.H5G_ent_decode { sh.file_create_parms with userblock_size := c }
      (B.H5G_ent_encode sh.file_create_parms sh.root_sym) = some sh.root_sym) :
    ∃ w1, H5F_open B env name flags create_parms w =
        (.ok { name := name, intent := flags, shared := w.next_ptr }, w1) ∧
      (w1.deref w.next_ptr).file_create_parms =
        { sh.file_create_parms with userblock_size := c } ∧
      (w1.deref w.next_ptr).consist_flags = sh.consist_flags ∧
      (w1.deref w.next_ptr).smallobj_off = sh.smallobj_off ∧
      (w1.deref w.next_ptr).freespace_off = sh.freespace_off ∧
      (w1.deref w.next_ptr).root_sym = sh.root_sym ∧
      (w1.deref w.next_ptr).logical_len = file.len := by
  subst hfile
  have hL := H5F_flush_encode_length B sh
  have hF : (w.host.inodes key).bytes c 24 = (H5F_flush_encode B sh).take 24 := by
    have h1 := congrArg (List.take 24) hboot
    rw [HostFile.bytes_take _ _ _ 24 (by omega)] at h1
    exact h1
  obtain ⟨hgood, hparms, hconsist⟩ := fixedParms_encode B sh c hv1 hv2 hv3 hv4 hv5 hos hls
    hk1 hk2 hcf
  rw [← hF] at hgood hparms hconsist
  have hvs : H5F_open_variable_size B (fixedParms c ((w.host.inodes key).bytes c 24)) =
      (H5F_flush_encode B sh).length - 24 := by
    rw [hparms]
    simp only [H5F_open_variable_size]
    rw [← hent]
    omega
  have hV : (w.host.inodes key).bytes (c + 24)
      (H5F_open_variable_size B (fixedParms c ((w.host.inodes key).bytes c 24))) =
      (H5F_flush_encode B sh).drop 24 := by
    have h1 := congrArg (List.drop 24) hboot
    rw [HostFile.bytes_drop] at h1
    rw [hvs]
    exact h1
  have hdrop := H5F_flush_encode_drop B sh
  have hrootB : rootBytes { sh.file_create_parms with userblock_size := c }
      ((H5F_flush_encode B sh).drop 24) = B.H5G_ent_encode sh.file_create_parms sh.root_sym := by
    rw [hdrop]
    simp only [rootBytes, H5F_encode_offset, H5F_encode_length, drop_leEncode_append]
  have hvar : fixedBad ((w.host.inodes key).bytes c 24) = false →
      c + 24 + H5F_open_variable_size B (fixedParms c ((w.host.inodes key).bytes c 24)) ≤
        (w.host.inodes key).len ∧
      B.H5G_ent_decode (fixedParms c ((w.host.inodes key).bytes c 24))
        (rootBytes (fixedParms c ((w.host.inodes key).bytes c 24))
          ((w.host.inodes key).bytes (c + 24)
            (H5F_open_variable_size B (fixedParms c ((w.host.inodes key).bytes c 24))))) =
        some sh.root_sym := by
    intro _
    refine ⟨by rw [hvs]; omega, ?_⟩
    rw [hV, hparms, hrootB]
    exact hroot
  have hsig : (w.host.inodes key).bytes c 8 = H5F_SIGNATURE := by
    have h1 := congrArg (List.take 8) hF
    rw [HostFile.bytes_take _ _ _ 8 (by decide), List.take_take] at h1
    rw [h1]
    simp [H5F_flush_encode, H5F_SIGNATURE]
  subst hc
  have hat : H5F_open_candidate B i0 + 24 ≤ (w.host.inodes key).len := by omega
  rw [H5F_open_fresh B env name flags create_parms w key hstat hexcl htrunc hr hw hsearch hopen]
  have hscan := H5F_open_scan_found B
    { freshShared B key flags w.host.nfds with file_create_parms := create_parms }
    (freshWorld B w key flags).host
    { ino := key, pos := 0, writable := (flags &&& H5F_ACC_WRITE != 0), is_open := true }
    (hostAfterOpen_openFd w.host key _) (fun h => by cases h)
    (32 * B.sizeof_haddr_t - 8) i0 sh.root_sym hi0.1 (by omega) hbefore hat hsig hvar
  have hino : (freshWorld B w key flags).host.inodes key = w.host.inodes key := rfl
  dsimp only at hscan
  rw [hino] at hscan
  have hn : ((freshWorld B w key flags).deref w.next_ptr).nrefs = 1 := by
    rw [freshWorld_deref]; rfl
  have hderef : ({ (freshWorld B w key flags).deref w.next_ptr with
      file_create_parms := create_parms } : H5F_file_t) =
      { freshShared B key flags w.host.nfds with file_create_parms := create_parms } := by
    rw [freshWorld_deref]
  rw [if_neg (by simp [hgood])] at hscan
  have htail := (H5F_open_tail_of_scan B env name flags create_parms (freshWorld B w key flags)
    w.next_ptr (some w.host.nfds) hn _ _ _ (by rw [hderef]; exact hscan)).2
    { ino := key
      pos := H5F_open_candidate B i0 + 24 + H5F_open_variable_size B
        (fixedParms (H5F_open_candidate B i0)
          ((w.host.inodes key).bytes (H5F_open_candidate B i0) 24))
      writable := (flags &&& H5F_ACC_WRITE != 0)
      is_open := true } rfl (Host.openFd_setFd _ _ _ rfl)
  refine ⟨_, htail, ?_, ?_, ?_, ?_, ?_, ?_⟩
  · simp only [World.deref_store]
    exact hparms
  · simp only [World.deref_store]
    exact hconsist
  · simp only [World.deref_store, decodedShared]
    rw [hV, hparms, hdrop]
    simp only [H5F_decode_offset, H5F_encode_offset]
    exact leDecode_take_append _ _ _ hso
  · simp only [World.deref_store, decodedShared]
    rw [hV, hparms, hdrop]
    simp only [H5F_decode_offset, H5F_encode_offset, drop_leEncode_append]
    exact leDecode_take_append _ _ _ hfo
  · simp only [World.deref_store, decodedShared]
  · simp only [World.deref_store]
    rfl


theorem HostFile.store_bytes_before (file : HostFile) (pos n : Nat) (buf : List Nat)
    (off m : Nat) (h1 : off + m ≤ pos) (h2 : pos ≤ file.len) :
    (file.store pos n buf).bytes off m = file.bytes off m := by
  unfold HostFile.bytes HostFile.store
  apply List.map_congr_left
  intro k hk
  rw [List.mem_range] at hk
  simp only []
  rw [if_neg (by omega), if_neg (by omega)]

theorem flushedShared_encode_length (B : Build) (sh : H5F_file_t) :
    (H5F_flush_encode B (flushedShared B sh)).length = (H5F_flush_encode B sh).length := by
  rw [H5F_flush_encode_length, H5F_flush_encode_length]
  rfl

theorem closedFile_len (B : Build) (sh : H5F_file_t) (file : HostFile) :
    (closedFile B sh file).len =
      max file.len (sh.file_create_parms.userblock_size + (H5F_flush_encode B sh).length) := by
  unfold closedFile
  rw [HostFile.store_len, HostFile.store_len, flushedShared_encode_length, Nat.zero_add]
  omega

theorem closedFile_bytes (B : Build) (sh : H5F_file_t) (file : HostFile) :
    (closedFile B sh file).bytes sh.file_create_parms.userblock_size
      (H5F_flush_encode B (flushedShared B sh)).length =
      H5F_flush_encode B (flushedShared B sh) := by
  unfold closedFile
  rw [Nat.zero_add]
  exact HostFile.store_bytes _ _ _

theorem closedFile_bytes_before (B : Build) (sh : H5F_file_t) (file : HostFile) (off m : Nat)
    (h1 : off + m ≤ sh.file_create_parms.userblock_size)
    (h2 : sh.file_create_parms.userblock_size ≤ file.len) :
    (closedFile B sh file).bytes off m = file.bytes off m := by
  unfold closedFile
  rw [Nat.zero_add]
  rw [HostFile.store_bytes_before _ _ _ _ off m h1
    (by rw [HostFile.store_len]; omega)]
  exact HostFile.store_bytes_before _ _ _ _ off m h1 h2

theorem closedFile_access (B : Build) (sh : H5F_file_t) (file : HostFile) :
    (closedFile B sh file).r_ok = file.r_ok ∧ (closedFile B sh file).w_ok = file.w_ok :=
  ⟨rfl, rfl⟩

theorem H5F_CLOSE_nfds (h : Host) (fd : Nat) : (H5F_CLOSE h fd).nfds = h.nfds := by
  unfold H5F_CLOSE
  split <;> rfl

/-- `H5F_flush (f, TRUE)` followed by `H5F_close (f)` on the only handle of a
shared struct with write access, no collaborator failing: both succeed, the
file holds the boot block of the flushed struct, the descriptor is closed and
the shared struct is freed. -/
theorem flush_then_close (B : Build) (env : Env) (w : World) (f : H5F_t) (sh : H5F_file_t)
    (d : HostFd)
    (hlive : w.heap f.shared = some sh) (hn : sh.nrefs = 1)
    (hflags : sh.flags &&& H5F_ACC_WRITE ≠ 0)
    (hintent : f.intent &&& H5F_ACC_WRITE ≠ 0)
    (hcache : env.cache_flush_fails = false)
    (hshadow : env.shadow_flush_fails = false)
    (hd : w.host.openFd sh.file_handle = some d) (hw : d.writable = true)
    (hc : sh.last_op = OP_WRITE → sh.f_cur_off = d.pos) :
    (World.flush B env w f true).1 = (SUCCEED, none) ∧
    (World.flush B env w f true).2.deref f.shared = flushedShared B sh ∧
    (H5F_close B env (World.flush B env w f true).2 f).1 = (SUCCEED, none) ∧
    (H5F_close B env (World.flush B env w f true).2 f).2.heap = heapWith w f.shared none ∧
    sameTables w (H5F_close B env (World.flush B env w f true).2 f).2 ∧
    (H5F_close B env (World.flush B env w f true).2 f).2.host.paths = w.host.paths ∧
    (H5F_close B env (World.flush B env w f true).2 f).2.host.nfds = w.host.nfds ∧
    (H5F_close B env (World.flush B env w f true).2 f).2.host.inodes d.ino =
      closedFile B sh (w.host.inodes d.ino) := by
  obtain ⟨hfd, hopen⟩ := Host.openFd_some w.host _ d hd
  have hderef := heap_deref w _ sh hlive
  have hs : ¬ env.shadow_flush_fails = true := by simp [hshadow]
  have hfl := H5F_flush_ok B env f.intent sh w.host true d hflags hcache hd hw hintent hc
  rw [if_neg hs] at hfl
  have hflush : World.flush B env w f true =
      ((SUCCEED, none),
       { w with host := flushedHost B sh w.host d }.store f.shared (flushedShared B sh)) := by
    unfold World.flush
    rw [hderef, hfl]
  have hd1 := flushedHost_openFd B sh w.host d hopen
  have hfh : (flushedShared B sh).file_handle = sh.file_handle := rfl
  have hfl2 := H5F_flush_ok B env f.intent (flushedShared B sh) (flushedHost B sh w.host d) true
    { d with pos := 0 + sh.file_create_parms.userblock_size + (H5F_flush_encode B sh).length }
    hflags hcache hd1 hw hintent (fun _ => rfl)
  rw [if_neg hs] at hfl2
  have hderef1 : ({ w with host := flushedHost B sh w.host d }.store f.shared
      (flushedShared B sh)).deref f.shared = flushedShared B sh := World.deref_store _ _ _
  have hhost1 : ({ w with host := flushedHost B sh w.host d }.store f.shared
      (flushedShared B sh)).host = flushedHost B sh w.host d := rfl
  have hrv : ¬ ((H5F_flush B env f.intent
        (({ w with host := flushedHost B sh w.host d }.store f.shared
          (flushedShared B sh)).deref f.shared)
        ({ w with host := flushedHost B sh w.host d }.store f.shared
          (flushedShared B sh)).host true).1.1 ≠ -2 ∧
      (H5F_flush B env f.intent
        (({ w with host := flushedHost B sh w.host d }.store f.shared
          (flushedShared B sh)).deref f.shared)
        ({ w with host := flushedHost B sh w.host d }.store f.shared
          (flushedShared B sh)).host true).1.1 < 0) := by
    rw [hderef1, hhost1, hfl2]
    intro hh
    exact absurd hh.2 (by decide : ¬ (SUCCEED : Int) < 0)
  have hclose := H5F_close_teardown B env
    ({ w with host := flushedHost B sh w.host d }.store f.shared (flushedShared B sh)) f hrv
  rw [hderef1, hhost1, hfl2] at hclose
  rw [if_neg (by decide : ¬ (SUCCEED : Int) < 0)] at hclose
  rw [hflush]
  simp only []
  rw [hderef1, hclose]
  simp only []
  refine ⟨trivial, trivial, trivial, ?_, (H5F_dest_heap _ f).2.1, ?_, ?_, ?_⟩
  · rw [(H5F_dest_heap _ f).1]
    funext k
    by_cases hk : k = f.shared
    · simp [heapWith, hk, World.deref, World.store, dropRef, flushedShared, hn]
    · simp [heapWith, hk, World.store]
  · rw [H5F_dest_host]
    show (H5F_CLOSE _ _).paths = _
    rw [(H5F_CLOSE_files _ _).1]
    rfl
  · rw [H5F_dest_host]
    show (H5F_CLOSE _ _).nfds = _
    rw [H5F_CLOSE_nfds]
    rfl
  · rw [H5F_dest_host]
    show (H5F_CLOSE _ _).inodes d.ino = _
    rw [H5F_CLOSE_inodes]
    simp [flushedHost, Host.setFd, Host.setInode, closedFile, flushedShared]

/-- Below the user block the file after flush and close has the bytes it had
before, and zeros where it had none. -/
theorem closedFile_data_before (B : Build) (sh : H5F_file_t) (file : HostFile) (j : Nat)
    (hj : j < sh.file_create_parms.userblock_size) :
    (closedFile B sh file).data j = if file.len ≤ j then 0 else file.data j := by
  unfold closedFile HostFile.store
  simp only [Nat.zero_add]
  rw [if_neg (by omega), if_neg (by omega), if_neg (by omega)]

/-- A signature that the file holds below the user block after flush and close
was there before: the signature has no zero byte. -/
theorem closedFile_signature_before (B : Build) (sh : H5F_file_t) (file : HostFile) (c : Nat)
    (hc : c + 8 ≤ sh.file_create_parms.userblock_size)
    (h : (closedFile B sh file).bytes c 8 = H5F_SIGNATURE) :
    file.bytes c 8 = H5F_SIGNATURE := by
  have e : ∀ g : Nat → Nat,
      (List.range 8).map g = [g 0, g 1, g 2, g 3, g 4, g 5, g 6, g 7] := fun _ => rfl
  have key : ∀ k v, k < 8 → v ≠ 0 → (closedFile B sh file).data (c + k) = v →
      file.data (c + k) = v := by
    intro k v hk hv hd
    rw [closedFile_data_before B sh file (c + k) (by omega)] at hd
    by_cases hl : file.len ≤ c + k
    · rw [if_pos hl] at hd
      exact absurd hd.symm hv
    · rw [if_neg hl] at hd
      exact hd
  unfold HostFile.bytes at h ⊢
  rw [e] at h ⊢
  simp only [H5F_SIGNATURE, List.cons.injEq, and_true] at h ⊢
  obtain ⟨h0, h1, h2, h3, h4, h5, h6, h7⟩ := h
  exact ⟨key 0 _ (by decide) (by decide) h0, key 1 _ (by decide) (by decide) h1,
    key 2 _ (by decide) (by decide) h2, key 3 _ (by decide) (by decide) h3,
    key 4 _ (by decide) (by decide) h4, key 5 _ (by decide) (by decide) h5,
    key 6 _ (by decide) (by decide) h6, key 7 _ (by decide) (by decide) h7⟩

/-- A user-block size of 0 or of `2 ^ i` with `9 <= i` below the bounds of the
scan and of `uintn` is a candidate of the scan of `H5F_open`, and the earlier
candidates are 0 and the smaller powers `2 ^ j` with `9 <= j`, each at least
24 bytes below it. -/
theorem userblock_candidate (B : Build) (ub : Nat) (hsz : 0 < B.sizeof_haddr_t)
    (hub : ub = 0 ∨ ∃ i, 9 ≤ i ∧ i < 32 * B.sizeof_haddr_t ∧ i < B.uintn_bits ∧ ub = 2 ^ i) :
    ∃ i0, (8 ≤ i0 ∧ i0 < 32 * B.sizeof_haddr_t) ∧ ub = H5F_open_candidate B i0 ∧
      ∀ j, 8 ≤ j → j < i0 →
        H5F_open_candidate B j + 24 ≤ ub ∧
        (H5F_open_candidate B j = 0 ∨ ∃ k, 9 ≤ k ∧ H5F_open_candidate B j = 2 ^ k) := by
  rcases hub with h0 | ⟨i, h9, h32, hbits, hi⟩
  · refine ⟨8, ⟨Nat.le_refl 8, by omega⟩, ?_, fun j h1 h2 => by omega⟩
    rw [h0]
    rfl
  · have hcand : ∀ j, 9 ≤ j → j ≤ i → H5F_open_candidate B j = 2 ^ j := by
      intro j hj1 hj2
      unfold H5F_open_candidate
      rw [if_neg (by omega)]
      exact Nat.mod_eq_of_lt (Nat.pow_lt_pow_right (by decide) (by omega))
    refine ⟨i, ⟨by omega, h32⟩, ?_, ?_⟩
    · rw [hcand i h9 (Nat.le_refl i)]
      exact hi
    · intro j h1 h2
      have h512 : 2 ^ 9 ≤ 2 ^ i := Nat.pow_le_pow_right (by decide) h9
      norm_num at h512
      by_cases hj : j = 8
      · subst hj
        have h8 : H5F_open_candidate B 8 = 0 := rfl
        rw [h8, hi]
        exact ⟨by omega, Or.inl rfl⟩
      · rw [hcand j (by omega) (by omega), hi]
        refine ⟨?_, Or.inr ⟨j, by omega, rfl⟩⟩
        have hj9 : 2 ^ 9 ≤ 2 ^ j := Nat.pow_le_pow_right (by decide) (by omega)
        have hji : 2 ^ (j + 1) ≤ 2 ^ i := Nat.pow_le_pow_right (by decide) (by omega)
        rw [pow_succ] at hji
        norm_num at hj9
        omega

/-- C23 (amended): take the only handle `f` of a shared struct `sh` with write
access (flags and intent include `WRITE`, the descriptor is open for writing,
and if the last recorded operation is a write then `f_cur_off` is the position
of the host cursor), whose boot-block fields are valid and fit their encoded
widths.  Let its user-block size be 0 or a power `2 ^ i` with `9 <= i` that
the scan of `H5F_open` reaches and `uintn` holds, and let none of the offsets
0, 512, 1024, ... below the user-block size hold the signature in the file.
No collaborator fails, the name still leads to the file, which is readable
(and writable if `WRITE` is requested), and no other registered handle has it
open.  Then `H5F_flush (f, TRUE)` succeeds, and after `H5F_close (f)` an
`H5F_open` of the same name without `EXCL` and `TRUNC` succeeds with a new
shared struct whose `offset_size`, `length_size`, `sym_leaf_k`, `btree_k`,
`consist_flags`, `smallobj_off` and `freespace_off` are those of the shared
struct at the time of the flush, while its `logical_len` is the physical size
of the file: the larger of the size before the flush and the end of the boot
block. -/
theorem C23_reopen_after_flush (B : Build) (env : Env) (w : World) (f : H5F_t)
    (sh : H5F_file_t) (d : HostFd) (flags : Nat) (create_parms : file_create_temp_t)
    (hlive : w.heap f.shared = some sh) (hn : sh.nrefs = 1)
    (hflags : sh.flags &&& H5F_ACC_WRITE ≠ 0)
    (hintent : f.intent &&& H5F_ACC_WRITE ≠ 0)
    (hd : w.host.openFd sh.file_handle = some d) (hw : d.writable = true)
    (hc : sh.last_op = OP_WRITE → sh.f_cur_off = d.pos)
    (hcache : env.cache_flush_fails = false)
    (hshadow : env.shadow_flush_fails = false)
    (hopen : env.open_fails = false)
    (hpath : stat w.host f.name = some d.ino)
    (hother : ∀ a ∈ w.atoms, a.2.shared ≠ f.shared → H5F_compare_files w a.2 d.ino = false)
    (hexcl : flags &&& H5F_ACC_EXCL = 0)
    (htrunc : flags &&& H5F_ACC_TRUNC = 0)
    (hr : (w.host.inodes d.ino).r_ok = true)
    (hwok : flags &&& H5F_ACC_WRITE ≠ 0 → (w.host.inodes d.ino).w_ok = true)
    (hsz : 0 < B.sizeof_haddr_t)
    (hub : sh.file_create_parms.userblock_size = 0 ∨
      ∃ i, 9 ≤ i ∧ i < 32 * B.sizeof_haddr_t ∧ i < B.uintn_bits ∧
        sh.file_create_parms.userblock_size = 2 ^ i)
    (hbefore : ∀ c, (c = 0 ∨ ∃ j, 9 ≤ j ∧ c = 2 ^ j) →
      c < sh.file_create_parms.userblock_size →
      (w.host.inodes d.ino).bytes c 8 ≠ H5F_SIGNATURE)
    (hv1 : sh.file_create_parms.bootblock_ver = HDF5_BOOTBLOCK_VERSION)
    (hv2 : sh.file_create_parms.smallobject_ver = HDF5_SMALLOBJECT_VERSION)
    (hv3 : sh.file_create_parms.freespace_ver = HDF5_FREESPACE_VERSION)
    (hv4 : sh.file_create_parms.objectdir_ver = HDF5_OBJECTDIR_VERSION)
    (hv5 : sh.file_create_parms.sharedheader_ver = HDF5_SHAREDHEADER_VERSION)
    (hos : sh.file_create_parms.offset_size = 2 ∨ sh.file_create_parms.offset_size = 4 ∨
      sh.file_create_parms.offset_size = 8)
    (hls : sh.file_create_parms.length_size = 2 ∨ sh.file_create_parms.length_size = 4 ∨
      sh.file_create_parms.length_size = 8)
    (hk1 : 1 ≤ sh.file_create_parms.sym_leaf_k ∧ sh.file_create_parms.sym_leaf_k ≤ 65535)
    (hk2 : 1 ≤ sh.file_create_parms.btree_k ∧ sh.file_create_parms.btree_k ≤ 65535)
    (hcf : sh.consist_flags < 2 ^ 32)
    (hso : sh.smallobj_off < 256 ^ sh.file_create_parms.offset_size)
    (hfo : sh.freespace_off < 256 ^ sh.file_create_parms.offset_size)
    (hent : (B.H5G_ent_encode sh.file_create_parms sh.root_sym).length =
      B.H5G_SIZEOF_ENTRY sh.file_create_parms)
    (hroot : B.H5G_ent_decode sh.file_create_parms
      (B.H5G_ent_encode sh.file_create_parms sh.root_sym) = some sh.root_sym) :
    (World.flush B env w f true).1 = (SUCCEED, none) ∧
    ∃ w3, flushCloseReopen B env w f flags create_parms =
        (.ok { name := f.name, intent := flags, shared := w.next_ptr }, w3) ∧
      (w3.deref w.next_ptr).file_create_parms.offset_size =
        ((World.flush B env w f true).2.deref f.shared).file_create_parms.offset_size ∧
      (w3.deref w.next_ptr).file_create_parms.length_size =
        ((World.flush B env w f true).2.deref f.shared).file_create_parms.length_size ∧
      (w3.deref w.next_ptr).file_create_parms.sym_leaf_k =
        ((World.flush B env w f true).2.deref f.shared).file_create_parms.sym_leaf_k ∧
      (w3.deref w.next_ptr).file_create_parms.btree_k =
        ((World.flush B env w f true).2.deref f.shared).file_create_parms.btree_k ∧
      (w3.deref w.next_ptr).consist_flags =
        ((World.flush B env w f true).2.deref f.shared).consist_flags ∧
      (w3.deref w.next_ptr).smallobj_off =
        ((World.flush B env w f true).2.deref f.shared).smallobj_off ∧
      (w3.deref w.next_ptr).freespace_off =
        ((World.flush B env w f true).2.deref f.shared).freespace_off ∧
      (w3.deref w.next_ptr).logical_len =
        ((H5F_close B env (World.flush B env w f true).2 f).2.host.inodes d.ino).len ∧
      (w3.deref w.next_ptr).logical_len =
        max (w.host.inodes d.ino).len
          (sh.file_create_parms.userblock_size + (H5F_flush_encode B sh).length) := by
  obtain ⟨hf1, hf2, _, hheap, htab, hpaths, _, hino⟩ := flush_then_close B env w f sh d hlive hn
    hflags hintent hcache hshadow hd hw hc
  refine ⟨hf1, ?_⟩
  rw [hf2]
  unfold flushCloseReopen
  generalize (H5F_close B env (World.flush B env w f true).2 f).2 = w2 at *
  have hstat2 : stat w2.host f.name = some d.ino := by
    unfold stat at hpath ⊢
    rw [hpaths]
    exact hpath
  have hr2 : access_R_OK w2.host f.name = true := by
    unfold stat at hstat2
    simp only [access_R_OK, hstat2, hino]
    exact hr
  have hw2 : flags &&& H5F_ACC_WRITE ≠ 0 → access_W_OK w2.host f.name = true := by
    intro hfw
    unfold stat at hstat2
    simp only [access_W_OK, hstat2, hino]
    exact hwok hfw
  have hsearch : H5Asearch_atom w2 d.ino = none := by
    unfold H5Asearch_atom
    rw [Option.map_eq_none', List.find?_eq_none, htab.2.1]
    intro a ha
    by_cases hap : a.2.shared = f.shared
    · simp [H5F_compare_files, hheap, hap, heapWith]
    · have h1 := hother a ha hap
      unfold H5F_compare_files at h1 ⊢
      rw [hheap, heapWith_other _ _ _ _ hap]
      simp [h1]
  have hlenE := flushedShared_encode_length B sh
  have hclen := closedFile_len B sh (w.host.inodes d.ino)
  obtain ⟨i0, hi0, hcand, hlow⟩ := userblock_candidate B sh.file_create_parms.userblock_size
    hsz hub
  have hbefore2 : ∀ j, 8 ≤ j → j < i0 →
      H5F_open_candidate B j + 24 ≤ (closedFile B sh (w.host.inodes d.ino)).len ∧
      (closedFile B sh (w.host.inodes d.ino)).bytes (H5F_open_candidate B j) 8 ≠
        H5F_SIGNATURE := by
    intro j hj1 hj2
    obtain ⟨h1, h2⟩ := hlow j hj1 hj2
    refine ⟨by rw [hclen]; omega, fun hsig => ?_⟩
    exact hbefore _ h2 (by omega)
      (closedFile_signature_before B sh _ _ (by omega) hsig)
  obtain ⟨w3, hres, hp1, hp2, hp3, hp4, _, hp6⟩ := H5F_open_reads_bootblock B env f.name flags
    create_parms w2 d.ino i0 sh.file_create_parms.userblock_size
    (closedFile B sh (w.host.inodes d.ino)) (flushedShared B sh)
    hstat2 hexcl htrunc hr2 hw2 hsearch hopen hino.symm hcand hi0 hbefore2
    (by rw [hclen, hlenE]; omega)
    (closedFile_bytes B sh (w.host.inodes d.ino))
    hv1 hv2 hv3 hv4 hv5 hos hls hk1 hk2 hcf hso hfo hent hroot
  rw [htab.1] at hres hp1 hp2 hp3 hp4 hp6
  refine ⟨w3, hres, ?_, ?_, ?_, ?_, hp2, hp3, hp4, ?_, ?_⟩
  · rw [hp1]
  · rw [hp1]
  · rw [hp1]
  · rw [hp1]
  · rw [hp6, hino]
  · rw [hp6, hclen]

set_option maxRecDepth 1000000 in
/-- C23 (amended) at a concrete input: `c.bin` was created with a user block of
1024 bytes, so that the reopen passes the candidates 0 and 512 before it finds
the boot block; after flush, close and a read-only reopen the new shared
struct has the flushed fields and the file size 1076 as `logical_len`. -/
theorem C23_reopen_after_flush_witness :
    (createdWith 1024 4).1 = .ok handleOfCreated ∧
    (createdWith 1024 4).2.heap handleOfCreated.shared = some ((createdWith 1024 4).2.deref 0) ∧
    ((createdWith 1024 4).2.deref 0).file_create_parms.userblock_size = 2 ^ 10 ∧
    (World.flush sampleBuild Env.ok (createdWith 1024 4).2 handleOfCreated true).1 =
      (SUCCEED, none) ∧
    ∃ w3, flushCloseReopen sampleBuild Env.ok (createdWith 1024 4).2 handleOfCreated 0
        sampleBuild.default_parms = (.ok { name := "c.bin", intent := 0, shared := 1 }, w3) ∧
      (w3.deref 1).file_create_parms.offset_size = 4 ∧
      (w3.deref 1).file_create_parms.length_size = 4 ∧
      (w3.deref 1).file_create_parms.sym_leaf_k = 4 ∧
      (w3.deref 1).file_create_parms.btree_k = 16 ∧
      (w3.deref 1).consist_flags = 3 ∧
      (w3.deref 1).smallobj_off = 0 ∧
      (w3.deref 1).freespace_off = 0 ∧
      (w3.deref 1).logical_len = 1076 := by
  obtain ⟨h1, w3, h2, h3, h4, h5, h6, h7, h8, h9, _, h11⟩ :=
    C23_reopen_after_flush sampleBuild Env.ok (createdWith 1024 4).2 handleOfCreated
      ((createdWith 1024 4).2.deref 0)
      { ino := (0, 2), pos := 1076, writable := true, is_open := true }
      0 sampleBuild.default_parms
      (by decide) (by decide) (by decide) (by decide) (by decide) (by decide) (by decide)
      (by decide) (by decide) (by decide) (by decide) (by decide) (by decide) (by decide)
      (by decide) (by decide) (by decide)
      (Or.inr ⟨10, by decide, by decide, by decide, by decide⟩)
      (fun c hc hlt => by
        have hub : ((createdWith 1024 4).2.deref 0).file_create_parms.userblock_size = 1024 := by
          decide
        rw [hub] at hlt
        rcases hc with rfl | ⟨j, hj, rfl⟩
        · decide
        · by_cases hj9 : j = 9
          · subst hj9
            decide
          · have h10 : 2 ^ 10 ≤ 2 ^ j := Nat.pow_le_pow_right (by decide) (by omega)
            omega)
      (by decide) (by decide) (by decide) (by decide) (by decide) (by decide) (by decide)
      (by decide) (by decide) (by decide) (by decide) (by decide) (by decide) (by decide)
  exact ⟨by decide, by decide, by decide, h1, w3, h2, h3.trans (by decide), h4.trans (by decide),
    h5.trans (by decide), h6.trans (by decide), h7.trans (by decide), h8.trans (by decide),
    h9.trans (by decide), h11.trans (by decide)⟩

set_option maxRecDepth 1000000 in
/-- C23 (as stated), refuted: `a.bin` (60 bytes) is open for writing and 8
bytes were written at address 100; the flush succeeds with `logical_len = 60`
in the shared struct, and after the close the reopened shared struct has
`logical_len = 108`, the size of the file.  Three more runs show what the
amended statement has to ask for.  A file created with a user block of 768
bytes, which is no candidate of the scan, is flushed and closed and then
refused by the reopen with `File/NotContainer`.  A file created with a user
block of 512 bytes and `sym_leaf_k = 5`, in whose user block another program
stored a boot block with `sym_leaf_k = 4`, is reopened with `sym_leaf_k = 4`.
And from a shared struct that records a write ending at offset 0 while the
host cursor is at 52, the flush elides its seek and the boot block lands at
52 first: the reopened `logical_len` is 104, beyond the size before the flush
(60) and the end of the boot block (52). -/
theorem C23_counterexample :
    ((World.flush sampleBuild Env.ok grownWorld (handleOn H5F_ACC_WRITE) true).1 =
        (SUCCEED, none) ∧
      ((World.flush sampleBuild Env.ok grownWorld (handleOn H5F_ACC_WRITE) true).2.deref
        0).logical_len = 60 ∧
      (H5F_close sampleBuild Env.ok
        (World.flush sampleBuild Env.ok grownWorld (handleOn H5F_ACC_WRITE) true).2
        (handleOn H5F_ACC_WRITE)).1 = (SUCCEED, none) ∧
      (flushCloseReopen sampleBuild Env.ok grownWorld (handleOn H5F_ACC_WRITE) 0
        sampleBuild.default_parms).1 = .ok { name := "a.bin", intent := 0, shared := 1 } ∧
      ((flushCloseReopen sampleBuild Env.ok grownWorld (handleOn H5F_ACC_WRITE) 0
        sampleBuild.default_parms).2.deref 1).logical_len = 108) ∧
    ((createdWith 768 4).1 = .ok handleOfCreated ∧
      (World.flush sampleBuild Env.ok (createdWith 768 4).2 handleOfCreated true).1 =
        (SUCCEED, none) ∧
      (H5F_close sampleBuild Env.ok
        (World.flush sampleBuild Env.ok (createdWith 768 4).2 handleOfCreated true).2
        handleOfCreated).1 = (SUCCEED, none) ∧
      (flushCloseReopen sampleBuild Env.ok (createdWith 768 4).2 handleOfCreated 0
        sampleBuild.default_parms).1 = .error .FILE_NOTHDF5) ∧
    ((World.flush sampleBuild Env.ok userDataWorld handleOfCreated true).1 = (SUCCEED, none) ∧
      ((World.flush sampleBuild Env.ok userDataWorld handleOfCreated true).2.deref
        0).file_create_parms.sym_leaf_k = 5 ∧
      (flushCloseReopen sampleBuild Env.ok userDataWorld handleOfCreated 0
        sampleBuild.default_parms).1 = .ok { name := "c.bin", intent := 0, shared := 1 } ∧
      ((flushCloseReopen sampleBuild Env.ok userDataWorld handleOfCreated 0
        sampleBuild.default_parms).2.deref 1).file_create_parms.sym_leaf_k = 4) ∧
    ((staleWorld.deref 0).last_op = OP_WRITE ∧ (staleWorld.deref 0).f_cur_off = 0 ∧
      H5F_TELL staleWorld.host (staleWorld.deref 0).file_handle = 52 ∧
      (staleWorld.host.inodes (0, 1)).len = 60 ∧
      (World.flush sampleBuild Env.ok staleWorld (handleOn H5F_ACC_WRITE) true).1 =
        (SUCCEED, none) ∧
      (flushCloseReopen sampleBuild Env.ok staleWorld (handleOn H5F_ACC_WRITE) 0
        sampleBuild.default_parms).1 = .ok { name := "a.bin", intent := 0, shared := 1 } ∧
      ((flushCloseReopen sampleBuild Env.ok staleWorld (handleOn H5F_ACC_WRITE) 0
        sampleBuild.default_parms).2.deref 1).logical_len = 104) := by
  decide

end H5F
